import Mathlib

/-!
# CachingViaBVH, ScreenSpaceCaustics and PathDebug: partitioning, rebuilds and read-backs

A shallow embedding of `Source/Falcor/Utils/AccelerationStructures/CachingViaBVH.{h,cpp}`
(geometry partitioning, the rebuild / refit schedule, the GUI and the program defines),
of the parts of `Source/RenderPasses/ScreenSpaceCaustics/ScreenSpaceCaustics.{h,cpp}`
that allocate the per-frame caching data, record the commands of a frame (`compile`,
`recreateCachingData`, `execute`) and select the emissive material
(`computerEmissionMaterialIndex`), and of `Source/Falcor/Utils/Debug/PathDebug.{h,cpp}`
(frames, the read fence and the read-back of the path descriptions).

* `uint32_t` / `uint` values are natural numbers reduced with `u32` wherever the C++
  arithmetic is carried out in 32 bits.
* GPU virtual addresses are 64-bit; the sum of a buffer address and a 32-bit byte
  offset is taken in `Nat`.
* Undefined behaviour (null dereference, division by zero, indexing a `std::vector`
  out of bounds, `back()` on an empty vector) ends the call: the embedded function
  returns `none`. So does a failed `assert`: the macro is not part of these files, and
  the specification has the component "assert and abort the frame". In the embedding
  of `PathDebug` the call ends with a `Fault` that tells the three apart.
* The device (`gpDevice`, the driver's prebuild estimate, buffer addresses) is a
  parameter `Device`; the command list of the `RenderContext` and the number of buffers
  created so far form the mutable `Gpu` state.
* The GUI (`Gui::Widgets`) is a parameter `Widgets`: what each widget leaves in its
  variable and what it returns.
-/

namespace Falcor

/-! ## Machine integers and Direct3D 12 constants -/

/-- Reduction of a natural number to the range of `uint32_t`. -/
def u32 (n : Nat) : Nat := n % 4294967296

/-- The value of `sizeof(D3D12_RAYTRACING_AABB)`: six 32-bit floats. -/
def sizeofAABB : Nat := 24

/-- The value of `sizeof(D3D12_RAYTRACING_INSTANCE_DESC)`. -/
def sizeofInstanceDesc : Nat := 64

def D3D12_RAYTRACING_GEOMETRY_TYPE_PROCEDURAL_PRIMITIVE_AABBS : Nat := 1
def D3D12_RAYTRACING_GEOMETRY_FLAG_NO_DUPLICATE_ANYHIT_INVOCATION : Nat := 2
def D3D12_RAYTRACING_ACCELERATION_STRUCTURE_TYPE_TOP_LEVEL : Nat := 0
def D3D12_RAYTRACING_ACCELERATION_STRUCTURE_TYPE_BOTTOM_LEVEL : Nat := 1
def D3D12_ELEMENTS_LAYOUT_ARRAY : Nat := 0
def D3D12_RAYTRACING_ACCELERATION_STRUCTURE_BUILD_FLAG_ALLOW_UPDATE : Nat := 1
def D3D12_RAYTRACING_ACCELERATION_STRUCTURE_BUILD_FLAG_PREFER_FAST_TRACE : Nat := 4
def D3D12_RAYTRACING_ACCELERATION_STRUCTURE_BUILD_FLAG_PERFORM_UPDATE : Nat := 32
def D3D12_RAYTRACING_ACCELERATION_STRUCTURE_BYTE_ALIGNMENT : Nat := 256
def D3D12_RAYTRACING_INSTANCE_FLAG_NONE : Nat := 0

/-- Modelled from the spec: the helper `align_to` is not under src/; byte sizes are
"rounded up to the hierarchy's required alignment". -/
def align_to (alignment value : Nat) : Nat :=
  ((value + alignment - 1) / alignment) * alignment

/-! ## Data model -/

/-- The struct `CachingViaBVH::Options` with the defaults of the header. -/
structure Options where
  consecutiveRefitCount : Nat := 3
  allowRefit : Bool := true
  rebuildOnSchedule : Bool := false
  useTiling : Bool := true
deriving DecidableEq, Repr

/-- A GPU buffer (`Buffer::SharedPtr` target): `id` is the identity of the allocation. -/
structure Buffer where
  id : Nat
  size : Nat
  elementCount : Nat
  gpuAddress : Nat
deriving DecidableEq, Repr

/-- The struct `D3D12_RAYTRACING_GEOMETRY_DESC` in its AABB form. -/
structure GeometryDesc where
  Type_ : Nat := 0
  Flags : Nat := 0
  AABBCount : Nat := 0
  StartAddress : Nat := 0
  StrideInBytes : Nat := 0
deriving DecidableEq, Repr, Inhabited

/-- The struct `D3D12_RAYTRACING_ACCELERATION_STRUCTURE_PREBUILD_INFO`. -/
structure PrebuildInfo where
  ResultDataMaxSizeInBytes : Nat := 0
  ScratchDataSizeInBytes : Nat := 0
  UpdateScratchDataSizeInBytes : Nat := 0
deriving DecidableEq, Repr

/-- The struct `D3D12_BUILD_RAYTRACING_ACCELERATION_STRUCTURE_INPUTS`; `pGeometryDescs`
holds the contents of the array the pointer designates. -/
structure BuildInputs where
  Type_ : Nat := 0
  Flags : Nat := 0
  NumDescs : Nat := 0
  DescsLayout : Nat := 0
  InstanceDescs : Nat := 0
  pGeometryDescs : List GeometryDesc := []
deriving DecidableEq, Repr

/-- The struct `D3D12_RAYTRACING_INSTANCE_DESC` (the transform is the identity set by the
constructor and never changed; it is not represented). -/
structure InstanceDesc where
  InstanceID : Nat := 0
  InstanceMask : Nat := 0
  InstanceContributionToHitGroupIndex : Nat := 0
  Flags : Nat := 0
  AccelerationStructure : Nat := 0
deriving DecidableEq, Repr

/-- The struct `D3D12_BUILD_RAYTRACING_ACCELERATION_STRUCTURE_DESC`. -/
structure BuildDesc where
  DestAccelerationStructureData : Nat := 0
  Inputs : BuildInputs := {}
  SourceAccelerationStructureData : Nat := 0
  ScratchAccelerationStructureData : Nat := 0
deriving DecidableEq, Repr

/-- The shader programs that `ScreenSpaceCaustics::execute` runs, named after the members
that hold them (`mpRestricter`, `mPathTracing`, `mGenerateAABBs`, `mCollectionPointReuse`,
`mTracer`, `mApplyBSDF`, `mCopy`, `mDownloadDebug`, `mDebugVisualiser`). -/
inductive Pass where
  | restricter
  | pathTracing
  | generateAABBs
  | collectionPointReuse
  | lightTracing
  | applyBSDF
  | copy
  | downloadDebug
  | debugVisualiser
deriving DecidableEq, Repr

/-- The output textures that `execute` clears (`kPathDebugOutput`, `kInternalDebugOutput`). -/
inductive Texture where
  | pathDebugOutput
  | internalDebugOutput
deriving DecidableEq, Repr

/-- The value argument of `clearUAV`: `float4(0.0f)` or a `uint4` with all components
equal. -/
inductive ClearValue where
  | float4Zero
  | uint4 (v : Nat)
deriving DecidableEq, Repr

/-- Commands recorded on the render context by `CachingViaBVH` and by the render pass
`ScreenSpaceCaustics`. `buildAS` carries, next to the build description, the contents of
the instance-descriptor buffer at that moment (only read by top-level builds). `raytrace`
and `dispatch` name the program; their dimensions and bindings are not represented.
`gpuSignal` is the signal of `mpDebugDataReadFence` on the command queue. -/
inductive Command where
  | resourceBarrier (buffer : Buffer)
  | uavBarrier (buffer : Buffer)
  | buildAS (desc : BuildDesc) (instances : Option InstanceDesc)
  | clearUAV (buffer : Buffer) (value : ClearValue)
  | clearTexture (texture : Texture)
  | copyResource (dst src : Buffer)
  | copyBufferRegion (dst : Buffer) (dstOffset : Nat) (src : Buffer) (srcOffset numBytes : Nat)
  | raytrace (pass : Pass)
  | dispatch (pass : Pass)
  | flush
  | gpuSignal
deriving DecidableEq, Repr

/-- The driver: the prebuild estimate and the address given to the n-th buffer. -/
structure Device where
  GetRaytracingAccelerationStructurePrebuildInfo : BuildInputs → PrebuildInfo
  gpuAddress : Nat → Nat

/-- Mutable environment: number of buffers created so far and the command list. -/
structure Gpu where
  bufferCount : Nat := 0
  commands : List Command := []
deriving DecidableEq, Repr

/-- The struct `CachingViaBVH::TlasData`; `instanceDescsBlob` is the contents of the
buffer `pInstanceDescs`, `pSrv` records whether the view was created. -/
structure TlasData where
  prebuildInfo : PrebuildInfo := {}
  buildInputs : BuildInputs := {}
  instanceDesc : InstanceDesc := {}
  pTlas : Option Buffer := none
  pSrv : Option Buffer := none
  pInstanceDescs : Option Buffer := none
  instanceDescsBlob : Option InstanceDesc := none
deriving DecidableEq, Repr

/-- The struct `CachingViaBVH::BlasData`. -/
structure BlasData where
  prebuildInfo : PrebuildInfo := {}
  buildInputs : BuildInputs := {}
  geomDescs : List GeometryDesc := []
  pBlas : Option Buffer := none
  resultByteSize : Nat := 0
  scratchByteSize : Nat := 0
  blasByteSize : Nat := 0
deriving DecidableEq, Repr

/-- The member `mBigTileSize`; initialised in the header and never assigned. -/
def mBigTileSize : Nat × Nat := (64, 32)

/-- The member `mFillTileSize`; initialised in the header and never assigned. -/
def mFillTileSize : Nat × Nat := (64, 24)

/-- The mutable members of the class `CachingViaBVH` (`mPrefix`, used only for debug
names of buffers, is left out). -/
structure CachingViaBVH where
  mpAABBBuffer : Option Buffer := none
  mAabbCount : Nat × Nat := (0, 0)
  mAabbPerGeometry : Nat := 1024
  mUpdateCounter : Nat := 0
  mRequireRebuild : Bool := false
  mCanUseTiling : Bool := false
  mTlasData : TlasData := {}
  mpTlasScratch : Option Buffer := none
  mBlasData : BlasData := {}
  mpBlasScratch : Option Buffer := none
  mOptions : Options := {}
deriving DecidableEq, Repr

/-! ## Buffers -/

/-- The call `Buffer::create(size, ...)`: a new allocation. -/
def Buffer.create (dev : Device) (g : Gpu) (size : Nat) : Gpu × Buffer :=
  ({ g with bufferCount := g.bufferCount + 1 },
   { id := g.bufferCount, size := size, elementCount := 0, gpuAddress := dev.gpuAddress g.bufferCount })

/-- The call `Buffer::createStructured(structSize, elementCount)`. -/
def Buffer.createStructured (dev : Device) (g : Gpu) (structSize elementCount : Nat) : Gpu × Buffer :=
  ({ g with bufferCount := g.bufferCount + 1 },
   { id := g.bufferCount, size := structSize * elementCount, elementCount := elementCount,
     gpuAddress := dev.gpuAddress g.bufferCount })

/-- Append a command to the command list of the render context. -/
def Gpu.record (g : Gpu) (c : Command) : Gpu :=
  { g with commands := g.commands ++ [c] }

/-! ## setupBlas -/

/-- The call `std::vector::resize(n)`: keeps the first `n` elements and pads with
value-initialised descriptors. -/
def resize (v : List GeometryDesc) (n : Nat) : List GeometryDesc :=
  v.take n ++ List.replicate (n - v.length) default

/-- The assignment `v[i] = d`; indexing past the end is undefined behaviour. -/
def writeAt (v : List GeometryDesc) (i : Nat) (d : GeometryDesc) : Option (List GeometryDesc) :=
  if i < v.length then some (v.set i d) else none

/-- Tiled branch of `setupBlas` (CachingViaBVH.cpp lines 278-309). `base` is
`mpAABBBuffer->getGpuAddress()`, `none` when the pointer is null. -/
def setupBlasTiled (s : CachingViaBVH) (base : Option Nat) : Option (List GeometryDesc) :=
  let bigTileXCount := s.mAabbCount.1 / mBigTileSize.1
  let bigTileYCount := s.mAabbCount.2 / mBigTileSize.2
  let bigTileCount := u32 (bigTileXCount * bigTileYCount)
  let fillTileCount := bigTileXCount
  let tileCount := u32 (bigTileCount + fillTileCount)
  let v0 := resize s.mBlasData.geomDescs tileCount
  let bigTileElementCount := u32 (mBigTileSize.1 * mBigTileSize.2)
  let bigTileByteSize := u32 (bigTileElementCount * sizeofAABB)
  let fillTileElementCount := u32 (mFillTileSize.1 * mFillTileSize.2)
  let fillTileByteSize := u32 (fillTileElementCount * sizeofAABB)
  let fillTileStartOffset := u32 (bigTileCount * bigTileByteSize)
  (List.range bigTileCount).foldlM
    (fun v bigTileGeometryIndex => base.bind fun addr =>
      writeAt v bigTileGeometryIndex
        { Type_ := D3D12_RAYTRACING_GEOMETRY_TYPE_PROCEDURAL_PRIMITIVE_AABBS
          Flags := D3D12_RAYTRACING_GEOMETRY_FLAG_NO_DUPLICATE_ANYHIT_INVOCATION
          AABBCount := bigTileElementCount
          StartAddress := addr + u32 (bigTileGeometryIndex * bigTileByteSize)
          StrideInBytes := sizeofAABB }) v0
  |>.bind fun v1 =>
  (List.range fillTileCount).foldlM
    (fun v fillTileGeometryIndex => base.bind fun addr =>
      writeAt v (u32 (bigTileCount + fillTileGeometryIndex))
        { Type_ := D3D12_RAYTRACING_GEOMETRY_TYPE_PROCEDURAL_PRIMITIVE_AABBS
          Flags := D3D12_RAYTRACING_GEOMETRY_FLAG_NO_DUPLICATE_ANYHIT_INVOCATION
          AABBCount := fillTileElementCount
          StartAddress := addr + fillTileStartOffset + u32 (fillTileGeometryIndex * fillTileByteSize)
          StrideInBytes := sizeofAABB }) v1

/-- Linear branch of `setupBlas` (CachingViaBVH.cpp lines 313-330). -/
def setupBlasLinear (s : CachingViaBVH) (base : Option Nat) : Option (List GeometryDesc) :=
  let aabbCount := u32 (s.mAabbCount.1 * s.mAabbCount.2)
  if s.mAabbPerGeometry = 0 then none else
  let geometryDescriptionCount := u32 (aabbCount + (s.mAabbPerGeometry - 1)) / s.mAabbPerGeometry
  let geometryStrideInBytes := u32 (s.mAabbPerGeometry * sizeofAABB)
  let v0 := resize s.mBlasData.geomDescs geometryDescriptionCount
  (List.range v0.length).foldlM
    (fun v geometryIndex => base.bind fun addr =>
      writeAt v geometryIndex
        { Type_ := D3D12_RAYTRACING_GEOMETRY_TYPE_PROCEDURAL_PRIMITIVE_AABBS
          Flags := D3D12_RAYTRACING_GEOMETRY_FLAG_NO_DUPLICATE_ANYHIT_INVOCATION
          AABBCount := s.mAabbPerGeometry
          StartAddress := addr + u32 (geometryIndex * geometryStrideInBytes)
          StrideInBytes := sizeofAABB }) v0
  |>.bind fun v1 =>
  let fullGeometryDescriptionCount := aabbCount / s.mAabbPerGeometry
  let aabbRemainder := u32 (aabbCount + 4294967296 - u32 (fullGeometryDescriptionCount * s.mAabbPerGeometry))
  let lastGeometryAabbCount := if aabbRemainder ≠ 0 then aabbRemainder else s.mAabbPerGeometry
  match v1.getLast? with
  | none => none
  | some last => some (v1.dropLast ++ [{ last with AABBCount := lastGeometryAabbCount }])

/-- The geometry descriptions written by `setupBlas` (CachingViaBVH.cpp lines 275-331). -/
def setupBlasGeometry (s : CachingViaBVH) : Option (List GeometryDesc) :=
  let base := s.mpAABBBuffer.map Buffer.gpuAddress
  if s.mOptions.useTiling && s.mCanUseTiling then setupBlasTiled s base
  else setupBlasLinear s base

/-- The method `CachingViaBVH::setupBlas`. -/
def setupBlas (dev : Device) (s : CachingViaBVH) : Option CachingViaBVH :=
  (setupBlasGeometry s).bind fun geomDescs =>
  let blasInputs : BuildInputs :=
    { s.mBlasData.buildInputs with
      Type_ := D3D12_RAYTRACING_ACCELERATION_STRUCTURE_TYPE_BOTTOM_LEVEL
      DescsLayout := D3D12_ELEMENTS_LAYOUT_ARRAY
      NumDescs := u32 geomDescs.length
      pGeometryDescs := geomDescs
      Flags :=
        if s.mOptions.allowRefit then
          D3D12_RAYTRACING_ACCELERATION_STRUCTURE_BUILD_FLAG_PREFER_FAST_TRACE |||
            D3D12_RAYTRACING_ACCELERATION_STRUCTURE_BUILD_FLAG_ALLOW_UPDATE
        else D3D12_RAYTRACING_ACCELERATION_STRUCTURE_BUILD_FLAG_PREFER_FAST_TRACE }
  let prebuildInfo := dev.GetRaytracingAccelerationStructurePrebuildInfo blasInputs
  if 0 < prebuildInfo.ResultDataMaxSizeInBytes then
    some { s with
      mBlasData :=
        { s.mBlasData with
          geomDescs := geomDescs
          buildInputs := blasInputs
          prebuildInfo := prebuildInfo
          resultByteSize :=
            align_to D3D12_RAYTRACING_ACCELERATION_STRUCTURE_BYTE_ALIGNMENT prebuildInfo.ResultDataMaxSizeInBytes
          scratchByteSize :=
            align_to D3D12_RAYTRACING_ACCELERATION_STRUCTURE_BYTE_ALIGNMENT prebuildInfo.ScratchDataSizeInBytes } }
  else none

/-! ## allocate -/

/-- The method `CachingViaBVH::allocate`. The components of `aabbCount` are `uint32_t`. -/
def allocate (dev : Device) (g : Gpu) (s : CachingViaBVH) (aabbCount : Nat × Nat) :
    Option (Gpu × CachingViaBVH) :=
  let s := { s with mAabbCount := (u32 aabbCount.1, u32 aabbCount.2) }
  let s := { s with mCanUseTiling := decide (s.mAabbCount.2 > 1) }
  let totalAabbCount := u32 (s.mAabbCount.1 * s.mAabbCount.2)
  let reallocate : Bool :=
    match s.mpAABBBuffer with
    | none => true
    | some b => decide (b.elementCount < totalAabbCount)
  let gs : Gpu × CachingViaBVH :=
    if reallocate then
      let r := Buffer.createStructured dev g sizeofAABB totalAabbCount
      (r.1, { s with mpAABBBuffer := some r.2 })
    else (g, s)
  (setupBlas dev gs.2).map fun s' => (gs.1, s')

/-! ## Construction -/

/-- The constructor `CachingViaBVH::CachingViaBVH(options)` reached through
`CachingViaBVH::create`. Members that the C++ constructor leaves uninitialised are zero. -/
def CachingViaBVH.create (dev : Device) (g : Gpu) (options : Options) : Gpu × CachingViaBVH :=
  let instanceDesc : InstanceDesc :=
    { InstanceMask := 255, InstanceID := 0, Flags := D3D12_RAYTRACING_INSTANCE_FLAG_NONE }
  let tlasInputs : BuildInputs :=
    { Type_ := D3D12_RAYTRACING_ACCELERATION_STRUCTURE_TYPE_TOP_LEVEL
      DescsLayout := D3D12_ELEMENTS_LAYOUT_ARRAY
      NumDescs := 1
      Flags := D3D12_RAYTRACING_ACCELERATION_STRUCTURE_BUILD_FLAG_PREFER_FAST_TRACE }
  let prebuildInfo := dev.GetRaytracingAccelerationStructurePrebuildInfo tlasInputs
  let r := Buffer.create dev g prebuildInfo.ScratchDataSizeInBytes
  (r.1,
   { mOptions := options
     mTlasData := { instanceDesc := instanceDesc, buildInputs := tlasInputs, prebuildInfo := prebuildInfo }
     mpTlasScratch := some r.2 })

/-! ## buildBlas, buildTlas, update -/

/-- The reuse-or-reallocate step of `buildBlas` for one buffer (lines 174-186 and
191-204): returns the environment, the buffer to use and whether it was reallocated. -/
def ensureBuffer (dev : Device) (g : Gpu) (current : Option Buffer) (byteSize : Nat) :
    Gpu × Buffer × Bool :=
  match current with
  | none =>
    let r := Buffer.create dev g byteSize
    (r.1, r.2, true)
  | some b =>
    if b.size < byteSize then
      let r := Buffer.create dev (g.record (.uavBarrier b)) byteSize
      (r.1, r.2, true)
    else (g.record (.uavBarrier b), b, false)

/-- The method `CachingViaBVH::buildBlas`. -/
def buildBlas (dev : Device) (g : Gpu) (s : CachingViaBVH) : Option (Gpu × CachingViaBVH) :=
  match s.mpAABBBuffer with
  | none => none
  | some aabbBuffer =>
    let g := g.record (.resourceBarrier aabbBuffer)
    if 0 < s.mBlasData.resultByteSize ∧ 0 < s.mBlasData.scratchByteSize then
      let rs := ensureBuffer dev g s.mpBlasScratch s.mBlasData.scratchByteSize
      let scratch := rs.2.1
      let canUpdate : Bool :=
        s.mOptions.allowRefit && !s.mRequireRebuild &&
          (s.mBlasData.buildInputs.Flags &&&
            D3D12_RAYTRACING_ACCELERATION_STRUCTURE_BUILD_FLAG_ALLOW_UPDATE != 0)
      let rb := ensureBuffer dev rs.1 s.mBlasData.pBlas s.mBlasData.resultByteSize
      let blas := rb.2.1
      let canUpdate : Bool := if rb.2.2 then false else canUpdate
      let asDesc : BuildDesc :=
        { Inputs := s.mBlasData.buildInputs
          ScratchAccelerationStructureData := scratch.gpuAddress
          DestAccelerationStructureData := blas.gpuAddress }
      let asDesc : BuildDesc :=
        if canUpdate then
          { asDesc with
            SourceAccelerationStructureData := asDesc.DestAccelerationStructureData
            Inputs :=
              { asDesc.Inputs with
                Flags := asDesc.Inputs.Flags |||
                  D3D12_RAYTRACING_ACCELERATION_STRUCTURE_BUILD_FLAG_PERFORM_UPDATE } }
        else asDesc
      let g := (rb.1.record (.buildAS asDesc none)).record (.uavBarrier blas)
      some (g,
        { s with
          mpBlasScratch := some scratch
          mBlasData := { s.mBlasData with pBlas := some blas }
          mTlasData :=
            { s.mTlasData with
              instanceDesc := { s.mTlasData.instanceDesc with AccelerationStructure := blas.gpuAddress } }
          mRequireRebuild := false })
    else none

/-- First part of `buildTlas` (lines 235-252): on first use the top-level buffer and the
instance-descriptor buffer are created; afterwards barriers are recorded and the
descriptor is written again. Returns the environment and the two buffers. -/
def tlasBuffers (dev : Device) (g : Gpu) (s : CachingViaBVH) : Option (Gpu × Buffer × Buffer) :=
  match s.mTlasData.pTlas with
  | none =>
    if s.mTlasData.pInstanceDescs = none then
      let rt := Buffer.create dev g s.mTlasData.prebuildInfo.ResultDataMaxSizeInBytes
      let ri := Buffer.create dev rt.1 sizeofInstanceDesc
      some (ri.1, rt.2, ri.2)
    else none
  | some tlas =>
    match s.mpTlasScratch, s.mTlasData.pInstanceDescs with
    | some scratch, some inst =>
      some ((g.record (.uavBarrier tlas)).record (.uavBarrier scratch), tlas, inst)
    | _, _ => none

/-- The method `CachingViaBVH::buildTlas`. -/
def buildTlas (dev : Device) (g : Gpu) (s : CachingViaBVH) : Option (Gpu × CachingViaBVH) :=
  match tlasBuffers dev g s, s.mpTlasScratch with
  | some (g, tlas, inst), some scratch =>
    let blob := s.mTlasData.instanceDesc
    let asDesc : BuildDesc :=
      { Inputs := { s.mTlasData.buildInputs with InstanceDescs := inst.gpuAddress }
        ScratchAccelerationStructureData := scratch.gpuAddress
        DestAccelerationStructureData := tlas.gpuAddress }
    let g := ((g.record (.resourceBarrier inst)).record (.buildAS asDesc (some blob))).record
      (.uavBarrier tlas)
    some (g,
      { s with
        mTlasData :=
          { s.mTlasData with
            pTlas := some tlas
            pInstanceDescs := some inst
            instanceDescsBlob := some blob
            pSrv := match s.mTlasData.pSrv with
              | none => some tlas
              | some v => some v } })
  | _, _ => none

/-- The value of `scheduleRebuild` in `update` (line 109), with the short-circuit
evaluation of `&&`; a zero divisor is undefined behaviour. -/
def scheduleRebuild (s : CachingViaBVH) : Option Bool :=
  if s.mOptions.allowRefit && s.mOptions.rebuildOnSchedule then
    if u32 (s.mOptions.consecutiveRefitCount + 1) = 0 then none
    else some (decide (u32 (s.mUpdateCounter + 1) % u32 (s.mOptions.consecutiveRefitCount + 1) = 0))
  else some false

/-- The method `CachingViaBVH::update`; `totalHitVarsCount` is the value of
`pVars->getTotalHitVarsCount()`. -/
def update (dev : Device) (g : Gpu) (s : CachingViaBVH) (totalHitVarsCount : Nat)
    (forceRebuild : Bool) : Option (Gpu × CachingViaBVH) :=
  let s := if forceRebuild then { s with mRequireRebuild := true } else s
  (scheduleRebuild s).bind fun schedule =>
  let s := if schedule then { s with mRequireRebuild := true } else s
  let willRebuild := s.mRequireRebuild
  let s :=
    { s with
      mTlasData :=
        { s.mTlasData with
          instanceDesc :=
            { s.mTlasData.instanceDesc with
              InstanceContributionToHitGroupIndex := totalHitVarsCount % 16777216 } } }
  (buildBlas dev g s).bind fun r1 =>
  (buildTlas dev r1.1 r1.2).bind fun r2 =>
  let s := r2.2
  if willRebuild then some (r2.1, { s with mUpdateCounter := 0 })
  else some (r2.1, { s with mUpdateCounter := u32 (s.mUpdateCounter + 1) })

/-- A run of `update` calls, one per element of `frames` (hit-group count and
`forceRebuild` argument of each call). -/
def updates (dev : Device) : List (Nat × Bool) → Gpu × CachingViaBVH → Option (Gpu × CachingViaBVH)
  | [], gs => some gs
  | f :: fs, gs => (update dev gs.1 gs.2 f.1 f.2).bind (updates dev fs)

/-! ## Observations on the command list -/

/-- The bottom-level builds among a list of commands, in order. -/
def blasBuilds (cmds : List Command) : List BuildDesc :=
  cmds.filterMap fun c =>
    match c with
    | .buildAS d _ =>
      if d.Inputs.Type_ = D3D12_RAYTRACING_ACCELERATION_STRUCTURE_TYPE_BOTTOM_LEVEL then some d else none
    | _ => none

/-- A build is an incremental update when `PERFORM_UPDATE` is set. -/
def BuildDesc.performsUpdate (d : BuildDesc) : Bool :=
  d.Inputs.Flags &&& D3D12_RAYTRACING_ACCELERATION_STRUCTURE_BUILD_FLAG_PERFORM_UPDATE != 0

/-- A full build: no update source and `PERFORM_UPDATE` not set. -/
def BuildDesc.isFullBuild (d : BuildDesc) : Bool :=
  d.SourceAccelerationStructureData == 0 && !d.performsUpdate

/-! ## Specification vocabulary for the geometry partition -/

/-- Address of the `j`-th AABB of a geometry descriptor. -/
def GeometryDesc.aabbAddress (d : GeometryDesc) (j : Nat) : Nat :=
  d.StartAddress + j * d.StrideInBytes

/-- Address of slot `k` of the AABB buffer that starts at `base`. -/
def slotAddress (base k : Nat) : Nat :=
  base + k * sizeofAABB

/-- The AABBs addressed by the descriptors are exactly the slots `[0, count)` of the
buffer at `base`, each slot addressed once: every slot below `count` is addressed (no
gap), no two AABBs of the descriptors share an address (no overlap), and every AABB of a
descriptor is a slot below `count`. -/
def CoversExactlyOnce (base : Nat) (descs : List GeometryDesc) (count : Nat) : Prop :=
  (∀ k : Nat, k < count → ∃ (i j : Nat) (d : GeometryDesc), descs[i]? = some d ∧ j < d.AABBCount ∧
      d.aabbAddress j = slotAddress base k) ∧
  (∀ (i j : Nat) (d : GeometryDesc) (i2 j2 : Nat) (d2 : GeometryDesc), descs[i]? = some d → j < d.AABBCount →
      descs[i2]? = some d2 → j2 < d2.AABBCount →
      d.aabbAddress j = d2.aabbAddress j2 → i = i2 ∧ j = j2) ∧
  (∀ (i j : Nat) (d : GeometryDesc), descs[i]? = some d → j < d.AABBCount →
      ∃ k : Nat, k < count ∧ d.aabbAddress j = slotAddress base k)

/-- Each descriptor starts where the previous one ends, the first one at `base`. -/
def Contiguous (base : Nat) : List GeometryDesc → Prop
  | [] => True
  | d :: ds =>
    d.StartAddress = base ∧ d.StrideInBytes = sizeofAABB ∧
      Contiguous (base + sizeofAABB * d.AABBCount) ds

/-- Number of AABBs addressed by a list of descriptors. -/
def totalAabbCount (descs : List GeometryDesc) : Nat :=
  (descs.map GeometryDesc.AABBCount).sum

/-- The driver reports non-zero result and scratch sizes for every build input. -/
def Device.reportsPositiveSizes (dev : Device) : Prop :=
  ∀ inputs : BuildInputs,
    0 < (dev.GetRaytracingAccelerationStructurePrebuildInfo inputs).ResultDataMaxSizeInBytes ∧
    0 < (dev.GetRaytracingAccelerationStructurePrebuildInfo inputs).ScratchDataSizeInBytes

/-- Descriptor written for index `i` by the loop of the linear branch. -/
def linearLoopDesc (addr perGeometry i : Nat) : GeometryDesc :=
  { Type_ := D3D12_RAYTRACING_GEOMETRY_TYPE_PROCEDURAL_PRIMITIVE_AABBS
    Flags := D3D12_RAYTRACING_GEOMETRY_FLAG_NO_DUPLICATE_ANYHIT_INVOCATION
    AABBCount := perGeometry
    StartAddress := addr + u32 (i * u32 (perGeometry * sizeofAABB))
    StrideInBytes := sizeofAABB }

/-- The layout that the linear policy is to produce for `count` AABBs in groups of `N`:
descriptor `i` starts at slot `i * N` of the buffer at `base` (byte offset `i * N * 24`)
with stride 24, and the descriptors cover the slots `[0, count)` exactly once. -/
def LinearLayout (base N count : Nat) (descs : List GeometryDesc) : Prop :=
  (∀ (i : Nat) (d : GeometryDesc), descs[i]? = some d →
      d.StartAddress = slotAddress base (i * N) ∧ d.StrideInBytes = sizeofAABB) ∧
  CoversExactlyOnce base descs count

/-- A driver used in the concrete scenarios: result size `1000 + 100 * NumDescs`, scratch
size 500, and the n-th buffer placed at address `65536 * (n + 1)`. -/
def exampleDevice : Device :=
  { GetRaytracingAccelerationStructurePrebuildInfo := fun inputs =>
      { ResultDataMaxSizeInBytes := 1000 + 100 * inputs.NumDescs, ScratchDataSizeInBytes := 500 }
    gpuAddress := fun n => 65536 * (n + 1) }

/-- A cache whose AABB buffer holds 2500 slots (domain 2500 x 1), default group size. -/
def exampleLinearState : CachingViaBVH :=
  { mpAABBBuffer := some { id := 1, size := 60000, elementCount := 2500, gpuAddress := 131072 }
    mAabbCount := (2500, 1) }

/-- A cache whose AABB buffer holds 2 slots (domain 2 x 1) and whose group size was set
to 4294967295 in the UI. -/
def hugeGroupState : CachingViaBVH :=
  { mpAABBBuffer := some { id := 1, size := 48, elementCount := 2, gpuAddress := 131072 }
    mAabbCount := (2, 1)
    mAabbPerGeometry := 4294967295 }

/-- Descriptor written for index `i` by the big-tile loop of the tiled branch. -/
def bigTileDesc (addr i : Nat) : GeometryDesc :=
  { Type_ := D3D12_RAYTRACING_GEOMETRY_TYPE_PROCEDURAL_PRIMITIVE_AABBS
    Flags := D3D12_RAYTRACING_GEOMETRY_FLAG_NO_DUPLICATE_ANYHIT_INVOCATION
    AABBCount := 2048
    StartAddress := addr + u32 (i * 49152)
    StrideInBytes := sizeofAABB }

/-- Descriptor written for index `j` by the fill-tile loop of the tiled branch, after
`bigTileCount` big tiles. -/
def fillTileDesc (addr bigTileCount j : Nat) : GeometryDesc :=
  { Type_ := D3D12_RAYTRACING_GEOMETRY_TYPE_PROCEDURAL_PRIMITIVE_AABBS
    Flags := D3D12_RAYTRACING_GEOMETRY_FLAG_NO_DUPLICATE_ANYHIT_INVOCATION
    AABBCount := 1536
    StartAddress := addr + u32 (bigTileCount * 49152) + u32 (j * 36864)
    StrideInBytes := sizeofAABB }

/-- The layout that the tiled policy is to produce for the domain `(w, h)`: one descriptor
per tile, `floor(w/64) * floor(h/32)` big tiles of 2048 AABBs followed by `floor(w/64)`
fill tiles of 1536 AABBs, the first starting at `base` (slot 0) and each next one
starting where the previous one ends. -/
def TiledLayout (base w h : Nat) (descs : List GeometryDesc) : Prop :=
  descs.length = w / 64 * (h / 32) + w / 64 ∧
  (∀ (i : Nat) (d : GeometryDesc), descs[i]? = some d →
      d.AABBCount = if i < w / 64 * (h / 32) then 2048 else 1536) ∧
  Contiguous base descs

/-- Number of slots addressed by the tiled policy for the domain `(w, h)`. -/
def tiledSlotCount (w h : Nat) : Nat :=
  w / 64 * (h / 32 * 2048 + 1536)

/-- A freshly created cache with the default options (tiling requested) on the example
driver. -/
def freshCache : Gpu × CachingViaBVH :=
  CachingViaBVH.create exampleDevice {} {}

/-- The state of a cache on which `allocate` has run: the AABB buffer exists, the padded
sizes are non-zero, the bottom-level build inputs are those written by `setupBlas`
(`ALLOW_UPDATE` set exactly when `allowRefit` is), the top-level inputs and scratch buffer
are those of the constructor, and the instance-descriptor buffer exists exactly when the
top-level buffer does. -/
def Allocated (s : CachingViaBVH) : Prop :=
  (∃ b, s.mpAABBBuffer = some b) ∧
  0 < s.mBlasData.resultByteSize ∧ 0 < s.mBlasData.scratchByteSize ∧
  s.mBlasData.buildInputs.Type_ = D3D12_RAYTRACING_ACCELERATION_STRUCTURE_TYPE_BOTTOM_LEVEL ∧
  s.mBlasData.buildInputs.Flags =
    (if s.mOptions.allowRefit then
      D3D12_RAYTRACING_ACCELERATION_STRUCTURE_BUILD_FLAG_PREFER_FAST_TRACE |||
        D3D12_RAYTRACING_ACCELERATION_STRUCTURE_BUILD_FLAG_ALLOW_UPDATE
     else D3D12_RAYTRACING_ACCELERATION_STRUCTURE_BUILD_FLAG_PREFER_FAST_TRACE) ∧
  s.mTlasData.buildInputs.Type_ = D3D12_RAYTRACING_ACCELERATION_STRUCTURE_TYPE_TOP_LEVEL ∧
  (∃ b, s.mpTlasScratch = some b) ∧
  s.mTlasData.pTlas.isSome = s.mTlasData.pInstanceDescs.isSome

/-- The bottom-level result buffer exists and is large enough to be reused. -/
def blasReusable (s : CachingViaBVH) : Bool :=
  match s.mBlasData.pBlas with
  | none => false
  | some b => !decide (b.size < s.mBlasData.resultByteSize)

/-- The frame is a rebuild frame of the schedule: forced by the argument, by a pending
request, or by the schedule (the value of `willRebuild` in `update`). -/
def willRebuild (s : CachingViaBVH) (forceRebuild schedule : Bool) : Bool :=
  forceRebuild || s.mRequireRebuild || schedule

/-- The bottom-level build description assembled by `buildBlas` (lines 189-215). -/
def blasBuildDesc (s : CachingViaBVH) (scratch blas : Buffer) (reallocated : Bool) : BuildDesc :=
  if (if reallocated then false else
      (s.mOptions.allowRefit && !s.mRequireRebuild &&
        (s.mBlasData.buildInputs.Flags &&&
          D3D12_RAYTRACING_ACCELERATION_STRUCTURE_BUILD_FLAG_ALLOW_UPDATE != 0))) = true then
    { Inputs :=
        { s.mBlasData.buildInputs with
          Flags := s.mBlasData.buildInputs.Flags |||
            D3D12_RAYTRACING_ACCELERATION_STRUCTURE_BUILD_FLAG_PERFORM_UPDATE }
      ScratchAccelerationStructureData := scratch.gpuAddress
      DestAccelerationStructureData := blas.gpuAddress
      SourceAccelerationStructureData := blas.gpuAddress }
  else
    { Inputs := s.mBlasData.buildInputs
      ScratchAccelerationStructureData := scratch.gpuAddress
      DestAccelerationStructureData := blas.gpuAddress }

/-- The state on which `update` calls `buildBlas`: the pending-rebuild flag holds the
value of `willRebuild` and the hit-group offset is stored in the instance descriptor. -/
def updatePrepared (s : CachingViaBVH) (totalHitVarsCount : Nat) (will : Bool) : CachingViaBVH :=
  { s with
    mRequireRebuild := will
    mTlasData :=
      { s.mTlasData with
        instanceDesc :=
          { s.mTlasData.instanceDesc with
            InstanceContributionToHitGroupIndex := totalHitVarsCount % 16777216 } } }

/-- The calls `buildBlas` and `buildTlas` leave the options, the domain, the group size
and everything `setupBlas` computed unchanged. -/
def SameConfiguration (s s2 : CachingViaBVH) : Prop :=
  s2.mOptions = s.mOptions ∧ s2.mAabbCount = s.mAabbCount ∧
  s2.mAabbPerGeometry = s.mAabbPerGeometry ∧ s2.mCanUseTiling = s.mCanUseTiling ∧
  s2.mpAABBBuffer = s.mpAABBBuffer ∧
  s2.mBlasData.geomDescs = s.mBlasData.geomDescs ∧
  s2.mBlasData.buildInputs = s.mBlasData.buildInputs ∧
  s2.mBlasData.resultByteSize = s.mBlasData.resultByteSize ∧
  s2.mBlasData.scratchByteSize = s.mBlasData.scratchByteSize

/-- The top-level members are as the constructor and `buildTlas` leave them. -/
def TlasConsistent (s : CachingViaBVH) : Prop :=
  s.mTlasData.buildInputs.Type_ = D3D12_RAYTRACING_ACCELERATION_STRUCTURE_TYPE_TOP_LEVEL ∧
  (∃ b, s.mpTlasScratch = some b) ∧
  s.mTlasData.pTlas.isSome = s.mTlasData.pInstanceDescs.isSome

/-- The counter after `update` in the words of the specification: 0 if the frame was a
forced rebuild (argument or pending request) or a scheduled rebuild (`allowRefit`,
`rebuildOnSchedule` and `(counter + 1) mod (consecutiveRefitCount + 1) = 0`), the old
counter plus 1 otherwise. -/
def specCounterAfterUpdate (s : CachingViaBVH) (forceRebuild : Bool) : Nat :=
  if forceRebuild || s.mRequireRebuild ||
      (s.mOptions.allowRefit && s.mOptions.rebuildOnSchedule &&
        decide ((s.mUpdateCounter + 1) % (s.mOptions.consecutiveRefitCount + 1) = 0)) then 0
  else s.mUpdateCounter + 1

/-- The counter after `update` as the code computes it, in 32-bit arithmetic. -/
def counterAfterUpdate (s : CachingViaBVH) (forceRebuild : Bool) : Nat :=
  if forceRebuild || s.mRequireRebuild ||
      (s.mOptions.allowRefit && s.mOptions.rebuildOnSchedule &&
        decide (u32 (s.mUpdateCounter + 1) % u32 (s.mOptions.consecutiveRefitCount + 1) = 0)) then 0
  else u32 (s.mUpdateCounter + 1)

/-- The fresh default cache after `allocate` on the domain 4 x 1. -/
def allocatedCache : Gpu × CachingViaBVH :=
  (allocate exampleDevice freshCache.1 freshCache.2 (4, 1)).getD freshCache

/-- A fresh cache with `rebuildOnSchedule` on (and `consecutiveRefitCount = 3`) after
`allocate` on the domain 4 x 1. -/
def scheduledCacheAllocated : Gpu × CachingViaBVH :=
  (allocate exampleDevice
    (CachingViaBVH.create exampleDevice {} { rebuildOnSchedule := true }).1
    (CachingViaBVH.create exampleDevice {} { rebuildOnSchedule := true }).2 (4, 1)).getD freshCache

/-- The scheduled cache right after a forced rebuild. -/
def scheduledCacheRebuilt : Gpu × CachingViaBVH :=
  (update exampleDevice scheduledCacheAllocated.1 scheduledCacheAllocated.2 0 true).getD
    scheduledCacheAllocated

/-- The scheduled cache after its first, unforced `update`. -/
def scheduledCacheFirstFrame : Gpu × CachingViaBVH :=
  (update exampleDevice scheduledCacheAllocated.1 scheduledCacheAllocated.2 0 false).getD
    scheduledCacheAllocated


/-! ## Buffers, builds and runs of calls (growth policy, top-level build) -/

/-- All acceleration-structure builds among a list of commands, in order, each with the
instance descriptor it reads (`none` for a bottom-level build). -/
def asBuilds (cmds : List Command) : List (BuildDesc × Option InstanceDesc) :=
  cmds.filterMap fun c =>
    match c with
    | .buildAS d i => some (d, i)
    | _ => none

/-- A command is a resource or UAV barrier. -/
def Command.isBarrier : Command → Bool
  | .resourceBarrier _ => true
  | .uavBarrier _ => true
  | _ => false

/-- The test of `buildBlas` for replacing a buffer: it does not exist or is smaller than
the required byte size. -/
def needsReallocation (current : Option Buffer) (byteSize : Nat) : Bool :=
  match current with
  | none => true
  | some b => decide (b.size < byteSize)

/-- Capacity in bytes of a buffer that may not exist yet. -/
def capacity (b : Option Buffer) : Nat :=
  match b with
  | none => 0
  | some b => b.size

/-- The rule by which `buildBlas` arrives at the buffer `new` from the buffer `old` for
the required byte size: `old` itself when it exists and is large enough, a new allocation
of exactly the required size otherwise. -/
def ReusedOrReallocated (old : Option Buffer) (byteSize : Nat) (new : Buffer) : Prop :=
  (needsReallocation old byteSize = false → old = some new) ∧
  (needsReallocation old byteSize = true → new.size = byteSize) ∧
  byteSize ≤ new.size

/-- The top-level build description assembled by `buildTlas` (lines 231-259). -/
def tlasBuildDesc (s : CachingViaBVH) (tscratch tlas inst : Buffer) : BuildDesc :=
  { Inputs := { s.mTlasData.buildInputs with InstanceDescs := inst.gpuAddress }
    ScratchAccelerationStructureData := tscratch.gpuAddress
    DestAccelerationStructureData := tlas.gpuAddress }

/-- A call of the interface of `CachingViaBVH` made by the render pass. -/
inductive Call where
  | allocate (aabbCount : Nat × Nat)
  | update (totalHitVarsCount : Nat) (forceRebuild : Bool)
deriving DecidableEq, Repr

/-- Effect of one call. -/
def Call.run (dev : Device) (gs : Gpu × CachingViaBVH) : Call → Option (Gpu × CachingViaBVH)
  | .allocate aabbCount => Falcor.allocate dev gs.1 gs.2 aabbCount
  | .update totalHitVarsCount forceRebuild => Falcor.update dev gs.1 gs.2 totalHitVarsCount forceRebuild

/-- A run of calls, in order. -/
def runCalls (dev : Device) : List Call → Gpu × CachingViaBVH → Option (Gpu × CachingViaBVH)
  | [], gs => some gs
  | c :: cs, gs => (c.run dev gs).bind (runCalls dev cs)

/-- The top-level build inputs are the ones the constructor stored: one instance,
`PREFER_FAST_TRACE` only. -/
def TlasInputsAsConstructed (s : CachingViaBVH) : Prop :=
  s.mTlasData.buildInputs.Type_ = D3D12_RAYTRACING_ACCELERATION_STRUCTURE_TYPE_TOP_LEVEL ∧
  s.mTlasData.buildInputs.NumDescs = 1 ∧
  s.mTlasData.buildInputs.Flags = D3D12_RAYTRACING_ACCELERATION_STRUCTURE_BUILD_FLAG_PREFER_FAST_TRACE

/-- The default cache on the domain 4 x 1 after its first `update`: the bottom-level
result buffer holds 1280 bytes. -/
def builtCache : Gpu × CachingViaBVH :=
  (update exampleDevice allocatedCache.1 allocatedCache.2 0 false).getD allocatedCache

/-- The built cache after `allocate` on the larger domain 2500 x 1: three descriptors,
1536 bytes required for the result, more than the existing buffer holds. -/
def grownCache : Gpu × CachingViaBVH :=
  (allocate exampleDevice builtCache.1 builtCache.2 (2500, 1)).getD builtCache

/-- The test of `allocate` for replacing the AABB buffer: it does not exist or holds
fewer elements than the total AABB count. -/
def needsAabbReallocation (current : Option Buffer) (totalAabbCount : Nat) : Bool :=
  match current with
  | none => true
  | some b => decide (b.elementCount < totalAabbCount)

/-- Capacity in elements of a buffer that may not exist yet. -/
def elementCapacity (b : Option Buffer) : Nat :=
  match b with
  | none => 0
  | some b => b.elementCount

/-- A fresh cache with tiling switched off, on the example driver. -/
def linearFreshCache : Gpu × CachingViaBVH :=
  CachingViaBVH.create exampleDevice {} { useTiling := false }

/-- The linear fresh cache after `allocate` on the domain 2147483650 x 2, whose 32-bit
product is 4. -/
def wrappedDomainCache : Gpu × CachingViaBVH :=
  (allocate exampleDevice linearFreshCache.1 linearFreshCache.2 (2147483650, 2)).getD
    linearFreshCache

/-- The fresh default cache after `allocate` on the domain 64 x 32 (tiled policy: one big
tile and one fill tile). -/
def tiledCache : Gpu × CachingViaBVH :=
  (allocate exampleDevice freshCache.1 freshCache.2 (64, 32)).getD freshCache

/-- The fresh default cache after `allocate` on the domain 2500 x 1 (three descriptors)
and its first `update`, a full build into a result buffer of 1536 bytes. -/
def largeBuiltCache : Gpu × CachingViaBVH :=
  (runCalls exampleDevice [.allocate (2500, 1), .update 0 false] freshCache).getD freshCache

/-- The large built cache after `allocate` on the smaller domain 4 x 1 (one descriptor,
1280 bytes required for the result). -/
def shrunkCache : Gpu × CachingViaBVH :=
  (allocate exampleDevice largeBuiltCache.1 largeBuiltCache.2 (4, 1)).getD largeBuiltCache

/-! ## The render pass ScreenSpaceCaustics: per-frame caching data -/

/-- The struct `ScreenSpaceCaustics::PerFrameCachingData`. -/
structure PerFrameCachingData where
  pAccumulatedStats : Option Buffer := none
  pIndexToPixelMap : Option Buffer := none
  pCachingPointData : Option Buffer := none
deriving DecidableEq, Repr

/-- The fields of `mSharedCustomParams` (struct `ScreenSpaceCausticsParams`) read in
`compile` and `execute`. -/
structure ScreenSpaceCausticsParams where
  useCache : Bool := false
  usePhotonsForAll : Bool := false
  lightPathCount : Nat := 0
deriving DecidableEq, Repr

/-- The field of `mSharedParams` (struct `PathTracerParams`) read in `execute` and
`recreateCachingData`. -/
structure PathTracerParams where
  frameDim : Nat × Nat := (0, 0)
deriving DecidableEq, Repr

/-- The members of the class `ScreenSpaceCaustics` that `compile`, `recreateCachingData`
and `execute` use to allocate buffers and to record commands. Programs, program
variables, the scene, the emissive samplers and the path debugger are not represented. -/
structure ScreenSpaceCaustics where
  mpCache : Option CachingViaBVH := none
  mPerFrameCachingData : PerFrameCachingData × PerFrameCachingData := ({}, {})
  mpPathToCachingPointData : Option Buffer := none
  mpEmissiveTriangles : Option Buffer := none
  mpEmissiveTriangleCount : Option Buffer := none
  mSharedParams : PathTracerParams := {}
  mSharedCustomParams : ScreenSpaceCausticsParams := {}
  mCachingOptions : Options := {}
  mDisableTemporalReuse : Bool := false
  mLateBSDFApplication : Bool := true
  mSeparateAABBStorage : Bool := true
  mSelectedFrameCachingData : Nat := 0
  mPixelCount : Nat := 0
  mResetTemporalReuse : Bool := true
  mEnableDebug : Bool := false
  mRecomputeEmissiveTriangleList : Bool := false
  mpPreviousAccumulatedStats : Option Buffer := none
  mpPreviousAccumulatedPhotonCount : Option Buffer := none
  mpDeviceDebugData : Option Buffer := none
  mpHostDebugData : Option Buffer := none
deriving DecidableEq, Repr

/-- The driver and the sizes of the shader-shared structs (`CachingPointData`,
`PathToCachingPointData`, `CachingDebugData`), which are declared outside these files. -/
structure PassEnv where
  dev : Device
  sizeofCachingPointData : Nat
  sizeofPathToCachingPointData : Nat
  sizeofCachingDebugData : Nat

/-- What `compile` reads of its environment: the dimensions of the resource connected to
the colour output, if any, `defaultTexDims`, and the value of `mSharedParams.frameDim`
after the call of `PathTracer::compile` of the base class. -/
structure CompileData where
  colorOutput : Option (Nat × Nat) := none
  defaultTexDims : Nat × Nat := (0, 0)
  frameDim : Nat × Nat := (0, 0)
deriving DecidableEq, Repr

/-- What `execute` reads of its environment in one frame: the flag `mOptionsChanged` and
the result of `beginFrame` of the base class `PathTracer`, the value of
`mSharedParams.frameDim` after it, which optional outputs are bound, the active light
count, the default texture dimensions and the hit-group count of the tracer variables. -/
structure RenderData where
  optionsChanged : Bool := false
  beginFrame : Bool := true
  frameDim : Nat × Nat := (0, 0)
  pathDebugOutput : Bool := false
  activeTriangleCount : Nat := 0
  defaultTextureDims : Nat × Nat := (0, 0)
  colorOutput : Bool := true
  internalDebugOutput : Bool := false
  totalHitVarsCount : Nat := 0
deriving DecidableEq, Repr

/-- The members that `renderUI`, `onKeyEvent`, `setScene` and `onHotReload` assign
(lines 740-830, 940-1003, 1221): the new values of the flags, and whether a reset of the
temporal reuse or a recomputation of the emissive triangle list is requested. -/
structure Settings where
  useCache : Bool := false
  usePhotonsForAll : Bool := false
  lightPathCount : Nat := 0
  mDisableTemporalReuse : Bool := false
  mLateBSDFApplication : Bool := true
  mSeparateAABBStorage : Bool := true
  mEnableDebug : Bool := false
  resetTemporalReuse : Bool := false
  recomputeEmissiveTriangleList : Bool := false
deriving DecidableEq, Repr

/-- The call `Buffer::createTyped<uint32_t>(elementCount)`: elements of four bytes. -/
def Buffer.createTyped (dev : Device) (g : Gpu) (elementCount : Nat) : Gpu × Buffer :=
  Buffer.createStructured dev g 4 elementCount

/-- Element `i` of `mPerFrameCachingData`, a `std::array` of two elements; indexing past
the end is undefined behaviour. -/
def frameCachingData (a : PerFrameCachingData × PerFrameCachingData) (i : Nat) :
    Option PerFrameCachingData :=
  if i = 0 then some a.1 else if i = 1 then some a.2 else none

/-- The index `1 - mSelectedFrameCachingData` of the slot in the role `previous`
(line 397), in 32-bit unsigned arithmetic. -/
def previousIndex (p : ScreenSpaceCaustics) : Nat :=
  u32 (1 + 4294967296 - p.mSelectedFrameCachingData)

/-- The slot in the role `previous` (line 397). -/
def pPreviousFrameCachingData (p : ScreenSpaceCaustics) : Option PerFrameCachingData :=
  frameCachingData p.mPerFrameCachingData (previousIndex p)

/-- The slot in the role `current` (line 398). -/
def pCurrentFrameCachingData (p : ScreenSpaceCaustics) : Option PerFrameCachingData :=
  frameCachingData p.mPerFrameCachingData p.mSelectedFrameCachingData

/-- The constructor, as far as the represented members go: the settings come from the
dictionary, and the two debug buffers are created (lines 270-271). -/
def ScreenSpaceCaustics.create (env : PassEnv) (g : Gpu) (settings : Settings)
    (options : Options) : Gpu × ScreenSpaceCaustics :=
  let device := Buffer.createStructured env.dev g env.sizeofCachingDebugData 1
  let host := Buffer.createStructured env.dev device.1 env.sizeofCachingDebugData 1
  (host.1,
   { mSharedCustomParams :=
       { useCache := settings.useCache
         usePhotonsForAll := settings.usePhotonsForAll
         lightPathCount := settings.lightPathCount }
     mCachingOptions := options
     mDisableTemporalReuse := settings.mDisableTemporalReuse
     mLateBSDFApplication := settings.mLateBSDFApplication
     mSeparateAABBStorage := settings.mSeparateAABBStorage
     mpDeviceDebugData := some device.2
     mpHostDebugData := some host.2 })

/-- The method `ScreenSpaceCaustics::recreateCachingData`. -/
def recreateCachingData (env : PassEnv) (g : Gpu) (p : ScreenSpaceCaustics) :
    Option (Gpu × ScreenSpaceCaustics) :=
  let map0 := Buffer.createTyped env.dev g p.mPixelCount
  let g := map0.1.record (.clearUAV map0.2 (.uint4 4294967295))
  let data0 := Buffer.createStructured env.dev g env.sizeofCachingPointData p.mPixelCount
  let map1 := Buffer.createTyped env.dev data0.1 p.mPixelCount
  let g := map1.1.record (.clearUAV map1.2 (.uint4 4294967295))
  let data1 := Buffer.createStructured env.dev g env.sizeofCachingPointData p.mPixelCount
  let cache : Gpu × CachingViaBVH :=
    match p.mpCache with
    | none => CachingViaBVH.create env.dev data1.1 p.mCachingOptions
    | some c => (data1.1, c)
  if p.mPixelCount = u32 (p.mSharedParams.frameDim.1 * p.mSharedParams.frameDim.2) then
    (allocate env.dev cache.1 cache.2 p.mSharedParams.frameDim).map fun r =>
      let path := Buffer.createStructured env.dev r.1 env.sizeofPathToCachingPointData p.mPixelCount
      (path.1,
       { p with
         mPerFrameCachingData :=
           ({ p.mPerFrameCachingData.1 with
              pIndexToPixelMap := some map0.2, pCachingPointData := some data0.2 },
            { p.mPerFrameCachingData.2 with
              pIndexToPixelMap := some map1.2, pCachingPointData := some data1.2 })
         mpCache := some r.2
         mpPathToCachingPointData := some path.2 })
  else none

/-- The pixel count that `compile` derives from its argument (lines 305-307), in 32-bit
arithmetic. -/
def requestedPixelCount (compileData : CompileData) : Nat :=
  let pixelCount :=
    match compileData.colorOutput with
    | some dims => u32 (dims.1 * dims.2)
    | none => 0
  if pixelCount = 0 then u32 (compileData.defaultTexDims.1 * compileData.defaultTexDims.2)
  else pixelCount

/-- The allocation of the accumulated statistics in `compile` (lines 310-335): both
slots get a new buffer of `pixelCount * sizeof(uint4)` bytes, cleared to zero, and so do
the two debug copies; `sizeof(uint4)` is 16. -/
def recreateAccumulatedStats (env : PassEnv) (g : Gpu) (p : ScreenSpaceCaustics)
    (pixelCount : Nat) : Gpu × ScreenSpaceCaustics :=
  let byteSize := u32 (pixelCount * 16)
  let stats0 := Buffer.create env.dev g byteSize
  let g := stats0.1.record (.clearUAV stats0.2 .float4Zero)
  let stats1 := Buffer.create env.dev g byteSize
  let g := stats1.1.record (.clearUAV stats1.2 .float4Zero)
  let previous := Buffer.create env.dev g byteSize
  let g := previous.1.record (.clearUAV previous.2 .float4Zero)
  let count := Buffer.createTyped env.dev g pixelCount
  let g := count.1.record (.clearUAV count.2 (.uint4 0))
  (g,
   { p with
     mPerFrameCachingData :=
       ({ p.mPerFrameCachingData.1 with pAccumulatedStats := some stats0.2 },
        { p.mPerFrameCachingData.2 with pAccumulatedStats := some stats1.2 })
     mpPreviousAccumulatedStats := some previous.2
     mpPreviousAccumulatedPhotonCount := some count.2
     mPixelCount := pixelCount
     mResetTemporalReuse := true })

/-- The method `ScreenSpaceCaustics::compile`. The call of `PathTracer::compile` of the
base class enters through the frame dimensions it leaves in `mSharedParams`. -/
def compile (env : PassEnv) (g : Gpu) (p : ScreenSpaceCaustics) (compileData : CompileData) :
    Option (Gpu × ScreenSpaceCaustics) :=
  let p := { p with mSharedParams := { p.mSharedParams with frameDim := compileData.frameDim } }
  let pixelCount := requestedPixelCount compileData
  if p.mPixelCount = pixelCount then some (g, p) else
  let r := recreateAccumulatedStats env g p pixelCount
  if r.2.mSharedCustomParams.useCache then recreateCachingData env r.1 r.2 else some r

/-! ## The render pass ScreenSpaceCaustics: one frame -/

/-- The upkeep of the emissive triangle list in `execute` (lines 363-383). -/
def prepareEmissiveTriangles (env : PassEnv) (g : Gpu) (p : ScreenSpaceCaustics)
    (activeTriangleCount : Nat) : Gpu × ScreenSpaceCaustics :=
  let p := if activeTriangleCount = 0 then { p with mRecomputeEmissiveTriangleList := false } else p
  if p.mRecomputeEmissiveTriangleList then
    let reallocate : Bool :=
      match p.mpEmissiveTriangles with
      | none => true
      | some b => decide (b.elementCount < activeTriangleCount)
    let r1 : Gpu × ScreenSpaceCaustics :=
      if reallocate then
        let b := Buffer.createTyped env.dev g activeTriangleCount
        (b.1, { p with mpEmissiveTriangles := some b.2, mRecomputeEmissiveTriangleList := true })
      else (g, p)
    match r1.2.mpEmissiveTriangleCount with
    | none =>
      let b := Buffer.createTyped env.dev r1.1 1
      (b.1.record (.clearUAV b.2 (.uint4 0)),
       { r1.2 with mpEmissiveTriangleCount := some b.2, mRecomputeEmissiveTriangleList := true })
    | some count => (r1.1.record (.clearUAV count (.uint4 0)), r1.2)
  else (g, p)

/-- The passes of `execute` before the cache is updated (lines 497-584): the restriction
of the emissive triangles, path tracing, the generation of the AABBs and the reuse of the
collection points of the previous frame. -/
def recordCachingPasses (g : Gpu) (p : ScreenSpaceCaustics) (renderData : RenderData) :
    Option Gpu :=
  let g := if p.mRecomputeEmissiveTriangleList then g.record (.dispatch .restricter) else g
  if 0 < renderData.defaultTextureDims.1 ∧ 0 < renderData.defaultTextureDims.2 then
    if p.mSharedCustomParams.useCache && p.mpCache.isNone then none else
    let g :=
      if !p.mSharedCustomParams.usePhotonsForAll || p.mSharedCustomParams.useCache then
        g.record (.raytrace .pathTracing)
      else g
    (if p.mSharedCustomParams.useCache && p.mSeparateAABBStorage then
      match p.mpPathToCachingPointData with
      | none => none
      | some b => some ((g.record (.uavBarrier b)).record (.raytrace .generateAABBs))
    else some g).map fun g =>
    if p.mSharedCustomParams.useCache && (!p.mResetTemporalReuse && !p.mDisableTemporalReuse) then
      g.record (.raytrace .collectionPointReuse)
    else g
  else none

/-- The update of the cache in `execute` (lines 586-589). -/
def updateCache (env : PassEnv) (g : Gpu) (p : ScreenSpaceCaustics) (totalHitVarsCount : Nat) :
    Option (Gpu × ScreenSpaceCaustics) :=
  if p.mSharedCustomParams.useCache then
    match p.mpCache with
    | none => none
    | some cache =>
      (update env.dev g cache totalHitVarsCount false).map fun r =>
        (r.1, { p with mpCache := some r.2 })
  else some (g, p)

/-- The clear of the accumulated statistics of the current slot, the debug copy of the
statistics of the previous slot and the light-tracing pass (lines 591-606). -/
def recordLightTracing (g : Gpu) (p : ScreenSpaceCaustics)
    (previous current : PerFrameCachingData) : Option Gpu :=
  match current.pAccumulatedStats with
  | none => none
  | some stats =>
    let g := g.record (.clearUAV stats .float4Zero)
    (if p.mEnableDebug then
      match p.mpPreviousAccumulatedStats, previous.pAccumulatedStats with
      | some dst, some src => some (g.record (.copyResource dst src))
      | _, _ => none
    else some g).map fun g => g.record (.raytrace .lightTracing)

/-- The passes of `execute` after light tracing (lines 608-708): late application of the
BSDF and the copy to the output texture, the download of the debug data, and the
visualisation of the debug data or the clear of its output. -/
def recordOutputs (g : Gpu) (p : ScreenSpaceCaustics) (renderData : RenderData) : Option Gpu :=
  let g :=
    if renderData.colorOutput then
      let g :=
        if p.mSharedCustomParams.useCache && p.mLateBSDFApplication then
          g.record (.raytrace .applyBSDF)
        else g
      g.record (.dispatch .copy)
    else g
  (if p.mEnableDebug then
    match p.mpHostDebugData, p.mpDeviceDebugData with
    | some host, some device =>
      some ((((g.record (.dispatch .downloadDebug)).record
        (.copyBufferRegion host 0 device 0 host.size)).record .flush).record .gpuSignal)
    | _, _ => none
  else some g).map fun g =>
  if p.mEnableDebug && renderData.internalDebugOutput then g.record (.dispatch .debugVisualiser)
  else if renderData.internalDebugOutput then g.record (.clearTexture .internalDebugOutput)
  else g

/-- The exchange of the roles of the two slots at the end of the frame (line 717):
`mSelectedFrameCachingData = 1u - mSelectedFrameCachingData`. -/
def swapFrameCachingData (p : ScreenSpaceCaustics) : ScreenSpaceCaustics :=
  { p with mSelectedFrameCachingData := u32 (1 + 4294967296 - p.mSelectedFrameCachingData) }

/-- The start of a frame in `execute` (lines 346-395), after `beginFrame` of the base
class has left the frame dimensions in `mSharedParams`: the clear of the path-debug
output, the upkeep of the emissive triangle list and, with caching enabled and no cache
yet, `recreateCachingData`. -/
def prepareFrame (env : PassEnv) (g : Gpu) (p : ScreenSpaceCaustics) (renderData : RenderData) :
    Option (Gpu × ScreenSpaceCaustics) :=
  let p := { p with mSharedParams := { p.mSharedParams with frameDim := renderData.frameDim } }
  let g := if renderData.pathDebugOutput then g.record (.clearTexture .pathDebugOutput) else g
  let r := prepareEmissiveTriangles env g p renderData.activeTriangleCount
  if r.2.mSharedCustomParams.useCache && r.2.mpCache.isNone then
    recreateCachingData env r.1 r.2
  else some r

/-- The method `ScreenSpaceCaustics::execute`. The calls into the base class `PathTracer`
(`beginFrame`, `endFrame`), the emissive samplers, `PathDebug` and the program and
variable set-up record nothing here; `beginFrame` enters through its result and the frame
dimensions it leaves in `mSharedParams`. -/
def execute (env : PassEnv) (g : Gpu) (p : ScreenSpaceCaustics) (renderData : RenderData) :
    Option (Gpu × ScreenSpaceCaustics) :=
  let p := if renderData.optionsChanged then { p with mResetTemporalReuse := true } else p
  if !renderData.beginFrame then some (g, p) else
  (prepareFrame env g p renderData).bind fun r =>
  (pPreviousFrameCachingData r.2).bind fun previous =>
  (pCurrentFrameCachingData r.2).bind fun current =>
  (recordCachingPasses r.1 r.2 renderData).bind fun g =>
  (updateCache env g r.2 renderData.totalHitVarsCount).bind fun r =>
  (recordLightTracing r.1 r.2 previous current).bind fun g =>
  (recordOutputs g r.2 renderData).map fun g =>
  (g, swapFrameCachingData { r.2 with mResetTemporalReuse := false })

/-- Any combination of the assignments that `renderUI`, `onKeyEvent`, `setScene` and
`onHotReload` make to the represented members: the flags take the given values, and a
reset of the temporal reuse or a recomputation of the emissive triangles may be
requested. -/
def configure (p : ScreenSpaceCaustics) (settings : Settings) : ScreenSpaceCaustics :=
  { p with
    mSharedCustomParams :=
      { useCache := settings.useCache
        usePhotonsForAll := settings.usePhotonsForAll
        lightPathCount := settings.lightPathCount }
    mDisableTemporalReuse := settings.mDisableTemporalReuse
    mLateBSDFApplication := settings.mLateBSDFApplication
    mSeparateAABBStorage := settings.mSeparateAABBStorage
    mEnableDebug := settings.mEnableDebug
    mResetTemporalReuse := p.mResetTemporalReuse || settings.resetTemporalReuse
    mRecomputeEmissiveTriangleList :=
      p.mRecomputeEmissiveTriangleList || settings.recomputeEmissiveTriangleList }

/-- A call that the application makes on the render pass. -/
inductive PassCall where
  | compile (compileData : CompileData)
  | execute (renderData : RenderData)
  | configure (settings : Settings)
deriving DecidableEq, Repr

/-- Effect of one call on the render pass. -/
def PassCall.run (env : PassEnv) (gp : Gpu × ScreenSpaceCaustics) :
    PassCall → Option (Gpu × ScreenSpaceCaustics)
  | .compile compileData => Falcor.compile env gp.1 gp.2 compileData
  | .execute renderData => Falcor.execute env gp.1 gp.2 renderData
  | .configure settings => some (gp.1, Falcor.configure gp.2 settings)

/-- A run of calls on the render pass, in order. -/
def runPass (env : PassEnv) :
    List PassCall → Gpu × ScreenSpaceCaustics → Option (Gpu × ScreenSpaceCaustics)
  | [], gp => some gp
  | c :: cs, gp => (c.run env gp).bind (runPass env cs)

/-- An environment for the concrete scenarios: the example driver and struct sizes of 64,
16 and 256 bytes. -/
def examplePassEnv : PassEnv :=
  { dev := exampleDevice
    sizeofCachingPointData := 64
    sizeofPathToCachingPointData := 16
    sizeofCachingDebugData := 256 }

/-! ## Observations on the commands of a frame -/

/-- Whether a command may write the buffer `b`, identified by its allocation. A clear or
a copy writes its destination; barriers, texture clears, flushes and fence signals write
no buffer; a shader pass or a build is counted as writing every buffer, its bindings not
being represented. -/
def Command.mayWrite (b : Buffer) : Command → Bool
  | .clearUAV buffer _ => buffer.id == b.id
  | .copyResource dst _ => dst.id == b.id
  | .copyBufferRegion dst _ _ _ _ => dst.id == b.id
  | .raytrace _ => true
  | .dispatch _ => true
  | .buildAS _ _ => true
  | .resourceBarrier _ => false
  | .uavBarrier _ => false
  | .clearTexture _ => false
  | .flush => false
  | .gpuSignal => false

/-- The steps of a frame named by the specification. -/
inductive Phase where
  | blasBuild
  | tlasBuild
  | aabbGeneration
  | reuseQuery
  | accumulationClear
  | lightTracing
  | debugReadback
deriving DecidableEq, Repr

/-- The step of the frame that a command carries out, if any; `stats` is the
accumulated-statistics buffer of the current slot. -/
def Command.phase (stats : Buffer) : Command → Option Phase
  | .buildAS d _ =>
    if d.Inputs.Type_ = D3D12_RAYTRACING_ACCELERATION_STRUCTURE_TYPE_BOTTOM_LEVEL then
      some .blasBuild
    else if d.Inputs.Type_ = D3D12_RAYTRACING_ACCELERATION_STRUCTURE_TYPE_TOP_LEVEL then
      some .tlasBuild
    else none
  | .raytrace .generateAABBs => some .aabbGeneration
  | .raytrace .collectionPointReuse => some .reuseQuery
  | .raytrace .lightTracing => some .lightTracing
  | .clearUAV buffer .float4Zero => if buffer.id = stats.id then some .accumulationClear else none
  | .copyBufferRegion _ _ _ _ _ => some .debugReadback
  | _ => none

/-- The steps carried out by a list of commands, in order. -/
def framePhases (stats : Buffer) (cmds : List Command) : List Phase :=
  cmds.filterMap (Command.phase stats)

/-- The order of a frame with caching in the words of the specification: bottom-level
build or refit, top-level rebuild, the optional AABB generation, the reuse query, the
accumulation clear, light tracing, the optional debug readback. -/
def specFramePhases (aabbGeneration debugReadback : Bool) : List Phase :=
  [.blasBuild, .tlasBuild] ++ (if aabbGeneration then [.aabbGeneration] else []) ++
    [.reuseQuery, .accumulationClear, .lightTracing] ++
    (if debugReadback then [.debugReadback] else [])

/-- The order in which `execute` issues the steps of a frame with caching: the AABB
generation (with `mSeparateAABBStorage`), the reuse query (unless the temporal reuse is
reset or disabled), the bottom-level build or refit, the top-level rebuild, the
accumulation clear, light tracing, the debug readback (with `mEnableDebug`). -/
def executeFramePhases (aabbGeneration reuseQuery debugReadback : Bool) : List Phase :=
  (if aabbGeneration then [.aabbGeneration] else []) ++
    (if reuseQuery then [.reuseQuery] else []) ++
    [.blasBuild, .tlasBuild, .accumulationClear, .lightTracing] ++
    (if debugReadback then [.debugReadback] else [])

/-! ## Invariants of the render pass -/

/-- Two buffers, where both exist, are different allocations. -/
def DistinctBuffers (a b : Option Buffer) : Prop :=
  ∀ x y, a = some x → b = some y → x.id ≠ y.id

/-- The buffer `b` is one of the buffers of the two slots or the debug copy of the
statistics. -/
def holdsBuffer (p : ScreenSpaceCaustics) (b : Buffer) : Prop :=
  p.mPerFrameCachingData.1.pAccumulatedStats = some b ∨
  p.mPerFrameCachingData.1.pIndexToPixelMap = some b ∨
  p.mPerFrameCachingData.1.pCachingPointData = some b ∨
  p.mPerFrameCachingData.2.pAccumulatedStats = some b ∨
  p.mPerFrameCachingData.2.pIndexToPixelMap = some b ∨
  p.mPerFrameCachingData.2.pCachingPointData = some b ∨
  p.mpPreviousAccumulatedStats = some b

/-- What holds of the render pass in every state reached from the constructor: the role
index is 0 or 1; every buffer of the slots was allocated before now; the two slots hold
different allocations, and the debug copy of the statistics is neither slot's statistics
buffer; the build inputs of the cache, when it exists, are those written by its
constructor and by `setupBlas`. -/
def PassInvariant (g : Gpu) (p : ScreenSpaceCaustics) : Prop :=
  p.mSelectedFrameCachingData ≤ 1 ∧
  (∀ b, holdsBuffer p b → b.id < g.bufferCount) ∧
  DistinctBuffers p.mPerFrameCachingData.1.pAccumulatedStats
    p.mPerFrameCachingData.2.pAccumulatedStats ∧
  DistinctBuffers p.mPerFrameCachingData.1.pIndexToPixelMap
    p.mPerFrameCachingData.2.pIndexToPixelMap ∧
  DistinctBuffers p.mPerFrameCachingData.1.pCachingPointData
    p.mPerFrameCachingData.2.pCachingPointData ∧
  DistinctBuffers p.mpPreviousAccumulatedStats p.mPerFrameCachingData.1.pAccumulatedStats ∧
  DistinctBuffers p.mpPreviousAccumulatedStats p.mPerFrameCachingData.2.pAccumulatedStats ∧
  (∀ c, p.mpCache = some c →
    TlasInputsAsConstructed c ∧
    c.mBlasData.buildInputs.Type_ = D3D12_RAYTRACING_ACCELERATION_STRUCTURE_TYPE_BOTTOM_LEVEL)

/-- The members that the passes of a frame read are left alone by the start of the
frame. -/
def SameFrameSettings (p q : ScreenSpaceCaustics) : Prop :=
  q.mSelectedFrameCachingData = p.mSelectedFrameCachingData ∧
  q.mPerFrameCachingData.1.pAccumulatedStats = p.mPerFrameCachingData.1.pAccumulatedStats ∧
  q.mPerFrameCachingData.2.pAccumulatedStats = p.mPerFrameCachingData.2.pAccumulatedStats ∧
  q.mpPreviousAccumulatedStats = p.mpPreviousAccumulatedStats ∧
  q.mSharedCustomParams = p.mSharedCustomParams ∧
  q.mSeparateAABBStorage = p.mSeparateAABBStorage ∧
  q.mResetTemporalReuse = p.mResetTemporalReuse ∧
  q.mDisableTemporalReuse = p.mDisableTemporalReuse ∧
  q.mEnableDebug = p.mEnableDebug ∧
  q.mLateBSDFApplication = p.mLateBSDFApplication ∧
  q.mPixelCount = p.mPixelCount

/-- The accumulated-statistics buffer of the slot in the role `current`, the buffer bound
as `statsOutput` of the light-tracing pass by `setTracerData` (lines 1362-1374). -/
def currentAccumulatedStats (p : ScreenSpaceCaustics) : Option Buffer :=
  (pCurrentFrameCachingData p).bind PerFrameCachingData.pAccumulatedStats

/-- A render pass created with caching enabled and the default cache options, on the
example environment. -/
def cachingPass : Gpu × ScreenSpaceCaustics :=
  ScreenSpaceCaustics.create examplePassEnv {} { useCache := true } {}

/-- A frame of 4 x 1 pixels with the colour output bound. -/
def exampleFrame : RenderData :=
  { frameDim := (4, 1), defaultTextureDims := (4, 1) }

/-- The compilation for an output of 4 x 1 pixels. -/
def exampleCompile : CompileData :=
  { defaultTexDims := (4, 1), frameDim := (4, 1) }

/-- The caching pass after `compile` and one frame. -/
def cachingPassAfterFrame : Gpu × ScreenSpaceCaustics :=
  (runPass examplePassEnv [.compile exampleCompile, .execute exampleFrame] cachingPass).getD
    cachingPass

/-- A render pass created with caching disabled, on the example environment. -/
def plainPass : Gpu × ScreenSpaceCaustics :=
  ScreenSpaceCaustics.create examplePassEnv {} {} {}

/-- The plain pass after `compile` for an output of 4 x 2 pixels. -/
def plainPassCompiled : Gpu × ScreenSpaceCaustics :=
  (compile examplePassEnv plainPass.1 plainPass.2
    { defaultTexDims := (4, 2), frameDim := (4, 2) }).getD plainPass

/-- The commands recorded between two states of the render context. -/
def frameCommands (before after : Gpu) : List Command :=
  after.commands.drop before.commands.length

/-- The caching pass after `compile`, the switch to debug mode and one frame. -/
def debugPassAfterFrame : Gpu × ScreenSpaceCaustics :=
  (runPass examplePassEnv
    [.compile exampleCompile, .configure { useCache := true, mEnableDebug := true },
     .execute exampleFrame] cachingPass).getD cachingPass

/-- The debug pass after its second frame. -/
def debugPassAfterSecondFrame : Gpu × ScreenSpaceCaustics :=
  (execute examplePassEnv debugPassAfterFrame.1 debugPassAfterFrame.2 exampleFrame).getD
    debugPassAfterFrame

/-! ## Totality of the linear branch and bounds of the tiled branch -/

/-- Every AABB addressed by the descriptors lies inside the buffer: its 24 bytes start at
or after the first byte of the buffer and end at or before its last byte. -/
def AddressedInside (buf : Buffer) (descs : List GeometryDesc) : Prop :=
  ∀ (i j : Nat) (d : GeometryDesc), descs[i]? = some d → j < d.AABBCount →
    buf.gpuAddress ≤ d.aabbAddress j ∧
    d.aabbAddress j + sizeofAABB ≤ buf.gpuAddress + buf.size

/-- The fresh default cache after `allocate` on the domain 64 x 2 (tiled policy: no big
tile, one fill tile). -/
def smallTiledCache : Gpu × CachingViaBVH :=
  (allocate exampleDevice freshCache.1 freshCache.2 (64, 2)).getD freshCache

/-! ## The render pass ScreenSpaceCaustics: selection of the emissive material -/

/-- A material of the scene as `computerEmissionMaterialIndex` reads it: the results of
`getName()` and `isEmissive()`. -/
structure Material where
  name : String
  isEmissive : Bool
deriving DecidableEq, Repr

/-- The members of the class `ScreenSpaceCaustics` that `computerEmissionMaterialIndex`
reads and assigns; `mpScene` holds the materials of the scene in the order of
`getMaterials()`, `none` for a null pointer. -/
structure EmissionSelection where
  mpScene : Option (List Material) := none
  mEmissiveMaterialName : String := ""
  mRestrictEmissionByMaterials : Bool := false
  mSelectedEmissiveMaterialIndex : Nat := 0
  mRecomputeEmissiveTriangleList : Bool := false
deriving DecidableEq, Repr

/-- The constant `invalidIndex` of `computerEmissionMaterialIndex`:
`std::numeric_limits<uint32_t>::max()`. -/
def invalidIndex : Nat := 4294967295

/-- The loop of `computerEmissionMaterialIndex` (lines 1039-1047): the pair of
`materialIndex` and `currentMaterialIndex` after the loop. The warning logged for a second
match is not represented. -/
def findEmissiveMaterial (name : String) (materials : List Material) : Nat × Nat :=
  materials.foldl
    (fun (acc : Nat × Nat) (material : Material) =>
      let materialIndex :=
        if name = material.name && material.isEmissive then
          if acc.1 = invalidIndex then acc.2 else acc.1
        else acc.1
      (materialIndex, u32 (acc.2 + 1)))
    (invalidIndex, 0)

/-- The method `ScreenSpaceCaustics::computerEmissionMaterialIndex` (lines 1028-1058). -/
def computerEmissionMaterialIndex (p : EmissionSelection) : EmissionSelection :=
  match p.mpScene with
  | none => { p with mRestrictEmissionByMaterials := false }
  | some materials =>
    if p.mEmissiveMaterialName.isEmpty then { p with mRestrictEmissionByMaterials := false }
    else
      let materialIndex := (findEmissiveMaterial p.mEmissiveMaterialName materials).1
      if materialIndex = invalidIndex then { p with mRestrictEmissionByMaterials := false }
      else
        { p with
          mRecomputeEmissiveTriangleList :=
            (p.mSelectedEmissiveMaterialIndex == materialIndex) || p.mRecomputeEmissiveTriangleList
          mSelectedEmissiveMaterialIndex := materialIndex }

/-- A scene with the materials "Floor" (not emissive) and "Lamp" (emissive), the name
"Lamp" requested, material 0 selected so far and no recomputation pending. -/
def lampSelection : EmissionSelection :=
  { mpScene := some [{ name := "Floor", isEmissive := false }, { name := "Lamp", isEmissive := true }]
    mEmissiveMaterialName := "Lamp"
    mRestrictEmissionByMaterials := true
    mSelectedEmissiveMaterialIndex := 0
    mRecomputeEmissiveTriangleList := false }

/-! ## CachingViaBVH: the GUI and the program defines -/

/-- The argument `Gui::Widgets& widget` of `renderUI`. The widget class is not part of
these files and enters as a parameter: `checkbox label value` and
`var label value bounds` give the value that the call leaves in the variable passed by
reference and the Boolean that it returns; `bounds` holds the minimum and the maximum
passed to `var`, `none` when the call passes none. -/
structure Widgets where
  checkbox : String → Bool → Bool × Bool
  var : String → Nat → Option (Nat × Nat) → Nat × Bool

/-- The widgets of `CachingViaBVH::renderUI` (lines 68-89): the state with the values they
leave in the options and in the group size, and the value of `dirty`. The tooltips and
the mark drawn next to "Use tiling" are not represented. -/
def renderWidgets (s : CachingViaBVH) (widget : Widgets) : CachingViaBVH × Bool :=
  let dirty := false
  let r := widget.checkbox "Allow refit" s.mOptions.allowRefit
  let s := { s with mOptions := { s.mOptions with allowRefit := r.1 } }
  let dirty := r.2 || dirty
  let r := widget.checkbox "Rebuild on schedule" s.mOptions.rebuildOnSchedule
  let s := { s with mOptions := { s.mOptions with rebuildOnSchedule := r.1 } }
  let r := widget.var "Allowed consecutive refits" s.mOptions.consecutiveRefitCount (some (0, 50))
  let s := { s with mOptions := { s.mOptions with consecutiveRefitCount := r.1 } }
  let r := widget.checkbox "Use tiling" s.mOptions.useTiling
  let s := { s with mOptions := { s.mOptions with useTiling := r.1 } }
  let dirty := (r.2 && s.mCanUseTiling) || dirty
  let r := widget.var "AABBs per geometry" s.mAabbPerGeometry none
  let s := { s with mAabbPerGeometry := r.1 }
  let dirty := r.2 || dirty
  (s, dirty)

/-- The method `CachingViaBVH::renderUI` (lines 66-98): the new state and the returned
value of `dirty`. -/
def renderUI (dev : Device) (s : CachingViaBVH) (widget : Widgets) :
    Option (CachingViaBVH × Bool) :=
  let r := renderWidgets s widget
  if r.2 then (setupBlas dev r.1).map fun s => ({ s with mRequireRebuild := true }, true)
  else some (r.1, false)

/-- The defines that `CachingViaBVH::prepareProgram` passes to `Program::addDefines`
(lines 56-63), in order; `std::to_string` of an unsigned value is its decimal
representation. -/
def prepareProgram (s : CachingViaBVH) : List (String × String) :=
  [("CACHING_USE_TILING", if s.mOptions.useTiling && s.mCanUseTiling then "1" else "0"),
   ("CACHING_BIG_TILE_X", toString mBigTileSize.1),
   ("CACHING_BIG_TILE_Y", toString mBigTileSize.2),
   ("CACHING_FILL_TILE_X", toString mFillTileSize.1),
   ("CACHING_FILL_TILE_Y", toString mFillTileSize.2),
   ("CACHING_AABB_PER_GEOMETRY", toString s.mAabbPerGeometry)]

/-- A call of the public interface of `CachingViaBVH` that changes its state, the GUI
included. -/
inductive CacheCall where
  | allocate (aabbCount : Nat × Nat)
  | renderUI (widget : Widgets)
  | update (totalHitVarsCount : Nat) (forceRebuild : Bool)

/-- Effect of one call of the interface. -/
def CacheCall.run (dev : Device) (gs : Gpu × CachingViaBVH) :
    CacheCall → Option (Gpu × CachingViaBVH)
  | .allocate aabbCount => Falcor.allocate dev gs.1 gs.2 aabbCount
  | .renderUI widget => (Falcor.renderUI dev gs.2 widget).map fun r => (gs.1, r.1)
  | .update totalHitVarsCount forceRebuild =>
    Falcor.update dev gs.1 gs.2 totalHitVarsCount forceRebuild

/-- A run of calls of the interface, in order. -/
def runCacheCalls (dev : Device) :
    List CacheCall → Gpu × CachingViaBVH → Option (Gpu × CachingViaBVH)
  | [], gs => some gs
  | c :: cs, gs => (c.run dev gs).bind (runCacheCalls dev cs)

/-- What `renderUI` relies on in its widgets: a call that changes the variable passed to it
returns true. -/
def Widgets.ReportsChanges (widget : Widgets) : Prop :=
  (∀ (label : String) (value : Bool),
    (widget.checkbox label value).1 ≠ value → (widget.checkbox label value).2 = true) ∧
  (∀ (label : String) (value : Nat) (bounds : Option (Nat × Nat)),
    (widget.var label value bounds).1 ≠ value → (widget.var label value bounds).2 = true)

/-- The widgets of a call, if it has any, report the changes they make. -/
def CacheCall.ReportsChanges : CacheCall → Prop
  | .renderUI widget => widget.ReportsChanges
  | _ => True

/-- The build was recorded with `ALLOW_UPDATE`. -/
def BuildDesc.allowsUpdate (d : BuildDesc) : Bool :=
  d.Inputs.Flags &&& D3D12_RAYTRACING_ACCELERATION_STRUCTURE_BUILD_FLAG_ALLOW_UPDATE != 0

/-- The build that produced the existing bottom-level hierarchy: the last bottom-level
build on the command list. -/
def existingBlasBuild (cmds : List Command) : Option BuildDesc :=
  (blasBuilds cmds).getLast?

/-- Widgets that the user leaves alone: no variable changes and every call returns
false. -/
def idleWidgets : Widgets :=
  { checkbox := fun _ value => (value, false)
    var := fun _ value _ => (value, false) }

/-- Widgets in which the user clicks the checkbox with the given label and leaves the
rest alone. -/
def clickWidgets (clicked : String) : Widgets :=
  { checkbox := fun label value => if label = clicked then (!value, true) else (value, false)
    var := fun _ value _ => (value, false) }

/-- Widgets in which the user enters `entered` into the numeric field with the given
label and leaves the rest alone. -/
def enterWidgets (field : String) (entered : Nat) : Widgets :=
  { checkbox := fun _ value => (value, false)
    var := fun label value _ => if label = field then (entered, true) else (value, false) }

/-- What holds of the cache in every state reached from the constructor by `allocate`,
`renderUI` and `update`: the top-level inputs are those of the constructor; once the AABB
buffer exists, the bottom-level inputs and the descriptors are those that `setupBlas`
derives from the current options, domain and group size; and while no rebuild is pending,
the existing bottom-level hierarchy was built into the current result buffer with
`ALLOW_UPDATE` exactly when `allowRefit` is set. -/
def CacheInvariant (g : Gpu) (s : CachingViaBVH) : Prop :=
  TlasInputsAsConstructed s ∧
  (∀ buf, s.mpAABBBuffer = some buf →
    s.mBlasData.buildInputs.Type_ = D3D12_RAYTRACING_ACCELERATION_STRUCTURE_TYPE_BOTTOM_LEVEL ∧
    s.mBlasData.buildInputs.Flags =
      (if s.mOptions.allowRefit then
        D3D12_RAYTRACING_ACCELERATION_STRUCTURE_BUILD_FLAG_PREFER_FAST_TRACE |||
          D3D12_RAYTRACING_ACCELERATION_STRUCTURE_BUILD_FLAG_ALLOW_UPDATE
       else D3D12_RAYTRACING_ACCELERATION_STRUCTURE_BUILD_FLAG_PREFER_FAST_TRACE) ∧
    s.mAabbCount.1 < 4294967296 ∧
    setupBlasGeometry s = some s.mBlasData.geomDescs) ∧
  (s.mRequireRebuild = false → ∀ b, s.mBlasData.pBlas = some b →
    ∃ d, existingBlasBuild g.commands = some d ∧
      d.DestAccelerationStructureData = b.gpuAddress ∧
      d.allowsUpdate = s.mOptions.allowRefit)

/-- The built default cache (domain 4 x 1) after a `renderUI` call in which the user
enters 2 into "AABBs per geometry": two descriptors of 2 AABBs, rebuild pending. -/
def regroupedCache : CachingViaBVH :=
  ((renderUI exampleDevice builtCache.2 (enterWidgets "AABBs per geometry" 2)).map Prod.fst).getD
    builtCache.2

/-- The fresh default cache after `allocate` on the domain 64 x 32 and a `renderUI` call in
which the user clicks "Use tiling". -/
def untiledCache : Gpu × CachingViaBVH :=
  (runCacheCalls exampleDevice [.allocate (64, 32), .renderUI (clickWidgets "Use tiling")]
    freshCache).getD freshCache

/-- The stored geometry descriptors are the ones that the tiled branch of `setupBlas`
produces in the current state, and `setupBlas` selects that branch. -/
def ProducedByTiledBranch (s : CachingViaBVH) : Prop :=
  ∃ buf, s.mpAABBBuffer = some buf ∧ (s.mOptions.useTiling && s.mCanUseTiling) = true ∧
    setupBlasTiled s (some buf.gpuAddress) = some s.mBlasData.geomDescs

/-- The stored geometry descriptors are the ones that the linear branch of `setupBlas`
produces in the current state with the group size `N`, and `setupBlas` selects that
branch. -/
def ProducedByLinearBranch (s : CachingViaBVH) (N : Nat) : Prop :=
  ∃ buf, s.mpAABBBuffer = some buf ∧ (s.mOptions.useTiling && s.mCanUseTiling) = false ∧
    s.mAabbPerGeometry = N ∧
    setupBlasLinear s (some buf.gpuAddress) = some s.mBlasData.geomDescs

/-! ## PathDebug: frames, the read fence and the read-back of the path descriptions

An embedding of `Source/Falcor/Utils/Debug/PathDebug.{h,cpp}`. Floating-point members
(colours, scales, the selected origin, hit point and direction) and the matrices written
by `fillInstanceData` are not represented; of a `PathDebugDescription` only the field
`pathLength` is. What the GPU has written to the staging buffer enters as a parameter
`content`, the `pathLength` of each element. A call returns the events it gives rise to,
in order; undefined behaviour and failed assertions end it with a `Fault`. -/

/-- The struct `PathDebugSegmentID`; both fields are `uint32_t`. -/
structure PathDebugSegmentID where
  pathIndex : Nat := 0
  segmentIndex : Nat := 0
deriving DecidableEq, Repr

/-- The driver and the value of `sizeof(PathDebugDescription)`, a struct declared in
`PathDebugData.slang`, outside these files. -/
structure DebugEnv where
  dev : Device
  sizeofPathDebugDescription : Nat

/-- How a call ends when it does not complete: a null pointer is dereferenced, memory is
accessed past the end of a buffer, or an assertion fails. -/
inductive Fault where
  | nullPointer
  | outOfBounds
  | assertion
deriving DecidableEq, Repr

/-- Decidable equality of results, for the evaluation of concrete runs. -/
instance exceptDecidableEq {ε α : Type} [DecidableEq ε] [DecidableEq α] :
    DecidableEq (Except ε α) := fun a b =>
  match a, b with
  | .ok x, .ok y => if h : x = y then isTrue (by rw [h]) else isFalse (fun e => h (by cases e; rfl))
  | .error x, .error y =>
    if h : x = y then isTrue (by rw [h]) else isFalse (fun e => h (by cases e; rfl))
  | .ok _, .error _ => isFalse (fun e => by cases e)
  | .error _, .ok _ => isFalse (fun e => by cases e)

/-- What `PathDebug` does on the render context, on the read fence and on mapped memory:
the dispatch of the clearing program, `copyBufferRegion`, `flush(wait)`, the signal of
`mpReadFence` on the command queue, the blocking wait `mpReadFence->syncCpu()`, the read
by the CPU of element `index` of the mapped staging buffer of the path descriptions, the
write by the CPU of element `index` of the two mapped instance staging buffers, and the
draw call. -/
inductive DebugEvent where
  | dispatchClearing
  | copyBufferRegion (dst src : Buffer) (numBytes : Nat)
  | flush (wait : Bool)
  | gpuSignal
  | syncCpu
  | readDescription (index : Nat)
  | writeInstance (index : Nat)
  | drawIndexedInstanced (indexCount instanceCount : Nat)
deriving DecidableEq, Repr

/-- The buffers and counts of the member `mRasteriser`; programs, states, the vertex
array and the vertex and index buffers of `updateVAO` are not represented. -/
structure Rasteriser where
  pRayCoordsBuffer : Option Buffer := none
  pRayCoordsStagingBuffer : Option Buffer := none
  pMatrixBuffer : Option Buffer := none
  pMatrixStagingBuffer : Option Buffer := none
  indexCount : Nat := 0
  instanceCount : Nat := 0
deriving DecidableEq, Repr

/-- The members of the class `PathDebug`; `mpScene`, `mpReadFence` and `mpWriteFence`
record whether the pointer is set. -/
structure PathDebug where
  mpScene : Bool := false
  mpPathDescription : Option Buffer := none
  mpPathDescriptionStaging : Option Buffer := none
  mpReadFence : Bool := false
  mpWriteFence : Bool := false
  mEnabled : Bool := false
  mAutomaticUpdates : Bool := true
  mUpdateInstanceData : Bool := true
  mVisualizePaths : Bool := true
  mHideLastSegment : Bool := false
  mSelectedSegmentID : PathDebugSegmentID := {}
  mSegmentIDLimits : PathDebugSegmentID := {}
  mRunning : Bool := false
  mWaitingForData : Bool := false
  mDataValid : Bool := false
  mHasDepthBuffer : Bool := false
  mHasColorOutput : Bool := false
  mSelectedPathLength : Nat := 0
  mSelectedSegmentHasHit : Bool := false
  mRasteriser : Rasteriser := {}
deriving DecidableEq, Repr

/-- The constant `kRayIndexCount`. -/
def kRayIndexCount : Nat := (12 + 6) * 3

/-- The represented members that the constructor reads from the dictionary
(`serializePass`). -/
structure PathDebugSettings where
  mEnabled : Bool := false
  mVisualizePaths : Bool := true
  mHideLastSegment : Bool := false
deriving DecidableEq, Repr

/-- The constructor `PathDebug::PathDebug(dict)`: the settings of the dictionary, and the
index count set by `updateVAO`. -/
def PathDebug.create (settings : PathDebugSettings) : PathDebug :=
  { mEnabled := settings.mEnabled
    mVisualizePaths := settings.mVisualizePaths
    mHideLastSegment := settings.mHideLastSegment
    mRasteriser := { indexCount := kRayIndexCount } }

/-- The method `PathDebug::setScene`. -/
def PathDebug.setScene (d : PathDebug) (scene : Bool) : PathDebug :=
  { d with mpScene := scene }

/-- The pattern of `beginFrame` (lines 172-207) for one buffer: it is replaced by a new
one of `count` elements when it does not exist or holds fewer elements. -/
def ensureElements (dev : Device) (g : Gpu) (current : Option Buffer) (structSize count : Nat) :
    Gpu × Buffer :=
  match current with
  | none => Buffer.createStructured dev g structSize count
  | some b =>
    if b.elementCount < count then Buffer.createStructured dev g structSize count else (g, b)

/-- The method `PathDebug::beginFrame`; the attachments enter through whether they are
non-null. `sizeof(glm::mat4x3)` is 48 and an element of a `uint2` buffer has 8 bytes. The
grid size of the clearing dispatch is not represented. -/
def PathDebug.beginFrame (env : DebugEnv) (g : Gpu) (d : PathDebug)
    (segmentIDLimits : PathDebugSegmentID) (geometryAttachment colorAttachment : Bool) :
    Gpu × PathDebug × List DebugEvent :=
  if d.mRunning then (g, d, []) else
  let d := { d with
    mRunning := true, mDataValid := false, mWaitingForData := false
    mSegmentIDLimits := segmentIDLimits }
  if d.mSegmentIDLimits.pathIndex = 0 ∨ d.mSegmentIDLimits.segmentIndex = 0 then (g, d, []) else
  let d := { d with mHasDepthBuffer := geometryAttachment, mHasColorOutput := colorAttachment }
  let maxSegmentCount := u32 (d.mSegmentIDLimits.pathIndex * d.mSegmentIDLimits.segmentIndex)
  let maxVertexCount := u32 (maxSegmentCount + d.mSegmentIDLimits.pathIndex)
  let description :=
    ensureElements env.dev g d.mpPathDescription env.sizeofPathDebugDescription maxVertexCount
  let staging := ensureElements env.dev description.1 d.mpPathDescriptionStaging
    env.sizeofPathDebugDescription maxVertexCount
  let matrix := ensureElements env.dev staging.1 d.mRasteriser.pMatrixBuffer 48 maxSegmentCount
  let matrixStaging :=
    ensureElements env.dev matrix.1 d.mRasteriser.pMatrixStagingBuffer 48 maxSegmentCount
  let rayCoords :=
    ensureElements env.dev matrixStaging.1 d.mRasteriser.pRayCoordsBuffer 8 maxSegmentCount
  let rayCoordsStaging :=
    ensureElements env.dev rayCoords.1 d.mRasteriser.pRayCoordsStagingBuffer 8 maxSegmentCount
  (rayCoordsStaging.1,
   { d with
     mpPathDescription := some description.2
     mpPathDescriptionStaging := some staging.2
     mRasteriser :=
       { d.mRasteriser with
         pMatrixBuffer := some matrix.2
         pMatrixStagingBuffer := some matrixStaging.2
         pRayCoordsBuffer := some rayCoords.2
         pRayCoordsStagingBuffer := some rayCoordsStaging.2 }
     mpReadFence := true
     mpWriteFence := true },
   [.dispatchClearing])

/-- The wait of `fillInstanceData` and `copyDataToCPU` (lines 399-404 and 471-476). -/
def awaitData (d : PathDebug) : Except Fault (PathDebug × List DebugEvent) :=
  if d.mWaitingForData then
    if d.mpReadFence then .ok ({ d with mWaitingForData := false }, [.syncCpu])
    else .error .nullPointer
  else .ok (d, [])

/-- The lambda `processSegment` of `fillInstanceData` with the pointers `pOrigin` and
`pEnd` of its call (lines 413-433 and 444-446): the accesses and the returned Boolean. -/
def processSegment (d : PathDebug) (staging coords matrices : Buffer) (content : Nat → Nat)
    (pathIndex segmentIndex instanceIndex : Nat) : Except Fault (List DebugEvent × Bool) :=
  let origin := pathIndex + segmentIndex * d.mSegmentIDLimits.pathIndex
  let endPoint := origin + d.mSegmentIDLimits.pathIndex
  if endPoint < staging.elementCount then
    let hasHit := (content endPoint &&& 2147483648) == 0
    if !hasHit && d.mHideLastSegment then .ok ([.readDescription endPoint], false)
    else if origin < staging.elementCount then
      if instanceIndex < coords.elementCount ∧ instanceIndex < matrices.elementCount then
        .ok ([.readDescription endPoint, .readDescription origin, .writeInstance instanceIndex],
          true)
      else .error .outOfBounds
    else .error .outOfBounds
  else .error .outOfBounds

/-- The inner loop of `fillInstanceData` (lines 442-451) over the remaining segment
indices; the state is the events so far and `instanceIndex`. -/
def fillSegments (d : PathDebug) (staging coords matrices : Buffer) (content : Nat → Nat)
    (pathIndex segmentCount : Nat) :
    List Nat → List DebugEvent × Nat → Except Fault (List DebugEvent × Nat)
  | [], acc => .ok acc
  | segmentIndex :: rest, acc =>
    match processSegment d staging coords matrices content pathIndex segmentIndex acc.2 with
    | .error e => .error e
    | .ok r =>
      if r.2 || u32 (segmentIndex + 1) == segmentCount then
        fillSegments d staging coords matrices content pathIndex segmentCount rest
          (acc.1 ++ r.1, if r.2 then u32 (acc.2 + 1) else acc.2)
      else .error .assertion

/-- The outer loop of `fillInstanceData` (lines 435-452) over the remaining path
indices. -/
def fillPaths (d : PathDebug) (staging coords matrices : Buffer) (content : Nat → Nat) :
    List Nat → List DebugEvent × Nat → Except Fault (List DebugEvent × Nat)
  | [], acc => .ok acc
  | pathIndex :: rest, acc =>
    if pathIndex < staging.elementCount then
      let pathLength := content pathIndex
      let acc := (acc.1 ++ [.readDescription pathIndex], acc.2)
      if pathLength > 0 then
        let segmentCount := min pathLength d.mSegmentIDLimits.segmentIndex
        match fillSegments d staging coords matrices content pathIndex segmentCount
            (List.range segmentCount) acc with
        | .error e => .error e
        | .ok acc => fillPaths d staging coords matrices content rest acc
      else fillPaths d staging coords matrices content rest acc
    else .error .outOfBounds

/-- The method `PathDebug::fillInstanceData`: the state, the returned instance count and
the events. -/
def PathDebug.fillInstanceData (d : PathDebug) (content : Nat → Nat) :
    Except Fault (PathDebug × Nat × List DebugEvent) :=
  if d.mRunning then .error .assertion else
  match awaitData d with
  | .error e => .error e
  | .ok w =>
    match w.1.mpPathDescriptionStaging, w.1.mRasteriser.pRayCoordsStagingBuffer,
        w.1.mRasteriser.pMatrixStagingBuffer with
    | some staging, some coords, some matrices =>
      match fillPaths w.1 staging coords matrices content
          (List.range w.1.mSegmentIDLimits.pathIndex) (w.2, 0) with
      | .error e => .error e
      | .ok acc => .ok (w.1, acc.2, acc.1)
    | _, _, _ => .error .nullPointer

/-- The method `PathDebug::copyDataToCPU`. -/
def PathDebug.copyDataToCPU (d : PathDebug) (content : Nat → Nat) :
    Except Fault (PathDebug × List DebugEvent) :=
  if d.mRunning then .error .assertion else
  if d.mSelectedSegmentID.pathIndex ≥ d.mSegmentIDLimits.pathIndex ∨
      d.mSelectedSegmentID.segmentIndex ≥ d.mSegmentIDLimits.segmentIndex then
    .ok ({ d with mDataValid := false }, [])
  else
    match awaitData d with
    | .error e => .error e
    | .ok w =>
      if w.1.mEnabled then
        match w.1.mpPathDescriptionStaging with
        | none => .error .nullPointer
        | some staging =>
          if w.1.mSelectedSegmentID.pathIndex < staging.elementCount then
            let selectedPathLength :=
              min (content w.1.mSelectedSegmentID.pathIndex) w.1.mSegmentIDLimits.segmentIndex
            let segmentIndex :=
              min w.1.mSelectedSegmentID.segmentIndex (u32 (selectedPathLength + 4294967296 - 1))
            let linearIndex :=
              w.1.mSelectedSegmentID.pathIndex + segmentIndex * w.1.mSegmentIDLimits.pathIndex
            if linearIndex + w.1.mSegmentIDLimits.pathIndex < staging.elementCount then
              .ok ({ w.1 with
                     mSelectedSegmentID :=
                       { w.1.mSelectedSegmentID with segmentIndex := segmentIndex }
                     mSelectedPathLength := selectedPathLength
                     mSelectedSegmentHasHit :=
                       (content (linearIndex + w.1.mSegmentIDLimits.pathIndex) &&& 2147483648) == 0
                     mDataValid := true },
                   w.2 ++ [.readDescription w.1.mSelectedSegmentID.pathIndex,
                     .readDescription linearIndex,
                     .readDescription (linearIndex + w.1.mSegmentIDLimits.pathIndex)])
            else .error .outOfBounds
          else .error .outOfBounds
      else .ok w

/-- The lambda `copyBuffer` of `endFrame` (lines 244-251). -/
def copyBuffer (dst src : Option Buffer) : Except Fault DebugEvent :=
  match dst, src with
  | some dst, some src =>
    if src.size = dst.size then .ok (.copyBufferRegion dst src dst.size) else .error .assertion
  | _, _ => .error .nullPointer

/-- The read-back that `endFrame` requests with automatic updates (lines 253-259): the
copy to the staging buffer, the flush, the signal of the read fence, and the flag
`mWaitingForData`. -/
def signalReadback (d : PathDebug) : Except Fault (PathDebug × List DebugEvent) :=
  if d.mAutomaticUpdates then
    match copyBuffer d.mpPathDescriptionStaging d.mpPathDescription with
    | .error e => .error e
    | .ok copy =>
      if d.mpReadFence then
        .ok ({ d with mWaitingForData := true }, [copy, .flush false, .gpuSignal])
      else .error .nullPointer
  else .ok (d, [])

/-- Lines 264-265 of `endFrame`: the flush when there are no automatic updates, and the
instance data when `mUpdateInstanceData` is set. -/
def refreshInstanceData (d : PathDebug) (content : Nat → Nat) :
    Except Fault (PathDebug × List DebugEvent) :=
  let events : List DebugEvent := if !d.mAutomaticUpdates then [.flush false] else []
  if d.mUpdateInstanceData then
    match d.fillInstanceData content with
    | .error e => .error e
    | .ok r =>
      .ok ({ r.1 with mRasteriser := { r.1.mRasteriser with instanceCount := r.2.1 } },
        events ++ r.2.2)
  else .ok (d, events)

/-- The drawing of the paths in `endFrame` (lines 264-287). -/
def renderPaths (d : PathDebug) (content : Nat → Nat) :
    Except Fault (PathDebug × List DebugEvent) :=
  match refreshInstanceData d content with
  | .error e => .error e
  | .ok r =>
    match copyBuffer r.1.mRasteriser.pRayCoordsBuffer r.1.mRasteriser.pRayCoordsStagingBuffer with
    | .error e => .error e
    | .ok copyCoords =>
      match copyBuffer r.1.mRasteriser.pMatrixBuffer r.1.mRasteriser.pMatrixStagingBuffer with
      | .error e => .error e
      | .ok copyMatrices =>
        let events := r.2 ++ [copyCoords, copyMatrices, .flush true]
        if r.1.mRasteriser.indexCount ≠ 0 then
          if r.1.mpScene then
            .ok (r.1, events ++
              [.drawIndexedInstanced r.1.mRasteriser.indexCount r.1.mRasteriser.instanceCount])
          else .error .nullPointer
        else .ok (r.1, events)

/-- The method `PathDebug::endFrame`. -/
def PathDebug.endFrame (d : PathDebug) (selectedSegmentID : PathDebugSegmentID)
    (content : Nat → Nat) : Except Fault (PathDebug × List DebugEvent) :=
  if !d.mRunning then .ok (d, []) else
  let d := { d with mRunning := false }
  if !d.mEnabled then .ok (d, []) else
  let d := { d with mSelectedSegmentID := selectedSegmentID }
  match signalReadback d with
  | .error e => .error e
  | .ok s =>
    if !(s.1.mHasColorOutput && s.1.mVisualizePaths) then .ok s else
    match renderPaths s.1 content with
    | .error e => .error e
    | .ok r => .ok (r.1, s.2 ++ r.2)

/-- The widgets of `PathDebug::renderUI` for the represented members (lines 95-105). -/
def PathDebug.applyWidgets (d : PathDebug) (widget : Widgets) : PathDebug :=
  let d := { d with mEnabled := (widget.checkbox "Enable path debugging" d.mEnabled).1 }
  if d.mEnabled then
    let d := { d with
      mAutomaticUpdates := (widget.checkbox "Live updates" d.mAutomaticUpdates).1 }
    let d := { d with
      mUpdateInstanceData := (widget.checkbox "Update instance data" d.mUpdateInstanceData).1 }
    let d := { d with mVisualizePaths := (widget.checkbox "Visualize paths" d.mVisualizePaths).1 }
    if d.mVisualizePaths then
      { d with
        mHideLastSegment := (widget.checkbox "Hide rays which missed" d.mHideLastSegment).1 }
    else d
  else d

/-- The method `PathDebug::renderUI`: the widgets and, with path debugging enabled, the
call of `copyDataToCPU`. The returned value of `dirty` depends on widgets for members
that are not represented and is left out. -/
def PathDebug.renderUI (d : PathDebug) (widget : Widgets) (content : Nat → Nat) :
    Except Fault (PathDebug × List DebugEvent) :=
  if d.mRunning then .ok (d, []) else
  let d := d.applyWidgets widget
  if d.mEnabled then d.copyDataToCPU content else .ok (d, [])

/-- A call of the public interface of `PathDebug` that changes its state; `content` is
what the staging buffer holds when the call reads it. -/
inductive DebugCall where
  | setScene (scene : Bool)
  | beginFrame (segmentIDLimits : PathDebugSegmentID) (geometryAttachment colorAttachment : Bool)
  | endFrame (selectedSegmentID : PathDebugSegmentID) (content : Nat → Nat)
  | renderUI (widget : Widgets) (content : Nat → Nat)

/-- Effect of one call: the new state and the events of the call. -/
def DebugCall.run (env : DebugEnv) (gd : Gpu × PathDebug) :
    DebugCall → Except Fault (Gpu × PathDebug × List DebugEvent)
  | .setScene scene => .ok (gd.1, gd.2.setScene scene, [])
  | .beginFrame segmentIDLimits geometryAttachment colorAttachment =>
    .ok (gd.2.beginFrame env gd.1 segmentIDLimits geometryAttachment colorAttachment)
  | .endFrame selectedSegmentID content =>
    match gd.2.endFrame selectedSegmentID content with
    | .error e => .error e
    | .ok r => .ok (gd.1, r.1, r.2)
  | .renderUI widget content =>
    match gd.2.renderUI widget content with
    | .error e => .error e
    | .ok r => .ok (gd.1, r.1, r.2)

/-- A run of calls, in order, with the events of all of them. -/
def runDebug (env : DebugEnv) :
    List DebugCall → Gpu × PathDebug → Except Fault (Gpu × PathDebug × List DebugEvent)
  | [], gd => .ok (gd.1, gd.2, [])
  | c :: cs, gd =>
    match c.run env gd with
    | .error e => .error e
    | .ok r =>
      match runDebug env cs (r.1, r.2.1) with
      | .error e => .error e
      | .ok r2 => .ok (r2.1, r2.2.1, r.2.2 ++ r2.2.2)

/-- Whether a signal of the read fence is still not waited on after the events, given
whether one was before them. -/
def signalPending (pending : Bool) : List DebugEvent → Bool
  | [] => pending
  | .gpuSignal :: rest => signalPending true rest
  | .syncCpu :: rest => signalPending false rest
  | _ :: rest => signalPending pending rest

/-- The indices of the staging buffer that the CPU reads while a signal of the read fence
is not yet waited on. -/
def unsynchronisedReads (pending : Bool) : List DebugEvent → List Nat
  | [] => []
  | .gpuSignal :: rest => unsynchronisedReads true rest
  | .syncCpu :: rest => unsynchronisedReads false rest
  | .readDescription index :: rest =>
    if pending then index :: unsynchronisedReads pending rest
    else unsynchronisedReads pending rest
  | _ :: rest => unsynchronisedReads pending rest

/-- An environment for the concrete scenarios: the example driver and a description of 16
bytes. -/
def exampleDebugEnv : DebugEnv :=
  { dev := exampleDevice, sizeofPathDebugDescription := 16 }

/-- A staging buffer in which every path has one segment that hit a surface. -/
def onePathContent : Nat → Nat := fun _ => 1

/-- The event is an access of the CPU to mapped memory. -/
def DebugEvent.isAccess : DebugEvent → Bool
  | .readDescription _ => true
  | .writeInstance _ => true
  | _ => false

/-- The events of a completed run, `none` for a run that ends with a fault. -/
def eventsOf (r : Except Fault (Gpu × PathDebug × List DebugEvent)) : Option (List DebugEvent) :=
  match r with
  | .ok x => some x.2.2
  | .error _ => none

/-- The state after a run of calls; the initial state when the run ends with a fault. -/
def debugStateAfter (env : DebugEnv) (calls : List DebugCall) (gd : Gpu × PathDebug) :
    Gpu × PathDebug :=
  match runDebug env calls gd with
  | .ok r => (r.1, r.2.1)
  | .error _ => gd

/-- A run in which a read-back is signalled and never waited on: path debugging is
enabled from the dictionary; a frame without colour attachment ends with the signal; the
user switches path debugging off; a second frame resets the flag in `beginFrame` and
ends without a signal; the user switches path debugging on again, and `renderUI` reads
the staging buffer. -/
def staleReadCalls : List DebugCall :=
  [.beginFrame { pathIndex := 1, segmentIndex := 1 } false false,
   .endFrame {} onePathContent,
   .renderUI (clickWidgets "Enable path debugging") onePathContent,
   .beginFrame { pathIndex := 1, segmentIndex := 1 } false false,
   .endFrame {} onePathContent,
   .renderUI (clickWidgets "Enable path debugging") onePathContent]

/-- The state after one frame with the limits (1, 1) and no colour attachment, path
debugging enabled from the dictionary: `endFrame` has signalled the read fence and
nothing has waited on it. -/
def signalledDebug : PathDebug :=
  (debugStateAfter exampleDebugEnv
    [.beginFrame { pathIndex := 1, segmentIndex := 1 } false false, .endFrame {} onePathContent]
    ({}, PathDebug.create { mEnabled := true })).2

/-- The state `signalledDebug` after a `copyDataToCPU`, which waits on the fence. -/
def waitedDebug : PathDebug :=
  match signalledDebug.copyDataToCPU onePathContent with
  | .ok r => r.1
  | .error _ => signalledDebug

/-- The index of an access is below `reads` for a read of the staging buffer of the
path descriptions and below `writes` for a write of the instance staging buffers. -/
def DebugEvent.inBounds (reads writes : Nat) : DebugEvent → Bool
  | .readDescription index => decide (index < reads)
  | .writeInstance index => decide (index < writes)
  | _ => true

/-- The three staging buffers hold the element counts that `beginFrame` computes for the
limits (P, S): P * S + P descriptions, P * S ray coordinates and P * S matrices. -/
def BuffersHold (staging coords matrices : Buffer) (P S : Nat) : Prop :=
  P * S + P ≤ staging.elementCount ∧ P * S ≤ coords.elementCount ∧
    P * S ≤ matrices.elementCount

/-- Outcome of a loop of `fillInstanceData`: a completed loop satisfies `Q`; with the
buffers of `beginFrame` in place (`big`) the only fault is the assertion of line 447, and
only when `mHideLastSegment` is set. -/
def SafeOutcome {α : Type} (big : Prop) (hide : Bool) (Q : α → Prop) : Except Fault α → Prop
  | .ok a => Q a
  | .error f => big → f = .assertion ∧ hide = true

/-- The state after a frame with the limits (1, 1), and the `beginFrame` of a frame with
the limits (5, 0): the staging buffers are those of the first frame. -/
def zeroSegmentDebug : PathDebug :=
  (debugStateAfter exampleDebugEnv
    [.setScene true,
     .beginFrame { pathIndex := 1, segmentIndex := 1 } false true,
     .endFrame {} onePathContent,
     .beginFrame { pathIndex := 5, segmentIndex := 0 } false true]
    ({}, PathDebug.create { mEnabled := true })).2

/-- The state after a frame with the limits (2, 2) and a colour attachment. -/
def frameDebug : PathDebug :=
  (debugStateAfter exampleDebugEnv
    [.setScene true,
     .beginFrame { pathIndex := 2, segmentIndex := 2 } false true,
     .endFrame {} onePathContent]
    ({}, PathDebug.create { mEnabled := true })).2
/-! ## Lemmas on the vector loops and on contiguous descriptor lists -/

theorem u32_of_lt {n : Nat} (h : n < 4294967296) : u32 n = n := Nat.mod_eq_of_lt h

theorem set_middle (a : List GeometryDesc) (b : List GeometryDesc) (x d : GeometryDesc) :
    (a ++ x :: b).set a.length d = a ++ d :: b := by
  induction a with
  | nil => simp
  | cons y ys ih => simp [ih]

theorem foldlM_writeAt (f : Nat → GeometryDesc) (off : Nat)
    (body : List GeometryDesc → Nat → Option (List GeometryDesc)) :
    ∀ (n : Nat) (v : List GeometryDesc), off + n ≤ v.length →
      (∀ w i, i < n → body w i = writeAt w (off + i) (f i)) →
      (List.range n).foldlM body v
        = some (v.take off ++ (List.range n).map f ++ v.drop (off + n)) := by
  intro n
  induction n with
  | zero => intro v _ _; simp
  | succ n ih =>
    intro v hlen hbody
    have h1 := ih v (by omega) (fun w i hi => hbody w i (by omega))
    rw [List.range_succ, List.foldlM_append, h1]
    simp only [List.foldlM_cons, List.foldlM_nil, Option.some_bind, Option.bind_eq_bind]
    rw [hbody _ n (by omega)]
    have hlt : off + n < v.length := by omega
    have hdrop : v.drop (off + n) = v[off + n] :: v.drop (off + (n + 1)) := by
      rw [← Nat.add_assoc]; exact List.drop_eq_getElem_cons hlt
    have hlen2 : (v.take off ++ (List.range n).map f).length = off + n := by
      simp; omega
    unfold writeAt
    rw [if_pos (by simp; omega)]
    simp only [Option.some_bind, Option.bind_some, pure, List.map_append, List.map_cons, List.map_nil]
    congr 1
    rw [hdrop]
    have := set_middle (v.take off ++ (List.range n).map f) (v.drop (off + (n + 1))) v[off + n] (f n)
    rw [hlen2] at this
    simp only [List.append_assoc] at this ⊢
    simpa using this

theorem contiguous_in_range : ∀ (descs : List GeometryDesc) (base : Nat), Contiguous base descs →
    ∀ (i j : Nat) (d : GeometryDesc), descs[i]? = some d → j < d.AABBCount →
      ∃ k : Nat, k < totalAabbCount descs ∧ d.aabbAddress j = slotAddress base k := by
  intro descs
  induction descs with
  | nil => intro base _ i j d h; simp at h
  | cons x xs ih =>
    intro base hc i j d hd hj
    obtain ⟨hs, hst, hrest⟩ := hc
    cases i with
    | zero =>
      simp at hd; subst hd
      refine ⟨j, ?_, ?_⟩
      · simp [totalAabbCount]; omega
      · simp [GeometryDesc.aabbAddress, slotAddress, hs, hst]
    | succ i =>
      simp at hd
      obtain ⟨k, hk, he⟩ := ih _ hrest i j d hd hj
      refine ⟨x.AABBCount + k, ?_, ?_⟩
      · simp [totalAabbCount] at hk ⊢; omega
      · rw [he]; simp only [slotAddress, sizeofAABB]; ring

theorem contiguous_covers : ∀ (descs : List GeometryDesc) (base : Nat), Contiguous base descs →
    CoversExactlyOnce base descs (totalAabbCount descs) := by
  intro descs
  induction descs with
  | nil =>
    intro base _
    refine ⟨?_, ?_, ?_⟩
    · intro k hk; simp [totalAabbCount] at hk
    · intro i j d i2 j2 d2 h; simp at h
    · intro i j d h; simp at h
  | cons x xs ih =>
    intro base hc
    have hall := contiguous_in_range (x :: xs) base hc
    obtain ⟨hs, hst, hrest⟩ := hc
    obtain ⟨ih1, ih2, ih3⟩ := ih _ hrest
    have htot : totalAabbCount (x :: xs) = x.AABBCount + totalAabbCount xs := by
      simp [totalAabbCount]
    refine ⟨?_, ?_, hall⟩
    · intro k hk
      by_cases hlt : k < x.AABBCount
      · exact ⟨0, k, x, by simp, hlt, by simp [GeometryDesc.aabbAddress, slotAddress, hs, hst]⟩
      · obtain ⟨i, j, d, hd, hj, he⟩ := ih1 (k - x.AABBCount) (by omega)
        refine ⟨i + 1, j, d, by simpa using hd, hj, ?_⟩
        rw [he]; simp only [slotAddress, sizeofAABB]
        have : k = x.AABBCount + (k - x.AABBCount) := by omega
        omega
    · intro i j d i2 j2 d2 hd hj hd2 hj2 he
      cases i with
      | zero =>
        cases i2 with
        | zero =>
          simp at hd hd2; subst hd; subst hd2
          simp [GeometryDesc.aabbAddress, hst, sizeofAABB] at he
          exact ⟨rfl, he⟩
        | succ i2 =>
          exfalso
          simp at hd hd2; subst hd
          obtain ⟨k, _, hk⟩ := ih3 i2 j2 d2 hd2 hj2
          rw [hk] at he
          simp [GeometryDesc.aabbAddress, slotAddress, hs, hst, sizeofAABB] at he
          omega
      | succ i =>
        cases i2 with
        | zero =>
          exfalso
          simp at hd hd2; subst hd2
          obtain ⟨k, _, hk⟩ := ih3 i j d hd hj
          rw [hk] at he
          simp [GeometryDesc.aabbAddress, slotAddress, hs, hst, sizeofAABB] at he
          omega
        | succ i2 =>
          simp at hd hd2
          obtain ⟨h1, h2⟩ := ih2 i j d i2 j2 d2 hd hj hd2 hj2 he
          exact ⟨by omega, h2⟩

theorem contiguous_append : ∀ (a b : List GeometryDesc) (base : Nat),
    Contiguous base (a ++ b) ↔
      Contiguous base a ∧ Contiguous (base + sizeofAABB * totalAabbCount a) b := by
  intro a
  induction a with
  | nil => intro b base; simp [Contiguous, totalAabbCount]
  | cons x xs ih =>
    intro b base
    have happ : (x :: xs) ++ b = x :: (xs ++ b) := rfl
    rw [happ]
    simp only [Contiguous, ih]
    have : base + sizeofAABB * totalAabbCount (x :: xs)
        = base + sizeofAABB * x.AABBCount + sizeofAABB * totalAabbCount xs := by
      simp [totalAabbCount]; ring
    rw [this]
    tauto

theorem totalAabbCount_append (a b : List GeometryDesc) :
    totalAabbCount (a ++ b) = totalAabbCount a + totalAabbCount b := by
  simp [totalAabbCount]

/-- A run of `n` descriptors of `c` AABBs each, laid out back to back from `start`. -/
theorem contiguous_uniform (t f c start : Nat) : ∀ n : Nat,
    Contiguous start ((List.range n).map fun i =>
      ({ Type_ := t, Flags := f, AABBCount := c, StartAddress := start + i * (c * sizeofAABB),
         StrideInBytes := sizeofAABB } : GeometryDesc)) ∧
    totalAabbCount ((List.range n).map fun i =>
      ({ Type_ := t, Flags := f, AABBCount := c, StartAddress := start + i * (c * sizeofAABB),
         StrideInBytes := sizeofAABB } : GeometryDesc)) = n * c := by
  intro n
  induction n with
  | zero => simp [Contiguous, totalAabbCount]
  | succ n ih =>
    obtain ⟨h1, h2⟩ := ih
    rw [List.range_succ, List.map_append]
    refine ⟨?_, ?_⟩
    · rw [contiguous_append]
      refine ⟨h1, ?_⟩
      rw [h2]
      simp only [List.map_cons, List.map_nil, Contiguous, and_true, true_and]
      ring
    · rw [totalAabbCount_append, h2]
      simp [totalAabbCount]; ring

/-! ## The linear branch of setupBlas -/

theorem length_resize (v : List GeometryDesc) (n : Nat) : (resize v n).length = n := by
  simp [resize]; omega

/-- Closed form of the linear branch when the buffer exists and the group size is not 0. -/
theorem setupBlasLinear_eq (s : CachingViaBVH) (addr : Nat) (hN : s.mAabbPerGeometry ≠ 0) :
    setupBlasLinear s (some addr) =
      if u32 (u32 (s.mAabbCount.1 * s.mAabbCount.2) + (s.mAabbPerGeometry - 1)) / s.mAabbPerGeometry = 0
      then none
      else some
        ((List.range (u32 (u32 (s.mAabbCount.1 * s.mAabbCount.2) + (s.mAabbPerGeometry - 1))
            / s.mAabbPerGeometry - 1)).map (linearLoopDesc addr s.mAabbPerGeometry) ++
          [{ linearLoopDesc addr s.mAabbPerGeometry
              (u32 (u32 (s.mAabbCount.1 * s.mAabbCount.2) + (s.mAabbPerGeometry - 1))
                / s.mAabbPerGeometry - 1) with
             AABBCount :=
               if u32 (u32 (s.mAabbCount.1 * s.mAabbCount.2) + 4294967296 -
                    u32 (u32 (s.mAabbCount.1 * s.mAabbCount.2) / s.mAabbPerGeometry * s.mAabbPerGeometry)) ≠ 0
               then u32 (u32 (s.mAabbCount.1 * s.mAabbCount.2) + 4294967296 -
                    u32 (u32 (s.mAabbCount.1 * s.mAabbCount.2) / s.mAabbPerGeometry * s.mAabbPerGeometry))
               else s.mAabbPerGeometry }]) := by
  unfold setupBlasLinear
  simp only [if_neg hN]
  generalize u32 (u32 (s.mAabbCount.1 * s.mAabbCount.2) + (s.mAabbPerGeometry - 1)) / s.mAabbPerGeometry = n
  rw [length_resize]
  rw [foldlM_writeAt (linearLoopDesc addr s.mAabbPerGeometry) 0 _ n
    (resize s.mBlasData.geomDescs n) (by rw [length_resize]; omega)
    (by intro w i _; simp [linearLoopDesc])]
  have hd : List.drop (0 + n) (resize s.mBlasData.geomDescs n) = [] :=
    List.drop_eq_nil_of_le (by rw [length_resize]; omega)
  rw [hd]
  simp only [List.take_zero, List.nil_append, List.append_nil, Option.some_bind, Option.bind_some]
  cases n with
  | zero => simp
  | succ m =>
    rw [List.range_succ, List.map_append]
    simp
theorem ceilDiv_bounds {c N : Nat} (hc : 1 ≤ c) (hN : 1 ≤ N) :
    1 ≤ (c + N - 1) / N ∧ ((c + N - 1) / N - 1) * N < c ∧ c ≤ (c + N - 1) / N * N := by
  have h1 : (c + N - 1) / N * N ≤ c + N - 1 := Nat.div_mul_le_self _ _
  have h2 : c + N - 1 < ((c + N - 1) / N + 1) * N := by
    have := Nat.lt_div_mul_add (a := c + N - 1) (b := N) (by omega)
    rw [Nat.add_mul]; omega
  have h3 : 1 ≤ (c + N - 1) / N := by
    rw [Nat.one_le_div_iff (by omega)]; omega
  obtain ⟨m, hm⟩ : ∃ m, (c + N - 1) / N = m + 1 := ⟨(c + N - 1) / N - 1, by omega⟩
  rw [hm] at h1 h2 ⊢
  simp only [Nat.add_sub_cancel]
  rw [Nat.add_mul] at h1 h2 ⊢
  rw [Nat.add_mul] at h2
  refine ⟨by omega, by omega, by omega⟩

theorem ceilDiv_eq_ceil {c N : Nat} (hc : 1 ≤ c) (hN : 1 ≤ N) :
    (c + N - 1) / N = ⌈(c : ℚ) / (N : ℚ)⌉₊ := by
  obtain ⟨h1, h2, h3⟩ := ceilDiv_bounds hc hN
  symm
  rw [Nat.ceil_eq_iff (by omega)]
  have hNq : (0 : ℚ) < (N : ℚ) := by exact_mod_cast hN
  constructor
  · rw [lt_div_iff₀ hNq]
    exact_mod_cast h2
  · rw [div_le_iff₀ hNq]
    exact_mod_cast h3

theorem linear_last_count {c N : Nat} (hc : 1 ≤ c) (hN : 1 ≤ N) :
    (if c % N ≠ 0 then c % N else N) = c - N * ((c + N - 1) / N - 1) := by
  obtain ⟨h1, h2, h3⟩ := ceilDiv_bounds hc hN
  have hdm := Nat.div_add_mod c N
  have hmod : c % N < N := Nat.mod_lt _ (by omega)
  obtain ⟨m, hm⟩ : ∃ m, (c + N - 1) / N = m + 1 := ⟨(c + N - 1) / N - 1, by omega⟩
  rw [hm] at h2 h3 ⊢
  simp only [Nat.add_sub_cancel] at h2 ⊢
  rw [Nat.add_mul] at h3
  rw [Nat.mul_comm m N] at h2 h3
  have hq : c / N = m ∨ c / N = m + 1 := by
    have ha : m ≤ c / N := by
      rw [Nat.le_div_iff_mul_le (by omega)]; rw [Nat.mul_comm]; omega
    have hb : c / N < m + 2 := by
      rw [Nat.div_lt_iff_lt_mul (by omega)]
      have : (m + 2) * N = N * m + 2 * N := by ring
      omega
    omega
  rcases hq with hq | hq
  · rw [hq] at hdm
    split <;> omega
  · rw [hq] at hdm
    have : N * (m + 1) = N * m + N := by ring
    split <;> omega

/-- The linear branch under the no-wrap bound: `(c + N - 1) / N` descriptors, the last
one holding the remainder. -/
theorem setupBlasLinear_of_bounds (s : CachingViaBVH) (addr c N : Nat)
    (hc : u32 (s.mAabbCount.1 * s.mAabbCount.2) = c) (hNeq : s.mAabbPerGeometry = N)
    (hc1 : 1 ≤ c) (hN : 1 ≤ N) (hb : c + N - 1 < 4294967296) :
    setupBlasLinear s (some addr) = some
      ((List.range ((c + N - 1) / N - 1)).map (linearLoopDesc addr N) ++
        [{ linearLoopDesc addr N ((c + N - 1) / N - 1) with
           AABBCount := if c % N ≠ 0 then c % N else N }]) := by
  rw [setupBlasLinear_eq s addr (by omega), hc, hNeq]
  obtain ⟨h1, h2, h3⟩ := ceilDiv_bounds hc1 hN
  have e1 : u32 (c + (N - 1)) = c + N - 1 := by
    rw [u32_of_lt (by omega)]; omega
  have hle : c / N * N ≤ c := Nat.div_mul_le_self c N
  have e2 : u32 (c / N * N) = c / N * N := u32_of_lt (by omega)
  have e3 : u32 (c + 4294967296 - c / N * N) = c % N := by
    have hdm := Nat.div_add_mod c N
    rw [Nat.mul_comm] at hdm
    have : c + 4294967296 - c / N * N = c % N + 4294967296 := by omega
    rw [this]
    unfold u32
    rw [Nat.add_mod_right]
    have hmod : c % N < N := Nat.mod_lt _ (by omega)
    exact Nat.mod_eq_of_lt (by omega)
  rw [e1, e2, e3, if_neg (by omega)]

theorem setupBlasGeometry_linear (s : CachingViaBVH) (buf : Buffer)
    (hbuf : s.mpAABBBuffer = some buf)
    (hlinear : (s.mOptions.useTiling && s.mCanUseTiling) = false) :
    setupBlasGeometry s = setupBlasLinear s (some buf.gpuAddress) := by
  simp [setupBlasGeometry, hbuf, hlinear]

theorem setupBlasGeometry_tiled (s : CachingViaBVH) (buf : Buffer)
    (hbuf : s.mpAABBBuffer = some buf)
    (htiled : (s.mOptions.useTiling && s.mCanUseTiling) = true) :
    setupBlasGeometry s = setupBlasTiled s (some buf.gpuAddress) := by
  simp [setupBlasGeometry, hbuf, htiled]

/-- When the geometry part succeeds and the driver reports a non-zero result size,
`setupBlas` succeeds and stores exactly these descriptors. -/
theorem setupBlas_of_geometry (dev : Device) (s : CachingViaBVH) (descs : List GeometryDesc)
    (hdev : dev.reportsPositiveSizes) (hg : setupBlasGeometry s = some descs) :
    ∃ s2, setupBlas dev s = some s2 ∧ s2.mBlasData.geomDescs = descs ∧
      s2.mpAABBBuffer = s.mpAABBBuffer := by
  unfold setupBlas
  rw [hg]
  simp only [Option.some_bind, Option.bind_some]
  rw [if_pos (hdev _).1]
  exact ⟨_, rfl, rfl, rfl⟩

theorem getLast?_append_singleton (l : List GeometryDesc) (d : GeometryDesc) :
    (l ++ [d]).getLast? = some d := by
  simp

/-- C1. Linear partitioning of `count >= 1` AABBs into groups of `N >= 1`
(with `count + N - 1 < 2^32`): `setupBlas` emits exactly `ceil(count / N)` descriptors,
every descriptor but the last holds `N` AABBs, and the last holds
`count - N * (ceil(count / N) - 1)`, which is the remainder `count mod N` when that is
not 0 and `N` otherwise. -/
theorem setupBlas_linear_descriptor_counts (dev : Device) (s : CachingViaBVH) (buf : Buffer)
    (count N : Nat)
    (hdev : dev.reportsPositiveSizes)
    (hbuf : s.mpAABBBuffer = some buf)
    (hlinear : (s.mOptions.useTiling && s.mCanUseTiling) = false)
    (hcount : u32 (s.mAabbCount.1 * s.mAabbCount.2) = count)
    (hgroup : s.mAabbPerGeometry = N)
    (hc1 : 1 ≤ count) (hN : 1 ≤ N) (hb : count + N - 1 < 2 ^ 32) :
    ∃ s2, setupBlas dev s = some s2 ∧
      s2.mBlasData.geomDescs.length = ⌈(count : ℚ) / (N : ℚ)⌉₊ ∧
      (∀ (i : Nat) (d : GeometryDesc), s2.mBlasData.geomDescs[i]? = some d →
        i + 1 < s2.mBlasData.geomDescs.length → d.AABBCount = N) ∧
      (∃ last, s2.mBlasData.geomDescs.getLast? = some last ∧
        last.AABBCount = count - N * (⌈(count : ℚ) / (N : ℚ)⌉₊ - 1) ∧
        last.AABBCount = if count % N ≠ 0 then count % N else N) := by
  have hb2 : count + N - 1 < 4294967296 := by norm_num at hb; exact hb
  have hgeo := setupBlasLinear_of_bounds s buf.gpuAddress count N hcount hgroup hc1 hN hb2
  rw [← setupBlasGeometry_linear s buf hbuf hlinear] at hgeo
  obtain ⟨s2, hs2, hdescs, -⟩ := setupBlas_of_geometry dev s _ hdev hgeo
  obtain ⟨h1, h2, h3⟩ := ceilDiv_bounds hc1 hN
  refine ⟨s2, hs2, ?_, ?_, ?_⟩
  · rw [hdescs, ← ceilDiv_eq_ceil hc1 hN]
    simp; omega
  · intro i d hd hi
    rw [hdescs] at hd hi
    simp only [List.length_append, List.length_map, List.length_range, List.length_singleton] at hi
    rw [List.getElem?_append_left (by simp; omega)] at hd
    simp only [List.getElem?_map] at hd
    rw [List.getElem?_range (by omega)] at hd
    simp at hd
    rw [← hd]; rfl
  · refine ⟨_, by rw [hdescs]; exact getLast?_append_singleton _ _, ?_, rfl⟩
    rw [← ceilDiv_eq_ceil hc1 hN]
    exact linear_last_count hc1 hN

theorem exampleDevice_reportsPositiveSizes : exampleDevice.reportsPositiveSizes := by
  intro inputs
  simp [exampleDevice]

/-- Witness of C1: 2500 AABBs in groups of 1024. -/
theorem setupBlas_linear_descriptor_counts_witness :
    exampleDevice.reportsPositiveSizes ∧
    exampleLinearState.mpAABBBuffer
      = some { id := 1, size := 60000, elementCount := 2500, gpuAddress := 131072 } ∧
    (exampleLinearState.mOptions.useTiling && exampleLinearState.mCanUseTiling) = false ∧
    u32 (exampleLinearState.mAabbCount.1 * exampleLinearState.mAabbCount.2) = 2500 ∧
    exampleLinearState.mAabbPerGeometry = 1024 ∧
    1 ≤ 2500 ∧ 1 ≤ 1024 ∧ 2500 + 1024 - 1 < 2 ^ 32 ∧
    ∃ s2, setupBlas exampleDevice exampleLinearState = some s2 ∧
      s2.mBlasData.geomDescs.length = ⌈((2500 : Nat) : ℚ) / ((1024 : Nat) : ℚ)⌉₊ ∧
      (∀ (i : Nat) (d : GeometryDesc), s2.mBlasData.geomDescs[i]? = some d →
        i + 1 < s2.mBlasData.geomDescs.length → d.AABBCount = 1024) ∧
      (∃ last, s2.mBlasData.geomDescs.getLast? = some last ∧
        last.AABBCount = 2500 - 1024 * (⌈((2500 : Nat) : ℚ) / ((1024 : Nat) : ℚ)⌉₊ - 1) ∧
        last.AABBCount = if 2500 % 1024 ≠ 0 then 2500 % 1024 else 1024) :=
  ⟨exampleDevice_reportsPositiveSizes, rfl, rfl, by decide, rfl, by decide, by decide, by decide,
    setupBlas_linear_descriptor_counts exampleDevice exampleLinearState _ 2500 1024
      exampleDevice_reportsPositiveSizes rfl rfl (by decide) rfl (by decide) (by decide)
      (by decide)⟩

theorem linear_offset_no_wrap {c N i : Nat} (hc1 : 1 ≤ c) (hN : 1 ≤ N)
    (hbytes : c * 24 < 4294967296) (hi : i ≤ (c + N - 1) / N - 1) :
    u32 (i * u32 (N * sizeofAABB)) = i * (N * sizeofAABB) := by
  obtain ⟨h1, h2, h3⟩ := ceilDiv_bounds hc1 hN
  rcases Nat.eq_zero_or_pos i with h0 | hpos
  · subst h0; simp [u32]
  · have hiN : i * N ≤ ((c + N - 1) / N - 1) * N := Nat.mul_le_mul_right N hi
    have hNle : N ≤ i * N := Nat.le_mul_of_pos_left N hpos
    have e1 : u32 (N * sizeofAABB) = N * sizeofAABB := u32_of_lt (by simp only [sizeofAABB]; omega)
    rw [e1]
    have e2 : i * (N * sizeofAABB) = i * N * 24 := by simp only [sizeofAABB]; ring
    rw [e2]
    exact u32_of_lt (by omega)

/-- Layout of the descriptors of the linear branch when neither the descriptor count nor
the byte offsets wrap. -/
theorem linear_descs_layout (addr c N : Nat) (hc1 : 1 ≤ c) (hN : 1 ≤ N)
    (hbytes : c * 24 < 4294967296) :
    LinearLayout addr N c
      ((List.range ((c + N - 1) / N - 1)).map (linearLoopDesc addr N) ++
        [{ linearLoopDesc addr N ((c + N - 1) / N - 1) with
           AABBCount := if c % N ≠ 0 then c % N else N }]) := by
  obtain ⟨h1, h2, h3⟩ := ceilDiv_bounds hc1 hN
  have hlast := linear_last_count hc1 hN
  -- normal form of the list
  have hmap : (List.range ((c + N - 1) / N - 1)).map (linearLoopDesc addr N)
      = (List.range ((c + N - 1) / N - 1)).map fun i =>
        ({ Type_ := D3D12_RAYTRACING_GEOMETRY_TYPE_PROCEDURAL_PRIMITIVE_AABBS
           Flags := D3D12_RAYTRACING_GEOMETRY_FLAG_NO_DUPLICATE_ANYHIT_INVOCATION
           AABBCount := N, StartAddress := addr + i * (N * sizeofAABB)
           StrideInBytes := sizeofAABB } : GeometryDesc) := by
    apply List.map_congr_left
    intro i hi
    rw [List.mem_range] at hi
    simp only [linearLoopDesc]
    rw [linear_offset_no_wrap hc1 hN hbytes (by omega)]
  have hlastd : ({ linearLoopDesc addr N ((c + N - 1) / N - 1) with
        AABBCount := if c % N ≠ 0 then c % N else N } : GeometryDesc)
      = { Type_ := D3D12_RAYTRACING_GEOMETRY_TYPE_PROCEDURAL_PRIMITIVE_AABBS
          Flags := D3D12_RAYTRACING_GEOMETRY_FLAG_NO_DUPLICATE_ANYHIT_INVOCATION
          AABBCount := c - N * ((c + N - 1) / N - 1)
          StartAddress := addr + ((c + N - 1) / N - 1) * (N * sizeofAABB)
          StrideInBytes := sizeofAABB } := by
    simp only [linearLoopDesc]
    rw [linear_offset_no_wrap hc1 hN hbytes (le_refl _), hlast]
  rw [hmap, hlastd]
  generalize (c + N - 1) / N - 1 = m at *
  obtain ⟨hu1, hu2⟩ := contiguous_uniform
    D3D12_RAYTRACING_GEOMETRY_TYPE_PROCEDURAL_PRIMITIVE_AABBS
    D3D12_RAYTRACING_GEOMETRY_FLAG_NO_DUPLICATE_ANYHIT_INVOCATION N addr m
  constructor
  · intro i d hd
    rcases Nat.lt_or_ge i m with hi | hi
    · rw [List.getElem?_append_left (by simpa using hi)] at hd
      simp only [List.getElem?_map] at hd
      rw [List.getElem?_range hi] at hd
      simp at hd
      rw [← hd]
      simp only [slotAddress, sizeofAABB, and_true]
      ring
    · rw [List.getElem?_append_right (by simpa using hi)] at hd
      simp only [List.length_map, List.length_range] at hd
      have : i - m = 0 := by
        by_contra hne
        rw [List.getElem?_eq_none (by simp; omega)] at hd
        exact absurd hd (by simp)
      rw [this] at hd
      simp at hd
      have him : i = m := by omega
      rw [← hd, him]
      simp only [slotAddress, sizeofAABB, and_true]
      ring
  · have hcont : Contiguous addr
        ((List.range m).map (fun i =>
          ({ Type_ := D3D12_RAYTRACING_GEOMETRY_TYPE_PROCEDURAL_PRIMITIVE_AABBS
             Flags := D3D12_RAYTRACING_GEOMETRY_FLAG_NO_DUPLICATE_ANYHIT_INVOCATION
             AABBCount := N, StartAddress := addr + i * (N * sizeofAABB)
             StrideInBytes := sizeofAABB } : GeometryDesc)) ++
          [{ Type_ := D3D12_RAYTRACING_GEOMETRY_TYPE_PROCEDURAL_PRIMITIVE_AABBS
             Flags := D3D12_RAYTRACING_GEOMETRY_FLAG_NO_DUPLICATE_ANYHIT_INVOCATION
             AABBCount := c - N * m
             StartAddress := addr + m * (N * sizeofAABB)
             StrideInBytes := sizeofAABB }]) := by
      rw [contiguous_append]
      refine ⟨hu1, ?_⟩
      rw [hu2]
      simp only [Contiguous, and_true, true_and]
      ring
    have hcov := contiguous_covers _ _ hcont
    rw [totalAabbCount_append, hu2] at hcov
    have htot : m * N + totalAabbCount
        [({ Type_ := D3D12_RAYTRACING_GEOMETRY_TYPE_PROCEDURAL_PRIMITIVE_AABBS
            Flags := D3D12_RAYTRACING_GEOMETRY_FLAG_NO_DUPLICATE_ANYHIT_INVOCATION
            AABBCount := c - N * m
            StartAddress := addr + m * (N * sizeofAABB)
            StrideInBytes := sizeofAABB } : GeometryDesc)] = c := by
      simp only [totalAabbCount, List.map_cons, List.map_nil, List.sum_cons, List.sum_nil]
      rw [Nat.mul_comm N m]
      omega
    rw [htot] at hcov
    exact hcov

theorem setupBlas_hugeGroupState : setupBlas exampleDevice hugeGroupState = none := by
  decide

/-- C2 as stated fails: with 2 AABBs and group size 4294967295 (so that `2 * 24 < 2^32`
holds but `2 + N - 1` wraps to 0) the linear branch computes 0 descriptors and calls
`back()` on the empty vector; no covering descriptor list is emitted. -/
theorem setupBlas_linear_layout_counterexample :
    hugeGroupState.mpAABBBuffer
      = some { id := 1, size := 48, elementCount := 2, gpuAddress := 131072 } ∧
    (hugeGroupState.mOptions.useTiling && hugeGroupState.mCanUseTiling) = false ∧
    u32 (hugeGroupState.mAabbCount.1 * hugeGroupState.mAabbCount.2) = 2 ∧
    hugeGroupState.mAabbPerGeometry = 4294967295 ∧
    1 ≤ 2 ∧ 1 ≤ 4294967295 ∧ 2 * 24 < 2 ^ 32 ∧
    ¬ ∃ s2, setupBlas exampleDevice hugeGroupState = some s2 ∧
        LinearLayout 131072 4294967295 2 s2.mBlasData.geomDescs := by
  refine ⟨rfl, rfl, by decide, rfl, by decide, by decide, by decide, ?_⟩
  rintro ⟨s2, h, -⟩
  rw [setupBlas_hugeGroupState] at h
  exact absurd h (by simp)

/-- C2 (amended). Linear partitioning of `count >= 1` AABBs into groups of `N >= 1`
with `count + N - 1 < 2^32` and `count * 24 < 2^32`: the descriptors emitted by
`setupBlas` are ordered and contiguous, descriptor `i` starts at slot `i * N` (byte
offset `i * N * 24`) with stride 24, and their slot ranges cover `[0, count)` exactly
once, with no overlap and no gap. -/
theorem setupBlas_linear_layout (dev : Device) (s : CachingViaBVH) (buf : Buffer)
    (count N : Nat)
    (hdev : dev.reportsPositiveSizes)
    (hbuf : s.mpAABBBuffer = some buf)
    (hlinear : (s.mOptions.useTiling && s.mCanUseTiling) = false)
    (hcount : u32 (s.mAabbCount.1 * s.mAabbCount.2) = count)
    (hgroup : s.mAabbPerGeometry = N)
    (hc1 : 1 ≤ count) (hN : 1 ≤ N) (hb : count + N - 1 < 2 ^ 32)
    (hbytes : count * 24 < 2 ^ 32) :
    ∃ s2, setupBlas dev s = some s2 ∧
      LinearLayout buf.gpuAddress N count s2.mBlasData.geomDescs := by
  have hb2 : count + N - 1 < 4294967296 := by norm_num at hb; exact hb
  have hbytes2 : count * 24 < 4294967296 := by norm_num at hbytes; exact hbytes
  have hgeo := setupBlasLinear_of_bounds s buf.gpuAddress count N hcount hgroup hc1 hN hb2
  rw [← setupBlasGeometry_linear s buf hbuf hlinear] at hgeo
  obtain ⟨s2, hs2, hdescs, -⟩ := setupBlas_of_geometry dev s _ hdev hgeo
  exact ⟨s2, hs2, by rw [hdescs]; exact linear_descs_layout buf.gpuAddress count N hc1 hN hbytes2⟩

/-- Witness of C2 (amended): 2500 AABBs in groups of 1024. -/
theorem setupBlas_linear_layout_witness :
    exampleDevice.reportsPositiveSizes ∧
    exampleLinearState.mpAABBBuffer
      = some { id := 1, size := 60000, elementCount := 2500, gpuAddress := 131072 } ∧
    (exampleLinearState.mOptions.useTiling && exampleLinearState.mCanUseTiling) = false ∧
    u32 (exampleLinearState.mAabbCount.1 * exampleLinearState.mAabbCount.2) = 2500 ∧
    exampleLinearState.mAabbPerGeometry = 1024 ∧
    1 ≤ 2500 ∧ 1 ≤ 1024 ∧ 2500 + 1024 - 1 < 2 ^ 32 ∧ 2500 * 24 < 2 ^ 32 ∧
    ∃ s2, setupBlas exampleDevice exampleLinearState = some s2 ∧
      LinearLayout 131072 1024 2500 s2.mBlasData.geomDescs :=
  ⟨exampleDevice_reportsPositiveSizes, rfl, rfl, by decide, rfl, by decide, by decide, by decide,
    by decide,
    setupBlas_linear_layout exampleDevice exampleLinearState
      { id := 1, size := 60000, elementCount := 2500, gpuAddress := 131072 } 2500 1024
      exampleDevice_reportsPositiveSizes rfl rfl (by decide) rfl (by decide) (by decide)
      (by decide) (by decide)⟩

/-! ## The tiled branch of setupBlas -/

/-- Closed form of the tiled branch when the buffer exists and the tile count does not
wrap: the big tiles followed by the fill tiles. -/
theorem setupBlasTiled_of_bound (s : CachingViaBVH) (addr : Nat)
    (hT : u32 (s.mAabbCount.1 / 64 * (s.mAabbCount.2 / 32)) + s.mAabbCount.1 / 64 < 4294967296) :
    setupBlasTiled s (some addr) = some
      ((List.range (u32 (s.mAabbCount.1 / 64 * (s.mAabbCount.2 / 32)))).map (bigTileDesc addr) ++
        (List.range (s.mAabbCount.1 / 64)).map
          (fillTileDesc addr (u32 (s.mAabbCount.1 / 64 * (s.mAabbCount.2 / 32))))) := by
  unfold setupBlasTiled
  have c1 : mBigTileSize.1 = 64 := rfl
  have c2 : mBigTileSize.2 = 32 := rfl
  have c3 : u32 (mBigTileSize.1 * mBigTileSize.2) = 2048 := by decide
  have c4 : u32 (2048 * sizeofAABB) = 49152 := by decide
  have c5 : u32 (mFillTileSize.1 * mFillTileSize.2) = 1536 := by decide
  have c6 : u32 (1536 * sizeofAABB) = 36864 := by decide
  have c7 : u32 2048 = 2048 := by decide
  have c8 : u32 1536 = 1536 := by decide
  simp only [c1, c2, c3, c4, c5, c6, c7, c8]
  generalize hB : u32 (s.mAabbCount.1 / 64 * (s.mAabbCount.2 / 32)) = B at hT ⊢
  generalize hbx : s.mAabbCount.1 / 64 = bx at hT ⊢
  have hTe : u32 (B + bx) = B + bx := u32_of_lt hT
  rw [hTe]
  rw [foldlM_writeAt (bigTileDesc addr) 0 _ B (resize s.mBlasData.geomDescs (B + bx))
    (by rw [length_resize]; omega) (by intro w i _; simp [bigTileDesc])]
  simp only [Option.some_bind, Option.bind_some, List.take_zero, List.nil_append, Nat.zero_add]
  rw [foldlM_writeAt (fillTileDesc addr B) B _ bx _
    (by simp [length_resize])
    (by
      intro w i hi
      have : u32 (B + i) = B + i := u32_of_lt (by omega)
      simp [fillTileDesc, this])]
  congr 1
  have h1 : List.take B (List.map (bigTileDesc addr) (List.range B) ++
      List.drop B (resize s.mBlasData.geomDescs (B + bx)))
      = List.map (bigTileDesc addr) (List.range B) := by
    rw [List.take_append_of_le_length (by simp)]
    exact List.take_of_length_le (by simp)
  have h2 : List.drop (B + bx) (List.map (bigTileDesc addr) (List.range B) ++
      List.drop B (resize s.mBlasData.geomDescs (B + bx))) = [] :=
    List.drop_eq_nil_of_le (by simp [length_resize])
  rw [h1, h2, List.append_nil]

theorem totalAabbCount_map_const (f : Nat → GeometryDesc) (c : Nat)
    (hf : ∀ i, (f i).AABBCount = c) : ∀ n : Nat,
    totalAabbCount ((List.range n).map f) = n * c := by
  intro n
  induction n with
  | zero => simp [totalAabbCount]
  | succ n ih =>
    rw [List.range_succ, List.map_append, totalAabbCount_append, ih]
    simp [totalAabbCount, hf]; ring

/-- The state on which `allocate` runs `setupBlas`. -/
theorem allocate_eq (dev : Device) (g : Gpu) (s : CachingViaBVH) (w h : Nat) :
    ∃ (g1 : Gpu) (buf : Buffer),
      allocate dev g s (w, h) =
        (setupBlas dev
          { s with
            mAabbCount := (u32 w, u32 h)
            mCanUseTiling := decide (u32 h > 1)
            mpAABBBuffer := some buf }).map (fun s2 => (g1, s2)) := by
  unfold allocate
  simp only
  cases hb : s.mpAABBBuffer with
  | none => exact ⟨_, _, rfl⟩
  | some b =>
    by_cases hlt : b.elementCount < u32 (u32 w * u32 h)
    · simp only [hlt, decide_True, if_true]
      exact ⟨_, _, rfl⟩
    · simp only [hlt, decide_False]
      refine ⟨g, b, ?_⟩
      simp [hb]

/-- Layout of the descriptors of the tiled branch when the byte range they address does
not wrap. -/
theorem tiled_descs_layout (addr w h : Nat) (hbytes : tiledSlotCount w h * 24 < 4294967296) :
    u32 (w / 64 * (h / 32)) = w / 64 * (h / 32) ∧
    TiledLayout addr w h
      ((List.range (w / 64 * (h / 32))).map (bigTileDesc addr) ++
        (List.range (w / 64)).map (fillTileDesc addr (w / 64 * (h / 32)))) ∧
    totalAabbCount
      ((List.range (w / 64 * (h / 32))).map (bigTileDesc addr) ++
        (List.range (w / 64)).map (fillTileDesc addr (w / 64 * (h / 32)))) = tiledSlotCount w h := by
  unfold tiledSlotCount TiledLayout at *
  generalize w / 64 = bx at *
  generalize h / 32 = ty at *
  have hexp : bx * (ty * 2048 + 1536) = 2048 * (bx * ty) + 1536 * bx := by ring
  rw [hexp] at hbytes ⊢
  generalize hB : bx * ty = B at *
  have hbig : (List.range B).map (bigTileDesc addr)
      = (List.range B).map fun i =>
        ({ Type_ := D3D12_RAYTRACING_GEOMETRY_TYPE_PROCEDURAL_PRIMITIVE_AABBS
           Flags := D3D12_RAYTRACING_GEOMETRY_FLAG_NO_DUPLICATE_ANYHIT_INVOCATION
           AABBCount := 2048, StartAddress := addr + i * (2048 * sizeofAABB)
           StrideInBytes := sizeofAABB } : GeometryDesc) := by
    apply List.map_congr_left
    intro i hi
    rw [List.mem_range] at hi
    simp only [bigTileDesc, sizeofAABB]
    rw [u32_of_lt (by omega)]
  have hfill : (List.range bx).map (fillTileDesc addr B)
      = (List.range bx).map fun i =>
        ({ Type_ := D3D12_RAYTRACING_GEOMETRY_TYPE_PROCEDURAL_PRIMITIVE_AABBS
           Flags := D3D12_RAYTRACING_GEOMETRY_FLAG_NO_DUPLICATE_ANYHIT_INVOCATION
           AABBCount := 1536
           StartAddress := (addr + sizeofAABB * (B * 2048)) + i * (1536 * sizeofAABB)
           StrideInBytes := sizeofAABB } : GeometryDesc) := by
    apply List.map_congr_left
    intro i hi
    rw [List.mem_range] at hi
    simp only [fillTileDesc, sizeofAABB]
    rw [u32_of_lt (show B * 49152 < 4294967296 by omega),
      u32_of_lt (show i * 36864 < 4294967296 by omega)]
    congr 1
    omega
  obtain ⟨hu1, hu2⟩ := contiguous_uniform
    D3D12_RAYTRACING_GEOMETRY_TYPE_PROCEDURAL_PRIMITIVE_AABBS
    D3D12_RAYTRACING_GEOMETRY_FLAG_NO_DUPLICATE_ANYHIT_INVOCATION 2048 addr B
  obtain ⟨hv1, hv2⟩ := contiguous_uniform
    D3D12_RAYTRACING_GEOMETRY_TYPE_PROCEDURAL_PRIMITIVE_AABBS
    D3D12_RAYTRACING_GEOMETRY_FLAG_NO_DUPLICATE_ANYHIT_INVOCATION 1536
    (addr + sizeofAABB * (B * 2048)) bx
  refine ⟨u32_of_lt (by omega), ⟨?_, ?_, ?_⟩, ?_⟩
  · simp
  · intro i d hd
    rcases Nat.lt_or_ge i B with hi | hi
    · rw [List.getElem?_append_left (by simpa using hi)] at hd
      simp only [List.getElem?_map] at hd
      rw [List.getElem?_range hi] at hd
      simp at hd
      rw [← hd, if_pos hi]; rfl
    · rw [List.getElem?_append_right (by simpa using hi)] at hd
      simp only [List.length_map, List.length_range, List.getElem?_map] at hd
      rw [if_neg (by omega)]
      cases hr : (List.range bx)[i - B]? with
      | none => rw [hr] at hd; simp at hd
      | some j => rw [hr] at hd; simp at hd; rw [← hd]; rfl
  · rw [hbig, hfill, contiguous_append, hu2]
    exact ⟨hu1, hv1⟩
  · rw [hbig, hfill, totalAabbCount_append, hu2, hv2]
    ring

/-- A list of descriptors covers at most one initial segment of slots exactly once. -/
theorem covers_count_unique (base : Nat) (descs : List GeometryDesc) (c c2 : Nat)
    (h1 : CoversExactlyOnce base descs c) (h2 : CoversExactlyOnce base descs c2) : c = c2 := by
  have key : ∀ a b : Nat, CoversExactlyOnce base descs a → CoversExactlyOnce base descs b →
      ¬ a < b := by
    intro a b ha hb hlt
    obtain ⟨i, j, d, hd, hj, he⟩ := hb.1 a hlt
    obtain ⟨k, hk, he2⟩ := ha.2.2 i j d hd hj
    rw [he] at he2
    simp only [slotAddress, sizeofAABB] at he2
    omega
  have := key c c2 h1 h2
  have := key c2 c h2 h1
  omega

/-- What `allocate` stores for a domain of height above 1 when tiling is requested and
the tile count does not wrap. -/
theorem allocate_tiled_descs (dev : Device) (g : Gpu) (s : CachingViaBVH) (w h : Nat)
    (hdev : dev.reportsPositiveSizes) (hw : w < 4294967296) (hh : h < 4294967296)
    (h1 : 1 < h) (htiling : s.mOptions.useTiling = true)
    (hT : u32 (w / 64 * (h / 32)) + w / 64 < 4294967296) :
    ∃ (g2 : Gpu) (s2 : CachingViaBVH) (buf : Buffer),
      allocate dev g s (w, h) = some (g2, s2) ∧ s2.mpAABBBuffer = some buf ∧
      s2.mBlasData.geomDescs =
        (List.range (u32 (w / 64 * (h / 32)))).map (bigTileDesc buf.gpuAddress) ++
          (List.range (w / 64)).map (fillTileDesc buf.gpuAddress (u32 (w / 64 * (h / 32)))) := by
  obtain ⟨g1, buf, hal⟩ := allocate_eq dev g s w h
  rw [u32_of_lt hw, u32_of_lt hh] at hal
  have hgeo := setupBlasGeometry_tiled
    { s with mAabbCount := (w, h), mCanUseTiling := decide (h > 1), mpAABBBuffer := some buf }
    buf rfl (by simp [htiling, h1])
  rw [setupBlasTiled_of_bound _ _ hT] at hgeo
  obtain ⟨s2, hs2, hdescs, hbuf⟩ := setupBlas_of_geometry dev _ _ hdev hgeo
  refine ⟨g1, s2, buf, ?_, hbuf, hdescs⟩
  rw [hal, hs2]; rfl

/-- For the domain 64 x 2 with tiling enabled `setupBlas` emits one fill tile of 1536
AABBs, which addresses slots far beyond `[0, 128)`: the descriptors do not cover
`[0, 64 * 2)` exactly once. -/
theorem allocate_tiled_cover_counterexample :
    1 < 2 ∧ freshCache.2.mOptions.useTiling = true ∧
    ¬ ∃ (g2 : Gpu) (s2 : CachingViaBVH) (buf : Buffer),
        allocate exampleDevice freshCache.1 freshCache.2 (64, 2) = some (g2, s2) ∧
        s2.mpAABBBuffer = some buf ∧
        CoversExactlyOnce buf.gpuAddress s2.mBlasData.geomDescs (64 * 2) := by
  refine ⟨by decide, rfl, ?_⟩
  rintro ⟨g2, s2, buf, hal, hbuf, hcov⟩
  obtain ⟨g3, s3, buf3, hal3, hbuf3, hdescs⟩ := allocate_tiled_descs exampleDevice
    freshCache.1 freshCache.2 64 2 exampleDevice_reportsPositiveSizes (by decide) (by decide)
    (by decide) rfl (by decide)
  rw [hal] at hal3
  simp only [Option.some.injEq, Prod.mk.injEq] at hal3
  obtain ⟨-, rfl⟩ := hal3
  rw [hbuf] at hbuf3
  simp only [Option.some.injEq] at hbuf3
  subst hbuf3
  have e0 : u32 (64 / 64 * (2 / 32)) = 0 := by decide
  have e1 : 64 / 64 = 1 := by decide
  rw [e0, e1] at hdescs
  have r1 : List.range 1 = [0] := rfl
  simp only [List.range_zero, List.map_nil, List.nil_append, r1, List.map_cons] at hdescs
  obtain ⟨k, hk, he⟩ := hcov.2.2 0 128 (fillTileDesc buf.gpuAddress 0 0)
    (by rw [hdescs]; rfl) (by simp [fillTileDesc])
  simp [GeometryDesc.aabbAddress, slotAddress, fillTileDesc, sizeofAABB, u32] at he
  omega

/-- The slots that the tiled branch addresses. For every domain `(w, h)` with `h > 1`
and tiling enabled whose addressed byte range does not wrap (`T * 24 < 2^32` for
`T = floor(w/64) * (floor(h/32) * 2048 + 1536)`), the descriptors emitted by `setupBlas`
address the slots `[0, T)`, each once; they cover the domain `[0, w*h)` exactly once if
and only if `T = w * h`. -/
theorem allocate_tiled_cover (dev : Device) (g : Gpu) (s : CachingViaBVH) (w h : Nat)
    (hdev : dev.reportsPositiveSizes) (hw : w < 2 ^ 32) (hh : h < 2 ^ 32)
    (h1 : 1 < h) (htiling : s.mOptions.useTiling = true)
    (hbytes : tiledSlotCount w h * 24 < 2 ^ 32) :
    ∃ (g2 : Gpu) (s2 : CachingViaBVH) (buf : Buffer),
      allocate dev g s (w, h) = some (g2, s2) ∧ s2.mpAABBBuffer = some buf ∧
      CoversExactlyOnce buf.gpuAddress s2.mBlasData.geomDescs (tiledSlotCount w h) ∧
      (CoversExactlyOnce buf.gpuAddress s2.mBlasData.geomDescs (w * h) ↔
        tiledSlotCount w h = w * h) := by
  have hw2 : w < 4294967296 := by norm_num at hw; exact hw
  have hh2 : h < 4294967296 := by norm_num at hh; exact hh
  have hb2 : tiledSlotCount w h * 24 < 4294967296 := by norm_num at hbytes; exact hbytes
  have hlay := fun addr => tiled_descs_layout addr w h hb2
  have hu := (hlay 0).1
  have hT : u32 (w / 64 * (h / 32)) + w / 64 < 4294967296 := by
    rw [hu]
    have : tiledSlotCount w h = 2048 * (w / 64 * (h / 32)) + 1536 * (w / 64) := by
      unfold tiledSlotCount; ring
    omega
  obtain ⟨g2, s2, buf, hal, hbuf, hdescs⟩ :=
    allocate_tiled_descs dev g s w h hdev hw2 hh2 h1 htiling hT
  rw [hu] at hdescs
  obtain ⟨-, ⟨-, -, hcont⟩, htot⟩ := hlay buf.gpuAddress
  have hcov := contiguous_covers _ _ hcont
  rw [htot, ← hdescs] at hcov
  refine ⟨g2, s2, buf, hal, hbuf, hcov, ?_⟩
  constructor
  · intro hc
    exact covers_count_unique _ _ _ _ hcov hc
  · intro he
    rw [← he]; exact hcov

/-- The slots that the tiled branch addresses for the domain 1920 x 1080. -/
theorem allocate_tiled_cover_witness :
    exampleDevice.reportsPositiveSizes ∧ 1920 < 2 ^ 32 ∧ 1080 < 2 ^ 32 ∧ 1 < 1080 ∧
    freshCache.2.mOptions.useTiling = true ∧ tiledSlotCount 1920 1080 * 24 < 2 ^ 32 ∧
    ∃ (g2 : Gpu) (s2 : CachingViaBVH) (buf : Buffer),
      allocate exampleDevice freshCache.1 freshCache.2 (1920, 1080) = some (g2, s2) ∧
      s2.mpAABBBuffer = some buf ∧
      CoversExactlyOnce buf.gpuAddress s2.mBlasData.geomDescs (tiledSlotCount 1920 1080) ∧
      (CoversExactlyOnce buf.gpuAddress s2.mBlasData.geomDescs (1920 * 1080) ↔
        tiledSlotCount 1920 1080 = 1920 * 1080) :=
  ⟨exampleDevice_reportsPositiveSizes, by decide, by decide, by decide, rfl, by decide,
    allocate_tiled_cover exampleDevice freshCache.1 freshCache.2 1920 1080
      exampleDevice_reportsPositiveSizes (by decide) (by decide) (by decide) rfl (by decide)⟩

/-- C4 as stated fails: for the domain 64 x 2796224 the byte offset of the fill tile,
`87382 * 49152`, wraps in 32 bits to 32768, so the fill tile does not start where the
last big tile ends. -/
theorem allocate_tiled_layout_counterexample :
    1 < 2796224 ∧ freshCache.2.mOptions.useTiling = true ∧
    ¬ ∃ (g2 : Gpu) (s2 : CachingViaBVH) (buf : Buffer),
        allocate exampleDevice freshCache.1 freshCache.2 (64, 2796224) = some (g2, s2) ∧
        s2.mpAABBBuffer = some buf ∧
        TiledLayout buf.gpuAddress 64 2796224 s2.mBlasData.geomDescs := by
  refine ⟨by decide, rfl, ?_⟩
  rintro ⟨g2, s2, buf, hal, hbuf, hlay⟩
  obtain ⟨g3, s3, buf3, hal3, hbuf3, hdescs⟩ := allocate_tiled_descs exampleDevice
    freshCache.1 freshCache.2 64 2796224 exampleDevice_reportsPositiveSizes (by decide)
    (by decide) (by decide) rfl (by decide)
  rw [hal] at hal3
  simp only [Option.some.injEq, Prod.mk.injEq] at hal3
  obtain ⟨-, rfl⟩ := hal3
  rw [hbuf] at hbuf3
  simp only [Option.some.injEq] at hbuf3
  subst hbuf3
  have e0 : u32 (64 / 64 * (2796224 / 32)) = 87382 := by decide
  have e1 : 64 / 64 = 1 := by decide
  rw [e0, e1] at hdescs
  have hcont := hlay.2.2
  rw [hdescs, contiguous_append,
    totalAabbCount_map_const (bigTileDesc buf.gpuAddress) 2048 (fun _ => rfl)] at hcont
  have hstart := hcont.2
  have r1 : List.range 1 = [0] := rfl
  simp only [r1, List.map_cons, List.map_nil, Contiguous] at hstart
  have := hstart.1
  simp [fillTileDesc, sizeofAABB, u32] at this

/-- C4 (amended). For every domain `(w, h)` with `h > 1` and tiling enabled whose
addressed byte range does not wrap (`T * 24 < 2^32` for
`T = floor(w/64) * (floor(h/32) * 2048 + 1536)`), `setupBlas` emits one descriptor per
tile, big tiles first: exactly `floor(w/64) * floor(h/32)` descriptors of 2048 AABBs
followed by exactly `floor(w/64)` fill-tile descriptors of 1536 AABBs, the first starting
at slot 0 and each next one starting at the slot where the previous one ends. -/
theorem allocate_tiled_layout (dev : Device) (g : Gpu) (s : CachingViaBVH) (w h : Nat)
    (hdev : dev.reportsPositiveSizes) (hw : w < 2 ^ 32) (hh : h < 2 ^ 32)
    (h1 : 1 < h) (htiling : s.mOptions.useTiling = true)
    (hbytes : tiledSlotCount w h * 24 < 2 ^ 32) :
    ∃ (g2 : Gpu) (s2 : CachingViaBVH) (buf : Buffer),
      allocate dev g s (w, h) = some (g2, s2) ∧ s2.mpAABBBuffer = some buf ∧
      TiledLayout buf.gpuAddress w h s2.mBlasData.geomDescs := by
  have hw2 : w < 4294967296 := by norm_num at hw; exact hw
  have hh2 : h < 4294967296 := by norm_num at hh; exact hh
  have hb2 : tiledSlotCount w h * 24 < 4294967296 := by norm_num at hbytes; exact hbytes
  have hlay := fun addr => tiled_descs_layout addr w h hb2
  have hu := (hlay 0).1
  have hT : u32 (w / 64 * (h / 32)) + w / 64 < 4294967296 := by
    rw [hu]
    have : tiledSlotCount w h = 2048 * (w / 64 * (h / 32)) + 1536 * (w / 64) := by
      unfold tiledSlotCount; ring
    omega
  obtain ⟨g2, s2, buf, hal, hbuf, hdescs⟩ :=
    allocate_tiled_descs dev g s w h hdev hw2 hh2 h1 htiling hT
  rw [hu] at hdescs
  exact ⟨g2, s2, buf, hal, hbuf, by rw [hdescs]; exact (hlay buf.gpuAddress).2.1⟩

/-- Witness of C4 (amended): the domain 1920 x 1080. -/
theorem allocate_tiled_layout_witness :
    exampleDevice.reportsPositiveSizes ∧ 1920 < 2 ^ 32 ∧ 1080 < 2 ^ 32 ∧ 1 < 1080 ∧
    freshCache.2.mOptions.useTiling = true ∧ tiledSlotCount 1920 1080 * 24 < 2 ^ 32 ∧
    ∃ (g2 : Gpu) (s2 : CachingViaBVH) (buf : Buffer),
      allocate exampleDevice freshCache.1 freshCache.2 (1920, 1080) = some (g2, s2) ∧
      s2.mpAABBBuffer = some buf ∧
      TiledLayout buf.gpuAddress 1920 1080 s2.mBlasData.geomDescs :=
  ⟨exampleDevice_reportsPositiveSizes, by decide, by decide, by decide, rfl, by decide,
    allocate_tiled_layout exampleDevice freshCache.1 freshCache.2 1920 1080
      exampleDevice_reportsPositiveSizes (by decide) (by decide) (by decide) rfl (by decide)⟩

/-! ## allocate on a domain of height 1 -/

/-- Inversion of `setupBlas`: what a successful call stored and what it left alone. -/
theorem setupBlas_some (dev : Device) (s s2 : CachingViaBVH) (h : setupBlas dev s = some s2) :
    setupBlasGeometry s = some s2.mBlasData.geomDescs ∧
    s2.mpAABBBuffer = s.mpAABBBuffer ∧ s2.mCanUseTiling = s.mCanUseTiling ∧
    s2.mAabbCount = s.mAabbCount ∧ s2.mAabbPerGeometry = s.mAabbPerGeometry ∧
    s2.mOptions = s.mOptions ∧ s2.mUpdateCounter = s.mUpdateCounter ∧
    s2.mRequireRebuild = s.mRequireRebuild ∧ s2.mBlasData.pBlas = s.mBlasData.pBlas ∧
    s2.mpBlasScratch = s.mpBlasScratch ∧ s2.mTlasData = s.mTlasData ∧
    s2.mpTlasScratch = s.mpTlasScratch := by
  unfold setupBlas at h
  cases hg : setupBlasGeometry s with
  | none => rw [hg] at h; simp at h
  | some descs =>
    rw [hg] at h
    simp only [Option.some_bind, Option.bind_some, Option.ite_none_right_eq_some,
      Option.some.injEq] at h
    obtain ⟨-, rfl⟩ := h
    simp

/-- A successful run of the linear branch implies that nothing wrapped. -/
theorem setupBlasLinear_some_bounds (s : CachingViaBVH) (addr : Nat) (descs : List GeometryDesc)
    (h : setupBlasLinear s (some addr) = some descs) :
    1 ≤ u32 (s.mAabbCount.1 * s.mAabbCount.2) ∧ 1 ≤ s.mAabbPerGeometry ∧
    u32 (s.mAabbCount.1 * s.mAabbCount.2) + s.mAabbPerGeometry - 1 < 4294967296 := by
  have hN : s.mAabbPerGeometry ≠ 0 := by
    intro h0
    unfold setupBlasLinear at h
    simp [h0] at h
  rw [setupBlasLinear_eq s addr hN] at h
  have hc : u32 (s.mAabbCount.1 * s.mAabbCount.2) < 4294967296 := Nat.mod_lt _ (by decide)
  generalize u32 (s.mAabbCount.1 * s.mAabbCount.2) = c at h hc ⊢
  generalize s.mAabbPerGeometry = N at h hN ⊢
  split at h
  · simp at h
  · rename_i hq
    have hpos : 0 < u32 (c + (N - 1)) / N := Nat.pos_of_ne_zero hq
    have hle : N ≤ u32 (c + (N - 1)) := by
      by_contra hlt
      rw [Nat.div_eq_of_lt (by omega)] at hpos
      omega
    have hlt : u32 (c + (N - 1)) < 4294967296 := Nat.mod_lt _ (by decide)
    have hmod : u32 (c + (N - 1)) ≤ c + (N - 1) := Nat.mod_le _ _
    have hN1 : 1 ≤ N := Nat.pos_of_ne_zero hN
    have hnw : c + N - 1 < 4294967296 := by
      by_contra hwrap
      have hge : 4294967296 ≤ c + (N - 1) := by omega
      have : u32 (c + (N - 1)) = u32 (c + (N - 1) - 4294967296) := by
        unfold u32
        conv_lhs => rw [show c + (N - 1) = (c + (N - 1) - 4294967296) + 4294967296 by omega]
        rw [Nat.add_mod_right]
      have h2 : u32 (c + (N - 1) - 4294967296) ≤ c + (N - 1) - 4294967296 := Nat.mod_le _ _
      omega
    have he : u32 (c + (N - 1)) = c + (N - 1) := u32_of_lt (by omega)
    rw [he] at hle
    exact ⟨by omega, hN1, hnw⟩

/-- The descriptors of the linear branch address `c` AABBs in total. -/
theorem linear_descs_total (addr c N : Nat) (hc1 : 1 ≤ c) (hN : 1 ≤ N) :
    totalAabbCount
      ((List.range ((c + N - 1) / N - 1)).map (linearLoopDesc addr N) ++
        [{ linearLoopDesc addr N ((c + N - 1) / N - 1) with
           AABBCount := if c % N ≠ 0 then c % N else N }]) = c := by
  obtain ⟨h1, h2, h3⟩ := ceilDiv_bounds hc1 hN
  rw [totalAabbCount_append, totalAabbCount_map_const (linearLoopDesc addr N) N (fun _ => rfl),
    linear_last_count hc1 hN]
  simp only [totalAabbCount, List.map_cons, List.map_nil, List.sum_cons, List.sum_nil]
  rw [Nat.mul_comm N]
  omega

/-- C5. For every domain `(w, 1)` and for either value of the `useTiling` option,
`allocate` selects the linear policy: whenever the call completes, tiling is marked
unusable and the stored geometry descriptors are exactly the result of the linear branch
for `w` AABBs with the current group size `N` (`ceil(w / N)` descriptors addressing `w`
AABBs in total), never the result of the tiled branch; and the call does complete when
`w >= 1`, `N >= 1`, `w + N - 1 < 2^32` and the driver reports non-zero sizes. -/
theorem allocate_height_one_selects_linear (dev : Device) (g : Gpu) (s : CachingViaBVH)
    (useTiling : Bool) (w : Nat) (hw : w < 2 ^ 32) :
    (∀ (g2 : Gpu) (s2 : CachingViaBVH),
      allocate dev g { s with mOptions := { s.mOptions with useTiling := useTiling } } (w, 1)
        = some (g2, s2) →
      s2.mCanUseTiling = false ∧
      ∃ buf, s2.mpAABBBuffer = some buf ∧
        setupBlasLinear { s with mAabbCount := (w, 1) } (some buf.gpuAddress)
          = some s2.mBlasData.geomDescs ∧
        s2.mBlasData.geomDescs.length = ⌈(w : ℚ) / (s.mAabbPerGeometry : ℚ)⌉₊ ∧
        totalAabbCount s2.mBlasData.geomDescs = w ∧
        setupBlasTiled { s with mAabbCount := (w, 1) } (some buf.gpuAddress)
          ≠ some s2.mBlasData.geomDescs) ∧
    (dev.reportsPositiveSizes → 1 ≤ w → 1 ≤ s.mAabbPerGeometry →
      w + s.mAabbPerGeometry - 1 < 2 ^ 32 →
      ∃ (g2 : Gpu) (s2 : CachingViaBVH),
        allocate dev g { s with mOptions := { s.mOptions with useTiling := useTiling } } (w, 1)
          = some (g2, s2)) := by
  have hw2 : w < 4294967296 := by norm_num at hw; exact hw
  obtain ⟨g1, buf, hal⟩ := allocate_eq dev g
    { s with mOptions := { s.mOptions with useTiling := useTiling } } w 1
  have hu1 : u32 1 = 1 := by decide
  rw [u32_of_lt hw2, hu1] at hal
  have hd : decide (1 > 1) = false := by decide
  rw [hd] at hal
  have hgeo := setupBlasGeometry_linear
    { s with
      mOptions := { s.mOptions with useTiling := useTiling }
      mAabbCount := (w, 1), mCanUseTiling := false, mpAABBBuffer := some buf }
    buf rfl (by simp)
  have hsame : setupBlasLinear
      { s with
        mOptions := { s.mOptions with useTiling := useTiling }
        mAabbCount := (w, 1), mCanUseTiling := false, mpAABBBuffer := some buf }
      (some buf.gpuAddress)
      = setupBlasLinear { s with mAabbCount := (w, 1) } (some buf.gpuAddress) := rfl
  rw [hsame] at hgeo
  have hcnt : u32 (w * 1) = w := by rw [Nat.mul_one]; exact u32_of_lt hw2
  constructor
  · intro g2 s2 h
    rw [hal] at h
    simp only [Option.map_eq_some', Prod.mk.injEq] at h
    obtain ⟨s3, hs3, -, rfl⟩ := h
    obtain ⟨hg3, hbuf3, hcan3, -⟩ := setupBlas_some dev _ _ hs3
    rw [hgeo] at hg3
    obtain ⟨b1, b2, b3⟩ := setupBlasLinear_some_bounds _ _ _ hg3
    simp only [hcnt] at b1 b2 b3
    have hexp := setupBlasLinear_of_bounds { s with mAabbCount := (w, 1) } buf.gpuAddress w
      s.mAabbPerGeometry hcnt rfl b1 b2 b3
    rw [hg3] at hexp
    simp only [Option.some.injEq] at hexp
    refine ⟨hcan3, buf, hbuf3, hg3, ?_, ?_, ?_⟩
    · obtain ⟨h1, h2, h3⟩ := ceilDiv_bounds b1 b2
      rw [hexp, ← ceilDiv_eq_ceil b1 b2]
      simp; omega
    · rw [hexp]; exact linear_descs_total _ _ _ b1 b2
    · intro ht
      have e0 : u32 (w / 64 * (1 / 32)) = 0 := by simp [u32]
      rw [setupBlasTiled_of_bound _ _ (by
        show u32 (w / 64 * (1 / 32)) + w / 64 < 4294967296
        rw [e0]; omega)] at ht
      simp only [Option.some.injEq] at ht
      have htot : totalAabbCount s3.mBlasData.geomDescs = w := by
        rw [hexp]; exact linear_descs_total _ _ _ b1 b2
      rw [← ht, totalAabbCount_append,
        totalAabbCount_map_const (bigTileDesc buf.gpuAddress) 2048 (fun _ => rfl),
        totalAabbCount_map_const (fillTileDesc buf.gpuAddress _) 1536 (fun _ => rfl)] at htot
      change u32 (w / 64 * (1 / 32)) * 2048 + w / 64 * 1536 = w at htot
      rw [e0] at htot
      omega
  · intro hdev h1 hN hb
    have hb2 : w + s.mAabbPerGeometry - 1 < 4294967296 := by norm_num at hb; exact hb
    have hexp := setupBlasLinear_of_bounds { s with mAabbCount := (w, 1) } buf.gpuAddress w
      s.mAabbPerGeometry hcnt rfl h1 hN hb2
    rw [hexp] at hgeo
    obtain ⟨s2, hs2, -⟩ := setupBlas_of_geometry dev _ _ hdev hgeo
    exact ⟨g1, s2, by rw [hal, hs2]; rfl⟩

/-- Witness of C5: the domain 4 x 1 on a fresh cache with tiling requested. -/
theorem allocate_height_one_selects_linear_witness :
    4 < 2 ^ 32 ∧
    ((∀ (g2 : Gpu) (s2 : CachingViaBVH),
      allocate exampleDevice freshCache.1
        { freshCache.2 with mOptions := { freshCache.2.mOptions with useTiling := true } } (4, 1)
        = some (g2, s2) →
      s2.mCanUseTiling = false ∧
      ∃ buf, s2.mpAABBBuffer = some buf ∧
        setupBlasLinear { freshCache.2 with mAabbCount := (4, 1) } (some buf.gpuAddress)
          = some s2.mBlasData.geomDescs ∧
        s2.mBlasData.geomDescs.length
          = ⌈((4 : Nat) : ℚ) / (freshCache.2.mAabbPerGeometry : ℚ)⌉₊ ∧
        totalAabbCount s2.mBlasData.geomDescs = 4 ∧
        setupBlasTiled { freshCache.2 with mAabbCount := (4, 1) } (some buf.gpuAddress)
          ≠ some s2.mBlasData.geomDescs) ∧
    (exampleDevice.reportsPositiveSizes → 1 ≤ 4 → 1 ≤ freshCache.2.mAabbPerGeometry →
      4 + freshCache.2.mAabbPerGeometry - 1 < 2 ^ 32 →
      ∃ (g2 : Gpu) (s2 : CachingViaBVH),
        allocate exampleDevice freshCache.1
          { freshCache.2 with mOptions := { freshCache.2.mOptions with useTiling := true } }
          (4, 1) = some (g2, s2))) :=
  ⟨by decide, allocate_height_one_selects_linear exampleDevice freshCache.1 freshCache.2 true 4
    (by decide)⟩

/-! ## buildBlas, buildTlas and update -/

theorem blasBuilds_append (a b : List Command) :
    blasBuilds (a ++ b) = blasBuilds a ++ blasBuilds b := by
  simp [blasBuilds]

theorem ensureBuffer_spec (dev : Device) (g : Gpu) (cur : Option Buffer) (size : Nat) :
    ∃ pre : List Command,
      (ensureBuffer dev g cur size).1.commands = g.commands ++ pre ∧ blasBuilds pre = [] ∧
      size ≤ (ensureBuffer dev g cur size).2.1.size ∧
      ((ensureBuffer dev g cur size).2.2 = false →
        cur = some (ensureBuffer dev g cur size).2.1) ∧
      (ensureBuffer dev g cur size).2.2 =
        (match cur with
         | none => true
         | some b => decide (b.size < size)) := by
  unfold ensureBuffer
  cases cur with
  | none => exact ⟨[], by simp [Buffer.create], rfl, by simp [Buffer.create], by simp, rfl⟩
  | some b =>
    by_cases h : b.size < size
    · simp only [h, if_true]
      exact ⟨[.uavBarrier b], by simp [Buffer.create, Gpu.record], rfl, by simp [Buffer.create],
        by simp, by simp⟩
    · simp only [h, if_false]
      exact ⟨[.uavBarrier b], by simp [Gpu.record], rfl, by omega, by simp, by simp⟩

/-- Forward description of `buildBlas` on a state with an AABB buffer and non-zero sizes. -/
theorem buildBlas_spec (dev : Device) (g : Gpu) (s : CachingViaBVH) (aabb : Buffer)
    (hbuf : s.mpAABBBuffer = some aabb)
    (hres : 0 < s.mBlasData.resultByteSize) (hscr : 0 < s.mBlasData.scratchByteSize) :
    ∃ (g1 : Gpu) (scratch blas : Buffer) (pre : List Command),
      buildBlas dev g s = some (g1,
        { s with
          mpBlasScratch := some scratch
          mBlasData := { s.mBlasData with pBlas := some blas }
          mTlasData :=
            { s.mTlasData with
              instanceDesc :=
                { s.mTlasData.instanceDesc with AccelerationStructure := blas.gpuAddress } }
          mRequireRebuild := false }) ∧
      g1.commands = g.commands ++ pre ++
        [.buildAS (blasBuildDesc s scratch blas (!blasReusable s)) none, .uavBarrier blas] ∧
      blasBuilds pre = [] ∧
      s.mBlasData.resultByteSize ≤ blas.size ∧
      s.mBlasData.scratchByteSize ≤ scratch.size ∧
      (blasReusable s = true → s.mBlasData.pBlas = some blas) := by
  obtain ⟨pre1, hc1, hb1, hs1, -, -⟩ := ensureBuffer_spec dev (g.record (.resourceBarrier aabb))
    s.mpBlasScratch s.mBlasData.scratchByteSize
  obtain ⟨pre2, hc2, hb2, hs2, hr2, hflag⟩ := ensureBuffer_spec dev
    (ensureBuffer dev (g.record (.resourceBarrier aabb)) s.mpBlasScratch
      s.mBlasData.scratchByteSize).1 s.mBlasData.pBlas s.mBlasData.resultByteSize
  have hre : (ensureBuffer dev
      (ensureBuffer dev (g.record (.resourceBarrier aabb)) s.mpBlasScratch
        s.mBlasData.scratchByteSize).1 s.mBlasData.pBlas s.mBlasData.resultByteSize).2.2
      = !blasReusable s := by
    rw [hflag]; unfold blasReusable
    cases s.mBlasData.pBlas <;> simp
  generalize hrs : ensureBuffer dev (g.record (.resourceBarrier aabb)) s.mpBlasScratch
    s.mBlasData.scratchByteSize = rs at *
  generalize hrb : ensureBuffer dev rs.1 s.mBlasData.pBlas s.mBlasData.resultByteSize = rb at *
  refine ⟨(rb.1.record (.buildAS (blasBuildDesc s rs.2.1 rb.2.1 (!blasReusable s)) none)).record
      (.uavBarrier rb.2.1), rs.2.1, rb.2.1, [.resourceBarrier aabb] ++ pre1 ++ pre2,
    ?_, ?_, ?_, hs2, hs1, ?_⟩
  · unfold buildBlas
    rw [hbuf]
    simp only [hres, hscr, and_self, if_true, hrs, hrb]
    rw [hre]
    simp only [blasBuildDesc]
  · simp only [Gpu.record, hc2, hc1, List.append_assoc]
    rfl
  · rw [blasBuilds_append, blasBuilds_append, hb1, hb2]; rfl
  · intro h
    exact hr2 (by rw [hre, h]; rfl)

/-- Forward description of `buildTlas` on a state whose top-level members are consistent:
it completes, records no bottom-level build and only touches `mTlasData`. -/
theorem buildTlas_spec (dev : Device) (g : Gpu) (s : CachingViaBVH) (scratch : Buffer)
    (hscratch : s.mpTlasScratch = some scratch)
    (hpair : s.mTlasData.pTlas.isSome = s.mTlasData.pInstanceDescs.isSome)
    (htype : s.mTlasData.buildInputs.Type_
      = D3D12_RAYTRACING_ACCELERATION_STRUCTURE_TYPE_TOP_LEVEL) :
    ∃ (g2 : Gpu) (tlas inst : Buffer) (srv : Buffer),
      buildTlas dev g s = some (g2,
        { s with
          mTlasData :=
            { s.mTlasData with
              pTlas := some tlas
              pInstanceDescs := some inst
              instanceDescsBlob := some s.mTlasData.instanceDesc
              pSrv := some srv } }) ∧
      blasBuilds g2.commands = blasBuilds g.commands := by
  unfold buildTlas tlasBuffers
  rw [hscratch]
  cases ht : s.mTlasData.pTlas with
  | none =>
    have hi : s.mTlasData.pInstanceDescs = none := by
      rw [ht] at hpair
      cases hx : s.mTlasData.pInstanceDescs with
      | none => rfl
      | some v => rw [hx] at hpair; simp at hpair
    simp only [hi, if_true]
    cases hs : s.mTlasData.pSrv with
    | none =>
      refine ⟨_, _, _, _, rfl, ?_⟩
      simp [Gpu.record, Buffer.create, blasBuilds_append, blasBuilds, htype,
        D3D12_RAYTRACING_ACCELERATION_STRUCTURE_TYPE_TOP_LEVEL,
        D3D12_RAYTRACING_ACCELERATION_STRUCTURE_TYPE_BOTTOM_LEVEL]
    | some v =>
      refine ⟨_, _, _, _, rfl, ?_⟩
      simp [Gpu.record, Buffer.create, blasBuilds_append, blasBuilds, htype,
        D3D12_RAYTRACING_ACCELERATION_STRUCTURE_TYPE_TOP_LEVEL,
        D3D12_RAYTRACING_ACCELERATION_STRUCTURE_TYPE_BOTTOM_LEVEL]
  | some tlas =>
    cases hi : s.mTlasData.pInstanceDescs with
    | none => rw [ht, hi] at hpair; simp at hpair
    | some inst =>
      simp only
      cases hs : s.mTlasData.pSrv with
      | none =>
        refine ⟨_, _, _, _, rfl, ?_⟩
        simp [Gpu.record, blasBuilds_append, blasBuilds, htype,
          D3D12_RAYTRACING_ACCELERATION_STRUCTURE_TYPE_TOP_LEVEL,
          D3D12_RAYTRACING_ACCELERATION_STRUCTURE_TYPE_BOTTOM_LEVEL]
      | some v =>
        refine ⟨_, _, _, _, rfl, ?_⟩
        simp [Gpu.record, blasBuilds_append, blasBuilds, htype,
          D3D12_RAYTRACING_ACCELERATION_STRUCTURE_TYPE_TOP_LEVEL,
          D3D12_RAYTRACING_ACCELERATION_STRUCTURE_TYPE_BOTTOM_LEVEL]

/-- The schedule test reads only the options and the counter. -/
theorem scheduleRebuild_congr (s t : CachingViaBVH) (ho : s.mOptions = t.mOptions)
    (hc : s.mUpdateCounter = t.mUpdateCounter) : scheduleRebuild s = scheduleRebuild t := by
  unfold scheduleRebuild
  rw [ho, hc]

/-- The sequential structure of `update`. -/
theorem update_eq (dev : Device) (g : Gpu) (s : CachingViaBVH) (hit : Nat) (force : Bool) :
    update dev g s hit force =
      (scheduleRebuild s).bind fun sched =>
        (buildBlas dev g (updatePrepared s hit (willRebuild s force sched))).bind fun r1 =>
          (buildTlas dev r1.1 r1.2).bind fun r2 =>
            some (r2.1,
              { r2.2 with
                mUpdateCounter :=
                  if willRebuild s force sched then 0 else u32 (r2.2.mUpdateCounter + 1) }) := by
  unfold update
  have hs : scheduleRebuild (if force = true then { s with mRequireRebuild := true } else s)
      = scheduleRebuild s := by
    apply scheduleRebuild_congr <;> cases force <;> rfl
  simp only [hs]
  cases hsch : scheduleRebuild s with
  | none => rfl
  | some sched =>
    simp only [Option.some_bind, Option.bind_some]
    cases force <;> cases sched <;> cases hr : s.mRequireRebuild <;>
      simp [willRebuild, updatePrepared, hr]

theorem blasBuildDesc_flags (s : CachingViaBVH) (scratch blas : Buffer) (hal : Allocated s) :
    (blasBuildDesc s scratch blas (!blasReusable s)).performsUpdate
      = (s.mOptions.allowRefit && !s.mRequireRebuild && blasReusable s) ∧
    (blasBuildDesc s scratch blas (!blasReusable s)).isFullBuild
      = !(s.mOptions.allowRefit && !s.mRequireRebuild && blasReusable s) ∧
    ((blasBuildDesc s scratch blas (!blasReusable s)).performsUpdate = true →
      (blasBuildDesc s scratch blas (!blasReusable s)).SourceAccelerationStructureData
        = (blasBuildDesc s scratch blas (!blasReusable s)).DestAccelerationStructureData) ∧
    (blasBuildDesc s scratch blas (!blasReusable s)).Inputs.Type_
      = D3D12_RAYTRACING_ACCELERATION_STRUCTURE_TYPE_BOTTOM_LEVEL ∧
    (blasBuildDesc s scratch blas (!blasReusable s)).DestAccelerationStructureData
      = blas.gpuAddress := by
  obtain ⟨-, -, -, htype, hflags, -⟩ := hal
  have e1 : (4 : Nat) &&& 32 = 0 := by decide
  have e2 : (5 : Nat) &&& 32 = 0 := by decide
  have e3 : (5 : Nat) &&& 1 = 1 := by decide
  have e4 : ((5 : Nat) ||| 32) &&& 32 = 32 := by decide
  have e5 : (4 : Nat) ||| 1 = 5 := by decide
  have e6 : (4 : Nat) &&& 1 = 0 := by decide
  unfold blasBuildDesc BuildDesc.isFullBuild BuildDesc.performsUpdate
  cases hr : blasReusable s <;> cases ha : s.mOptions.allowRefit <;>
    cases hq : s.mRequireRebuild <;>
    simp [hflags, ha, htype, D3D12_RAYTRACING_ACCELERATION_STRUCTURE_BUILD_FLAG_PREFER_FAST_TRACE,
      D3D12_RAYTRACING_ACCELERATION_STRUCTURE_BUILD_FLAG_ALLOW_UPDATE,
      D3D12_RAYTRACING_ACCELERATION_STRUCTURE_BUILD_FLAG_PERFORM_UPDATE, e1, e2, e3, e4, e5, e6]

theorem allocated_updatePrepared (s : CachingViaBVH) (hit : Nat) (will : Bool)
    (hal : Allocated s) : Allocated (updatePrepared s hit will) := hal

/-- Forward description of `update` on an allocated cache whose schedule test is defined:
the call completes, records exactly one bottom-level build `d`, which is an incremental
update exactly when refitting is allowed, the frame is not a rebuild frame and the result
buffer can be reused, and sets the counter from `willRebuild`. -/
theorem update_spec (dev : Device) (g : Gpu) (s : CachingViaBVH) (hit : Nat)
    (force sched : Bool) (hal : Allocated s) (hsched : scheduleRebuild s = some sched) :
    ∃ (g2 : Gpu) (s2 : CachingViaBVH) (d : BuildDesc),
      update dev g s hit force = some (g2, s2) ∧
      blasBuilds g2.commands = blasBuilds g.commands ++ [d] ∧
      d.performsUpdate
        = (s.mOptions.allowRefit && !willRebuild s force sched && blasReusable s) ∧
      d.isFullBuild
        = !(s.mOptions.allowRefit && !willRebuild s force sched && blasReusable s) ∧
      (d.performsUpdate = true →
        d.SourceAccelerationStructureData = d.DestAccelerationStructureData) ∧
      s2.mUpdateCounter = (if willRebuild s force sched then 0 else u32 (s.mUpdateCounter + 1)) ∧
      s2.mRequireRebuild = false ∧
      SameConfiguration s s2 ∧ blasReusable s2 = true ∧ Allocated s2 := by
  rw [update_eq, hsched]
  simp only [Option.some_bind, Option.bind_some]
  have hal1 := allocated_updatePrepared s hit (willRebuild s force sched) hal
  obtain ⟨⟨aabb, hbuf⟩, hres, hscr, htype, hflags, httype, ⟨tscr, htscr⟩, hpair⟩ := hal1
  obtain ⟨g1, scratch, blas, pre, hbb, hcmd, hpre, hsz, -, -⟩ :=
    buildBlas_spec dev g (updatePrepared s hit (willRebuild s force sched)) aabb hbuf hres hscr
  rw [hbb]
  simp only [Option.some_bind, Option.bind_some]
  obtain ⟨g2, tlas, inst, srv, htl, htb⟩ := buildTlas_spec dev g1 _ tscr
    (show ({ updatePrepared s hit (willRebuild s force sched) with
        mpBlasScratch := some scratch
        mBlasData :=
          { (updatePrepared s hit (willRebuild s force sched)).mBlasData with pBlas := some blas }
        mTlasData :=
          { (updatePrepared s hit (willRebuild s force sched)).mTlasData with
            instanceDesc :=
              { (updatePrepared s hit (willRebuild s force sched)).mTlasData.instanceDesc with
                AccelerationStructure := blas.gpuAddress } }
        mRequireRebuild := false } : CachingViaBVH).mpTlasScratch = some tscr from htscr)
    hpair httype
  rw [htl]
  simp only [Option.some_bind, Option.bind_some]
  obtain ⟨f1, f2, f3, f4, f5⟩ := blasBuildDesc_flags
    (updatePrepared s hit (willRebuild s force sched)) scratch blas
    (allocated_updatePrepared s hit (willRebuild s force sched) hal)
  refine ⟨_, _, blasBuildDesc (updatePrepared s hit (willRebuild s force sched)) scratch blas
      (!blasReusable (updatePrepared s hit (willRebuild s force sched))), rfl, ?_, f1, f2, f3,
    rfl, rfl, ?_, ?_, ?_⟩
  · rw [htb, hcmd, blasBuilds_append, blasBuilds_append, hpre]
    simp [blasBuilds, f4]
  · exact ⟨rfl, rfl, rfl, rfl, rfl, rfl, rfl, rfl, rfl⟩
  · simp only [blasReusable]
    simp only [Bool.not_eq_true', decide_eq_false_iff_not, Nat.not_lt]
    exact hsz
  · exact ⟨⟨aabb, hbuf⟩, hres, hscr, htype, hflags, httype, ⟨tscr, htscr⟩, rfl⟩

theorem align_to_pos (v : Nat) (hv : 0 < v) :
    0 < align_to D3D12_RAYTRACING_ACCELERATION_STRUCTURE_BYTE_ALIGNMENT v := by
  unfold align_to D3D12_RAYTRACING_ACCELERATION_STRUCTURE_BYTE_ALIGNMENT
  have : 1 ≤ (v + 256 - 1) / 256 := by
    rw [Nat.one_le_div_iff (by decide)]; omega
  omega

/-- What a successful `setupBlas` wrote into the build inputs and sizes. -/
theorem setupBlas_some_inputs (dev : Device) (s s2 : CachingViaBVH)
    (h : setupBlas dev s = some s2) :
    s2.mBlasData.buildInputs.Type_ = D3D12_RAYTRACING_ACCELERATION_STRUCTURE_TYPE_BOTTOM_LEVEL ∧
    s2.mBlasData.buildInputs.Flags =
      (if s2.mOptions.allowRefit then
        D3D12_RAYTRACING_ACCELERATION_STRUCTURE_BUILD_FLAG_PREFER_FAST_TRACE |||
          D3D12_RAYTRACING_ACCELERATION_STRUCTURE_BUILD_FLAG_ALLOW_UPDATE
       else D3D12_RAYTRACING_ACCELERATION_STRUCTURE_BUILD_FLAG_PREFER_FAST_TRACE) ∧
    0 < s2.mBlasData.resultByteSize ∧
    (dev.reportsPositiveSizes → 0 < s2.mBlasData.scratchByteSize) := by
  unfold setupBlas at h
  cases hg : setupBlasGeometry s with
  | none => rw [hg] at h; simp at h
  | some descs =>
    rw [hg] at h
    simp only [Option.some_bind, Option.bind_some, Option.ite_none_right_eq_some,
      Option.some.injEq] at h
    obtain ⟨hpos, rfl⟩ := h
    refine ⟨rfl, rfl, align_to_pos _ hpos, fun hdev => align_to_pos _ (hdev _).2⟩

theorem create_fresh (dev : Device) (g : Gpu) (options : Options) :
    TlasConsistent (CachingViaBVH.create dev g options).2 ∧
    (CachingViaBVH.create dev g options).2.mOptions = options ∧
    (CachingViaBVH.create dev g options).2.mUpdateCounter = 0 ∧
    (CachingViaBVH.create dev g options).2.mRequireRebuild = false ∧
    (CachingViaBVH.create dev g options).2.mBlasData.pBlas = none ∧
    (CachingViaBVH.create dev g options).2.mAabbPerGeometry = 1024 :=
  ⟨⟨rfl, ⟨_, rfl⟩, rfl⟩, rfl, rfl, rfl, rfl, rfl⟩

/-- After a successful `allocate` the cache is allocated (up to the scratch size, which is
non-zero when the driver says so); counter, pending request, options, result buffer and
command list are untouched. -/
theorem allocate_some (dev : Device) (g g1 : Gpu) (s s1 : CachingViaBVH) (w h : Nat)
    (htl : TlasConsistent s) (hal : allocate dev g s (w, h) = some (g1, s1)) :
    (0 < s1.mBlasData.scratchByteSize → Allocated s1) ∧
    (dev.reportsPositiveSizes → Allocated s1) ∧
    s1.mUpdateCounter = s.mUpdateCounter ∧ s1.mRequireRebuild = s.mRequireRebuild ∧
    s1.mOptions = s.mOptions ∧ s1.mBlasData.pBlas = s.mBlasData.pBlas ∧
    s1.mAabbPerGeometry = s.mAabbPerGeometry ∧
    g1.commands = g.commands := by
  obtain ⟨g0, buf, heq⟩ := allocate_eq dev g s w h
  have hcmd : g1.commands = g.commands := by
    unfold allocate at hal
    simp only [Option.map_eq_some', Prod.mk.injEq] at hal
    obtain ⟨s3, -, hg, -⟩ := hal
    rw [← hg]
    split <;> rfl
  rw [heq] at hal
  simp only [Option.map_eq_some', Prod.mk.injEq] at hal
  obtain ⟨s3, hs3, -, rfl⟩ := hal
  obtain ⟨-, hbuf, -, -, hN, hopt, hcnt, hreq, hpb, -, htlas, htscr⟩ := setupBlas_some dev _ _ hs3
  obtain ⟨i1, i2, i3, i4⟩ := setupBlas_some_inputs dev _ _ hs3
  obtain ⟨t1, t2, t3⟩ := htl
  have key : 0 < s3.mBlasData.scratchByteSize → Allocated s3 := by
    intro hscr
    refine ⟨⟨buf, hbuf⟩, i3, hscr, i1, i2, ?_, ?_, ?_⟩
    · rw [htlas]; exact t1
    · rw [htscr]; exact t2
    · rw [htlas]; exact t3
  exact ⟨key, fun hdev => key (i4 hdev), hcnt, hreq, hopt, hpb, hN, hcmd⟩

/-- The calls `buildBlas` and `buildTlas` do not touch the counter. -/
theorem buildBlas_some_counter (dev : Device) (g : Gpu) (s : CachingViaBVH)
    (r : Gpu × CachingViaBVH) (h : buildBlas dev g s = some r) :
    r.2.mUpdateCounter = s.mUpdateCounter ∧ 0 < s.mBlasData.scratchByteSize := by
  unfold buildBlas at h
  cases hb : s.mpAABBBuffer with
  | none => rw [hb] at h; simp at h
  | some aabb =>
    rw [hb] at h
    simp only [Option.ite_none_right_eq_some, Option.some.injEq] at h
    obtain ⟨hpos, rfl⟩ := h
    exact ⟨rfl, hpos.2⟩

theorem buildTlas_some_counter (dev : Device) (g : Gpu) (s : CachingViaBVH)
    (r : Gpu × CachingViaBVH) (h : buildTlas dev g s = some r) :
    r.2.mUpdateCounter = s.mUpdateCounter := by
  unfold buildTlas at h
  cases hf : tlasBuffers dev g s with
  | none => rw [hf] at h; simp at h
  | some f =>
    cases hsc : s.mpTlasScratch with
    | none => rw [hf, hsc] at h; simp at h
    | some scratch =>
      rw [hf, hsc] at h
      simp only [Option.some.injEq] at h
      rw [← h]

/-- Inversion of `update`: the schedule test was defined, the scratch size non-zero, and
the counter was set from `willRebuild`. -/
theorem update_some (dev : Device) (g g2 : Gpu) (s s2 : CachingViaBVH) (hit : Nat)
    (force : Bool) (h : update dev g s hit force = some (g2, s2)) :
    ∃ sched, scheduleRebuild s = some sched ∧ 0 < s.mBlasData.scratchByteSize ∧
      s2.mUpdateCounter = (if willRebuild s force sched then 0 else u32 (s.mUpdateCounter + 1)) := by
  rw [update_eq] at h
  cases hs : scheduleRebuild s with
  | none => rw [hs] at h; simp at h
  | some sched =>
    rw [hs] at h
    simp only [Option.some_bind, Option.bind_some] at h
    cases hb : buildBlas dev g (updatePrepared s hit (willRebuild s force sched)) with
    | none => rw [hb] at h; simp at h
    | some r1 =>
      rw [hb] at h
      simp only [Option.some_bind, Option.bind_some] at h
      cases ht : buildTlas dev r1.1 r1.2 with
      | none => rw [ht] at h; simp at h
      | some r2 =>
        rw [ht] at h
        simp only [Option.some_bind, Option.bind_some, Option.some.injEq, Prod.mk.injEq] at h
        obtain ⟨-, rfl⟩ := h
        obtain ⟨c1, hscr⟩ := buildBlas_some_counter dev g _ r1 hb
        have c2 := buildTlas_some_counter dev _ _ r2 ht
        refine ⟨sched, rfl, hscr, ?_⟩
        show (if willRebuild s force sched = true then 0 else u32 (r2.2.mUpdateCounter + 1)) = _
        rw [c2, c1]
        rfl

/-! ## The counter and the kind of build issued by update -/

theorem scheduleRebuild_some (s : CachingViaBVH) (sched : Bool)
    (h : scheduleRebuild s = some sched) :
    sched = (s.mOptions.allowRefit && s.mOptions.rebuildOnSchedule &&
      decide (u32 (s.mUpdateCounter + 1) % u32 (s.mOptions.consecutiveRefitCount + 1) = 0)) := by
  unfold scheduleRebuild at h
  split at h
  · rename_i hc
    split at h
    · simp at h
    · simp only [Option.some.injEq] at h
      rw [← h, hc]; simp
  · rename_i hc
    simp only [Option.some.injEq] at h
    rw [← h]
    simp only [Bool.not_eq_true] at hc
    rw [hc]; simp

theorem scheduleRebuild_defined (s : CachingViaBVH)
    (hk : s.mOptions.consecutiveRefitCount + 1 < 4294967296) :
    ∃ sched, scheduleRebuild s = some sched := by
  unfold scheduleRebuild
  split
  · rw [if_neg (by rw [u32_of_lt hk]; omega)]
    exact ⟨_, rfl⟩
  · exact ⟨_, rfl⟩

theorem allocate_allocatedCache :
    allocate exampleDevice freshCache.1 freshCache.2 (4, 1) = some allocatedCache := by
  decide

theorem allocated_allocatedCache : Allocated allocatedCache.2 :=
  (allocate_some exampleDevice freshCache.1 allocatedCache.1 freshCache.2 allocatedCache.2 4 1
    (create_fresh exampleDevice {} {}).1 allocate_allocatedCache).2.1
    exampleDevice_reportsPositiveSizes

/-- C6 (amended). For every state and every `forceRebuild` input, after `update` the
counter is 0 if the frame was a forced rebuild (argument, or a rebuild request still
pending) or a scheduled rebuild (`allowRefit`, `rebuildOnSchedule` and
`(counter + 1) mod (consecutiveRefitCount + 1) = 0`, computed in 32-bit arithmetic),
and is `(counter + 1) mod 2^32` otherwise; this is the old counter plus exactly 1, with
the schedule test as written, whenever `counter + 1` and `consecutiveRefitCount + 1` are
below `2^32`. The call completes on every allocated cache with
`consecutiveRefitCount + 1 < 2^32`. -/
theorem update_counter (dev : Device) (g : Gpu) (s : CachingViaBVH) (hit : Nat)
    (forceRebuild : Bool) :
    (∀ (g2 : Gpu) (s2 : CachingViaBVH), update dev g s hit forceRebuild = some (g2, s2) →
      s2.mUpdateCounter = counterAfterUpdate s forceRebuild ∧
      (s.mUpdateCounter + 1 < 2 ^ 32 → s.mOptions.consecutiveRefitCount + 1 < 2 ^ 32 →
        s2.mUpdateCounter = specCounterAfterUpdate s forceRebuild)) ∧
    (Allocated s → s.mOptions.consecutiveRefitCount + 1 < 2 ^ 32 →
      ∃ (g2 : Gpu) (s2 : CachingViaBVH), update dev g s hit forceRebuild = some (g2, s2)) := by
  constructor
  · intro g2 s2 h
    obtain ⟨sched, hs, -, hc⟩ := update_some dev g g2 s s2 hit forceRebuild h
    have hsch := scheduleRebuild_some s sched hs
    have h1 : s2.mUpdateCounter = counterAfterUpdate s forceRebuild := by
      rw [hc, hsch]; rfl
    refine ⟨h1, ?_⟩
    intro hc32 hk32
    rw [h1]
    unfold counterAfterUpdate specCounterAfterUpdate
    rw [u32_of_lt (by norm_num at hc32; exact hc32), u32_of_lt (by norm_num at hk32; exact hk32)]
  · intro hal hk
    obtain ⟨sched, hs⟩ := scheduleRebuild_defined s (by norm_num at hk; exact hk)
    obtain ⟨g2, s2, -, hu, -⟩ := update_spec dev g s hit forceRebuild sched hal hs
    exact ⟨g2, s2, hu⟩

/-- Witness of C6 (amended): the first update of the allocated example cache takes the
counter from 0 to 1. -/
theorem update_counter_witness :
    ∃ (g2 : Gpu) (s2 : CachingViaBVH),
      update exampleDevice allocatedCache.1 allocatedCache.2 0 false = some (g2, s2) ∧
      s2.mUpdateCounter = counterAfterUpdate allocatedCache.2 false ∧
      s2.mUpdateCounter = specCounterAfterUpdate allocatedCache.2 false ∧
      s2.mUpdateCounter = 1 := by
  have key := update_counter exampleDevice allocatedCache.1 allocatedCache.2 0 false
  obtain ⟨g2, s2, hu⟩ := key.2 allocated_allocatedCache (by decide)
  obtain ⟨h1, h2⟩ := key.1 g2 s2 hu
  exact ⟨g2, s2, hu, h1, h2 (by decide) (by decide), by rw [h1]; decide⟩

theorem blasReusable_of_none (s : CachingViaBVH) (h : s.mBlasData.pBlas = none) :
    blasReusable s = false := by
  unfold blasReusable; rw [h]

/-- C7 as stated fails: the first `update` of a fresh cache after `allocate` issues a full
build (no result buffer exists), so the frame is a Rebuilding frame, yet the counter is 1
afterwards, not 0. -/
theorem update_frame_kind_counter_counterexample :
    allocate exampleDevice freshCache.1 freshCache.2 (4, 1) = some allocatedCache ∧
    ∃ (g2 : Gpu) (s2 : CachingViaBVH) (d : BuildDesc),
      update exampleDevice allocatedCache.1 allocatedCache.2 0 false = some (g2, s2) ∧
      blasBuilds g2.commands = blasBuilds allocatedCache.1.commands ++ [d] ∧
      d.isFullBuild = true ∧ s2.mUpdateCounter ≠ 0 := by
  refine ⟨allocate_allocatedCache, ?_⟩
  have hs : scheduleRebuild allocatedCache.2 = some false := by decide
  obtain ⟨g2, s2, d, hu, hb, -, hfull, -, hc, -⟩ :=
    update_spec exampleDevice allocatedCache.1 allocatedCache.2 0 false false
      allocated_allocatedCache hs
  refine ⟨g2, s2, d, hu, hb, ?_, ?_⟩
  · rw [hfull, blasReusable_of_none _ (by decide)]; simp
  · rw [hc]; decide

/-- C7 (amended). For every `update` call on an allocated cache: on a frame whose rebuild
is forced or scheduled the bottom-level build issued is a full build and the counter is 0
afterwards; whenever the build issued is an incremental update (a Refittable frame) the
frame is not such a rebuild frame, the update source is the destination and the counter
is `(counter + 1) mod 2^32`; on every frame that is not forced or scheduled the counter
is `(counter + 1) mod 2^32`, also when the build is a full build, which on such a frame
happens exactly when `allowRefit` is off or the result buffer is missing or too small. -/
theorem update_frame_kind_counter (dev : Device) (g : Gpu) (s : CachingViaBVH) (hit : Nat)
    (forceRebuild sched : Bool) (hal : Allocated s) (hs : scheduleRebuild s = some sched) :
    ∃ (g2 : Gpu) (s2 : CachingViaBVH) (d : BuildDesc),
      update dev g s hit forceRebuild = some (g2, s2) ∧
      blasBuilds g2.commands = blasBuilds g.commands ++ [d] ∧
      (willRebuild s forceRebuild sched = true →
        d.isFullBuild = true ∧ s2.mUpdateCounter = 0) ∧
      (d.performsUpdate = true →
        willRebuild s forceRebuild sched = false ∧
        d.SourceAccelerationStructureData = d.DestAccelerationStructureData ∧
        s2.mUpdateCounter = u32 (s.mUpdateCounter + 1)) ∧
      (willRebuild s forceRebuild sched = false →
        s2.mUpdateCounter = u32 (s.mUpdateCounter + 1) ∧
        (d.isFullBuild = true ↔ (s.mOptions.allowRefit = false ∨ blasReusable s = false))) := by
  obtain ⟨g2, s2, d, hu, hb, hupd, hfull, hsrc, hc, -⟩ :=
    update_spec dev g s hit forceRebuild sched hal hs
  refine ⟨g2, s2, d, hu, hb, ?_, ?_, ?_⟩
  · intro hw
    rw [hfull, hc, hw]
    simp
  · intro hp
    have hw : willRebuild s forceRebuild sched = false := by
      rw [hupd] at hp
      cases hwv : willRebuild s forceRebuild sched
      · rfl
      · rw [hwv] at hp; simp at hp
    refine ⟨hw, hsrc hp, ?_⟩
    rw [hc, hw]; simp
  · intro hw
    rw [hc, hfull, hw]
    refine ⟨by simp, ?_⟩
    cases s.mOptions.allowRefit <;> cases blasReusable s <;> simp

/-- Witness of C7 (amended): the first update of the allocated example cache. -/
theorem update_frame_kind_counter_witness :
    Allocated allocatedCache.2 ∧ scheduleRebuild allocatedCache.2 = some false ∧
    ∃ (g2 : Gpu) (s2 : CachingViaBVH) (d : BuildDesc),
      update exampleDevice allocatedCache.1 allocatedCache.2 0 false = some (g2, s2) ∧
      blasBuilds g2.commands = blasBuilds allocatedCache.1.commands ++ [d] ∧
      (willRebuild allocatedCache.2 false false = true →
        d.isFullBuild = true ∧ s2.mUpdateCounter = 0) ∧
      (d.performsUpdate = true →
        willRebuild allocatedCache.2 false false = false ∧
        d.SourceAccelerationStructureData = d.DestAccelerationStructureData ∧
        s2.mUpdateCounter = u32 (allocatedCache.2.mUpdateCounter + 1)) ∧
      (willRebuild allocatedCache.2 false false = false →
        s2.mUpdateCounter = u32 (allocatedCache.2.mUpdateCounter + 1) ∧
        (d.isFullBuild = true ↔
          (allocatedCache.2.mOptions.allowRefit = false ∨
            blasReusable allocatedCache.2 = false))) :=
  ⟨allocated_allocatedCache, by decide,
    update_frame_kind_counter exampleDevice allocatedCache.1 allocatedCache.2 0 false false
      allocated_allocatedCache (by decide)⟩

/-- C10. For a freshly created cache with any options, `allocate` followed by the first
`update(forceRebuild = false)` issues a full bottom-level build and never an incremental
update (no update source, `PERFORM_UPDATE` not set), because no result buffer exists yet:
whenever the two calls complete, exactly one bottom-level build is recorded and it is a
full build; and `update` does complete after a completed `allocate` when the driver
reports non-zero sizes and `consecutiveRefitCount + 1 < 2^32`. -/
theorem first_update_is_full_build (dev : Device) (g : Gpu) (options : Options)
    (w h hit : Nat) :
    (∀ (g1 : Gpu) (s1 : CachingViaBVH) (g2 : Gpu) (s2 : CachingViaBVH),
      allocate dev (CachingViaBVH.create dev g options).1 (CachingViaBVH.create dev g options).2
        (w, h) = some (g1, s1) →
      update dev g1 s1 hit false = some (g2, s2) →
      ∃ d, blasBuilds g2.commands = blasBuilds g1.commands ++ [d] ∧
        d.isFullBuild = true ∧ d.performsUpdate = false ∧
        d.SourceAccelerationStructureData = 0) ∧
    (∀ (g1 : Gpu) (s1 : CachingViaBVH),
      allocate dev (CachingViaBVH.create dev g options).1 (CachingViaBVH.create dev g options).2
        (w, h) = some (g1, s1) →
      dev.reportsPositiveSizes → options.consecutiveRefitCount + 1 < 2 ^ 32 →
      ∃ (g2 : Gpu) (s2 : CachingViaBVH), update dev g1 s1 hit false = some (g2, s2)) := by
  obtain ⟨htl, hopt, -, -, hpb, -⟩ := create_fresh dev g options
  constructor
  · intro g1 s1 g2 s2 hal hu
    obtain ⟨hA, -, -, -, -, hpb1, -, -⟩ := allocate_some dev _ g1 _ s1 w h htl hal
    obtain ⟨sched, hs, hscr, -⟩ := update_some dev g1 g2 s1 s2 hit false hu
    obtain ⟨g3, s3, d, hu3, hb, hupd, hfull, -, -⟩ :=
      update_spec dev g1 s1 hit false sched (hA hscr) hs
    rw [hu] at hu3
    simp only [Option.some.injEq, Prod.mk.injEq] at hu3
    obtain ⟨rfl, rfl⟩ := hu3
    have hre : blasReusable s1 = false := blasReusable_of_none _ (by rw [hpb1, hpb])
    have hf : d.isFullBuild = true := by rw [hfull, hre]; simp
    refine ⟨d, hb, hf, by rw [hupd, hre]; simp, ?_⟩
    unfold BuildDesc.isFullBuild at hf
    simp only [Bool.and_eq_true, beq_iff_eq] at hf
    exact hf.1
  · intro g1 s1 hal hdev hk
    obtain ⟨-, hA, -, -, hopt1, -⟩ := allocate_some dev _ g1 _ s1 w h htl hal
    obtain ⟨sched, hs⟩ := scheduleRebuild_defined s1
      (by rw [hopt1, hopt]; norm_num at hk; exact hk)
    obtain ⟨g2, s2, -, hu, -⟩ := update_spec dev g1 s1 hit false sched (hA hdev) hs
    exact ⟨g2, s2, hu⟩

/-- Witness of C10: the domain 4 x 1 with tiling requested, on the example driver. -/
theorem first_update_is_full_build_witness :
    ∃ (g1 : Gpu) (s1 : CachingViaBVH) (g2 : Gpu) (s2 : CachingViaBVH) (d : BuildDesc),
      (CachingViaBVH.create exampleDevice {} { useTiling := true }).2.mOptions.useTiling = true ∧
      allocate exampleDevice (CachingViaBVH.create exampleDevice {} { useTiling := true }).1
        (CachingViaBVH.create exampleDevice {} { useTiling := true }).2 (4, 1) = some (g1, s1) ∧
      update exampleDevice g1 s1 0 false = some (g2, s2) ∧
      blasBuilds g2.commands = blasBuilds g1.commands ++ [d] ∧
      d.isFullBuild = true ∧ d.performsUpdate = false ∧
      d.SourceAccelerationStructureData = 0 := by
  have key := first_update_is_full_build exampleDevice {} { useTiling := true } 4 1 0
  obtain ⟨g2, s2, hu⟩ := key.2 allocatedCache.1 allocatedCache.2 allocate_allocatedCache
    exampleDevice_reportsPositiveSizes (by decide)
  obtain ⟨d, h1, h2, h3, h4⟩ := key.1 allocatedCache.1 allocatedCache.2 g2 s2
    allocate_allocatedCache hu
  exact ⟨_, _, g2, s2, d, rfl, allocate_allocatedCache, hu, h1, h2, h3, h4⟩

/-! ## Runs of update calls -/

theorem updates_cons (dev : Device) (f : Nat × Bool) (fs : List (Nat × Bool))
    (gs : Gpu × CachingViaBVH) :
    updates dev (f :: fs) gs = (update dev gs.1 gs.2 f.1 f.2).bind (updates dev fs) := rfl

theorem updates_cons_of_some (dev : Device) (hit : Nat) (force : Bool)
    (fs : List (Nat × Bool)) (g : Gpu) (s : CachingViaBVH) (r r2 : Gpu × CachingViaBVH)
    (hu : update dev g s hit force = some r) (hr : updates dev fs r = some r2) :
    updates dev ((hit, force) :: fs) (g, s) = some r2 := by
  rw [updates_cons]
  show (update dev g s hit force).bind (updates dev fs) = some r2
  rw [hu]
  exact hr

/-- A run of unforced updates with refitting allowed and no schedule, started with a
reusable result buffer and no pending request: every frame is an incremental update and
the counter grows by 1 per frame. -/
theorem updates_refit_run (dev : Device) : ∀ (hits : List Nat) (g : Gpu) (s : CachingViaBVH)
    (c : Nat), Allocated s → s.mOptions.allowRefit = true →
    s.mOptions.rebuildOnSchedule = false → s.mRequireRebuild = false →
    blasReusable s = true → s.mUpdateCounter = c → c + hits.length < 4294967296 →
    ∃ (g2 : Gpu) (s2 : CachingViaBVH) (ds : List BuildDesc),
      updates dev (hits.map fun hit => (hit, false)) (g, s) = some (g2, s2) ∧
      blasBuilds g2.commands = blasBuilds g.commands ++ ds ∧
      ds.length = hits.length ∧
      (∀ d ∈ ds, d.performsUpdate = true ∧
        d.SourceAccelerationStructureData = d.DestAccelerationStructureData) ∧
      s2.mUpdateCounter = c + hits.length ∧
      Allocated s2 ∧ s2.mRequireRebuild = false ∧ s2.mOptions = s.mOptions ∧
      blasReusable s2 = true := by
  intro hits
  induction hits with
  | nil =>
    intro g s c hal _ _ hreq hreuse hc _
    exact ⟨g, s, [], rfl, by simp, rfl, by simp, by simpa using hc, hal, hreq, rfl, hreuse⟩
  | cons hit tl ih =>
    intro g s c hal hrefit hsch hreq hreuse hc hlen
    have hs : scheduleRebuild s = some false := by
      unfold scheduleRebuild; rw [hsch]; simp
    obtain ⟨g1, s1, d, hu, hb, hupd, -, hsrc, hcnt, hreq1, hcfg, hreuse1, hal1⟩ :=
      update_spec dev g s hit false false hal hs
    have hw : willRebuild s false false = false := by
      unfold willRebuild; rw [hreq]; rfl
    rw [hw] at hupd hcnt
    rw [hrefit, hreuse] at hupd
    simp only [List.length_cons] at hlen
    have hc1 : s1.mUpdateCounter = c + 1 := by
      rw [hcnt, hc]; exact u32_of_lt (by omega)
    obtain ⟨g2, s2, ds, hrun, hb2, hl2, hall, hc2, hal2, hreq2, hopt2, hreuse2⟩ :=
      ih g1 s1 (c + 1) hal1
        (by rw [hcfg.1]; exact hrefit) (by rw [hcfg.1]; exact hsch) hreq1 hreuse1 hc1 (by omega)
    refine ⟨g2, s2, d :: ds, ?_, ?_, ?_, ?_, ?_, hal2, hreq2, by rw [hopt2, hcfg.1], hreuse2⟩
    · simp only [List.map_cons]
      rw [updates_cons]
      simp only [hu, Option.some_bind, Option.bind_some]
      exact hrun
    · rw [hb2, hb]; simp
    · simp [hl2]
    · intro x hx
      simp only [List.mem_cons] at hx
      rcases hx with rfl | hx
      · exact ⟨by rw [hupd]; rfl, hsrc (by rw [hupd]; rfl)⟩
      · exact hall x hx
    · rw [hc2]; simp only [List.length_cons]; omega

/-- C6 as stated fails: 4294967295 unforced updates of the allocated example cache
(refitting allowed, no schedule) bring the counter to 4294967295, and on the next such
update, which is neither forced nor scheduled, `++mUpdateCounter` wraps to 0 instead of
giving the old counter plus 1. -/
theorem update_counter_counterexample :
    ∃ (g : Gpu) (s : CachingViaBVH) (g2 : Gpu) (s2 : CachingViaBVH),
      updates exampleDevice ((List.replicate 4294967295 0).map fun hit => (hit, false))
        allocatedCache = some (g, s) ∧
      s.mUpdateCounter = 4294967295 ∧
      update exampleDevice g s 0 false = some (g2, s2) ∧
      s2.mUpdateCounter = 0 ∧
      s2.mUpdateCounter ≠ specCounterAfterUpdate s false := by
  have hs0 : scheduleRebuild allocatedCache.2 = some false := by decide
  obtain ⟨g1, s1, d, hu, -, -, -, -, hc1, hreq1, hcfg1, hreuse1, hal1⟩ :=
    update_spec exampleDevice allocatedCache.1 allocatedCache.2 0 false false
      allocated_allocatedCache hs0
  have hopt1 : s1.mOptions = {} := by rw [hcfg1.1]; decide
  have hc1b : s1.mUpdateCounter = 1 := by rw [hc1]; decide
  obtain ⟨g, s, ds, hrun, -, -, -, hc, hal, hreq, hopt, hreuse⟩ :=
    updates_refit_run exampleDevice (List.replicate 4294967294 0) g1 s1 1 hal1
      (by rw [hopt1]) (by rw [hopt1]) hreq1 hreuse1 hc1b
      (by rw [List.length_replicate]; decide)
  rw [List.length_replicate] at hc
  have hcv : s.mUpdateCounter = 4294967295 := by rw [hc]
  have hopts : s.mOptions = {} := by rw [hopt, hopt1]
  have hs : scheduleRebuild s = some false := by
    unfold scheduleRebuild; rw [hopts]; rfl
  obtain ⟨g2, s2, d2, hu2, -, -, -, -, hc2, -⟩ :=
    update_spec exampleDevice g s 0 false false hal hs
  have hw : willRebuild s false false = false := by
    unfold willRebuild; rw [hreq]; rfl
  have hzero : s2.mUpdateCounter = 0 := by
    rw [hc2, hw, hcv]; decide
  refine ⟨g, s, g2, s2, ?_, hcv, hu2, hzero, ?_⟩
  · have hsplit : List.replicate 4294967295 (0 : Nat) = 0 :: List.replicate 4294967294 0 :=
      List.replicate_succ 0 4294967294
    rw [hsplit, List.map_cons]
    exact updates_cons_of_some exampleDevice 0 false _ allocatedCache.1 allocatedCache.2 _ _
      hu hrun
  · rw [hzero]
    unfold specCounterAfterUpdate
    rw [hreq, hopts, hcv]
    decide

theorem succ_mod_of_mod (j k : Nat) :
    (j + 1) % (k + 1) = if j % (k + 1) = k then 0 else j % (k + 1) + 1 := by
  have hlt : j % (k + 1) < k + 1 := Nat.mod_lt _ (by omega)
  rw [Nat.add_mod]
  split
  · rename_i h
    rw [h]
    have : 1 % (k + 1) = if k = 0 then 0 else 1 := by
      split
      · rename_i hk; subst hk; rfl
      · exact Nat.mod_eq_of_lt (by omega)
    rw [this]
    split
    · rename_i hk; subst hk; rfl
    · exact Nat.mod_self _
  · rename_i h
    have h1 : 1 % (k + 1) = 1 := Nat.mod_eq_of_lt (by omega)
    rw [h1]
    exact Nat.mod_eq_of_lt (by omega)

/-- A run of unforced updates under the schedule with period `k + 1`, started with a
reusable result buffer, no pending request and the counter at `j mod (k + 1)`: frame
number `i` (from 0) is a full build exactly when `k + 1` divides `j + i + 1`, and an
incremental update otherwise. -/
theorem updates_schedule_run (dev : Device) (k : Nat) (hk : k + 1 < 4294967296) :
    ∀ (hits : List Nat) (g : Gpu) (s : CachingViaBVH) (j : Nat), Allocated s →
    s.mOptions.allowRefit = true → s.mOptions.rebuildOnSchedule = true →
    s.mOptions.consecutiveRefitCount = k → s.mRequireRebuild = false →
    blasReusable s = true → s.mUpdateCounter = j % (k + 1) →
    ∃ (g2 : Gpu) (s2 : CachingViaBVH) (ds : List BuildDesc),
      updates dev (hits.map fun hit => (hit, false)) (g, s) = some (g2, s2) ∧
      blasBuilds g2.commands = blasBuilds g.commands ++ ds ∧
      ds.length = hits.length ∧
      (∀ (i : Nat) (d : BuildDesc), ds[i]? = some d →
        (d.isFullBuild = true ↔ (j + i + 1) % (k + 1) = 0) ∧
        (d.performsUpdate = true ↔ (j + i + 1) % (k + 1) ≠ 0)) ∧
      s2.mUpdateCounter = (j + hits.length) % (k + 1) := by
  intro hits
  induction hits with
  | nil =>
    intro g s j _ _ _ _ _ _ hc
    exact ⟨g, s, [], rfl, by simp, rfl, by simp, by simpa using hc⟩
  | cons hit tl ih =>
    intro g s j hal hrefit hsch hkk hreq hreuse hc
    have hlt : j % (k + 1) < k + 1 := Nat.mod_lt _ (by omega)
    have hs : scheduleRebuild s = some (decide ((j + 1) % (k + 1) = 0)) := by
      unfold scheduleRebuild
      rw [hrefit, hsch, hkk, hc, u32_of_lt hk, u32_of_lt (by omega)]
      simp only [Bool.and_self, if_true]
      rw [if_neg (by omega)]
      congr 2
      rw [Nat.add_mod, Nat.mod_mod, ← Nat.add_mod]
    obtain ⟨g1, s1, d, hu, hb, hupd, hfull, -, hcnt, hreq1, hcfg, hreuse1, hal1⟩ :=
      update_spec dev g s hit false _ hal hs
    have hw : willRebuild s false (decide ((j + 1) % (k + 1) = 0))
        = decide ((j + 1) % (k + 1) = 0) := by
      unfold willRebuild; rw [hreq]; rfl
    rw [hw] at hupd hfull hcnt
    rw [hrefit, hreuse] at hupd hfull
    have hc1 : s1.mUpdateCounter = (j + 1) % (k + 1) := by
      rw [hcnt, hc, succ_mod_of_mod j k]
      by_cases hjk : j % (k + 1) = k
      · have : (j + 1) % (k + 1) = 0 := by rw [succ_mod_of_mod, if_pos hjk]
        simp [hjk]
      · have : (j + 1) % (k + 1) ≠ 0 := by rw [succ_mod_of_mod, if_neg hjk]; omega
        simp only [hjk, if_false]
        rw [if_neg (by simp)]
        exact u32_of_lt (by omega)
    obtain ⟨g2, s2, ds, hrun, hb2, hl2, hall, hc2⟩ := ih g1 s1 (j + 1) hal1
      (by rw [hcfg.1]; exact hrefit) (by rw [hcfg.1]; exact hsch) (by rw [hcfg.1]; exact hkk)
      hreq1 hreuse1 hc1
    refine ⟨g2, s2, d :: ds, ?_, ?_, ?_, ?_, ?_⟩
    · simp only [List.map_cons]
      rw [updates_cons]
      simp only [hu, Option.some_bind, Option.bind_some]
      exact hrun
    · rw [hb2, hb]; simp
    · simp [hl2]
    · intro i x hx
      cases i with
      | zero =>
        simp only [List.getElem?_cons_zero, Option.some.injEq] at hx
        subst hx
        rw [hfull, hupd]
        simp
      | succ i =>
        simp only [List.getElem?_cons_succ] at hx
        have := hall i x hx
        have e : j + 1 + i + 1 = j + (i + 1) + 1 := by omega
        rw [e] at this
        exact this
    · rw [hc2]; simp only [List.length_cons]
      congr 1; omega

theorem allocate_scheduledCacheAllocated :
    allocate exampleDevice
      (CachingViaBVH.create exampleDevice {} { rebuildOnSchedule := true }).1
      (CachingViaBVH.create exampleDevice {} { rebuildOnSchedule := true }).2 (4, 1)
      = some scheduledCacheAllocated := by
  decide

theorem allocated_scheduledCacheAllocated : Allocated scheduledCacheAllocated.2 :=
  (allocate_some exampleDevice _ scheduledCacheAllocated.1 _ scheduledCacheAllocated.2 4 1
    (create_fresh exampleDevice {} { rebuildOnSchedule := true }).1
    allocate_scheduledCacheAllocated).2.1 exampleDevice_reportsPositiveSizes

theorem update_scheduledCacheRebuilt :
    update exampleDevice scheduledCacheAllocated.1 scheduledCacheAllocated.2 0 true
      = some scheduledCacheRebuilt := by
  decide

/-- C8 (amended). With `allowRefit`, `rebuildOnSchedule` and `consecutiveRefitCount = k`
(`k + 1 < 2^32`), in any run of unforced `update` calls that starts right after a rebuild
frame (an `update` whose rebuild was forced or scheduled), frame number `i + 1` of the run
issues a full build exactly when `k + 1` divides `i + 1` and an incremental update
otherwise: the next `k` frames use refitting, the `(k+1)`-th is a rebuild, and so on with
period `k + 1`; the counter after `n` frames is `n mod (k + 1)`. Whether the schedule
fires depends only on the counter and the options, not on the `forceRebuild` argument. -/
theorem scheduled_rebuild_period (dev : Device) (g0 : Gpu) (s0 : CachingViaBVH) (hit0 : Nat)
    (force0 sched0 : Bool) (g : Gpu) (s : CachingViaBVH) (k : Nat) (hits : List Nat)
    (hal0 : Allocated s0) (hs0 : scheduleRebuild s0 = some sched0)
    (hrebuild : willRebuild s0 force0 sched0 = true)
    (hprev : update dev g0 s0 hit0 force0 = some (g, s))
    (hrefit : s0.mOptions.allowRefit = true) (hsch : s0.mOptions.rebuildOnSchedule = true)
    (hk : s0.mOptions.consecutiveRefitCount = k) (hk32 : k + 1 < 2 ^ 32) :
    (∃ (g2 : Gpu) (s2 : CachingViaBVH) (ds : List BuildDesc),
      updates dev (hits.map fun hit => (hit, false)) (g, s) = some (g2, s2) ∧
      blasBuilds g2.commands = blasBuilds g.commands ++ ds ∧
      ds.length = hits.length ∧
      (∀ (i : Nat) (d : BuildDesc), ds[i]? = some d →
        (d.isFullBuild = true ↔ (i + 1) % (k + 1) = 0) ∧
        (d.performsUpdate = true ↔ (i + 1) % (k + 1) ≠ 0)) ∧
      s2.mUpdateCounter = hits.length % (k + 1)) ∧
    (∀ (t : CachingViaBVH) (forceRebuild : Bool),
      scheduleRebuild (if forceRebuild = true then { t with mRequireRebuild := true } else t)
        = scheduleRebuild t) ∧
    (∀ t u : CachingViaBVH, t.mOptions = u.mOptions → t.mUpdateCounter = u.mUpdateCounter →
      scheduleRebuild t = scheduleRebuild u) := by
  have hk2 : k + 1 < 4294967296 := by norm_num at hk32; exact hk32
  obtain ⟨g1, s1, d, hu, -, -, -, -, hcnt, hreq, hcfg, hreuse, hal⟩ :=
    update_spec dev g0 s0 hit0 force0 sched0 hal0 hs0
  rw [hprev] at hu
  simp only [Option.some.injEq, Prod.mk.injEq] at hu
  obtain ⟨rfl, rfl⟩ := hu
  rw [hrebuild] at hcnt
  simp only [if_true] at hcnt
  obtain ⟨g2, s2, ds, hrun, hb, hl, hall, hc⟩ := updates_schedule_run dev k hk2 hits g s 0 hal
    (by rw [hcfg.1]; exact hrefit) (by rw [hcfg.1]; exact hsch) (by rw [hcfg.1]; exact hk)
    hreq hreuse (by rw [hcnt]; simp)
  refine ⟨⟨g2, s2, ds, hrun, hb, hl, ?_, by simpa using hc⟩, ?_, ?_⟩
  · intro i x hx
    have := hall i x hx
    simpa using this
  · intro t f
    apply scheduleRebuild_congr <;> cases f <;> rfl
  · intro t u ho hc
    exact scheduleRebuild_congr t u ho hc

/-- Witness of C8 (amended): a cache with `consecutiveRefitCount = 3`, nine frames after a forced
rebuild. -/
theorem scheduled_rebuild_period_witness :
    Allocated scheduledCacheAllocated.2 ∧
    scheduleRebuild scheduledCacheAllocated.2 = some false ∧
    willRebuild scheduledCacheAllocated.2 true false = true ∧
    update exampleDevice scheduledCacheAllocated.1 scheduledCacheAllocated.2 0 true
      = some (scheduledCacheRebuilt.1, scheduledCacheRebuilt.2) ∧
    scheduledCacheAllocated.2.mOptions.allowRefit = true ∧
    scheduledCacheAllocated.2.mOptions.rebuildOnSchedule = true ∧
    scheduledCacheAllocated.2.mOptions.consecutiveRefitCount = 3 ∧ 3 + 1 < 2 ^ 32 ∧
    ((∃ (g2 : Gpu) (s2 : CachingViaBVH) (ds : List BuildDesc),
      updates exampleDevice ([0, 0, 0, 0, 0, 0, 0, 0, 0].map fun hit => (hit, false))
        (scheduledCacheRebuilt.1, scheduledCacheRebuilt.2) = some (g2, s2) ∧
      blasBuilds g2.commands = blasBuilds scheduledCacheRebuilt.1.commands ++ ds ∧
      ds.length = [0, 0, 0, 0, 0, 0, 0, 0, 0].length ∧
      (∀ (i : Nat) (d : BuildDesc), ds[i]? = some d →
        (d.isFullBuild = true ↔ (i + 1) % (3 + 1) = 0) ∧
        (d.performsUpdate = true ↔ (i + 1) % (3 + 1) ≠ 0)) ∧
      s2.mUpdateCounter = [0, 0, 0, 0, 0, 0, 0, 0, 0].length % (3 + 1)) ∧
    (∀ (t : CachingViaBVH) (forceRebuild : Bool),
      scheduleRebuild (if forceRebuild = true then { t with mRequireRebuild := true } else t)
        = scheduleRebuild t) ∧
    (∀ t u : CachingViaBVH, t.mOptions = u.mOptions → t.mUpdateCounter = u.mUpdateCounter →
      scheduleRebuild t = scheduleRebuild u)) :=
  ⟨allocated_scheduledCacheAllocated, by decide, by decide, update_scheduledCacheRebuilt,
    by decide, by decide, by decide, by decide,
    scheduled_rebuild_period exampleDevice scheduledCacheAllocated.1 scheduledCacheAllocated.2 0
      true false scheduledCacheRebuilt.1 scheduledCacheRebuilt.2 3 [0, 0, 0, 0, 0, 0, 0, 0, 0]
      allocated_scheduledCacheAllocated (by decide) (by decide) update_scheduledCacheRebuilt
      (by decide) (by decide) (by decide) (by decide)⟩

/-- C8 as stated fails for the run that starts right after the first frame: with
`consecutiveRefitCount = 3` the first `update` of a fresh cache is a full build (a
rebuild) that leaves the counter at 1, and of the next three frames only two use
refitting; the third is already the scheduled rebuild. -/
theorem scheduled_rebuild_period_counterexample :
    scheduledCacheAllocated.2.mOptions.allowRefit = true ∧
    scheduledCacheAllocated.2.mOptions.rebuildOnSchedule = true ∧
    scheduledCacheAllocated.2.mOptions.consecutiveRefitCount = 3 ∧
    update exampleDevice scheduledCacheAllocated.1 scheduledCacheAllocated.2 0 false
      = some scheduledCacheFirstFrame ∧
    (blasBuilds scheduledCacheFirstFrame.1.commands).map BuildDesc.isFullBuild = [true] ∧
    (updates exampleDevice [(0, false), (0, false), (0, false)] scheduledCacheFirstFrame).map
      (fun r => (blasBuilds r.1.commands).map BuildDesc.isFullBuild)
      = some [true, false, false, true] := by
  decide

/-- C9 as stated fails: after the ten calls the counter is 10, not 9, because the first
call, whose full build is only due to the missing result buffer, increments it too. -/
theorem ten_updates_counterexample :
    allocatedCache.2.mOptions.allowRefit = true ∧
    allocatedCache.2.mOptions.rebuildOnSchedule = false ∧
    (updates exampleDevice (List.replicate 10 (0, false)) allocatedCache).map
      (fun r => r.2.mUpdateCounter) = some 10 ∧
    (updates exampleDevice (List.replicate 10 (0, false)) allocatedCache).map
      (fun r => r.2.mUpdateCounter) ≠ some 9 := by
  decide

/-- C9 (amended). With `allowRefit = true` and `rebuildOnSchedule = false`, for a freshly
created cache after `allocate`, 10 consecutive `update(forceRebuild = false)` calls with
unchanged geometry give: the first call issues a full build, calls 2 to 10 issue
incremental updates, and the counter is 10 after the tenth call. -/
theorem ten_updates_without_schedule (dev : Device) (g : Gpu) (options : Options)
    (w h : Nat) (hits : List Nat) (g1 : Gpu) (s1 : CachingViaBVH)
    (hdev : dev.reportsPositiveSizes)
    (hrefit : options.allowRefit = true) (hsch : options.rebuildOnSchedule = false)
    (hlen : hits.length = 10)
    (hal : allocate dev (CachingViaBVH.create dev g options).1
      (CachingViaBVH.create dev g options).2 (w, h) = some (g1, s1)) :
    ∃ (g2 : Gpu) (s2 : CachingViaBVH) (first : BuildDesc) (rest : List BuildDesc),
      updates dev (hits.map fun hit => (hit, false)) (g1, s1) = some (g2, s2) ∧
      blasBuilds g2.commands = blasBuilds g1.commands ++ first :: rest ∧
      first.isFullBuild = true ∧ rest.length = 9 ∧
      (∀ d ∈ rest, d.performsUpdate = true ∧
        d.SourceAccelerationStructureData = d.DestAccelerationStructureData) ∧
      s2.mUpdateCounter = 10 := by
  obtain ⟨htl, hopt, hc0, hreq0, hpb, -⟩ := create_fresh dev g options
  obtain ⟨-, hA, hc1, hreq1, hopt1, hpb1, -, -⟩ := allocate_some dev _ g1 _ s1 w h htl hal
  have hal1 := hA hdev
  cases hits with
  | nil => simp at hlen
  | cons hit tl =>
    simp only [List.length_cons] at hlen
    have hs : scheduleRebuild s1 = some false := by
      unfold scheduleRebuild; rw [hopt1, hopt, hsch]; simp
    obtain ⟨g2, s2, d, hu, hb, -, hfull, -, hcnt, hreq2, hcfg, hreuse2, hal2⟩ :=
      update_spec dev g1 s1 hit false false hal1 hs
    have hw : willRebuild s1 false false = false := by
      unfold willRebuild; rw [hreq1, hreq0]; rfl
    have hre : blasReusable s1 = false := blasReusable_of_none _ (by rw [hpb1, hpb])
    rw [hw, hc1, hc0] at hcnt
    obtain ⟨g3, s3, ds, hrun, hb3, hl3, hall, hc3, -⟩ := updates_refit_run dev tl g2 s2 1 hal2
      (by rw [hcfg.1, hopt1, hopt]; exact hrefit) (by rw [hcfg.1, hopt1, hopt]; exact hsch)
      hreq2 hreuse2 (by rw [hcnt]; decide) (by omega)
    refine ⟨g3, s3, d, ds, ?_, ?_, ?_, by omega, hall, by omega⟩
    · simp only [List.map_cons]
      rw [updates_cons]
      simp only [hu, Option.some_bind, Option.bind_some]
      exact hrun
    · rw [hb3, hb]; simp
    · rw [hfull, hre]; simp

/-- Witness of C9 (amended): the default options on the example driver, domain 4 x 1. -/
theorem ten_updates_without_schedule_witness :
    exampleDevice.reportsPositiveSizes ∧
    ({} : Options).allowRefit = true ∧ ({} : Options).rebuildOnSchedule = false ∧
    [0, 0, 0, 0, 0, 0, 0, 0, 0, 0].length = 10 ∧
    allocate exampleDevice (CachingViaBVH.create exampleDevice {} {}).1
      (CachingViaBVH.create exampleDevice {} {}).2 (4, 1)
      = some (allocatedCache.1, allocatedCache.2) ∧
    ∃ (g2 : Gpu) (s2 : CachingViaBVH) (first : BuildDesc) (rest : List BuildDesc),
      updates exampleDevice ([0, 0, 0, 0, 0, 0, 0, 0, 0, 0].map fun hit => (hit, false))
        (allocatedCache.1, allocatedCache.2) = some (g2, s2) ∧
      blasBuilds g2.commands = blasBuilds allocatedCache.1.commands ++ first :: rest ∧
      first.isFullBuild = true ∧ rest.length = 9 ∧
      (∀ d ∈ rest, d.performsUpdate = true ∧
        d.SourceAccelerationStructureData = d.DestAccelerationStructureData) ∧
      s2.mUpdateCounter = 10 :=
  ⟨exampleDevice_reportsPositiveSizes, rfl, rfl, rfl, allocate_allocatedCache,
    ten_updates_without_schedule exampleDevice {} {} 4 1 [0, 0, 0, 0, 0, 0, 0, 0, 0, 0]
      allocatedCache.1 allocatedCache.2 exampleDevice_reportsPositiveSizes rfl rfl rfl
      allocate_allocatedCache⟩


/-! ## Buffer growth, reallocation and the top-level build -/

theorem asBuilds_append (a b : List Command) :
    asBuilds (a ++ b) = asBuilds a ++ asBuilds b := by
  simp [asBuilds]

/-- The reuse-or-reallocate step: commands recorded, the buffer returned, and when it is
a new allocation. -/
theorem ensureBuffer_cases (dev : Device) (g : Gpu) (cur : Option Buffer) (size : Nat) :
    ∃ pre : List Command,
      (ensureBuffer dev g cur size).1.commands = g.commands ++ pre ∧ asBuilds pre = [] ∧
      (ensureBuffer dev g cur size).2.2 = needsReallocation cur size ∧
      size ≤ (ensureBuffer dev g cur size).2.1.size ∧
      (needsReallocation cur size = false → cur = some (ensureBuffer dev g cur size).2.1) ∧
      (needsReallocation cur size = true →
        (ensureBuffer dev g cur size).2.1.size = size ∧
        (ensureBuffer dev g cur size).2.1.id = g.bufferCount ∧
        (ensureBuffer dev g cur size).1.bufferCount = g.bufferCount + 1) ∧
      g.bufferCount ≤ (ensureBuffer dev g cur size).1.bufferCount ∧
      (∀ c ∈ pre, c.isBarrier = true) := by
  unfold ensureBuffer needsReallocation
  cases cur with
  | none => exact ⟨[], by simp [Buffer.create], rfl, rfl, by simp [Buffer.create], by simp,
      by simp [Buffer.create], by simp [Buffer.create], by simp⟩
  | some b =>
    by_cases h : b.size < size
    · simp only [h, if_true]
      exact ⟨[.uavBarrier b], by simp [Buffer.create, Gpu.record], rfl, by simp,
        by simp [Buffer.create], by simp, by simp [Buffer.create, Gpu.record],
        by simp [Buffer.create, Gpu.record], by simp [Command.isBarrier]⟩
    · simp only [h, if_false]
      exact ⟨[.uavBarrier b], by simp [Gpu.record], rfl, by simp [h], by omega, by simp,
        by simp [h], by simp [Gpu.record], by simp [Command.isBarrier]⟩

theorem blasReusable_eq (s : CachingViaBVH) :
    blasReusable s = !needsReallocation s.mBlasData.pBlas s.mBlasData.resultByteSize := by
  unfold blasReusable needsReallocation
  cases s.mBlasData.pBlas <;> simp

/-- Inversion of `buildBlas`: when the call completes, the AABB buffer exists and the
padded sizes are non-zero. -/
theorem buildBlas_some (dev : Device) (g : Gpu) (s : CachingViaBVH)
    (r : Gpu × CachingViaBVH) (h : buildBlas dev g s = some r) :
    ∃ aabb, s.mpAABBBuffer = some aabb ∧ 0 < s.mBlasData.resultByteSize ∧
      0 < s.mBlasData.scratchByteSize := by
  unfold buildBlas at h
  cases hb : s.mpAABBBuffer with
  | none => rw [hb] at h; simp at h
  | some aabb =>
    rw [hb] at h
    by_cases hp : 0 < s.mBlasData.resultByteSize ∧ 0 < s.mBlasData.scratchByteSize
    · exact ⟨aabb, rfl, hp.1, hp.2⟩
    · simp only [hp, if_false] at h
      simp at h

/-- Forward description of `buildBlas` with the buffers it ends up with. -/
theorem buildBlas_trace (dev : Device) (g : Gpu) (s : CachingViaBVH) (aabb : Buffer)
    (hbuf : s.mpAABBBuffer = some aabb)
    (hres : 0 < s.mBlasData.resultByteSize) (hscr : 0 < s.mBlasData.scratchByteSize) :
    ∃ (g1 : Gpu) (scratch blas : Buffer) (pre : List Command),
      buildBlas dev g s = some (g1,
        { s with
          mpBlasScratch := some scratch
          mBlasData := { s.mBlasData with pBlas := some blas }
          mTlasData :=
            { s.mTlasData with
              instanceDesc :=
                { s.mTlasData.instanceDesc with AccelerationStructure := blas.gpuAddress } }
          mRequireRebuild := false }) ∧
      g1.commands = g.commands ++ pre ++
        [.buildAS (blasBuildDesc s scratch blas (!blasReusable s)) none, .uavBarrier blas] ∧
      asBuilds pre = [] ∧
      ReusedOrReallocated s.mpBlasScratch s.mBlasData.scratchByteSize scratch ∧
      ReusedOrReallocated s.mBlasData.pBlas s.mBlasData.resultByteSize blas ∧
      (∀ c ∈ pre, c.isBarrier = true) ∧ g.bufferCount ≤ g1.bufferCount := by
  obtain ⟨pre1, hc1, hb1, -, hs1, hk1, hn1, hm1, hbar1⟩ := ensureBuffer_cases dev
    (g.record (.resourceBarrier aabb)) s.mpBlasScratch s.mBlasData.scratchByteSize
  obtain ⟨pre2, hc2, hb2, hflag, hs2, hk2, hn2, hm2, hbar2⟩ := ensureBuffer_cases dev
    (ensureBuffer dev (g.record (.resourceBarrier aabb)) s.mpBlasScratch
      s.mBlasData.scratchByteSize).1 s.mBlasData.pBlas s.mBlasData.resultByteSize
  have hre : (ensureBuffer dev
      (ensureBuffer dev (g.record (.resourceBarrier aabb)) s.mpBlasScratch
        s.mBlasData.scratchByteSize).1 s.mBlasData.pBlas s.mBlasData.resultByteSize).2.2
      = !blasReusable s := by
    rw [hflag, blasReusable_eq]; simp
  generalize hrs : ensureBuffer dev (g.record (.resourceBarrier aabb)) s.mpBlasScratch
    s.mBlasData.scratchByteSize = rs at *
  generalize hrb : ensureBuffer dev rs.1 s.mBlasData.pBlas s.mBlasData.resultByteSize = rb at *
  refine ⟨(rb.1.record (.buildAS (blasBuildDesc s rs.2.1 rb.2.1 (!blasReusable s)) none)).record
      (.uavBarrier rb.2.1), rs.2.1, rb.2.1, [.resourceBarrier aabb] ++ pre1 ++ pre2,
    ?_, ?_, ?_, ⟨hk1, fun h => (hn1 h).1, hs1⟩, ⟨hk2, fun h => (hn2 h).1, hs2⟩, ?_, ?_⟩
  · unfold buildBlas
    rw [hbuf]
    simp only [hres, hscr, and_self, if_true, hrs, hrb]
    rw [hre]
    simp only [blasBuildDesc]
  · simp only [Gpu.record, hc2, hc1, List.append_assoc]
    rfl
  · rw [asBuilds_append, asBuilds_append, hb1, hb2]; rfl
  · intro c hc
    simp only [List.mem_append, List.mem_singleton] at hc
    rcases hc with (rfl | hc) | hc
    · rfl
    · exact hbar1 c hc
    · exact hbar2 c hc
  · exact Nat.le_trans hm1 hm2

/-- Inversion of `buildTlas`: whenever the call completes it has recorded exactly one
build, of the inputs stored by the constructor with the address of the instance-descriptor
buffer filled in, reading the instance descriptor as `buildBlas` left it; only `mTlasData`
changes, and of it neither the build inputs nor the instance descriptor. -/
theorem buildTlas_some (dev : Device) (g : Gpu) (s : CachingViaBVH)
    (r : Gpu × CachingViaBVH) (h : buildTlas dev g s = some r) :
    ∃ (tscratch tlas inst srv : Buffer) (pre : List Command),
      s.mpTlasScratch = some tscratch ∧
      r.2 = { s with
          mTlasData :=
            { s.mTlasData with
              pTlas := some tlas
              pInstanceDescs := some inst
              instanceDescsBlob := some s.mTlasData.instanceDesc
              pSrv := some srv } } ∧
      r.1.commands = g.commands ++ pre ++
        [.resourceBarrier inst,
         .buildAS
          { Inputs := { s.mTlasData.buildInputs with InstanceDescs := inst.gpuAddress }
            ScratchAccelerationStructureData := tscratch.gpuAddress
            DestAccelerationStructureData := tlas.gpuAddress } (some s.mTlasData.instanceDesc),
         .uavBarrier tlas] ∧
      asBuilds pre = [] ∧
      (∀ c ∈ pre, c.isBarrier = true) ∧ g.bufferCount ≤ r.1.bufferCount := by
  unfold buildTlas tlasBuffers at h
  cases hsc : s.mpTlasScratch with
  | none =>
    rw [hsc] at h
    cases ht : s.mTlasData.pTlas with
    | none =>
      rw [ht] at h
      by_cases hi : s.mTlasData.pInstanceDescs = none
      · simp [hi] at h
      · simp [hi] at h
    | some tlas => rw [ht] at h; simp at h
  | some tscratch =>
    rw [hsc] at h
    cases ht : s.mTlasData.pTlas with
    | none =>
      rw [ht] at h
      by_cases hi : s.mTlasData.pInstanceDescs = none
      · simp only [hi, if_true, Option.some.injEq] at h
        subst h
        cases hs : s.mTlasData.pSrv with
        | none =>
          exact ⟨tscratch,
            (Buffer.create dev g s.mTlasData.prebuildInfo.ResultDataMaxSizeInBytes).2,
            (Buffer.create dev
              (Buffer.create dev g s.mTlasData.prebuildInfo.ResultDataMaxSizeInBytes).1
              sizeofInstanceDesc).2,
            (Buffer.create dev g s.mTlasData.prebuildInfo.ResultDataMaxSizeInBytes).2,
            [], rfl, by simp [hs], by simp [Gpu.record, Buffer.create], rfl, by simp,
            by simp [Gpu.record, Buffer.create]; omega⟩
        | some v =>
          exact ⟨tscratch,
            (Buffer.create dev g s.mTlasData.prebuildInfo.ResultDataMaxSizeInBytes).2,
            (Buffer.create dev
              (Buffer.create dev g s.mTlasData.prebuildInfo.ResultDataMaxSizeInBytes).1
              sizeofInstanceDesc).2,
            v, [], rfl, by simp [hs], by simp [Gpu.record, Buffer.create], rfl, by simp,
            by simp [Gpu.record, Buffer.create]; omega⟩
      · simp [hi] at h
    | some tlas =>
      rw [ht] at h
      cases hi : s.mTlasData.pInstanceDescs with
      | none => rw [hi] at h; simp at h
      | some inst =>
        rw [hi] at h
        simp only [Option.some.injEq] at h
        subst h
        cases hs : s.mTlasData.pSrv with
        | none =>
          exact ⟨tscratch, tlas, inst, tlas, [.uavBarrier tlas, .uavBarrier tscratch], rfl,
            by simp [hs], by simp [Gpu.record], rfl, by simp [Command.isBarrier],
            by simp [Gpu.record]⟩
        | some v =>
          exact ⟨tscratch, tlas, inst, v, [.uavBarrier tlas, .uavBarrier tscratch], rfl,
            by simp [hs], by simp [Gpu.record], rfl, by simp [Command.isBarrier],
            by simp [Gpu.record]⟩

/-- Inversion of `update`: whenever the call completes, it has recorded exactly two
builds, the bottom-level one first, and the state holds the buffers they used. -/
theorem update_trace (dev : Device) (g g2 : Gpu) (s s2 : CachingViaBVH) (hit : Nat)
    (force : Bool) (h : update dev g s hit force = some (g2, s2)) :
    ∃ (sched : Bool) (scratch blas tscratch tlas inst : Buffer) (cmds : List Command),
      scheduleRebuild s = some sched ∧
      (∃ aabb, s.mpAABBBuffer = some aabb) ∧
      0 < s.mBlasData.resultByteSize ∧ 0 < s.mBlasData.scratchByteSize ∧
      g2.commands = g.commands ++ cmds ∧
      asBuilds cmds =
        [(blasBuildDesc (updatePrepared s hit (willRebuild s force sched)) scratch blas
            (!blasReusable s), none),
         (tlasBuildDesc s tscratch tlas inst,
          some { s.mTlasData.instanceDesc with
            InstanceContributionToHitGroupIndex := hit % 16777216
            AccelerationStructure := blas.gpuAddress })] ∧
      s2.mBlasData.pBlas = some blas ∧ s2.mpBlasScratch = some scratch ∧
      ReusedOrReallocated s.mpBlasScratch s.mBlasData.scratchByteSize scratch ∧
      ReusedOrReallocated s.mBlasData.pBlas s.mBlasData.resultByteSize blas ∧
      SameConfiguration s s2 ∧
      s.mpTlasScratch = some tscratch ∧ s2.mpTlasScratch = some tscratch ∧
      s2.mTlasData.buildInputs = s.mTlasData.buildInputs ∧
      s2.mTlasData.pTlas = some tlas ∧ s2.mTlasData.pInstanceDescs = some inst ∧
      s2.mTlasData.instanceDesc.AccelerationStructure = blas.gpuAddress ∧
      s2.mRequireRebuild = false ∧
      (∃ pre mid post : List Command,
        cmds = pre ++
          [.buildAS (blasBuildDesc (updatePrepared s hit (willRebuild s force sched)) scratch
            blas (!blasReusable s)) none] ++ mid ++
          [.buildAS (tlasBuildDesc s tscratch tlas inst)
            (some { s.mTlasData.instanceDesc with
              InstanceContributionToHitGroupIndex := hit % 16777216
              AccelerationStructure := blas.gpuAddress })] ++ post ∧
        (∀ c ∈ pre, c.isBarrier = true) ∧ (∀ c ∈ mid, c.isBarrier = true) ∧
        (∀ c ∈ post, c.isBarrier = true)) ∧
      g.bufferCount ≤ g2.bufferCount := by
  rw [update_eq] at h
  cases hs : scheduleRebuild s with
  | none => rw [hs] at h; simp at h
  | some sched =>
    rw [hs] at h
    simp only [Option.some_bind, Option.bind_some] at h
    cases hb : buildBlas dev g (updatePrepared s hit (willRebuild s force sched)) with
    | none => rw [hb] at h; simp at h
    | some r1 =>
      obtain ⟨aabb, hbuf, hres, hscr⟩ := buildBlas_some dev g _ r1 hb
      obtain ⟨g1, scratch, blas, pre, hbb, hcmd, hpre, hrs, hrb, hbar1, hmono1⟩ :=
        buildBlas_trace dev g (updatePrepared s hit (willRebuild s force sched)) aabb hbuf hres hscr
      rw [hbb] at h
      simp only [Option.some_bind, Option.bind_some] at h
      cases ht : buildTlas dev g1
          { updatePrepared s hit (willRebuild s force sched) with
            mpBlasScratch := some scratch
            mBlasData :=
              { (updatePrepared s hit (willRebuild s force sched)).mBlasData with
                pBlas := some blas }
            mTlasData :=
              { (updatePrepared s hit (willRebuild s force sched)).mTlasData with
                instanceDesc :=
                  { (updatePrepared s hit (willRebuild s force sched)).mTlasData.instanceDesc with
                    AccelerationStructure := blas.gpuAddress } }
            mRequireRebuild := false } with
      | none => rw [ht] at h; simp at h
      | some r2 =>
        rw [ht] at h
        simp only [Option.some_bind, Option.bind_some, Option.some.injEq, Prod.mk.injEq] at h
        obtain ⟨tscratch, tlas, inst, srv, pre2, hts, hr2, hc2, hp2, hbar2, hmono2⟩ :=
          buildTlas_some dev g1 _ r2 ht
        obtain ⟨hg, hs2⟩ := h
        subst hg
        subst hs2
        have hmid : ∀ c ∈ [Command.uavBarrier blas] ++ pre2 ++ [Command.resourceBarrier inst],
            c.isBarrier = true := by
          intro c hc
          simp only [List.mem_append, List.mem_singleton] at hc
          rcases hc with (rfl | hc) | rfl
          · rfl
          · exact hbar2 c hc
          · rfl
        refine ⟨sched, scratch, blas, tscratch, tlas, inst,
          pre ++ [.buildAS (blasBuildDesc (updatePrepared s hit (willRebuild s force sched))
            scratch blas (!blasReusable s)) none, .uavBarrier blas] ++ pre2 ++
            [.resourceBarrier inst,
             .buildAS (tlasBuildDesc s tscratch tlas inst)
              (some { s.mTlasData.instanceDesc with
                InstanceContributionToHitGroupIndex := hit % 16777216
                AccelerationStructure := blas.gpuAddress }),
             .uavBarrier tlas],
          rfl, ⟨aabb, hbuf⟩, hres, hscr, ?_, ?_, ?_, ?_, hrs, hrb, ?_, hts, ?_, ?_, ?_, ?_, ?_, ?_,
          ⟨pre, [.uavBarrier blas] ++ pre2 ++ [.resourceBarrier inst], [.uavBarrier tlas],
            by simp only [List.append_assoc, List.cons_append, List.nil_append], hbar1, hmid,
            by simp [Command.isBarrier]⟩,
          Nat.le_trans hmono1 hmono2⟩
        · rw [hc2, hcmd]
          simp only [List.append_assoc]
          rfl
        · rw [asBuilds_append, asBuilds_append, asBuilds_append, hpre, hp2]
          rfl
        all_goals (simp only [hr2])
        all_goals first
          | rfl
          | exact hts
          | exact ⟨rfl, rfl, rfl, rfl, rfl, rfl, rfl, rfl, rfl⟩

theorem blasBuilds_of_asBuilds (cmds : List Command) :
    blasBuilds cmds = (asBuilds cmds).filterMap fun p =>
      if p.1.Inputs.Type_ = D3D12_RAYTRACING_ACCELERATION_STRUCTURE_TYPE_BOTTOM_LEVEL
      then some p.1 else none := by
  induction cmds with
  | nil => rfl
  | cons c cs ih =>
    have h1 : blasBuilds (c :: cs) = blasBuilds [c] ++ blasBuilds cs := blasBuilds_append [c] cs
    have h2 : asBuilds (c :: cs) = asBuilds [c] ++ asBuilds cs := asBuilds_append [c] cs
    rw [h1, h2, List.filterMap_append, ih]
    congr 1
    cases c with
    | buildAS d i =>
      by_cases ht : d.Inputs.Type_ = D3D12_RAYTRACING_ACCELERATION_STRUCTURE_TYPE_BOTTOM_LEVEL
      · simp [blasBuilds, asBuilds, ht]
      · simp [blasBuilds, asBuilds, ht]
    | _ => simp [blasBuilds, asBuilds]

theorem capacity_le_of_reused (old : Option Buffer) (size : Nat) (new : Buffer)
    (h : ReusedOrReallocated old size new) : capacity old ≤ new.size := by
  obtain ⟨h1, h2, h3⟩ := h
  cases hn : needsReallocation old size with
  | false => rw [h1 hn]; exact Nat.le_refl _
  | true =>
    cases old with
    | none => exact Nat.zero_le _
    | some b =>
      simp only [needsReallocation, decide_eq_true_eq] at hn
      simp only [capacity]
      omega

theorem replaced_iff_of_reused (old : Option Buffer) (size : Nat) (new : Buffer)
    (h : ReusedOrReallocated old size new) :
    old ≠ some new ↔ needsReallocation old size = true := by
  obtain ⟨h1, h2, h3⟩ := h
  constructor
  · intro hne
    cases hn : needsReallocation old size with
    | false => exact absurd (h1 hn) hne
    | true => rfl
  · intro hn
    cases old with
    | none => simp
    | some b =>
      have hs := h2 hn
      simp only [needsReallocation, decide_eq_true_eq] at hn
      intro heq
      simp only [Option.some.injEq] at heq
      subst heq
      omega

theorem tlasInputs_create (dev : Device) (g : Gpu) (options : Options) :
    TlasInputsAsConstructed (CachingViaBVH.create dev g options).2 :=
  ⟨rfl, rfl, rfl⟩

theorem allocate_some_tlas (dev : Device) (g g1 : Gpu) (s s1 : CachingViaBVH) (c : Nat × Nat)
    (h : allocate dev g s c = some (g1, s1)) :
    s1.mTlasData = s.mTlasData ∧ s1.mBlasData.pBlas = s.mBlasData.pBlas ∧
    s1.mpBlasScratch = s.mpBlasScratch ∧ s1.mpTlasScratch = s.mpTlasScratch := by
  obtain ⟨g', buf, he⟩ := allocate_eq dev g s c.1 c.2
  rw [he] at h
  simp only [Option.map_eq_some'] at h
  obtain ⟨s', hs', hp⟩ := h
  simp only [Prod.mk.injEq] at hp
  obtain ⟨-, hp⟩ := hp
  subst hp
  obtain ⟨-, -, -, -, -, -, -, -, h9, h10, h11, h12⟩ := setupBlas_some dev _ _ hs'
  exact ⟨h11, h9, h10, h12⟩

theorem runCalls_tlasInputs (dev : Device) : ∀ (cs : List Call) (gs r : Gpu × CachingViaBVH),
    TlasInputsAsConstructed gs.2 → runCalls dev cs gs = some r → TlasInputsAsConstructed r.2 := by
  intro cs
  induction cs with
  | nil =>
    intro gs r hi h
    simp only [runCalls, Option.some.injEq] at h
    subst h; exact hi
  | cons c cs ih =>
    intro gs r hi h
    simp only [runCalls] at h
    cases hc : c.run dev gs with
    | none => rw [hc] at h; simp at h
    | some r1 =>
      rw [hc] at h
      simp only [Option.some_bind, Option.bind_some] at h
      refine ih r1 r ?_ h
      cases c with
      | allocate a =>
        have hc2 : allocate dev gs.1 gs.2 a = some (r1.1, r1.2) := hc
        obtain ⟨ht, -⟩ := allocate_some_tlas dev gs.1 r1.1 gs.2 r1.2 a hc2
        unfold TlasInputsAsConstructed
        rw [ht]; exact hi
      | update hit force =>
        obtain ⟨_, _, _, _, _, _, _, -, -, -, -, -, -, -, -, -, -, -, -, -, hbi, -⟩ :=
          update_trace dev gs.1 r1.1 gs.2 r1.2 hit force
            (show update dev gs.1 gs.2 hit force = some (r1.1, r1.2) from hc)
        unfold TlasInputsAsConstructed
        rw [hbi]; exact hi

/-- A run of `update` calls on an allocated cache completes, keeps the cache allocated
and the options unchanged, and the capacity of neither bottom-level buffer decreases. -/
theorem updates_capacity (dev : Device) : ∀ (frames : List (Nat × Bool)) (g : Gpu)
    (s : CachingViaBVH), Allocated s → s.mOptions.consecutiveRefitCount + 1 < 4294967296 →
    ∃ (g1 : Gpu) (s1 : CachingViaBVH),
      updates dev frames (g, s) = some (g1, s1) ∧ Allocated s1 ∧ s1.mOptions = s.mOptions ∧
      capacity s.mBlasData.pBlas ≤ capacity s1.mBlasData.pBlas ∧
      capacity s.mpBlasScratch ≤ capacity s1.mpBlasScratch := by
  intro frames
  induction frames with
  | nil => intro g s hal _; exact ⟨g, s, rfl, hal, rfl, Nat.le_refl _, Nat.le_refl _⟩
  | cons f fs ih =>
    intro g s hal hk
    obtain ⟨sched, hsched⟩ := scheduleRebuild_defined s hk
    obtain ⟨g2, s2, d, hu, -, -, -, -, -, -, hcfg, -, hal2⟩ :=
      update_spec dev g s f.1 f.2 sched hal hsched
    obtain ⟨_, scratch, blas, _, _, _, _, -, -, -, -, -, -, hpb, hps, hrs, hrb, -⟩ :=
      update_trace dev g g2 s s2 f.1 f.2 hu
    obtain ⟨g3, s3, hrun, hal3, hopt3, hc1, hc2⟩ := ih g2 s2 hal2 (by rw [hcfg.1]; exact hk)
    refine ⟨g3, s3, ?_, hal3, by rw [hopt3, hcfg.1], ?_, ?_⟩
    · rw [updates_cons]
      simp only [hu, Option.some_bind, Option.bind_some]
      exact hrun
    · have := capacity_le_of_reused _ _ _ hrb
      rw [hpb] at hc1
      simp only [capacity] at hc1 ⊢
      exact Nat.le_trans this hc1
    · have := capacity_le_of_reused _ _ _ hrs
      rw [hps] at hc2
      simp only [capacity] at hc2 ⊢
      exact Nat.le_trans this hc2

theorem allocated_tlasConsistent (s : CachingViaBVH) (h : Allocated s) : TlasConsistent s :=
  ⟨h.2.2.2.2.2.1, h.2.2.2.2.2.2.1, h.2.2.2.2.2.2.2⟩

theorem update_builtCache :
    update exampleDevice allocatedCache.1 allocatedCache.2 0 false = some builtCache := by
  decide

theorem allocated_builtCache : Allocated builtCache.2 := by
  obtain ⟨g2, s2, d, hu, -, -, -, -, -, -, -, -, hal⟩ :=
    update_spec exampleDevice allocatedCache.1 allocatedCache.2 0 false false
      allocated_allocatedCache (by decide)
  rw [update_builtCache] at hu
  simp only [Option.some.injEq] at hu
  rw [hu]; exact hal

theorem allocate_grownCache :
    allocate exampleDevice builtCache.1 builtCache.2 (2500, 1) = some grownCache := by
  decide

theorem allocated_grownCache : Allocated grownCache.2 :=
  (allocate_some exampleDevice builtCache.1 grownCache.1 builtCache.2 grownCache.2 2500 1
    (allocated_tlasConsistent _ allocated_builtCache) allocate_grownCache).2.1
    exampleDevice_reportsPositiveSizes

/-- C12. For every `update` on an allocated cache in which `buildBlas` reallocates the
bottom-level result buffer (the buffer is missing, or the required result size exceeds its
size), the call completes and the one bottom-level build it issues is a full build into
the new buffer, of exactly the required size: no `PERFORM_UPDATE`, no source, whatever
`allowRefit`, the `forceRebuild` argument, the pending request and the schedule are. -/
theorem update_reallocation_is_full_build (dev : Device) (g : Gpu) (s : CachingViaBVH)
    (hit : Nat) (forceRebuild sched : Bool)
    (hal : Allocated s) (hsched : scheduleRebuild s = some sched)
    (hre : needsReallocation s.mBlasData.pBlas s.mBlasData.resultByteSize = true) :
    ∃ (g2 : Gpu) (s2 : CachingViaBVH) (d : BuildDesc) (blas : Buffer),
      update dev g s hit forceRebuild = some (g2, s2) ∧
      blasBuilds g2.commands = blasBuilds g.commands ++ [d] ∧
      s2.mBlasData.pBlas = some blas ∧ s.mBlasData.pBlas ≠ some blas ∧
      blas.size = s.mBlasData.resultByteSize ∧
      d.DestAccelerationStructureData = blas.gpuAddress ∧
      d.isFullBuild = true ∧ d.performsUpdate = false ∧
      d.SourceAccelerationStructureData = 0 := by
  obtain ⟨g2, s2, d, hu, hb, hupd, hfull, -, -, -, -, -, -⟩ :=
    update_spec dev g s hit forceRebuild sched hal hsched
  obtain ⟨sched2, scratch, blas, tscratch, tlas, inst, cmds, hs2, -, -, -, hcmd, hasb, hpb, -, -,
    hrb, -⟩ := update_trace dev g g2 s s2 hit forceRebuild hu
  have hreuse : blasReusable s = false := by rw [blasReusable_eq, hre]; rfl
  have hd : d = blasBuildDesc (updatePrepared s hit (willRebuild s forceRebuild sched2)) scratch
      blas (!blasReusable s) := by
    have h1 : blasBuilds g2.commands = blasBuilds g.commands ++ blasBuilds cmds := by
      rw [hcmd, blasBuilds_append]
    rw [hb] at h1
    have h2 := List.append_cancel_left h1
    rw [blasBuilds_of_asBuilds, hasb] at h2
    obtain ⟨-, -, -, f4, -⟩ := blasBuildDesc_flags
      (updatePrepared s hit (willRebuild s forceRebuild sched2)) scratch blas
      (allocated_updatePrepared s hit _ hal)
    have f4b : (blasBuildDesc (updatePrepared s hit (willRebuild s forceRebuild sched2)) scratch
        blas (!blasReusable s)).Inputs.Type_
        = D3D12_RAYTRACING_ACCELERATION_STRUCTURE_TYPE_BOTTOM_LEVEL := f4
    have ht : (tlasBuildDesc s tscratch tlas inst).Inputs.Type_
        ≠ D3D12_RAYTRACING_ACCELERATION_STRUCTURE_TYPE_BOTTOM_LEVEL := by
      show s.mTlasData.buildInputs.Type_ ≠ _
      rw [hal.2.2.2.2.2.1]; decide
    simp only [List.filterMap_cons, List.filterMap_nil, f4b, ht, if_true, if_false] at h2
    simpa using h2
  have hf : d.isFullBuild = true := by rw [hfull, hreuse]; simp
  have hsrc : d.SourceAccelerationStructureData = 0 := by
    unfold BuildDesc.isFullBuild at hf
    simp only [Bool.and_eq_true, beq_iff_eq] at hf
    exact hf.1
  refine ⟨g2, s2, d, blas, hu, hb, hpb, (replaced_iff_of_reused _ _ _ hrb).2 hre, hrb.2.1 hre,
    ?_, hf, by rw [hupd, hreuse]; simp, hsrc⟩
  rw [hd]
  exact (blasBuildDesc_flags (updatePrepared s hit (willRebuild s forceRebuild sched2)) scratch
    blas (allocated_updatePrepared s hit _ hal)).2.2.2.2

/-- Witness of C12: the built default cache after `allocate` on a larger domain; refitting
is enabled, nothing is forced or scheduled, and the result buffer of 1280 bytes is
smaller than the 1536 bytes required. -/
theorem update_reallocation_is_full_build_witness :
    grownCache.2.mOptions.allowRefit = true ∧ grownCache.2.mRequireRebuild = false ∧
    (grownCache.2.mBlasData.pBlas.map Buffer.size) = some 1280 ∧
    grownCache.2.mBlasData.resultByteSize = 1536 ∧
    ∃ (g2 : Gpu) (s2 : CachingViaBVH) (d : BuildDesc) (blas : Buffer),
      update exampleDevice grownCache.1 grownCache.2 0 false = some (g2, s2) ∧
      blasBuilds g2.commands = blasBuilds grownCache.1.commands ++ [d] ∧
      s2.mBlasData.pBlas = some blas ∧ grownCache.2.mBlasData.pBlas ≠ some blas ∧
      blas.size = grownCache.2.mBlasData.resultByteSize ∧
      d.DestAccelerationStructureData = blas.gpuAddress ∧
      d.isFullBuild = true ∧ d.performsUpdate = false ∧
      d.SourceAccelerationStructureData = 0 :=
  ⟨by decide, by decide, by decide, by decide,
    update_reallocation_is_full_build exampleDevice grownCache.1 grownCache.2 0 false false
      allocated_grownCache (by decide) (by decide)⟩

/-- C13. On an allocated cache, after any sequence of `update` calls, a further `update`
completes and leaves a result buffer and a scratch buffer such that each one is replaced
(differs from the buffer held before the call) if and only if the buffer did not exist or
its size was smaller than the required byte size, and is the same buffer otherwise; the
capacity of neither buffer decreased over the sequence or in the call, and after the call
each capacity is at least the required size. -/
theorem buildBlas_buffer_growth (dev : Device) (frames : List (Nat × Bool)) (g : Gpu)
    (s : CachingViaBVH) (hit : Nat) (forceRebuild : Bool)
    (hal : Allocated s) (hk : s.mOptions.consecutiveRefitCount + 1 < 4294967296) :
    ∃ (g1 : Gpu) (s1 : CachingViaBVH) (g2 : Gpu) (s2 : CachingViaBVH) (blas scratch : Buffer),
      updates dev frames (g, s) = some (g1, s1) ∧
      update dev g1 s1 hit forceRebuild = some (g2, s2) ∧
      s2.mBlasData.pBlas = some blas ∧ s2.mpBlasScratch = some scratch ∧
      (s1.mBlasData.pBlas ≠ some blas ↔
        needsReallocation s1.mBlasData.pBlas s1.mBlasData.resultByteSize = true) ∧
      (s1.mpBlasScratch ≠ some scratch ↔
        needsReallocation s1.mpBlasScratch s1.mBlasData.scratchByteSize = true) ∧
      capacity s.mBlasData.pBlas ≤ capacity s1.mBlasData.pBlas ∧
      capacity s1.mBlasData.pBlas ≤ capacity s2.mBlasData.pBlas ∧
      capacity s.mpBlasScratch ≤ capacity s1.mpBlasScratch ∧
      capacity s1.mpBlasScratch ≤ capacity s2.mpBlasScratch ∧
      s2.mBlasData.resultByteSize ≤ capacity s2.mBlasData.pBlas ∧
      s2.mBlasData.scratchByteSize ≤ capacity s2.mpBlasScratch := by
  obtain ⟨g1, s1, hrun, hal1, hopt1, hc1, hc2⟩ := updates_capacity dev frames g s hal hk
  obtain ⟨sched, hsched⟩ := scheduleRebuild_defined s1 (by rw [hopt1]; exact hk)
  obtain ⟨g2, s2, d, hu, -⟩ := update_spec dev g1 s1 hit forceRebuild sched hal1 hsched
  obtain ⟨_, scratch, blas, _, _, _, _, -, -, -, -, -, -, hpb, hps, hrs, hrb, hcfg, -⟩ :=
    update_trace dev g1 g2 s1 s2 hit forceRebuild hu
  refine ⟨g1, s1, g2, s2, blas, scratch, hrun, hu, hpb, hps,
    replaced_iff_of_reused _ _ _ hrb, replaced_iff_of_reused _ _ _ hrs, hc1, ?_, hc2, ?_, ?_, ?_⟩
  · rw [hpb]; exact capacity_le_of_reused _ _ _ hrb
  · rw [hps]; exact capacity_le_of_reused _ _ _ hrs
  · rw [hpb, hcfg.2.2.2.2.2.2.2.1]; exact hrb.2.2
  · rw [hps, hcfg.2.2.2.2.2.2.2.2]; exact hrs.2.2

/-- Witness of C13: two updates of the default cache on the domain 4 x 1, then a third. -/
theorem buildBlas_buffer_growth_witness :
    ∃ (g1 : Gpu) (s1 : CachingViaBVH) (g2 : Gpu) (s2 : CachingViaBVH) (blas scratch : Buffer),
      updates exampleDevice [(0, false), (0, true)] (allocatedCache.1, allocatedCache.2)
        = some (g1, s1) ∧
      update exampleDevice g1 s1 0 false = some (g2, s2) ∧
      s2.mBlasData.pBlas = some blas ∧ s2.mpBlasScratch = some scratch ∧
      (s1.mBlasData.pBlas ≠ some blas ↔
        needsReallocation s1.mBlasData.pBlas s1.mBlasData.resultByteSize = true) ∧
      (s1.mpBlasScratch ≠ some scratch ↔
        needsReallocation s1.mpBlasScratch s1.mBlasData.scratchByteSize = true) ∧
      capacity allocatedCache.2.mBlasData.pBlas ≤ capacity s1.mBlasData.pBlas ∧
      capacity s1.mBlasData.pBlas ≤ capacity s2.mBlasData.pBlas ∧
      capacity allocatedCache.2.mpBlasScratch ≤ capacity s1.mpBlasScratch ∧
      capacity s1.mpBlasScratch ≤ capacity s2.mpBlasScratch ∧
      s2.mBlasData.resultByteSize ≤ capacity s2.mBlasData.pBlas ∧
      s2.mBlasData.scratchByteSize ≤ capacity s2.mpBlasScratch :=
  buildBlas_buffer_growth exampleDevice [(0, false), (0, true)] allocatedCache.1
    allocatedCache.2 0 false allocated_allocatedCache (by decide)

/-- C20. In every state reached from the constructor by `allocate` and `update` calls in
which the cache is allocated, `update` completes and records exactly two builds: the
bottom-level build, then the top-level build. The top-level build is a full build (no
`PERFORM_UPDATE`, no source) over exactly one instance, and the instance descriptor it
reads holds the GPU address of the buffer that the bottom-level build of the same call
wrote to, which is the result buffer held afterwards, a new one when the call had to
reallocate it. -/
theorem update_rebuilds_tlas (dev : Device) (g0 : Gpu) (options : Options) (cs : List Call)
    (g : Gpu) (s : CachingViaBVH) (hit : Nat) (forceRebuild sched : Bool)
    (hreach : runCalls dev cs (CachingViaBVH.create dev g0 options) = some (g, s))
    (hal : Allocated s) (hsched : scheduleRebuild s = some sched) :
    ∃ (g2 : Gpu) (s2 : CachingViaBVH) (cmds : List Command) (d t : BuildDesc)
        (blob : InstanceDesc) (blas : Buffer),
      update dev g s hit forceRebuild = some (g2, s2) ∧
      g2.commands = g.commands ++ cmds ∧
      asBuilds cmds = [(d, none), (t, some blob)] ∧
      d.Inputs.Type_ = D3D12_RAYTRACING_ACCELERATION_STRUCTURE_TYPE_BOTTOM_LEVEL ∧
      t.Inputs.Type_ = D3D12_RAYTRACING_ACCELERATION_STRUCTURE_TYPE_TOP_LEVEL ∧
      t.Inputs.NumDescs = 1 ∧ t.isFullBuild = true ∧ t.performsUpdate = false ∧
      t.SourceAccelerationStructureData = 0 ∧
      s2.mBlasData.pBlas = some blas ∧
      d.DestAccelerationStructureData = blas.gpuAddress ∧
      blob.AccelerationStructure = blas.gpuAddress ∧
      s2.mTlasData.instanceDesc.AccelerationStructure = blas.gpuAddress ∧
      (s.mBlasData.pBlas ≠ some blas ↔
        needsReallocation s.mBlasData.pBlas s.mBlasData.resultByteSize = true) := by
  obtain ⟨hty, hnum, hfl⟩ := runCalls_tlasInputs dev cs _ (g, s)
    (tlasInputs_create dev g0 options) hreach
  obtain ⟨g2, s2, -, hu, -⟩ := update_spec dev g s hit forceRebuild sched hal hsched
  obtain ⟨sched2, scratch, blas, tscratch, tlas, inst, cmds, -, -, -, -, hcmd, hasb, hpb, -, -,
    hrb, -, -, -, -, -, -, hacc, -⟩ := update_trace dev g g2 s s2 hit forceRebuild hu
  obtain ⟨-, -, -, f4, f5⟩ := blasBuildDesc_flags
    (updatePrepared s hit (willRebuild s forceRebuild sched2)) scratch blas
    (allocated_updatePrepared s hit _ hal)
  have hperf : (tlasBuildDesc s tscratch tlas inst).performsUpdate = false := by
    show (s.mTlasData.buildInputs.Flags &&&
      D3D12_RAYTRACING_ACCELERATION_STRUCTURE_BUILD_FLAG_PERFORM_UPDATE != 0) = false
    rw [hfl]; decide
  refine ⟨g2, s2, cmds, _, tlasBuildDesc s tscratch tlas inst, _, blas, hu, hcmd, hasb, f4, hty,
    hnum, ?_, hperf, rfl, hpb, f5, rfl, hacc, replaced_iff_of_reused _ _ _ hrb⟩
  unfold BuildDesc.isFullBuild
  rw [hperf]; rfl

/-- Witness of C20: the default cache after `allocate (4, 1)`, `update` and
`allocate (2500, 1)`, where the next `update` reallocates the result buffer. -/
theorem update_rebuilds_tlas_witness :
    runCalls exampleDevice [.allocate (4, 1), .update 0 false, .allocate (2500, 1)]
      (CachingViaBVH.create exampleDevice {} {}) = some (grownCache.1, grownCache.2) ∧
    ∃ (g2 : Gpu) (s2 : CachingViaBVH) (cmds : List Command) (d t : BuildDesc)
        (blob : InstanceDesc) (blas : Buffer),
      update exampleDevice grownCache.1 grownCache.2 7 false = some (g2, s2) ∧
      g2.commands = grownCache.1.commands ++ cmds ∧
      asBuilds cmds = [(d, none), (t, some blob)] ∧
      d.Inputs.Type_ = D3D12_RAYTRACING_ACCELERATION_STRUCTURE_TYPE_BOTTOM_LEVEL ∧
      t.Inputs.Type_ = D3D12_RAYTRACING_ACCELERATION_STRUCTURE_TYPE_TOP_LEVEL ∧
      t.Inputs.NumDescs = 1 ∧ t.isFullBuild = true ∧ t.performsUpdate = false ∧
      t.SourceAccelerationStructureData = 0 ∧
      s2.mBlasData.pBlas = some blas ∧
      d.DestAccelerationStructureData = blas.gpuAddress ∧
      blob.AccelerationStructure = blas.gpuAddress ∧
      s2.mTlasData.instanceDesc.AccelerationStructure = blas.gpuAddress ∧
      (grownCache.2.mBlasData.pBlas ≠ some blas ↔
        needsReallocation grownCache.2.mBlasData.pBlas grownCache.2.mBlasData.resultByteSize
          = true) :=
  ⟨by decide,
    update_rebuilds_tlas exampleDevice {} {} [.allocate (4, 1), .update 0 false, .allocate (2500, 1)]
      grownCache.1 grownCache.2 7 false false (by decide) allocated_grownCache (by decide)⟩

/-- Inversion of `allocate` for the AABB buffer. -/
theorem allocate_buffer (dev : Device) (g g1 : Gpu) (s s1 : CachingViaBVH) (c : Nat × Nat)
    (h : allocate dev g s c = some (g1, s1)) :
    ∃ buf, s1.mpAABBBuffer = some buf ∧
      (needsAabbReallocation s.mpAABBBuffer (u32 (u32 c.1 * u32 c.2)) = false →
        s.mpAABBBuffer = some buf ∧ g1 = g) ∧
      (needsAabbReallocation s.mpAABBBuffer (u32 (u32 c.1 * u32 c.2)) = true →
        buf.elementCount = u32 (u32 c.1 * u32 c.2) ∧ buf.id = g.bufferCount ∧
        g1.bufferCount = g.bufferCount + 1) ∧
      u32 (u32 c.1 * u32 c.2) ≤ buf.elementCount ∧
      s1.mAabbCount = (u32 c.1, u32 c.2) ∧ s1.mCanUseTiling = decide (u32 c.2 > 1) ∧
      setupBlas dev
        { s with
          mAabbCount := (u32 c.1, u32 c.2)
          mCanUseTiling := decide (u32 c.2 > 1)
          mpAABBBuffer := some buf } = some s1 := by
  unfold allocate at h
  simp only [Option.map_eq_some'] at h
  obtain ⟨s', hs', hp⟩ := h
  simp only [Prod.mk.injEq] at hp
  obtain ⟨hg, rfl⟩ := hp
  obtain ⟨-, hbuf, hcan, hcnt, -⟩ := setupBlas_some dev _ _ hs'
  cases hb : s.mpAABBBuffer with
  | none =>
    simp only [hb, if_true] at hs' hbuf hcan hcnt hg
    refine ⟨_, hbuf, by simp [needsAabbReallocation], ?_, ?_, hcnt, hcan, hs'⟩
    · intro _
      exact ⟨rfl, rfl, by rw [← hg]; rfl⟩
    · exact Nat.le_refl _
  | some b =>
    by_cases hlt : b.elementCount < u32 (u32 c.1 * u32 c.2)
    · simp only [hb, hlt, decide_True, if_true] at hs' hbuf hcan hcnt hg
      refine ⟨_, hbuf, by simp [needsAabbReallocation, hlt], ?_, ?_, hcnt, hcan, hs'⟩
      · intro _
        exact ⟨rfl, rfl, by rw [← hg]; rfl⟩
      · exact Nat.le_refl _
    · simp only [hb, hlt, decide_False, Bool.false_eq_true, if_false] at hs' hbuf hcan hcnt hg
      refine ⟨b, hbuf, ?_, by simp [needsAabbReallocation, hlt], by omega,
        hcnt, hcan, hs'⟩
      intro _
      exact ⟨rfl, hg.symm⟩

theorem elementCapacity_le_of_allocate (dev : Device) (g g1 : Gpu) (s s1 : CachingViaBVH)
    (c : Nat × Nat) (h : allocate dev g s c = some (g1, s1)) :
    elementCapacity s.mpAABBBuffer ≤ elementCapacity s1.mpAABBBuffer := by
  obtain ⟨buf, hb, hkeep, hnew, -, -⟩ := allocate_buffer dev g g1 s s1 c h
  rw [hb]
  cases hn : needsAabbReallocation s.mpAABBBuffer (u32 (u32 c.1 * u32 c.2)) with
  | false => rw [(hkeep hn).1]
  | true =>
    obtain ⟨he, -⟩ := hnew hn
    cases hs : s.mpAABBBuffer with
    | none => exact Nat.zero_le _
    | some b =>
      rw [hs] at hn
      simp only [needsAabbReallocation, decide_eq_true_eq] at hn
      simp only [elementCapacity]
      omega

theorem aabb_replaced_iff (dev : Device) (g g1 : Gpu) (s s1 : CachingViaBVH) (c : Nat × Nat)
    (buf : Buffer) (h : allocate dev g s c = some (g1, s1)) (hb : s1.mpAABBBuffer = some buf) :
    s.mpAABBBuffer ≠ some buf ↔
      needsAabbReallocation s.mpAABBBuffer (u32 (u32 c.1 * u32 c.2)) = true := by
  obtain ⟨buf2, hb2, hkeep, hnew, -, -⟩ := allocate_buffer dev g g1 s s1 c h
  rw [hb] at hb2
  simp only [Option.some.injEq] at hb2
  subst hb2
  constructor
  · intro hne
    cases hn : needsAabbReallocation s.mpAABBBuffer (u32 (u32 c.1 * u32 c.2)) with
    | false => exact absurd (hkeep hn).1 hne
    | true => rfl
  · intro hn
    obtain ⟨he, -⟩ := hnew hn
    cases hs : s.mpAABBBuffer with
    | none => simp
    | some b =>
      rw [hs] at hn
      simp only [needsAabbReallocation, decide_eq_true_eq] at hn
      intro heq
      simp only [Option.some.injEq] at heq
      subst heq
      omega

theorem runCalls_elementCapacity (dev : Device) : ∀ (cs : List Call) (gs r : Gpu × CachingViaBVH),
    runCalls dev cs gs = some r →
    elementCapacity gs.2.mpAABBBuffer ≤ elementCapacity r.2.mpAABBBuffer := by
  intro cs
  induction cs with
  | nil =>
    intro gs r h
    simp only [runCalls, Option.some.injEq] at h
    subst h; exact Nat.le_refl _
  | cons c cs ih =>
    intro gs r h
    simp only [runCalls] at h
    cases hc : c.run dev gs with
    | none => rw [hc] at h; simp at h
    | some r1 =>
      rw [hc] at h
      simp only [Option.some_bind, Option.bind_some] at h
      refine Nat.le_trans ?_ (ih r1 r h)
      cases c with
      | allocate a =>
        exact elementCapacity_le_of_allocate dev gs.1 r1.1 gs.2 r1.2 a hc
      | update hit force =>
        obtain ⟨_, _, _, _, _, _, _, -, -, -, -, -, -, -, -, -, -, hcfg, -⟩ :=
          update_trace dev gs.1 r1.1 gs.2 r1.2 hit force
            (show update dev gs.1 gs.2 hit force = some (r1.1, r1.2) from hc)
        rw [hcfg.2.2.2.2.1]

theorem u32_mul_of_lt (w h : Nat) (hb : w * h < 4294967296) : u32 (u32 w * u32 h) = w * h := by
  rcases Nat.eq_zero_or_pos w with hw | hw
  · subst hw; simp [u32]
  rcases Nat.eq_zero_or_pos h with hh | hh
  · subst hh; simp [u32]
  have h1 : w < 4294967296 := lt_of_le_of_lt (Nat.le_mul_of_pos_right w hh) hb
  have h2 : h < 4294967296 := lt_of_le_of_lt (Nat.le_mul_of_pos_left h hw) hb
  rw [u32_of_lt h1, u32_of_lt h2, u32_of_lt hb]

/-- The call `allocate` completes on the linear policy when the 32-bit total is at least
1 and the descriptor count does not wrap. -/
theorem allocate_linear_completes (dev : Device) (g : Gpu) (s : CachingViaBVH) (w h : Nat)
    (hdev : dev.reportsPositiveSizes)
    (hlin : (s.mOptions.useTiling && decide (u32 h > 1)) = false)
    (h1 : 1 ≤ u32 (u32 w * u32 h)) (hN : 1 ≤ s.mAabbPerGeometry)
    (hb : u32 (u32 w * u32 h) + s.mAabbPerGeometry - 1 < 4294967296) :
    ∃ (g1 : Gpu) (s1 : CachingViaBVH), allocate dev g s (w, h) = some (g1, s1) := by
  obtain ⟨g1, buf, hal⟩ := allocate_eq dev g s w h
  have hgeo := setupBlasGeometry_linear
    { s with
      mAabbCount := (u32 w, u32 h), mCanUseTiling := decide (u32 h > 1), mpAABBBuffer := some buf }
    buf rfl hlin
  have hexp := setupBlasLinear_of_bounds
    { s with
      mAabbCount := (u32 w, u32 h), mCanUseTiling := decide (u32 h > 1), mpAABBBuffer := some buf }
    buf.gpuAddress (u32 (u32 w * u32 h)) s.mAabbPerGeometry rfl rfl h1 hN hb
  rw [hexp] at hgeo
  obtain ⟨s2, hs2, -⟩ := setupBlas_of_geometry dev _ _ hdev hgeo
  exact ⟨g1, s2, by rw [hal, hs2]; rfl⟩

/-- C14 as stated fails: the element count is compared with the 32-bit product. On the
domain 2147483650 x 2 (product 4294967300, 4 in 32 bits) `allocate` creates a buffer of 4
elements, fewer than `w * h`; a second `allocate` with the same domain finds a buffer whose
element count is smaller than `w * h` and keeps it. -/
theorem allocate_buffer_growth_counterexample :
    allocate exampleDevice linearFreshCache.1 linearFreshCache.2 (2147483650, 2)
      = some wrappedDomainCache ∧
    wrappedDomainCache.2.mpAABBBuffer.map Buffer.elementCount = some 4 ∧
    ¬ (2147483650 * 2 ≤ elementCapacity wrappedDomainCache.2.mpAABBBuffer) ∧
    needsAabbReallocation wrappedDomainCache.2.mpAABBBuffer (2147483650 * 2) = true ∧
    (allocate exampleDevice wrappedDomainCache.1 wrappedDomainCache.2 (2147483650, 2)).map
      (fun r => r.2.mpAABBBuffer) = some wrappedDomainCache.2.mpAABBBuffer := by
  decide

/-- C14 (amended). After any sequence of `allocate` and `update` calls, whenever
`allocate(w, h)` completes it leaves an AABB buffer that is replaced (differs from the one
held before) if and only if none existed or its element count was smaller than
`(w * h) mod 2^32`, the product as computed in 32-bit arithmetic, and is the existing
buffer otherwise; the capacity has not decreased over the sequence or in the call and is
at least `(w * h) mod 2^32` afterwards. For `w * h < 2^32` this is the claim with `w * h`
itself. The call completes, on a driver reporting non-zero sizes, on the tiled policy when
the tile count fits 32 bits and on the linear policy when the total is at least 1 and the
descriptor count does not wrap. -/
theorem allocate_buffer_growth (dev : Device) (cs : List Call) (gs0 : Gpu × CachingViaBVH)
    (w h : Nat) :
    (∀ (g : Gpu) (s : CachingViaBVH) (g1 : Gpu) (s1 : CachingViaBVH),
      runCalls dev cs gs0 = some (g, s) → allocate dev g s (w, h) = some (g1, s1) →
      ∃ buf, s1.mpAABBBuffer = some buf ∧
        (s.mpAABBBuffer ≠ some buf ↔
          needsAabbReallocation s.mpAABBBuffer (u32 (u32 w * u32 h)) = true) ∧
        elementCapacity gs0.2.mpAABBBuffer ≤ elementCapacity s.mpAABBBuffer ∧
        elementCapacity s.mpAABBBuffer ≤ buf.elementCount ∧
        u32 (u32 w * u32 h) ≤ buf.elementCount ∧
        (w * h < 4294967296 →
          w * h ≤ buf.elementCount ∧
          (s.mpAABBBuffer ≠ some buf ↔
            needsAabbReallocation s.mpAABBBuffer (w * h) = true))) ∧
    (∀ (g : Gpu) (s : CachingViaBVH), runCalls dev cs gs0 = some (g, s) →
      dev.reportsPositiveSizes → w < 4294967296 → h < 4294967296 →
      ((s.mOptions.useTiling = true ∧ 1 < h ∧
          u32 (w / 64 * (h / 32)) + w / 64 < 4294967296) ∨
        ((s.mOptions.useTiling = false ∨ h ≤ 1) ∧ 1 ≤ u32 (w * h) ∧
          1 ≤ s.mAabbPerGeometry ∧ u32 (w * h) + s.mAabbPerGeometry - 1 < 4294967296)) →
      ∃ (g1 : Gpu) (s1 : CachingViaBVH), allocate dev g s (w, h) = some (g1, s1)) := by
  constructor
  · intro g s g1 s1 hrun hal
    obtain ⟨buf, hb, -, -, hle, -⟩ := allocate_buffer dev g g1 s s1 (w, h) hal
    have hiff := aabb_replaced_iff dev g g1 s s1 (w, h) buf hal hb
    have hcap := elementCapacity_le_of_allocate dev g g1 s s1 (w, h) hal
    rw [hb] at hcap
    refine ⟨buf, hb, hiff, runCalls_elementCapacity dev cs gs0 (g, s) hrun, hcap, hle, ?_⟩
    intro hlt
    have he := u32_mul_of_lt w h hlt
    simp only [he] at hle hiff
    exact ⟨hle, hiff⟩
  · intro g s _ hdev hw hh hcase
    rcases hcase with ⟨ht, h1, hT⟩ | ⟨hl, h1, hN, hb⟩
    · obtain ⟨g2, s2, _, hal, -⟩ := allocate_tiled_descs dev g s w h hdev hw hh h1 ht hT
      exact ⟨g2, s2, hal⟩
    · have e1 : u32 w = w := u32_of_lt hw
      have e2 : u32 h = h := u32_of_lt hh
      refine allocate_linear_completes dev g s w h hdev ?_ (by rw [e1, e2]; exact h1) hN
        (by rw [e1, e2]; exact hb)
      rw [e2]
      rcases hl with hl | hl
      · rw [hl]; rfl
      · have : decide (h > 1) = false := by simp; omega
        rw [this]; simp

/-- Witness of C14 (amended): the default cache after `allocate (4, 1)` and one `update`,
then `allocate (2500, 1)`, which replaces the 4-element buffer by one of 2500 elements. -/
theorem allocate_buffer_growth_witness :
    runCalls exampleDevice [.allocate (4, 1), .update 0 false] freshCache
      = some (builtCache.1, builtCache.2) ∧
    allocate exampleDevice builtCache.1 builtCache.2 (2500, 1)
      = some (grownCache.1, grownCache.2) ∧
    ∃ buf, grownCache.2.mpAABBBuffer = some buf ∧
      (builtCache.2.mpAABBBuffer ≠ some buf ↔
        needsAabbReallocation builtCache.2.mpAABBBuffer (u32 (u32 2500 * u32 1)) = true) ∧
      elementCapacity freshCache.2.mpAABBBuffer ≤ elementCapacity builtCache.2.mpAABBBuffer ∧
      elementCapacity builtCache.2.mpAABBBuffer ≤ buf.elementCount ∧
      u32 (u32 2500 * u32 1) ≤ buf.elementCount ∧
      (2500 * 1 < 4294967296 →
        2500 * 1 ≤ buf.elementCount ∧
        (builtCache.2.mpAABBBuffer ≠ some buf ↔
          needsAabbReallocation builtCache.2.mpAABBBuffer (2500 * 1) = true)) :=
  ⟨by decide, allocate_grownCache,
    (allocate_buffer_growth exampleDevice [.allocate (4, 1), .update 0 false] freshCache
      2500 1).1 builtCache.1 builtCache.2 grownCache.1 grownCache.2 (by decide)
      allocate_grownCache⟩

/-- A loop of `n` writes at the indices `0, 1, ..` into a vector shorter than `n` indexes
past its end. -/
theorem foldlM_writeAt_none (f : Nat → GeometryDesc)
    (body : List GeometryDesc → Nat → Option (List GeometryDesc)) :
    ∀ (n : Nat) (v : List GeometryDesc), v.length < n →
      (∀ w i, i < n → body w i = writeAt w i (f i)) →
      (List.range n).foldlM body v = none := by
  intro n
  induction n with
  | zero => intro v h _; omega
  | succ n ih =>
    intro v hlen hbody
    rw [List.range_succ, List.foldlM_append]
    by_cases hlt : v.length < n
    · rw [ih v hlt (fun w i hi => hbody w i (by omega))]
      rfl
    · have he : v.length = n := by omega
      rw [foldlM_writeAt f 0 body n v (by omega)
        (fun w i hi => by rw [hbody w i (by omega), Nat.zero_add])]
      simp only [List.foldlM_cons, List.foldlM_nil, Option.some_bind, Option.bind_eq_bind]
      rw [hbody _ n (by omega)]
      unfold writeAt
      rw [if_neg (by simp; omega)]
      rfl

/-- When the tiled branch completes, the 32-bit tile count did not wrap. -/
theorem setupBlasTiled_some_bound (s : CachingViaBVH) (addr : Nat) (descs : List GeometryDesc)
    (hx : s.mAabbCount.1 < 4294967296)
    (h : setupBlasTiled s (some addr) = some descs) :
    u32 (s.mAabbCount.1 / 64 * (s.mAabbCount.2 / 32)) + s.mAabbCount.1 / 64 < 4294967296 := by
  by_contra hT
  have hB : u32 (s.mAabbCount.1 / 64 * (s.mAabbCount.2 / 32)) < 4294967296 :=
    Nat.mod_lt _ (by decide)
  unfold setupBlasTiled at h
  have c1 : mBigTileSize.1 = 64 := rfl
  have c2 : mBigTileSize.2 = 32 := rfl
  simp only [c1, c2] at h
  generalize hBe : u32 (s.mAabbCount.1 / 64 * (s.mAabbCount.2 / 32)) = B at hT hB h
  generalize hbx : s.mAabbCount.1 / 64 = bx at hT h
  have hbx2 : bx < 4294967296 := by omega
  have hlen : (resize s.mBlasData.geomDescs (u32 (B + bx))).length < B := by
    rw [length_resize]
    unfold u32
    omega
  rw [foldlM_writeAt_none
    (fun i =>
      { Type_ := D3D12_RAYTRACING_GEOMETRY_TYPE_PROCEDURAL_PRIMITIVE_AABBS
        Flags := D3D12_RAYTRACING_GEOMETRY_FLAG_NO_DUPLICATE_ANYHIT_INVOCATION
        AABBCount := u32 (64 * 32)
        StartAddress := addr + u32 (i * u32 (u32 (64 * 32) * sizeofAABB))
        StrideInBytes := sizeofAABB }) _ B _ hlen (by intro w i _; rfl)] at h
  simp at h

/-- The geometry descriptors written by `setupBlas` are a function of the domain, the
group size, the options, the tiling mark and the AABB buffer: the previous contents of
the descriptor vector do not matter. -/
theorem setupBlasGeometry_congr (s t : CachingViaBVH) (buf : Buffer)
    (hs : s.mpAABBBuffer = some buf) (ht : t.mpAABBBuffer = some buf)
    (h1 : t.mAabbCount = s.mAabbCount) (h2 : t.mAabbPerGeometry = s.mAabbPerGeometry)
    (h3 : t.mOptions = s.mOptions) (h4 : t.mCanUseTiling = s.mCanUseTiling)
    (hx : s.mAabbCount.1 < 4294967296) (d : List GeometryDesc)
    (h : setupBlasGeometry s = some d) : setupBlasGeometry t = some d := by
  cases hc : (s.mOptions.useTiling && s.mCanUseTiling) with
  | true =>
    rw [setupBlasGeometry_tiled s buf hs hc] at h
    rw [setupBlasGeometry_tiled t buf ht (by rw [h3, h4]; exact hc)]
    have hT := setupBlasTiled_some_bound s buf.gpuAddress d hx h
    rw [setupBlasTiled_of_bound s buf.gpuAddress hT] at h
    rw [setupBlasTiled_of_bound t buf.gpuAddress (by rw [h1]; exact hT), h1]
    exact h
  | false =>
    rw [setupBlasGeometry_linear s buf hs hc] at h
    rw [setupBlasGeometry_linear t buf ht (by rw [h3, h4]; exact hc)]
    by_cases hN : s.mAabbPerGeometry = 0
    · unfold setupBlasLinear at h
      simp [hN] at h
    · rw [setupBlasLinear_eq s buf.gpuAddress hN] at h
      rw [setupBlasLinear_eq t buf.gpuAddress (by rw [h2]; exact hN), h1, h2]
      exact h

/-- Running `setupBlas` again on its own result changes nothing. -/
theorem setupBlas_idempotent (dev : Device) (s s1 : CachingViaBVH) (buf : Buffer)
    (hbuf : s.mpAABBBuffer = some buf) (hx : s.mAabbCount.1 < 4294967296)
    (h : setupBlas dev s = some s1) : setupBlas dev s1 = some s1 := by
  obtain ⟨hg, hb1, hcan, hcnt, hper, hopt, -⟩ := setupBlas_some dev s s1 h
  have hg1 : setupBlasGeometry s1 = some s1.mBlasData.geomDescs :=
    setupBlasGeometry_congr s s1 buf hbuf (by rw [hb1]; exact hbuf) hcnt hper hopt hcan hx _ hg
  unfold setupBlas at h ⊢
  rw [hg1]
  cases hgs : setupBlasGeometry s with
  | none => rw [hgs] at h; simp at h
  | some descs =>
    rw [hgs] at h
    simp only [Option.some_bind, Option.bind_some, Option.ite_none_right_eq_some,
      Option.some.injEq] at h ⊢
    obtain ⟨hpos, rfl⟩ := h
    exact ⟨hpos, rfl⟩

theorem allocate_tiledCache :
    allocate exampleDevice freshCache.1 freshCache.2 (64, 32) = some tiledCache := by
  decide

/-- A second `allocate` with the same domain returns the state and the environment of
the first. -/
theorem allocate_twice (dev : Device) (g g1 : Gpu) (s s1 : CachingViaBVH) (w h : Nat)
    (hal : allocate dev g s (w, h) = some (g1, s1)) :
    allocate dev g1 s1 (w, h) = some (g1, s1) := by
  obtain ⟨buf, hb, -, -, hle, hcnt, hcan, hsetup⟩ := allocate_buffer dev g g1 s s1 (w, h) hal
  have hle2 : u32 (u32 w * u32 h) ≤ buf.elementCount := hle
  have hcnt2 : s1.mAabbCount = (u32 w, u32 h) := hcnt
  have hcan2 : s1.mCanUseTiling = decide (u32 h > 1) := hcan
  have hidem := setupBlas_idempotent dev _ s1 buf rfl
    (show u32 w < 4294967296 from Nat.mod_lt _ (by decide)) hsetup
  have hs1 : ({ s1 with
      mpAABBBuffer := some buf
      mAabbCount := (u32 w, u32 h), mCanUseTiling := decide (u32 h > 1) } : CachingViaBVH)
      = s1 := by
    rw [← hcnt2, ← hcan2, ← hb]
  have hno : ¬ buf.elementCount < u32 (u32 w * u32 h) := by omega
  unfold allocate
  simp only [hb, hno, decide_False, Bool.false_eq_true, if_false, hs1, hidem, Option.map_some']

/-- C15. For every state and every `(w, h)`: whenever `allocate(w, h)` completes, calling
it again with the same dimensions completes as well and leaves the same AABB buffer (no
new allocation), the same geometry descriptors and the same result and scratch byte
sizes; indeed the whole state and the environment are the ones after the first call. The
driver's prebuild estimate enters as a function of the build inputs. -/
theorem allocate_idempotent (dev : Device) (g g1 : Gpu) (s s1 : CachingViaBVH) (w h : Nat)
    (hfirst : allocate dev g s (w, h) = some (g1, s1)) :
    ∃ (g2 : Gpu) (s2 : CachingViaBVH),
      allocate dev g1 s1 (w, h) = some (g2, s2) ∧
      s2.mpAABBBuffer = s1.mpAABBBuffer ∧
      s2.mBlasData.geomDescs = s1.mBlasData.geomDescs ∧
      s2.mBlasData.resultByteSize = s1.mBlasData.resultByteSize ∧
      s2.mBlasData.scratchByteSize = s1.mBlasData.scratchByteSize ∧
      s2 = s1 ∧ g2 = g1 :=
  ⟨g1, s1, allocate_twice dev g g1 s s1 w h hfirst, rfl, rfl, rfl, rfl, rfl, rfl⟩

/-- Witness of C15: the domain 64 x 32 (tiled policy) on the fresh default cache. -/
theorem allocate_idempotent_witness :
    allocate exampleDevice freshCache.1 freshCache.2 (64, 32)
      = some (tiledCache.1, tiledCache.2) ∧
    tiledCache.2.mBlasData.geomDescs.length = 2 ∧
    ∃ (g2 : Gpu) (s2 : CachingViaBVH),
      allocate exampleDevice tiledCache.1 tiledCache.2 (64, 32) = some (g2, s2) ∧
      s2.mpAABBBuffer = tiledCache.2.mpAABBBuffer ∧
      s2.mBlasData.geomDescs = tiledCache.2.mBlasData.geomDescs ∧
      s2.mBlasData.resultByteSize = tiledCache.2.mBlasData.resultByteSize ∧
      s2.mBlasData.scratchByteSize = tiledCache.2.mBlasData.scratchByteSize ∧
      s2 = tiledCache.2 ∧ g2 = tiledCache.1 :=
  ⟨allocate_tiledCache, by decide,
    allocate_idempotent exampleDevice freshCache.1 tiledCache.1 freshCache.2 tiledCache.2 64 32
      allocate_tiledCache⟩

/-- C11 does not hold of the code: `allocate` re-derives the partition but leaves
`mRequireRebuild` untouched. The default cache is built on the domain 2500 x 1 with
descriptors of 1024, 1024 and 452 AABBs; `allocate (4, 1)` changes the layout to one
descriptor of 4 AABBs; the existing result buffer is large enough, and the next `update`
issues an incremental update (`PERFORM_UPDATE`, source = destination) with the one-descriptor
layout on the hierarchy that was built with three descriptors. -/
theorem allocate_layout_change_then_incremental_update :
    runCalls exampleDevice [.allocate (2500, 1), .update 0 false] freshCache
      = some largeBuiltCache ∧
    largeBuiltCache.2.mBlasData.geomDescs.map GeometryDesc.AABBCount = [1024, 1024, 452] ∧
    (blasBuilds largeBuiltCache.1.commands).map
      (fun d => (d.Inputs.NumDescs, d.isFullBuild)) = [(3, true)] ∧
    allocate exampleDevice largeBuiltCache.1 largeBuiltCache.2 (4, 1) = some shrunkCache ∧
    shrunkCache.2.mBlasData.geomDescs.map GeometryDesc.AABBCount = [4] ∧
    shrunkCache.2.mRequireRebuild = false ∧
    (update exampleDevice shrunkCache.1 shrunkCache.2 0 false).map
      (fun r => (blasBuilds r.1.commands).map
        (fun d => (d.Inputs.NumDescs, d.performsUpdate, d.isFullBuild,
          decide (d.SourceAccelerationStructureData = d.DestAccelerationStructureData))))
      = some [(3, false, true, false), (1, true, false, true)] := by
  decide

/-! ## The render pass ScreenSpaceCaustics: slots, compilation and the order of a frame -/

/-- The call `allocate` records no command and allocates at most the AABB buffer. -/
theorem allocate_gpu (dev : Device) (g g1 : Gpu) (s s1 : CachingViaBVH) (c : Nat × Nat)
    (h : allocate dev g s c = some (g1, s1)) :
    g1.commands = g.commands ∧ g.bufferCount ≤ g1.bufferCount := by
  unfold allocate at h
  simp only [Option.map_eq_some', Prod.mk.injEq] at h
  obtain ⟨s', -, hg, -⟩ := h
  rw [← hg]
  split
  · exact ⟨rfl, by simp [Buffer.createStructured]⟩
  · exact ⟨rfl, Nat.le_refl _⟩

/-- What `allocate` leaves of the build inputs of the cache. -/
theorem allocate_cacheInputs (dev : Device) (g g1 : Gpu) (s s1 : CachingViaBVH) (c : Nat × Nat)
    (hi : TlasInputsAsConstructed s) (h : allocate dev g s c = some (g1, s1)) :
    TlasInputsAsConstructed s1 ∧
    s1.mBlasData.buildInputs.Type_ = D3D12_RAYTRACING_ACCELERATION_STRUCTURE_TYPE_BOTTOM_LEVEL := by
  obtain ⟨ht, -⟩ := allocate_some_tlas dev g g1 s s1 c h
  obtain ⟨buf, -, -, -, -, -, -, hsetup⟩ := allocate_buffer dev g g1 s s1 c h
  refine ⟨?_, (setupBlas_some_inputs dev _ s1 hsetup).1⟩
  unfold TlasInputsAsConstructed
  rw [ht]; exact hi

/-- What `update` leaves of the build inputs of the cache. -/
theorem update_cacheInputs (dev : Device) (g g2 : Gpu) (s s2 : CachingViaBVH) (hit : Nat)
    (force : Bool) (hi : TlasInputsAsConstructed s)
    (hb : s.mBlasData.buildInputs.Type_
      = D3D12_RAYTRACING_ACCELERATION_STRUCTURE_TYPE_BOTTOM_LEVEL)
    (h : update dev g s hit force = some (g2, s2)) :
    TlasInputsAsConstructed s2 ∧
    s2.mBlasData.buildInputs.Type_ = D3D12_RAYTRACING_ACCELERATION_STRUCTURE_TYPE_BOTTOM_LEVEL := by
  obtain ⟨_, _, _, _, _, _, _, -, -, -, -, -, -, -, -, -, -, hcfg, -, -, hbi, -⟩ :=
    update_trace dev g g2 s s2 hit force h
  refine ⟨?_, by rw [hcfg.2.2.2.2.2.2.1]; exact hb⟩
  unfold TlasInputsAsConstructed
  rw [hbi]; exact hi

/-- Inversion of `recreateCachingData`: whenever the call completes, both slots hold a
new index-to-pixel map and a new caching-point buffer, the cache exists and `allocate` has
run on it, and the two clears of the maps are the only commands recorded. -/
theorem recreateCachingData_some (env : PassEnv) (g g2 : Gpu) (p p2 : ScreenSpaceCaustics)
    (h : recreateCachingData env g p = some (g2, p2)) :
    ∃ (map0 data0 map1 data1 path : Buffer) (c0 c : CachingViaBVH) (g0 g1 : Gpu),
      p2 = { p with
        mPerFrameCachingData :=
          ({ p.mPerFrameCachingData.1 with
             pIndexToPixelMap := some map0, pCachingPointData := some data0 },
           { p.mPerFrameCachingData.2 with
             pIndexToPixelMap := some map1, pCachingPointData := some data1 })
        mpCache := some c
        mpPathToCachingPointData := some path } ∧
      map0.id = g.bufferCount ∧ data0.id = g.bufferCount + 1 ∧
      map1.id = g.bufferCount + 2 ∧ data1.id = g.bufferCount + 3 ∧
      map0.elementCount = p.mPixelCount ∧ map1.elementCount = p.mPixelCount ∧
      data0.elementCount = p.mPixelCount ∧ data1.elementCount = p.mPixelCount ∧
      g2.commands = g.commands ++
        [.clearUAV map0 (.uint4 4294967295), .clearUAV map1 (.uint4 4294967295)] ∧
      g.bufferCount + 4 ≤ g2.bufferCount ∧
      (p.mpCache = none →
        ∃ gc, (g0, c0) = CachingViaBVH.create env.dev gc p.mCachingOptions) ∧
      (∀ old, p.mpCache = some old → c0 = old) ∧
      allocate env.dev g0 c0 p.mSharedParams.frameDim = some (g1, c) ∧
      p.mPixelCount = u32 (p.mSharedParams.frameDim.1 * p.mSharedParams.frameDim.2) := by
  unfold recreateCachingData at h
  simp only [] at h
  split at h
  · rename_i hpix
    simp only [Option.map_eq_some'] at h
    obtain ⟨r, hal, hr⟩ := h
    simp only [Prod.mk.injEq] at hr
    obtain ⟨hg2, hp2⟩ := hr
    obtain ⟨hcmd, hcnt⟩ := allocate_gpu _ _ r.1 _ r.2 _ hal
    refine ⟨_, _, _, _, _, _, r.2, _, r.1, hp2.symm, ?_, ?_, ?_, ?_, ?_, ?_, ?_, ?_, ?_, ?_, ?_, ?_,
      hal, hpix⟩
    · simp [Buffer.createTyped, Buffer.createStructured]
    · simp [Buffer.createTyped, Buffer.createStructured, Gpu.record]
    · simp [Buffer.createTyped, Buffer.createStructured, Gpu.record]
    · simp [Buffer.createTyped, Buffer.createStructured, Gpu.record]
    · simp [Buffer.createTyped, Buffer.createStructured]
    · simp [Buffer.createTyped, Buffer.createStructured]
    · simp [Buffer.createTyped, Buffer.createStructured]
    · simp [Buffer.createTyped, Buffer.createStructured]
    · rw [← hg2]
      simp only [Buffer.createStructured]
      rw [hcmd]
      cases p.mpCache <;>
        simp [Buffer.createTyped, Buffer.createStructured, Gpu.record, CachingViaBVH.create,
          Buffer.create]
    · rw [← hg2]
      simp only [Buffer.createStructured]
      refine Nat.le_trans ?_ (Nat.le_succ_of_le hcnt)
      cases p.mpCache <;>
        simp [Buffer.createTyped, Buffer.createStructured, Gpu.record, CachingViaBVH.create,
          Buffer.create]
    · intro hn
      simp only [hn]
      exact ⟨_, rfl⟩
    · intro old ho
      simp [ho]
  · simp at h

theorem passInvariant_create (env : PassEnv) (g : Gpu) (settings : Settings)
    (options : Options) :
    PassInvariant (ScreenSpaceCaustics.create env g settings options).1
      (ScreenSpaceCaustics.create env g settings options).2 := by
  refine ⟨Nat.zero_le _, ?_, ?_, ?_, ?_, ?_, ?_, ?_⟩
  · intro b hb
    simp [holdsBuffer, ScreenSpaceCaustics.create] at hb
  all_goals first
    | (intro x y hx hy; simp [ScreenSpaceCaustics.create] at hx)
    | (intro c hc; simp [ScreenSpaceCaustics.create] at hc)

theorem passInvariant_configure (g : Gpu) (p : ScreenSpaceCaustics) (settings : Settings)
    (h : PassInvariant g p) : PassInvariant g (configure p settings) := h

/-- The invariant only reads the role index, the slots, the debug copy of the statistics
and the cache. -/
theorem passInvariant_congr (g : Gpu) (p q : ScreenSpaceCaustics) (h : PassInvariant g p)
    (h1 : q.mSelectedFrameCachingData = p.mSelectedFrameCachingData)
    (h2 : q.mPerFrameCachingData = p.mPerFrameCachingData)
    (h3 : q.mpPreviousAccumulatedStats = p.mpPreviousAccumulatedStats)
    (h4 : q.mpCache = p.mpCache) : PassInvariant g q := by
  unfold PassInvariant holdsBuffer at *
  rw [h1, h2, h3, h4]
  exact h

theorem passInvariant_mono (g g2 : Gpu) (p : ScreenSpaceCaustics) (h : PassInvariant g p)
    (hle : g.bufferCount ≤ g2.bufferCount) : PassInvariant g2 p := by
  obtain ⟨h1, h2, h3⟩ := h
  exact ⟨h1, fun b hb => Nat.lt_of_lt_of_le (h2 b hb) hle, h3⟩

theorem passInvariant_recreateAccumulatedStats (env : PassEnv) (g : Gpu)
    (p : ScreenSpaceCaustics) (n : Nat) (h : PassInvariant g p) :
    PassInvariant (recreateAccumulatedStats env g p n).1 (recreateAccumulatedStats env g p n).2 := by
  obtain ⟨h1, h2, h3, h4, h5, h6, h7, h8⟩ := h
  refine ⟨h1, ?_, ?_, h4, h5, ?_, ?_, h8⟩
  · intro b hb
    simp only [holdsBuffer, recreateAccumulatedStats, Buffer.create, Buffer.createTyped,
      Buffer.createStructured, Gpu.record, Option.some.injEq] at hb ⊢
    rcases hb with hb | hb | hb | hb | hb | hb | hb
    · subst hb; simp; try omega
    · have := h2 b (Or.inr (Or.inl hb)); omega
    · have := h2 b (Or.inr (Or.inr (Or.inl hb))); omega
    · subst hb; simp; try omega
    · have := h2 b (Or.inr (Or.inr (Or.inr (Or.inr (Or.inl hb))))); omega
    · have := h2 b (Or.inr (Or.inr (Or.inr (Or.inr (Or.inr (Or.inl hb)))))); omega
    · subst hb; simp; try omega
  all_goals
    intro x y hx hy
    simp only [recreateAccumulatedStats, Buffer.create, Gpu.record, Option.some.injEq] at hx hy
    subst hx; subst hy
    simp only [ne_eq]
    omega

theorem passInvariant_recreateCachingData (env : PassEnv) (g g2 : Gpu)
    (p p2 : ScreenSpaceCaustics) (h : PassInvariant g p)
    (hr : recreateCachingData env g p = some (g2, p2)) : PassInvariant g2 p2 := by
  obtain ⟨h1, h2, h3, h4, h5, h6, h7, h8⟩ := h
  obtain ⟨map0, data0, map1, data1, path, c0, c, g0, g1, rfl, i0, i1, i2, i3, -, -, -, -, -, hcnt,
    hnone, hsome, hal, -⟩ := recreateCachingData_some env g g2 p p2 hr
  refine ⟨h1, ?_, h3, ?_, ?_, h6, h7, ?_⟩
  · intro b hb
    simp only [holdsBuffer, Option.some.injEq] at hb
    rcases hb with hb | hb | hb | hb | hb | hb | hb
    · have := h2 b (Or.inl hb); omega
    · subst hb; omega
    · subst hb; omega
    · have := h2 b (Or.inr (Or.inr (Or.inr (Or.inl hb)))); omega
    · subst hb; omega
    · subst hb; omega
    · have := h2 b (Or.inr (Or.inr (Or.inr (Or.inr (Or.inr (Or.inr hb)))))); omega
  · intro x y hx hy
    simp only [Option.some.injEq] at hx hy
    subst hx; subst hy; omega
  · intro x y hx hy
    simp only [Option.some.injEq] at hx hy
    subst hx; subst hy; omega
  · intro c' hc'
    simp only [Option.some.injEq] at hc'
    subst hc'
    have hi0 : TlasInputsAsConstructed c0 := by
      cases hc : p.mpCache with
      | none =>
        obtain ⟨gc, hgc⟩ := hnone hc
        have : c0 = (CachingViaBVH.create env.dev gc p.mCachingOptions).2 := by rw [← hgc]
        rw [this]; exact tlasInputs_create _ _ _
      | some old => rw [hsome old hc]; exact (h8 old hc).1
    exact allocate_cacheInputs env.dev g0 g1 c0 c _ hi0 hal

theorem passInvariant_compile (env : PassEnv) (g g2 : Gpu) (p p2 : ScreenSpaceCaustics)
    (compileData : CompileData) (h : PassInvariant g p)
    (hc : compile env g p compileData = some (g2, p2)) : PassInvariant g2 p2 := by
  unfold compile at hc
  simp only [] at hc
  have h0 : PassInvariant g
      { p with mSharedParams := { p.mSharedParams with frameDim := compileData.frameDim } } := h
  split at hc
  · simp only [Option.some.injEq, Prod.mk.injEq] at hc
    obtain ⟨rfl, rfl⟩ := hc
    exact h0
  · have h1 := passInvariant_recreateAccumulatedStats env g _ (requestedPixelCount compileData) h0
    split at hc
    · exact passInvariant_recreateCachingData env _ g2 _ p2 h1 hc
    · simp only [Option.some.injEq] at hc
      have e1 : g2 = (recreateAccumulatedStats env g
          { p with mSharedParams := { p.mSharedParams with frameDim := compileData.frameDim } }
          (requestedPixelCount compileData)).1 := by rw [hc]
      have e2 : p2 = (recreateAccumulatedStats env g
          { p with mSharedParams := { p.mSharedParams with frameDim := compileData.frameDim } }
          (requestedPixelCount compileData)).2 := by rw [hc]
      rw [e1, e2]; exact h1

theorem framePhases_append (stats : Buffer) (a b : List Command) :
    framePhases stats (a ++ b) = framePhases stats a ++ framePhases stats b := by
  simp [framePhases]

/-- The upkeep of the emissive triangle list records at most a clear of the triangle
count and touches only the members of that list. -/
theorem prepareEmissiveTriangles_spec (env : PassEnv) (g : Gpu) (p : ScreenSpaceCaustics)
    (n : Nat) :
    ∃ cmds : List Command,
      (prepareEmissiveTriangles env g p n).1.commands = g.commands ++ cmds ∧
      (∀ stats, framePhases stats cmds = []) ∧
      g.bufferCount ≤ (prepareEmissiveTriangles env g p n).1.bufferCount ∧
      (prepareEmissiveTriangles env g p n).2 =
        { p with
          mpEmissiveTriangles := (prepareEmissiveTriangles env g p n).2.mpEmissiveTriangles
          mpEmissiveTriangleCount := (prepareEmissiveTriangles env g p n).2.mpEmissiveTriangleCount
          mRecomputeEmissiveTriangleList :=
            (prepareEmissiveTriangles env g p n).2.mRecomputeEmissiveTriangleList } := by
  unfold prepareEmissiveTriangles
  generalize hq : (if n = 0 then { p with mRecomputeEmissiveTriangleList := false } else p) = q
  have hqp : q = { p with mRecomputeEmissiveTriangleList := q.mRecomputeEmissiveTriangleList } := by
    rw [← hq]; split <;> rfl
  simp only []
  cases hr : q.mRecomputeEmissiveTriangleList with
  | false =>
    simp only [Bool.false_eq_true, if_false]
    exact ⟨[], (List.append_nil _).symm, fun _ => rfl, Nat.le_refl _, by rw [hqp]⟩
  | true =>
    simp only [if_true]
    cases ht : q.mpEmissiveTriangles with
    | none =>
      simp only [if_true]
      cases hc : q.mpEmissiveTriangleCount with
      | none =>
        exact ⟨_, rfl, fun _ => rfl,
          by simp [Gpu.record, Buffer.createTyped, Buffer.createStructured]; omega,
          by rw [hqp]⟩
      | some c =>
        exact ⟨_, rfl, fun _ => rfl,
          by simp [Gpu.record, Buffer.createTyped, Buffer.createStructured],
          by rw [hqp]⟩
    | some b =>
      by_cases hlt : b.elementCount < n
      · simp only [hlt, decide_True, if_true]
        cases hc : q.mpEmissiveTriangleCount with
        | none =>
          exact ⟨_, rfl, fun _ => rfl,
            by simp [Gpu.record, Buffer.createTyped, Buffer.createStructured]; omega,
            by rw [hqp]⟩
        | some c =>
          exact ⟨_, rfl, fun _ => rfl,
            by simp [Gpu.record, Buffer.createTyped, Buffer.createStructured],
            by rw [hqp]⟩
      · simp only [hlt, decide_False, Bool.false_eq_true, if_false]
        cases hc : q.mpEmissiveTriangleCount with
        | none =>
          exact ⟨_, rfl, fun _ => rfl,
            by simp [Gpu.record, Buffer.createTyped, Buffer.createStructured],
            by rw [hqp]⟩
        | some c =>
          exact ⟨_, rfl, fun _ => rfl, by simp [Gpu.record], by rw [hqp]⟩

/-- Inversion of `prepareFrame`. -/
theorem prepareFrame_some (env : PassEnv) (g gA : Gpu) (p pA : ScreenSpaceCaustics)
    (renderData : RenderData) (h : prepareFrame env g p renderData = some (gA, pA)) :
    ∃ cmds : List Command,
      gA.commands = g.commands ++ cmds ∧ (∀ stats, framePhases stats cmds = []) ∧
      g.bufferCount ≤ gA.bufferCount ∧
      SameFrameSettings p pA ∧
      ((p.mSharedCustomParams.useCache = false ∨ p.mpCache.isSome = true) →
        pA.mPerFrameCachingData = p.mPerFrameCachingData ∧ pA.mpCache = p.mpCache) ∧
      (p.mSharedCustomParams.useCache = true → pA.mpCache.isSome = true) ∧
      (PassInvariant g p → PassInvariant gA pA) := by
  unfold prepareFrame at h
  simp only [] at h
  obtain ⟨cmds, hcmd, hph, hcnt, heq⟩ := prepareEmissiveTriangles_spec env
    (if renderData.pathDebugOutput = true then g.record (.clearTexture .pathDebugOutput) else g)
    { p with mSharedParams := { p.mSharedParams with frameDim := renderData.frameDim } }
    renderData.activeTriangleCount
  generalize hr : prepareEmissiveTriangles env
    (if renderData.pathDebugOutput = true then g.record (.clearTexture .pathDebugOutput) else g)
    { p with mSharedParams := { p.mSharedParams with frameDim := renderData.frameDim } }
    renderData.activeTriangleCount = r at *
  have hg0 : ∃ c0 : List Command,
      (if renderData.pathDebugOutput = true then g.record (.clearTexture .pathDebugOutput)
        else g).commands = g.commands ++ c0 ∧ (∀ stats, framePhases stats c0 = []) ∧
      (if renderData.pathDebugOutput = true then g.record (.clearTexture .pathDebugOutput)
        else g).bufferCount = g.bufferCount := by
    split
    · exact ⟨_, rfl, fun _ => rfl, rfl⟩
    · exact ⟨[], (List.append_nil _).symm, fun _ => rfl, rfl⟩
  obtain ⟨c0, hc0, hp0, hb0⟩ := hg0
  have hinv : PassInvariant g p → PassInvariant r.1 r.2 := by
    intro hi
    refine passInvariant_mono _ _ _ ?_ (by rw [← hb0]; exact hcnt)
    exact passInvariant_congr g p r.2 hi (by rw [heq]) (by rw [heq]) (by rw [heq]) (by rw [heq])
  have hsame : SameFrameSettings p r.2 := by
    unfold SameFrameSettings
    rw [heq]
    exact ⟨rfl, rfl, rfl, rfl, rfl, rfl, rfl, rfl, rfl, rfl, rfl⟩
  have hslots : r.2.mPerFrameCachingData = p.mPerFrameCachingData := by rw [heq]
  have hcache : r.2.mpCache = p.mpCache := by rw [heq]
  split at h
  · rename_i hcond
    simp only [Bool.and_eq_true] at hcond
    obtain ⟨huse, hnone⟩ := hcond
    obtain ⟨map0, data0, map1, data1, path, c0', c, g0, g1, hpA, -, -, -, -, -, -, -, -, hcmd2, hcnt2,
      -⟩ := recreateCachingData_some env r.1 gA r.2 pA h
    refine ⟨c0 ++ cmds ++ [.clearUAV map0 (.uint4 4294967295), .clearUAV map1 (.uint4 4294967295)],
      ?_, ?_, ?_, ?_, ?_, ?_, ?_⟩
    · rw [hcmd2, hcmd, hc0]; simp only [List.append_assoc]
    · intro stats
      rw [framePhases_append, framePhases_append, hp0, hph]; rfl
    · rw [← hb0]; omega
    · obtain ⟨s1, s2, s3, s4, s5, s6, s7, s8, s9, s10, s11⟩ := hsame
      rw [hpA]
      exact ⟨s1, s2, s3, s4, s5, s6, s7, s8, s9, s10, s11⟩
    · intro hor
      rw [hsame.2.2.2.2.1] at huse
      rw [hcache] at hnone
      rcases hor with hor | hor
      · rw [hor] at huse; simp at huse
      · rw [Option.isNone_iff_eq_none] at hnone
        rw [hnone] at hor; simp at hor
    · intro _; rw [hpA]; rfl
    · intro hi
      exact passInvariant_recreateCachingData env r.1 gA r.2 pA (hinv hi) h
  · rename_i hcond
    simp only [Option.some.injEq] at h
    subst h
    refine ⟨c0 ++ cmds, ?_, ?_, ?_, hsame, fun _ => ⟨hslots, hcache⟩, ?_, hinv⟩
    · rw [hcmd, hc0]; simp only [List.append_assoc]
    · intro stats
      rw [framePhases_append, hp0, hph]; rfl
    · rw [← hb0]; exact hcnt
    · intro huse
      have hsc : pA.mSharedCustomParams = p.mSharedCustomParams := hsame.2.2.2.2.1
      have huse2 : pA.mSharedCustomParams.useCache = true := by rw [hsc]; exact huse
      cases hc : pA.mpCache with
      | none =>
        exfalso
        apply hcond
        show (pA.mSharedCustomParams.useCache && pA.mpCache.isNone) = true
        rw [huse2, hc]; rfl
      | some c => rfl

theorem framePhases_barriers (stats : Buffer) (cmds : List Command)
    (h : ∀ c ∈ cmds, c.isBarrier = true) : framePhases stats cmds = [] := by
  induction cmds with
  | nil => rfl
  | cons c cs ih =>
    have hc := h c (List.mem_cons_self _ _)
    have ht : framePhases stats (c :: cs) = framePhases stats [c] ++ framePhases stats cs :=
      framePhases_append stats [c] cs
    rw [ht, ih (fun x hx => h x (List.mem_cons_of_mem _ hx))]
    cases c <;> simp [Command.isBarrier] at hc <;> rfl

theorem blasBuildDesc_type (s : CachingViaBVH) (scratch blas : Buffer) (reallocated : Bool) :
    (blasBuildDesc s scratch blas reallocated).Inputs.Type_ = s.mBlasData.buildInputs.Type_ := by
  unfold blasBuildDesc
  generalize (if reallocated = true then false else
    (s.mOptions.allowRefit && !s.mRequireRebuild &&
      (s.mBlasData.buildInputs.Flags &&&
        D3D12_RAYTRACING_ACCELERATION_STRUCTURE_BUILD_FLAG_ALLOW_UPDATE != 0))) = c
  cases c <;> rfl

/-- The steps of an `update` of the cache: the bottom-level build, then the top-level
build. -/
theorem update_phases (dev : Device) (g g2 : Gpu) (s s2 : CachingViaBVH) (hit : Nat)
    (force : Bool) (hi : TlasInputsAsConstructed s)
    (hb : s.mBlasData.buildInputs.Type_
      = D3D12_RAYTRACING_ACCELERATION_STRUCTURE_TYPE_BOTTOM_LEVEL)
    (h : update dev g s hit force = some (g2, s2)) :
    ∃ cmds : List Command, g2.commands = g.commands ++ cmds ∧
      (∀ stats, framePhases stats cmds = [.blasBuild, .tlasBuild]) ∧
      g.bufferCount ≤ g2.bufferCount := by
  obtain ⟨sched, scratch, blas, tscratch, tlas, inst, cmds, -, -, -, -, hcmd, -, -, -, -, -, -, -,
    -, -, -, -, -, -, ⟨pre, mid, post, hstruct, hpre, hmid, hpost⟩, hcnt⟩ :=
    update_trace dev g g2 s s2 hit force h
  refine ⟨cmds, hcmd, ?_, hcnt⟩
  intro stats
  have h1 : (blasBuildDesc (updatePrepared s hit (willRebuild s force sched)) scratch blas
      (!blasReusable s)).Inputs.Type_
      = D3D12_RAYTRACING_ACCELERATION_STRUCTURE_TYPE_BOTTOM_LEVEL := by
    rw [blasBuildDesc_type]; exact hb
  have h2 : (tlasBuildDesc s tscratch tlas inst).Inputs.Type_
      = D3D12_RAYTRACING_ACCELERATION_STRUCTURE_TYPE_TOP_LEVEL := hi.1
  rw [hstruct, framePhases_append, framePhases_append, framePhases_append, framePhases_append,
    framePhases_barriers stats pre hpre, framePhases_barriers stats mid hmid,
    framePhases_barriers stats post hpost]
  simp only [framePhases, List.filterMap_cons, List.filterMap_nil, Command.phase, h1, h2,
    if_true, List.nil_append, List.append_nil]
  rfl

/-- Inversion of `recordCachingPasses`. -/
theorem recordCachingPasses_some (g gB : Gpu) (p : ScreenSpaceCaustics)
    (renderData : RenderData) (h : recordCachingPasses g p renderData = some gB) :
    ∃ cmds : List Command, gB.commands = g.commands ++ cmds ∧
      gB.bufferCount = g.bufferCount ∧
      (∀ stats, framePhases stats cmds =
        (if p.mSharedCustomParams.useCache && p.mSeparateAABBStorage then
          [Phase.aabbGeneration] else []) ++
        (if p.mSharedCustomParams.useCache &&
            (!p.mResetTemporalReuse && !p.mDisableTemporalReuse) then
          [Phase.reuseQuery] else [])) := by
  unfold recordCachingPasses at h
  simp only [] at h
  split at h
  · split at h
    · simp at h
    · simp only [Option.map_eq_some'] at h
      obtain ⟨g1, hg1, hgB⟩ := h
      have e1 : ∃ c1 : List Command,
          (if p.mRecomputeEmissiveTriangleList = true then g.record (.dispatch .restricter)
            else g).commands = g.commands ++ c1 ∧
          (if p.mRecomputeEmissiveTriangleList = true then g.record (.dispatch .restricter)
            else g).bufferCount = g.bufferCount ∧ ∀ stats, framePhases stats c1 = [] := by
        split
        · exact ⟨_, rfl, rfl, fun _ => rfl⟩
        · exact ⟨[], (List.append_nil _).symm, rfl, fun _ => rfl⟩
      obtain ⟨c1, hc1, hb1, hp1⟩ := e1
      generalize (if p.mRecomputeEmissiveTriangleList = true then g.record (.dispatch .restricter)
            else g) = ga at hg1 hc1 hb1
      have e2 : ∃ c2 : List Command,
          (if (!p.mSharedCustomParams.usePhotonsForAll || p.mSharedCustomParams.useCache) = true
            then ga.record (.raytrace .pathTracing) else ga).commands = ga.commands ++ c2 ∧
          (if (!p.mSharedCustomParams.usePhotonsForAll || p.mSharedCustomParams.useCache) = true
            then ga.record (.raytrace .pathTracing) else ga).bufferCount = ga.bufferCount ∧
          ∀ stats, framePhases stats c2 = [] := by
        split
        · exact ⟨_, rfl, rfl, fun _ => rfl⟩
        · exact ⟨[], (List.append_nil _).symm, rfl, fun _ => rfl⟩
      obtain ⟨c2, hc2, hb2, hp2⟩ := e2
      generalize (if (!p.mSharedCustomParams.usePhotonsForAll || p.mSharedCustomParams.useCache)
            = true then ga.record (.raytrace .pathTracing) else ga) = gb at hg1 hc2 hb2
      have e3 : ∃ c3 : List Command, g1.commands = gb.commands ++ c3 ∧
          g1.bufferCount = gb.bufferCount ∧
          ∀ stats, framePhases stats c3 =
            (if p.mSharedCustomParams.useCache && p.mSeparateAABBStorage then
              [Phase.aabbGeneration] else []) := by
        split at hg1
        · rename_i hc
          cases hpb : p.mpPathToCachingPointData with
          | none => rw [hpb] at hg1; simp at hg1
          | some b =>
            rw [hpb] at hg1
            simp only [Option.some.injEq] at hg1
            subst hg1
            exact ⟨[.uavBarrier b, .raytrace .generateAABBs],
              by simp [Gpu.record], rfl, fun _ => by rw [if_pos hc]; rfl⟩
        · rename_i hc
          simp only [Option.some.injEq] at hg1
          subst hg1
          exact ⟨[], (List.append_nil _).symm, rfl, fun _ => by rw [if_neg hc]; rfl⟩
      obtain ⟨c3, hc3, hb3, hp3⟩ := e3
      subst hgB
      split
      · rename_i hc
        refine ⟨c1 ++ c2 ++ c3 ++ [.raytrace .collectionPointReuse], ?_, ?_, ?_⟩
        · show g1.commands ++ [_] = _
          rw [hc3, hc2, hc1]; simp only [List.append_assoc]
        · show g1.bufferCount = _
          rw [hb3, hb2, hb1]
        · intro stats
          rw [framePhases_append, framePhases_append, framePhases_append, hp1, hp2, hp3]
          rfl
      · rename_i hc
        refine ⟨c1 ++ c2 ++ c3, ?_, ?_, ?_⟩
        · rw [hc3, hc2, hc1]; simp only [List.append_assoc]
        · rw [hb3, hb2, hb1]
        · intro stats
          rw [framePhases_append, framePhases_append, hp1, hp2, hp3]
          simp
  · simp at h

/-- Inversion of `updateCache`: without caching nothing happens; with caching the cache
exists and `update` has run on it with `forceRebuild = false`. -/
theorem updateCache_some (env : PassEnv) (g gC : Gpu) (p pC : ScreenSpaceCaustics) (hit : Nat)
    (h : updateCache env g p hit = some (gC, pC)) :
    pC = { p with mpCache := pC.mpCache } ∧
    (p.mSharedCustomParams.useCache = false → gC = g ∧ pC = p) ∧
    (p.mSharedCustomParams.useCache = true →
      ∃ c c2, p.mpCache = some c ∧ update env.dev g c hit false = some (gC, c2) ∧
        pC.mpCache = some c2) := by
  unfold updateCache at h
  split at h
  · rename_i huse
    cases hc : p.mpCache with
    | none => rw [hc] at h; simp at h
    | some c =>
      rw [hc] at h
      simp only [Option.map_eq_some', Prod.mk.injEq] at h
      obtain ⟨r, hu, hg, hp⟩ := h
      subst hg; subst hp
      exact ⟨rfl, fun hf => by rw [hf] at huse; simp at huse, fun _ => ⟨c, r.2, rfl, hu, rfl⟩⟩
  · rename_i huse
    simp only [Option.some.injEq, Prod.mk.injEq] at h
    obtain ⟨rfl, rfl⟩ := h
    exact ⟨rfl, fun _ => ⟨rfl, rfl⟩, fun ht => absurd ht huse⟩

/-- Inversion of `recordLightTracing`: the clear of the statistics of the current slot,
then at most the debug copy of the statistics of the previous slot, then light tracing. -/
theorem recordLightTracing_some (g gD : Gpu) (p : ScreenSpaceCaustics)
    (previous current : PerFrameCachingData)
    (h : recordLightTracing g p previous current = some gD) :
    ∃ (stats : Buffer) (mid : List Command),
      current.pAccumulatedStats = some stats ∧
      gD.commands = g.commands ++ [.clearUAV stats .float4Zero] ++ mid ++
        [.raytrace .lightTracing] ∧
      gD.bufferCount = g.bufferCount ∧
      ((p.mEnableDebug = false ∧ mid = []) ∨
       (p.mEnableDebug = true ∧ ∃ dst src, p.mpPreviousAccumulatedStats = some dst ∧
          previous.pAccumulatedStats = some src ∧ mid = [.copyResource dst src])) := by
  unfold recordLightTracing at h
  cases hs : current.pAccumulatedStats with
  | none => rw [hs] at h; simp at h
  | some stats =>
    rw [hs] at h
    simp only [Option.map_eq_some'] at h
    obtain ⟨g1, hg1, hgD⟩ := h
    subst hgD
    cases hd : p.mEnableDebug with
    | false =>
      rw [hd] at hg1
      simp only [Bool.false_eq_true, if_false, Option.some.injEq] at hg1
      subst hg1
      exact ⟨stats, [], rfl, by simp [Gpu.record], rfl, Or.inl ⟨rfl, rfl⟩⟩
    | true =>
      rw [hd] at hg1
      simp only [if_true] at hg1
      cases hdst : p.mpPreviousAccumulatedStats with
      | none => rw [hdst] at hg1; simp at hg1
      | some dst =>
        cases hsrc : previous.pAccumulatedStats with
        | none => rw [hdst, hsrc] at hg1; simp at hg1
        | some src =>
          rw [hdst, hsrc] at hg1
          simp only [Option.some.injEq] at hg1
          subst hg1
          exact ⟨stats, [.copyResource dst src], rfl, by simp [Gpu.record], rfl,
            Or.inr ⟨rfl, dst, src, rfl, rfl, rfl⟩⟩

/-- Inversion of `recordOutputs`: of the steps named by the specification, only the debug
readback, and that exactly when `mEnableDebug` is set. -/
theorem recordOutputs_some (g gE : Gpu) (p : ScreenSpaceCaustics) (renderData : RenderData)
    (h : recordOutputs g p renderData = some gE) :
    ∃ cmds : List Command, gE.commands = g.commands ++ cmds ∧
      gE.bufferCount = g.bufferCount ∧
      (∀ stats, framePhases stats cmds =
        if p.mEnableDebug then [Phase.debugReadback] else []) := by
  unfold recordOutputs at h
  simp only [Option.map_eq_some'] at h
  obtain ⟨g1, hg1, hgE⟩ := h
  have e1 : ∃ c1 : List Command,
      (if renderData.colorOutput = true then
        (if (p.mSharedCustomParams.useCache && p.mLateBSDFApplication) = true then
          g.record (.raytrace .applyBSDF) else g).record (.dispatch .copy)
        else g).commands = g.commands ++ c1 ∧
      (if renderData.colorOutput = true then
        (if (p.mSharedCustomParams.useCache && p.mLateBSDFApplication) = true then
          g.record (.raytrace .applyBSDF) else g).record (.dispatch .copy)
        else g).bufferCount = g.bufferCount ∧ ∀ stats, framePhases stats c1 = [] := by
    split
    · split
      · exact ⟨[.raytrace .applyBSDF, .dispatch .copy], by simp [Gpu.record], rfl, fun _ => rfl⟩
      · exact ⟨_, rfl, rfl, fun _ => rfl⟩
    · exact ⟨[], (List.append_nil _).symm, rfl, fun _ => rfl⟩
  obtain ⟨c1, hc1, hb1, hp1⟩ := e1
  generalize (if renderData.colorOutput = true then
        (if (p.mSharedCustomParams.useCache && p.mLateBSDFApplication) = true then
          g.record (.raytrace .applyBSDF) else g).record (.dispatch .copy)
        else g) = ga at hg1 hc1 hb1
  have e2 : ∃ c2 : List Command, g1.commands = ga.commands ++ c2 ∧
      g1.bufferCount = ga.bufferCount ∧
      ∀ stats, framePhases stats c2 = if p.mEnableDebug then [Phase.debugReadback] else [] := by
    cases hd : p.mEnableDebug with
    | false =>
      rw [hd] at hg1
      simp only [Bool.false_eq_true, if_false, Option.some.injEq] at hg1
      subst hg1
      exact ⟨[], (List.append_nil _).symm, rfl, fun _ => rfl⟩
    | true =>
      rw [hd] at hg1
      simp only [if_true] at hg1
      cases hh : p.mpHostDebugData with
      | none => rw [hh] at hg1; simp at hg1
      | some host =>
        cases hv : p.mpDeviceDebugData with
        | none => rw [hh, hv] at hg1; simp at hg1
        | some device =>
          rw [hh, hv] at hg1
          simp only [Option.some.injEq] at hg1
          subst hg1
          exact ⟨[.dispatch .downloadDebug, .copyBufferRegion host 0 device 0 host.size, .flush,
            .gpuSignal], by simp [Gpu.record], rfl, fun _ => rfl⟩
  obtain ⟨c2, hc2, hb2, hp2⟩ := e2
  subst hgE
  split
  · refine ⟨c1 ++ c2 ++ [.dispatch .debugVisualiser], ?_, ?_, ?_⟩
    · show g1.commands ++ [_] = _
      rw [hc2, hc1]; simp only [List.append_assoc]
    · show g1.bufferCount = _
      rw [hb2, hb1]
    · intro stats
      rw [framePhases_append, framePhases_append, hp1, hp2]
      simp [framePhases, Command.phase]
  · split
    · refine ⟨c1 ++ c2 ++ [.clearTexture .internalDebugOutput], ?_, ?_, ?_⟩
      · show g1.commands ++ [_] = _
        rw [hc2, hc1]; simp only [List.append_assoc]
      · show g1.bufferCount = _
        rw [hb2, hb1]
      · intro stats
        rw [framePhases_append, framePhases_append, hp1, hp2]
        simp [framePhases, Command.phase]
    · refine ⟨c1 ++ c2, ?_, ?_, ?_⟩
      · rw [hc2, hc1]; simp only [List.append_assoc]
      · rw [hb2, hb1]
      · intro stats
        rw [framePhases_append, hp1, hp2]
        simp

theorem swapIndex_of_le (i : Nat) (h : i ≤ 1) : u32 (1 + 4294967296 - i) = 1 - i := by
  unfold u32
  interval_cases i <;> rfl

/-- Inversion of `execute` on a frame that `beginFrame` lets through: the stages in order,
the commands they record, and the state they leave. -/
theorem execute_some (env : PassEnv) (g g2 : Gpu) (p p2 : ScreenSpaceCaustics)
    (renderData : RenderData) (hbegin : renderData.beginFrame = true)
    (h : execute env g p renderData = some (g2, p2)) :
    ∃ (gA : Gpu) (pA pC : ScreenSpaceCaustics) (previous current : PerFrameCachingData)
      (stats : Buffer) (pre mid post : List Command),
      prepareFrame env g
        (if renderData.optionsChanged = true then { p with mResetTemporalReuse := true } else p)
        renderData = some (gA, pA) ∧
      pPreviousFrameCachingData pA = some previous ∧
      pCurrentFrameCachingData pA = some current ∧
      current.pAccumulatedStats = some stats ∧
      g2.commands = g.commands ++ pre ++ [.clearUAV stats .float4Zero] ++ mid ++
        [.raytrace .lightTracing] ++ post ∧
      ((PassInvariant g p → pA.mSharedCustomParams.useCache = true →
        framePhases stats pre =
          (if pA.mSeparateAABBStorage then [Phase.aabbGeneration] else []) ++
          (if !pA.mResetTemporalReuse && !pA.mDisableTemporalReuse then
            [Phase.reuseQuery] else []) ++ [Phase.blasBuild, Phase.tlasBuild])) ∧
      (pA.mSharedCustomParams.useCache = false → framePhases stats pre = []) ∧
      ((pA.mEnableDebug = false ∧ mid = []) ∨
       (pA.mEnableDebug = true ∧ ∃ dst src, pA.mpPreviousAccumulatedStats = some dst ∧
          previous.pAccumulatedStats = some src ∧ mid = [.copyResource dst src])) ∧
      framePhases stats post = (if pA.mEnableDebug then [Phase.debugReadback] else []) ∧
      pC = { pA with mpCache := pC.mpCache } ∧
      p2 = swapFrameCachingData { pC with mResetTemporalReuse := false } ∧
      gA.bufferCount ≤ g2.bufferCount ∧
      (PassInvariant g p → PassInvariant g2 p2) := by
  unfold execute at h
  simp only [hbegin, Bool.not_true, Bool.false_eq_true, if_false, Option.bind_eq_some,
    Option.map_eq_some'] at h
  obtain ⟨rA, hprep, previous, hprev, current, hcur, gB, hpass, rC, hupd, gD, hlight, gE, hout,
    hfin⟩ := h
  simp only [Prod.mk.injEq] at hfin
  obtain ⟨hg2, hp2⟩ := hfin
  subst hg2
  obtain ⟨c0, hc0, hph0, hcnt0, hsame, -, hcacheSome, hinvA⟩ :=
    prepareFrame_some env g rA.1 _ rA.2 renderData hprep
  obtain ⟨c1, hc1, hb1, hph1⟩ := recordCachingPasses_some rA.1 gB rA.2 renderData hpass
  obtain ⟨hpC, hoff, hon⟩ := updateCache_some env gB rC.1 rA.2 rC.2 _ hupd
  obtain ⟨stats, mid, hstats, hc3, hb3, hmid⟩ := recordLightTracing_some rC.1 gD rC.2 previous
    current hlight
  obtain ⟨c4, hc4, hb4, hph4⟩ := recordOutputs_some gD gE rC.2 renderData hout
  have hdbg : rC.2.mEnableDebug = rA.2.mEnableDebug := by rw [hpC]
  have hprevStats : rC.2.mpPreviousAccumulatedStats = rA.2.mpPreviousAccumulatedStats := by
    rw [hpC]
  -- commands of the cache update
  have hupdCmds : ∃ c2 : List Command, rC.1.commands = gB.commands ++ c2 ∧
      gB.bufferCount ≤ rC.1.bufferCount ∧
      (rA.2.mSharedCustomParams.useCache = false → c2 = []) ∧
      (PassInvariant g p → rA.2.mSharedCustomParams.useCache = true →
        ∀ st, framePhases st c2 = [Phase.blasBuild, Phase.tlasBuild]) ∧
      (PassInvariant g p → ∀ c, rC.2.mpCache = some c →
        TlasInputsAsConstructed c ∧ c.mBlasData.buildInputs.Type_
          = D3D12_RAYTRACING_ACCELERATION_STRUCTURE_TYPE_BOTTOM_LEVEL) := by
    cases huse : rA.2.mSharedCustomParams.useCache with
    | false =>
      obtain ⟨e1, e2⟩ := hoff huse
      refine ⟨[], by rw [e1]; simp, by rw [e1], fun _ => rfl, fun _ hf => by simp at hf, ?_⟩
      intro hi c hc
      rw [e2] at hc
      exact (hinvA (by
        split
        · exact passInvariant_congr g p _ hi rfl rfl rfl rfl
        · exact hi)).2.2.2.2.2.2.2 c hc
    | true =>
      obtain ⟨c, c2, hcache, hu, hcache2⟩ := hon huse
      have hci : PassInvariant g p → TlasInputsAsConstructed c ∧
          c.mBlasData.buildInputs.Type_
            = D3D12_RAYTRACING_ACCELERATION_STRUCTURE_TYPE_BOTTOM_LEVEL := by
        intro hi
        exact (hinvA (by
          split
          · exact passInvariant_congr g p _ hi rfl rfl rfl rfl
          · exact hi)).2.2.2.2.2.2.2 c hcache
      obtain ⟨_, _, _, _, _, _, cmds, -, -, -, -, hcmd, -, -, -, -, -, -, -, -, -, -, -, -, -, -,
        hcnt⟩ := update_trace env.dev gB rC.1 c c2 _ false hu
      refine ⟨cmds, hcmd, hcnt, fun hf => by simp at hf, ?_, ?_⟩
      · intro hi _ st
        obtain ⟨cmds2, hcmd2, hph, -⟩ := update_phases env.dev gB rC.1 c c2 _ false (hci hi).1
          (hci hi).2 hu
        rw [hcmd] at hcmd2
        have := List.append_cancel_left hcmd2
        rw [this]; exact hph st
      · intro hi c' hc'
        rw [hcache2] at hc'
        simp only [Option.some.injEq] at hc'
        subst hc'
        exact update_cacheInputs env.dev gB rC.1 c c2 _ false (hci hi).1 (hci hi).2 hu
  obtain ⟨c2, hc2, hb2, hc2off, hc2on, hcacheInv⟩ := hupdCmds
  refine ⟨rA.1, rA.2, rC.2, previous, current, stats, c0 ++ c1 ++ c2, mid, c4, hprep, hprev, hcur,
    hstats, ?_, ?_, ?_, ?_, ?_, hpC, hp2.symm, ?_, ?_⟩
  · rw [hc4, hc3, hc2, hc1, hc0]; simp only [List.append_assoc]
  · intro hi huse
    rw [framePhases_append, framePhases_append, hph0, hph1, hc2on hi huse stats, huse]
    simp only [Bool.true_and, List.nil_append]
  · intro huse
    rw [framePhases_append, framePhases_append, hph0, hph1, hc2off huse, huse]
    simp [framePhases]
  · rw [hdbg, hprevStats] at hmid; exact hmid
  · rw [hph4, hdbg]
  · rw [hb4, hb3]; exact Nat.le_trans (by rw [hb1]) hb2
  · intro hi
    have hA := hinvA (by
      split
      · exact passInvariant_congr g p _ hi rfl rfl rfl rfl
      · exact hi)
    have hle : rA.1.bufferCount ≤ gE.bufferCount := by
      rw [hb4, hb3]; exact Nat.le_trans (by rw [hb1]) hb2
    obtain ⟨a1, a2, a3, a4, a5, a6, a7, a8⟩ := passInvariant_mono _ gE _ hA hle
    rw [← hp2]
    have hslots : rC.2.mPerFrameCachingData = rA.2.mPerFrameCachingData := by rw [hpC]
    have hsel : rC.2.mSelectedFrameCachingData = rA.2.mSelectedFrameCachingData := by rw [hpC]
    refine ⟨?_, ?_, ?_, ?_, ?_, ?_, ?_, ?_⟩
    · show u32 (1 + 4294967296 - rC.2.mSelectedFrameCachingData) ≤ 1
      rw [hsel, swapIndex_of_le _ a1]; omega
    · intro b hb
      apply a2 b
      unfold holdsBuffer at hb ⊢
      simp only [swapFrameCachingData] at hb
      rw [hslots, hprevStats] at hb
      exact hb
    · show DistinctBuffers rC.2.mPerFrameCachingData.1.pAccumulatedStats _
      rw [hslots]; exact a3
    · show DistinctBuffers rC.2.mPerFrameCachingData.1.pIndexToPixelMap _
      rw [hslots]; exact a4
    · show DistinctBuffers rC.2.mPerFrameCachingData.1.pCachingPointData _
      rw [hslots]; exact a5
    · show DistinctBuffers rC.2.mpPreviousAccumulatedStats
        rC.2.mPerFrameCachingData.1.pAccumulatedStats
      rw [hslots, hprevStats]; exact a6
    · show DistinctBuffers rC.2.mpPreviousAccumulatedStats
        rC.2.mPerFrameCachingData.2.pAccumulatedStats
      rw [hslots, hprevStats]; exact a7
    · exact hcacheInv hi

theorem passInvariant_execute (env : PassEnv) (g g2 : Gpu) (p p2 : ScreenSpaceCaustics)
    (renderData : RenderData) (hi : PassInvariant g p)
    (h : execute env g p renderData = some (g2, p2)) : PassInvariant g2 p2 := by
  cases hb : renderData.beginFrame with
  | true =>
    obtain ⟨_, _, _, _, _, _, _, _, _, -, -, -, -, -, -, -, -, -, -, -, -, hinv⟩ :=
      execute_some env g g2 p p2 renderData hb h
    exact hinv hi
  | false =>
    unfold execute at h
    simp only [hb, Bool.not_false, if_true, Option.some.injEq, Prod.mk.injEq] at h
    obtain ⟨rfl, rfl⟩ := h
    split
    · exact passInvariant_congr g p _ hi rfl rfl rfl rfl
    · exact hi

/-- The invariant holds in every state reached from the constructor. -/
theorem runPass_invariant (env : PassEnv) : ∀ (calls : List PassCall)
    (gp r : Gpu × ScreenSpaceCaustics), PassInvariant gp.1 gp.2 →
    runPass env calls gp = some r → PassInvariant r.1 r.2 := by
  intro calls
  induction calls with
  | nil =>
    intro gp r hi h
    simp only [runPass, Option.some.injEq] at h
    subst h; exact hi
  | cons c cs ih =>
    intro gp r hi h
    simp only [runPass] at h
    cases hc : c.run env gp with
    | none => rw [hc] at h; simp at h
    | some r1 =>
      rw [hc] at h
      simp only [Option.some_bind, Option.bind_some] at h
      refine ih r1 r ?_ h
      cases c with
      | compile cd =>
        exact passInvariant_compile env gp.1 r1.1 gp.2 r1.2 cd hi hc
      | execute rd =>
        exact passInvariant_execute env gp.1 r1.1 gp.2 r1.2 rd hi hc
      | configure st =>
        simp only [PassCall.run, Option.some.injEq] at hc
        subst hc
        exact passInvariant_configure gp.1 gp.2 st hi

theorem reachable_invariant (env : PassEnv) (g0 : Gpu) (settings : Settings)
    (options : Options) (calls : List PassCall) (g : Gpu) (p : ScreenSpaceCaustics)
    (h : runPass env calls (ScreenSpaceCaustics.create env g0 settings options) = some (g, p)) :
    PassInvariant g p :=
  runPass_invariant env calls _ (g, p) (passInvariant_create env g0 settings options) h

theorem distinctBuffers_symm (a b : Option Buffer) (h : DistinctBuffers a b) :
    DistinctBuffers b a :=
  fun x y hx hy => (h y x hy hx).symm

theorem lightTracing_mem_phases (stats : Buffer) (cmds : List Command)
    (h : Command.raytrace .lightTracing ∈ cmds) :
    Phase.lightTracing ∈ framePhases stats cmds := by
  unfold framePhases
  rw [List.mem_filterMap]
  exact ⟨_, h, rfl⟩

theorem runPass_cachingPassAfterFrame :
    runPass examplePassEnv [.compile exampleCompile, .execute exampleFrame] cachingPass
      = some cachingPassAfterFrame := by
  decide

theorem swapFrameCachingData_eq (p : ScreenSpaceCaustics)
    (h : p.mSelectedFrameCachingData ≤ 1) :
    swapFrameCachingData p
      = { p with mSelectedFrameCachingData := 1 - p.mSelectedFrameCachingData } := by
  unfold swapFrameCachingData
  rw [swapIndex_of_le _ h]

/-- C16. In every state that the render pass reaches from its constructor through
`compile`, `execute` and changes of the settings: the role index is 0 or 1; `previous` is
slot `1 - index`, a different slot than `current`, and where both slots hold a buffer of a
kind these are different allocations; the swap at the end of the frame changes the index
to `1 - index` and nothing else, so that `current` and `previous` exchange their slots; two
swaps in a row give back the state as it was, buffers included; and a frame that
`beginFrame` lets through ends with the index flipped and with the statistics buffers of
both slots being the same objects, as are all buffers of the slots unless the frame
itself created the cache. -/
theorem frame_roles_swap (env : PassEnv) (g0 : Gpu) (settings : Settings) (options : Options)
    (calls : List PassCall) (g : Gpu) (p : ScreenSpaceCaustics)
    (hreach : runPass env calls (ScreenSpaceCaustics.create env g0 settings options)
      = some (g, p)) :
    (p.mSelectedFrameCachingData = 0 ∨ p.mSelectedFrameCachingData = 1) ∧
    previousIndex p = 1 - p.mSelectedFrameCachingData ∧
    previousIndex p ≠ p.mSelectedFrameCachingData ∧
    (∃ previous current,
      pPreviousFrameCachingData p = some previous ∧
      pCurrentFrameCachingData p = some current ∧
      DistinctBuffers previous.pAccumulatedStats current.pAccumulatedStats ∧
      DistinctBuffers previous.pIndexToPixelMap current.pIndexToPixelMap ∧
      DistinctBuffers previous.pCachingPointData current.pCachingPointData) ∧
    swapFrameCachingData p
      = { p with mSelectedFrameCachingData := 1 - p.mSelectedFrameCachingData } ∧
    pCurrentFrameCachingData (swapFrameCachingData p) = pPreviousFrameCachingData p ∧
    pPreviousFrameCachingData (swapFrameCachingData p) = pCurrentFrameCachingData p ∧
    swapFrameCachingData (swapFrameCachingData p) = p ∧
    (∀ (renderData : RenderData) (g2 : Gpu) (p2 : ScreenSpaceCaustics),
      renderData.beginFrame = true → execute env g p renderData = some (g2, p2) →
      p2.mSelectedFrameCachingData = 1 - p.mSelectedFrameCachingData ∧
      p2.mPerFrameCachingData.1.pAccumulatedStats = p.mPerFrameCachingData.1.pAccumulatedStats ∧
      p2.mPerFrameCachingData.2.pAccumulatedStats = p.mPerFrameCachingData.2.pAccumulatedStats ∧
      ((p.mSharedCustomParams.useCache = false ∨ p.mpCache.isSome = true) →
        p2.mPerFrameCachingData = p.mPerFrameCachingData)) := by
  have hinv := reachable_invariant env g0 settings options calls g p hreach
  obtain ⟨h1, -, h3, h4, h5, -⟩ := hinv
  have hprev : previousIndex p = 1 - p.mSelectedFrameCachingData := swapIndex_of_le _ h1
  have hswap := swapFrameCachingData_eq p h1
  have hcases : p.mSelectedFrameCachingData = 0 ∨ p.mSelectedFrameCachingData = 1 := by omega
  refine ⟨hcases, hprev, by omega, ?_, hswap, rfl, ?_, ?_, ?_⟩
  · unfold pPreviousFrameCachingData pCurrentFrameCachingData
    rw [hprev]
    rcases hcases with h0 | h0
    · rw [h0]
      exact ⟨_, _, rfl, rfl, distinctBuffers_symm _ _ h3, distinctBuffers_symm _ _ h4,
        distinctBuffers_symm _ _ h5⟩
    · rw [h0]
      exact ⟨_, _, rfl, rfl, h3, h4, h5⟩
  · unfold pPreviousFrameCachingData pCurrentFrameCachingData previousIndex
    rw [hswap]
    simp only []
    rw [swapIndex_of_le _ (by omega)]
    congr 1
    omega
  · rw [hswap]
    unfold swapFrameCachingData
    simp only []
    rw [swapIndex_of_le _ (by omega)]
    have : 1 - (1 - p.mSelectedFrameCachingData) = p.mSelectedFrameCachingData := by omega
    rw [this]
  · intro renderData g2 p2 hbegin hex
    obtain ⟨gA, pA, pC, _, _, _, _, _, _, hprep, -, -, -, -, -, -, -, -, hpC, hp2, -, -⟩ :=
      execute_some env g g2 p p2 renderData hbegin hex
    obtain ⟨_, -, -, -, hsame, hkeep, -, -⟩ := prepareFrame_some env g gA _ pA renderData hprep
    obtain ⟨s1, s2, s3, -⟩ := hsame
    have e0 : ∀ q : ScreenSpaceCaustics,
        (if renderData.optionsChanged = true then { q with mResetTemporalReuse := true }
          else q).mSelectedFrameCachingData = q.mSelectedFrameCachingData ∧
        (if renderData.optionsChanged = true then { q with mResetTemporalReuse := true }
          else q).mPerFrameCachingData = q.mPerFrameCachingData ∧
        (if renderData.optionsChanged = true then { q with mResetTemporalReuse := true }
          else q).mSharedCustomParams = q.mSharedCustomParams ∧
        (if renderData.optionsChanged = true then { q with mResetTemporalReuse := true }
          else q).mpCache = q.mpCache := by
      intro q; split <;> exact ⟨rfl, rfl, rfl, rfl⟩
    obtain ⟨e1, e2, e3, e4⟩ := e0 p
    rw [e1] at s1
    rw [e2] at s2 s3
    rw [e2, e3, e4] at hkeep
    have hslots : p2.mPerFrameCachingData = pA.mPerFrameCachingData := by
      rw [hp2]
      show pC.mPerFrameCachingData = _
      rw [hpC]
    refine ⟨?_, by rw [hslots]; exact s2, by rw [hslots]; exact s3, ?_⟩
    · rw [hp2]
      show u32 (1 + 4294967296 - pC.mSelectedFrameCachingData) = _
      have : pC.mSelectedFrameCachingData = pA.mSelectedFrameCachingData := by rw [hpC]
      rw [this, s1, swapIndex_of_le _ h1]
    · intro hor
      rw [hslots]; exact (hkeep hor).1

/-- Witness of C16: the caching pass after `compile` and one frame; the index is 1. -/
theorem frame_roles_swap_witness :
    runPass examplePassEnv [.compile exampleCompile, .execute exampleFrame]
      (ScreenSpaceCaustics.create examplePassEnv {} { useCache := true } {})
      = some (cachingPassAfterFrame.1, cachingPassAfterFrame.2) ∧
    cachingPassAfterFrame.2.mSelectedFrameCachingData = 1 ∧
    previousIndex cachingPassAfterFrame.2 = 0 ∧
    swapFrameCachingData (swapFrameCachingData cachingPassAfterFrame.2)
      = cachingPassAfterFrame.2 :=
  ⟨runPass_cachingPassAfterFrame, by decide, by decide,
    (frame_roles_swap examplePassEnv {} { useCache := true } {}
      [.compile exampleCompile, .execute exampleFrame] cachingPassAfterFrame.1
      cachingPassAfterFrame.2 runPass_cachingPassAfterFrame).2.2.2.2.2.2.2.1⟩

/-- What `recreateAccumulatedStats` leaves in the slots. -/
theorem recreateAccumulatedStats_spec (env : PassEnv) (g : Gpu) (p : ScreenSpaceCaustics)
    (n : Nat) :
    ∃ stats0 stats1 : Buffer,
      (recreateAccumulatedStats env g p n).2.mPerFrameCachingData =
        ({ p.mPerFrameCachingData.1 with pAccumulatedStats := some stats0 },
         { p.mPerFrameCachingData.2 with pAccumulatedStats := some stats1 }) ∧
      stats0.id = g.bufferCount ∧ stats1.id = g.bufferCount + 1 ∧
      stats0.size = u32 (n * 16) ∧ stats1.size = u32 (n * 16) ∧
      (recreateAccumulatedStats env g p n).1.bufferCount = g.bufferCount + 4 ∧
      (recreateAccumulatedStats env g p n).2.mPixelCount = n ∧
      (recreateAccumulatedStats env g p n).2.mSharedCustomParams = p.mSharedCustomParams :=
  ⟨_, _, rfl, rfl, rfl, rfl, rfl, rfl, rfl, rfl⟩

/-- C17 as stated fails: `compile` tests the pixel counts for equality. After a
compilation for 4 x 2 pixels (capacity 8), a compilation for 2 x 2 pixels requests 4
pixels, which does not exceed the capacity, and still replaces the statistics buffers of
both slots, by smaller ones (64 instead of 128 bytes). -/
theorem compile_reallocation_counterexample :
    compile examplePassEnv plainPass.1 plainPass.2
      { defaultTexDims := (4, 2), frameDim := (4, 2) } = some plainPassCompiled ∧
    plainPassCompiled.2.mPixelCount = 8 ∧
    plainPassCompiled.2.mPerFrameCachingData.1.pAccumulatedStats.map Buffer.size = some 128 ∧
    plainPassCompiled.2.mPerFrameCachingData.2.pAccumulatedStats.map Buffer.size = some 128 ∧
    requestedPixelCount { defaultTexDims := (2, 2), frameDim := (2, 2) } = 4 ∧
    ¬ (plainPassCompiled.2.mPixelCount
      < requestedPixelCount { defaultTexDims := (2, 2), frameDim := (2, 2) }) ∧
    (compile examplePassEnv plainPassCompiled.1 plainPassCompiled.2
      { defaultTexDims := (2, 2), frameDim := (2, 2) }).map
      (fun r =>
        (r.2.mPerFrameCachingData.1.pAccumulatedStats.map Buffer.size,
         r.2.mPerFrameCachingData.2.pAccumulatedStats.map Buffer.size,
         decide (r.2.mPerFrameCachingData.1.pAccumulatedStats
           = plainPassCompiled.2.mPerFrameCachingData.1.pAccumulatedStats),
         decide (r.2.mPerFrameCachingData.2.pAccumulatedStats
           = plainPassCompiled.2.mPerFrameCachingData.2.pAccumulatedStats)))
      = some (some 64, some 64, false, false) := by
  decide

/-- C17 (amended). In every state that the render pass reaches from its constructor,
`compile` reallocates the buffers of both slots exactly when the requested pixel count
differs from the pixel count of the last allocation, be it larger or smaller. With equal
counts the call returns with all buffers and the environment as they were. With different
counts, whenever the call completes, both slots hold a new statistics buffer of
`16 * pixelCount` bytes (mod 2^32), a different object than before, and, with caching
enabled, a new index-to-pixel map and a new caching-point buffer of `pixelCount` elements,
while with caching disabled those two are kept; it completes whenever caching is
disabled. -/
theorem compile_reallocation (env : PassEnv) (g0 : Gpu) (settings : Settings)
    (options : Options) (calls : List PassCall) (g : Gpu) (p : ScreenSpaceCaustics)
    (compileData : CompileData)
    (hreach : runPass env calls (ScreenSpaceCaustics.create env g0 settings options)
      = some (g, p)) :
    (requestedPixelCount compileData = p.mPixelCount →
      compile env g p compileData = some (g,
        { p with mSharedParams := { p.mSharedParams with frameDim := compileData.frameDim } })) ∧
    (requestedPixelCount compileData ≠ p.mPixelCount →
      (∀ (g2 : Gpu) (p2 : ScreenSpaceCaustics), compile env g p compileData = some (g2, p2) →
        ∃ stats0 stats1 : Buffer,
          p2.mPerFrameCachingData.1.pAccumulatedStats = some stats0 ∧
          p2.mPerFrameCachingData.2.pAccumulatedStats = some stats1 ∧
          stats0.id = g.bufferCount ∧ stats1.id = g.bufferCount + 1 ∧
          stats0.size = u32 (requestedPixelCount compileData * 16) ∧
          stats1.size = u32 (requestedPixelCount compileData * 16) ∧
          p.mPerFrameCachingData.1.pAccumulatedStats ≠ some stats0 ∧
          p.mPerFrameCachingData.2.pAccumulatedStats ≠ some stats1 ∧
          p2.mPixelCount = requestedPixelCount compileData ∧
          (p.mSharedCustomParams.useCache = true →
            ∃ map0 data0 map1 data1 : Buffer,
              p2.mPerFrameCachingData.1.pIndexToPixelMap = some map0 ∧
              p2.mPerFrameCachingData.1.pCachingPointData = some data0 ∧
              p2.mPerFrameCachingData.2.pIndexToPixelMap = some map1 ∧
              p2.mPerFrameCachingData.2.pCachingPointData = some data1 ∧
              map0.elementCount = requestedPixelCount compileData ∧
              data0.elementCount = requestedPixelCount compileData ∧
              map1.elementCount = requestedPixelCount compileData ∧
              data1.elementCount = requestedPixelCount compileData ∧
              p.mPerFrameCachingData.1.pIndexToPixelMap ≠ some map0 ∧
              p.mPerFrameCachingData.1.pCachingPointData ≠ some data0 ∧
              p.mPerFrameCachingData.2.pIndexToPixelMap ≠ some map1 ∧
              p.mPerFrameCachingData.2.pCachingPointData ≠ some data1) ∧
          (p.mSharedCustomParams.useCache = false →
            p2.mPerFrameCachingData.1.pIndexToPixelMap
              = p.mPerFrameCachingData.1.pIndexToPixelMap ∧
            p2.mPerFrameCachingData.1.pCachingPointData
              = p.mPerFrameCachingData.1.pCachingPointData ∧
            p2.mPerFrameCachingData.2.pIndexToPixelMap
              = p.mPerFrameCachingData.2.pIndexToPixelMap ∧
            p2.mPerFrameCachingData.2.pCachingPointData
              = p.mPerFrameCachingData.2.pCachingPointData)) ∧
      (p.mSharedCustomParams.useCache = false →
        ∃ (g2 : Gpu) (p2 : ScreenSpaceCaustics), compile env g p compileData = some (g2, p2))) := by
  have hinv := reachable_invariant env g0 settings options calls g p hreach
  obtain ⟨-, hfresh, -⟩ := hinv
  constructor
  · intro heq
    unfold compile
    simp only [heq, if_true]
  intro hne
  have hne2 : ¬ p.mPixelCount = requestedPixelCount compileData := fun h => hne h.symm
  obtain ⟨stats0, stats1, hslots, hid0, hid1, hsz0, hsz1, hcnt, hpix, huse⟩ :=
    recreateAccumulatedStats_spec env g
      { p with mSharedParams := { p.mSharedParams with frameDim := compileData.frameDim } }
      (requestedPixelCount compileData)
  have hold0 : p.mPerFrameCachingData.1.pAccumulatedStats ≠ some stats0 := by
    intro h
    have := hfresh stats0 (Or.inl h)
    omega
  have hold1 : p.mPerFrameCachingData.2.pAccumulatedStats ≠ some stats1 := by
    intro h
    have := hfresh stats1 (Or.inr (Or.inr (Or.inr (Or.inl h))))
    omega
  constructor
  · intro g2 p2 hc
    unfold compile at hc
    simp only [hne2, if_false] at hc
    generalize hr : recreateAccumulatedStats env g
      { p with mSharedParams := { p.mSharedParams with frameDim := compileData.frameDim } }
      (requestedPixelCount compileData) = r at *
    have huse2 : r.2.mSharedCustomParams.useCache = p.mSharedCustomParams.useCache := by
      rw [huse]
    cases hu : p.mSharedCustomParams.useCache with
    | true =>
      rw [huse2, hu] at hc
      simp only [if_true] at hc
      obtain ⟨map0, data0, map1, data1, path, c0, c, ga, gb, hp2, i0, i1, i2, i3, e0, e1, e2, e3,
        -⟩ := recreateCachingData_some env r.1 g2 r.2 p2 hc
      rw [hpix] at e0 e1 e2 e3
      rw [hcnt] at i0 i1 i2 i3
      refine ⟨stats0, stats1, by rw [hp2]; simp only []; rw [hslots],
        by rw [hp2]; simp only []; rw [hslots], hid0, hid1, hsz0, hsz1, hold0, hold1,
        by rw [hp2]; exact hpix, ?_, fun hf => by simp at hf⟩
      intro _
      refine ⟨map0, data0, map1, data1, by rw [hp2], by rw [hp2], by rw [hp2], by rw [hp2],
        e0, e2, e1, e3, ?_, ?_, ?_, ?_⟩
      · intro h
        have := hfresh map0 (Or.inr (Or.inl h)); omega
      · intro h
        have := hfresh data0 (Or.inr (Or.inr (Or.inl h))); omega
      · intro h
        have := hfresh map1 (Or.inr (Or.inr (Or.inr (Or.inr (Or.inl h))))); omega
      · intro h
        have := hfresh data1 (Or.inr (Or.inr (Or.inr (Or.inr (Or.inr (Or.inl h)))))); omega
    | false =>
      rw [huse2, hu] at hc
      simp only [Bool.false_eq_true, if_false, Option.some.injEq] at hc
      have hp2 : p2 = r.2 := by rw [hc]
      refine ⟨stats0, stats1, by rw [hp2, hslots], by rw [hp2, hslots], hid0, hid1, hsz0, hsz1,
        hold0, hold1, by rw [hp2]; exact hpix, fun hf => by simp at hf, ?_⟩
      intro _
      rw [hp2, hslots]
      exact ⟨rfl, rfl, rfl, rfl⟩
  · intro hu
    unfold compile
    simp only [hne2, if_false]
    have huse2 : (recreateAccumulatedStats env g
        { p with mSharedParams := { p.mSharedParams with frameDim := compileData.frameDim } }
        (requestedPixelCount compileData)).2.mSharedCustomParams.useCache = false := by
      rw [huse]; exact hu
    rw [huse2]
    exact ⟨_, _, rfl⟩

/-- Witness of C17 (amended): the caching pass after one frame at 4 x 1 pixels is
compiled for 2 x 1 pixels, fewer than before. -/
theorem compile_reallocation_witness :
    runPass examplePassEnv [.compile exampleCompile, .execute exampleFrame]
      (ScreenSpaceCaustics.create examplePassEnv {} { useCache := true } {})
      = some (cachingPassAfterFrame.1, cachingPassAfterFrame.2) ∧
    requestedPixelCount { defaultTexDims := (2, 1), frameDim := (2, 1) }
      ≠ cachingPassAfterFrame.2.mPixelCount ∧
    (compile examplePassEnv cachingPassAfterFrame.1 cachingPassAfterFrame.2
      { defaultTexDims := (2, 1), frameDim := (2, 1) }).isSome = true ∧
    (requestedPixelCount { defaultTexDims := (4, 1), frameDim := (4, 1) }
        = cachingPassAfterFrame.2.mPixelCount →
      compile examplePassEnv cachingPassAfterFrame.1 cachingPassAfterFrame.2
        { defaultTexDims := (4, 1), frameDim := (4, 1) }
        = some (cachingPassAfterFrame.1,
          { cachingPassAfterFrame.2 with
            mSharedParams := { cachingPassAfterFrame.2.mSharedParams with frameDim := (4, 1) } })) :=
  ⟨runPass_cachingPassAfterFrame, by decide, by decide,
    (compile_reallocation examplePassEnv {} { useCache := true } {}
      [.compile exampleCompile, .execute exampleFrame] cachingPassAfterFrame.1
      cachingPassAfterFrame.2 { defaultTexDims := (4, 1), frameDim := (4, 1) }
      runPass_cachingPassAfterFrame).1⟩

/-- The shape of a frame that `beginFrame` lets through, in a state that satisfies the
invariant: the commands before the clear of the statistics of the current slot and the
steps they carry out, the clear, the optional debug copy into another allocation, light
tracing, and the steps of the commands after it. -/
theorem execute_frame_shape (env : PassEnv) (g g2 : Gpu) (p p2 : ScreenSpaceCaustics)
    (renderData : RenderData) (hinv : PassInvariant g p)
    (hbegin : renderData.beginFrame = true)
    (hexec : execute env g p renderData = some (g2, p2)) :
    ∃ (stats : Buffer) (pre mid post : List Command),
      currentAccumulatedStats p = some stats ∧
      g2.commands = g.commands ++ pre ++ [.clearUAV stats .float4Zero] ++ mid ++
        [.raytrace .lightTracing] ++ post ∧
      (p.mSharedCustomParams.useCache = true →
        framePhases stats pre =
          (if p.mSeparateAABBStorage then [Phase.aabbGeneration] else []) ++
          (if !(p.mResetTemporalReuse || renderData.optionsChanged) && !p.mDisableTemporalReuse
            then [Phase.reuseQuery] else []) ++ [Phase.blasBuild, Phase.tlasBuild]) ∧
      (p.mSharedCustomParams.useCache = false → framePhases stats pre = []) ∧
      ((p.mEnableDebug = false ∧ mid = []) ∨
       (p.mEnableDebug = true ∧ ∃ dst src, p.mpPreviousAccumulatedStats = some dst ∧
          dst.id ≠ stats.id ∧ mid = [.copyResource dst src])) ∧
      framePhases stats post = (if p.mEnableDebug then [Phase.debugReadback] else []) := by
  obtain ⟨gA, pA, pC, previous, current, stats, pre, mid, post, hprep, hprev, hcur, hstats, hcmd,
    hon, hoff, hmid, hpost, -, -, -, -⟩ := execute_some env g g2 p p2 renderData hbegin hexec
  obtain ⟨_, -, -, -, hsame, -, -, hinvA⟩ := prepareFrame_some env g gA _ pA renderData hprep
  have hinv0 : PassInvariant g
      (if renderData.optionsChanged = true then { p with mResetTemporalReuse := true } else p) := by
    split
    · exact passInvariant_congr g p _ hinv rfl rfl rfl rfl
    · exact hinv
  obtain ⟨a1, -, -, -, -, a6, a7, -⟩ := hinvA hinv0
  obtain ⟨s1, s2, s3, s4, s5, s6, s7, s8, s9, -⟩ := hsame
  have e0 : (if renderData.optionsChanged = true then { p with mResetTemporalReuse := true }
        else p).mSelectedFrameCachingData = p.mSelectedFrameCachingData ∧
      (if renderData.optionsChanged = true then { p with mResetTemporalReuse := true }
        else p).mPerFrameCachingData = p.mPerFrameCachingData ∧
      (if renderData.optionsChanged = true then { p with mResetTemporalReuse := true }
        else p).mpPreviousAccumulatedStats = p.mpPreviousAccumulatedStats ∧
      (if renderData.optionsChanged = true then { p with mResetTemporalReuse := true }
        else p).mSharedCustomParams = p.mSharedCustomParams ∧
      (if renderData.optionsChanged = true then { p with mResetTemporalReuse := true }
        else p).mSeparateAABBStorage = p.mSeparateAABBStorage ∧
      (if renderData.optionsChanged = true then { p with mResetTemporalReuse := true }
        else p).mResetTemporalReuse = (p.mResetTemporalReuse || renderData.optionsChanged) ∧
      (if renderData.optionsChanged = true then { p with mResetTemporalReuse := true }
        else p).mDisableTemporalReuse = p.mDisableTemporalReuse ∧
      (if renderData.optionsChanged = true then { p with mResetTemporalReuse := true }
        else p).mEnableDebug = p.mEnableDebug := by
    cases renderData.optionsChanged <;> simp
  obtain ⟨e1, e2, e3, e4, e5, e6, e7, e8⟩ := e0
  rw [e1] at s1
  rw [e2] at s2 s3
  rw [e3] at s4
  rw [e4] at s5
  rw [e5] at s6
  rw [e6] at s7
  rw [e7] at s8
  rw [e8] at s9
  have hidx : pA.mSelectedFrameCachingData = 0 ∨ pA.mSelectedFrameCachingData = 1 := by omega
  have hcurStats : currentAccumulatedStats p = some stats := by
    unfold currentAccumulatedStats pCurrentFrameCachingData
    unfold pCurrentFrameCachingData at hcur
    rw [← s1]
    rcases hidx with h0 | h0
    · rw [h0] at hcur ⊢
      simp only [frameCachingData, if_true, Option.some.injEq] at hcur
      simp only [frameCachingData, if_true, Option.some_bind, Option.bind_some]
      rw [← s2, hcur]; exact hstats
    · rw [h0] at hcur ⊢
      simp only [frameCachingData, one_ne_zero, if_false, if_true, Option.some.injEq] at hcur
      simp only [frameCachingData, one_ne_zero, if_false, if_true, Option.some_bind,
        Option.bind_some]
      rw [← s3, hcur]; exact hstats
  have hdist : ∀ dst, pA.mpPreviousAccumulatedStats = some dst → dst.id ≠ stats.id := by
    intro dst hdst
    unfold pCurrentFrameCachingData at hcur
    rcases hidx with h0 | h0
    · rw [h0] at hcur
      simp only [frameCachingData, if_true, Option.some.injEq] at hcur
      exact a6 dst stats hdst (by rw [hcur]; exact hstats)
    · rw [h0] at hcur
      simp only [frameCachingData, one_ne_zero, if_false, if_true, Option.some.injEq] at hcur
      exact a7 dst stats hdst (by rw [hcur]; exact hstats)
  refine ⟨stats, pre, mid, post, hcurStats, hcmd, ?_, ?_, ?_, by rw [hpost, s9]⟩
  · intro hu
    rw [hon hinv (by rw [s5]; exact hu), s6, s7, s8]
  · intro hu
    exact hoff (by rw [s5]; exact hu)
  · rcases hmid with ⟨hd, hm⟩ | ⟨hd, dst, src, hdst, -, hm⟩
    · exact Or.inl ⟨by rw [← s9]; exact hd, hm⟩
    · exact Or.inr ⟨by rw [← s9]; exact hd, dst, src, by rw [← s4]; exact hdst,
        hdist dst hdst, hm⟩

/-- C18. In every state that the render pass reaches from its constructor, every frame
that `beginFrame` lets through and that completes records its commands in this shape: the
clear of the accumulated-statistics buffer of the current slot (the buffer bound as
`statsOutput` of the light-tracing pass), then at most one command, the debug copy into
`mpPreviousAccumulatedStats`, which is a different allocation and so does not write the
cleared buffer, then the light-tracing pass; there is no other light-tracing pass in the
frame. -/
theorem clear_precedes_light_tracing (env : PassEnv) (g0 : Gpu) (settings : Settings)
    (options : Options) (calls : List PassCall) (g : Gpu) (p : ScreenSpaceCaustics)
    (renderData : RenderData) (g2 : Gpu) (p2 : ScreenSpaceCaustics)
    (hreach : runPass env calls (ScreenSpaceCaustics.create env g0 settings options)
      = some (g, p))
    (hbegin : renderData.beginFrame = true)
    (hexec : execute env g p renderData = some (g2, p2)) :
    ∃ (stats : Buffer) (pre mid post : List Command),
      currentAccumulatedStats p = some stats ∧
      g2.commands = g.commands ++ pre ++ [.clearUAV stats .float4Zero] ++ mid ++
        [.raytrace .lightTracing] ++ post ∧
      (∀ c ∈ mid, c.mayWrite stats = false) ∧ mid.length ≤ 1 ∧
      Command.raytrace .lightTracing ∉ pre ∧ Command.raytrace .lightTracing ∉ mid ∧
      Command.raytrace .lightTracing ∉ post := by
  have hinv := reachable_invariant env g0 settings options calls g p hreach
  obtain ⟨stats, pre, mid, post, hcur, hcmd, hon, hoff, hmid, hpost⟩ :=
    execute_frame_shape env g g2 p p2 renderData hinv hbegin hexec
  have hpre : Command.raytrace .lightTracing ∉ pre := by
    intro hm
    have hph := lightTracing_mem_phases stats pre hm
    cases hu : p.mSharedCustomParams.useCache with
    | false => rw [hoff hu] at hph; simp at hph
    | true =>
      rw [hon hu] at hph
      simp only [List.mem_append, List.mem_cons, List.mem_singleton, List.not_mem_nil,
        or_false] at hph
      rcases hph with (hph | hph) | hph
      · split at hph <;> simp at hph
      · split at hph <;> simp at hph
      · rcases hph with hph | hph <;> simp at hph
  have hpostm : Command.raytrace .lightTracing ∉ post := by
    intro hm
    have hph := lightTracing_mem_phases stats post hm
    rw [hpost] at hph
    split at hph <;> simp at hph
  refine ⟨stats, pre, mid, post, hcur, hcmd, ?_, ?_, hpre, ?_, hpostm⟩
  · intro c hc
    rcases hmid with ⟨-, rfl⟩ | ⟨-, dst, src, -, hne, rfl⟩
    · simp at hc
    · simp only [List.mem_singleton] at hc
      subst hc
      simp only [Command.mayWrite, beq_eq_false_iff_ne, ne_eq]
      exact hne
  · rcases hmid with ⟨-, rfl⟩ | ⟨-, dst, src, -, -, rfl⟩ <;> simp
  · rcases hmid with ⟨-, rfl⟩ | ⟨-, dst, src, -, -, rfl⟩ <;> simp

theorem runPass_debugPassAfterFrame :
    runPass examplePassEnv
      [.compile exampleCompile, .configure { useCache := true, mEnableDebug := true },
       .execute exampleFrame] cachingPass = some debugPassAfterFrame := by
  decide

theorem execute_debugPassAfterFrame :
    execute examplePassEnv debugPassAfterFrame.1 debugPassAfterFrame.2 exampleFrame
      = some debugPassAfterSecondFrame := by
  decide

/-- Witness of C18: the second frame of the caching pass in debug mode, where the debug
copy stands between the clear and light tracing. -/
theorem clear_precedes_light_tracing_witness :
    runPass examplePassEnv
      [.compile exampleCompile, .configure { useCache := true, mEnableDebug := true },
       .execute exampleFrame]
      (ScreenSpaceCaustics.create examplePassEnv {} { useCache := true } {})
      = some (debugPassAfterFrame.1, debugPassAfterFrame.2) ∧
    exampleFrame.beginFrame = true ∧
    debugPassAfterFrame.2.mEnableDebug = true ∧
    execute examplePassEnv debugPassAfterFrame.1 debugPassAfterFrame.2 exampleFrame
      = some (debugPassAfterSecondFrame.1, debugPassAfterSecondFrame.2) ∧
    ∃ (stats : Buffer) (pre mid post : List Command),
      currentAccumulatedStats debugPassAfterFrame.2 = some stats ∧
      debugPassAfterSecondFrame.1.commands = debugPassAfterFrame.1.commands ++ pre ++
        [.clearUAV stats .float4Zero] ++ mid ++ [.raytrace .lightTracing] ++ post ∧
      (∀ c ∈ mid, c.mayWrite stats = false) ∧ mid.length ≤ 1 ∧
      Command.raytrace .lightTracing ∉ pre ∧ Command.raytrace .lightTracing ∉ mid ∧
      Command.raytrace .lightTracing ∉ post :=
  ⟨runPass_debugPassAfterFrame, rfl, by decide, execute_debugPassAfterFrame,
    clear_precedes_light_tracing examplePassEnv {} { useCache := true } {}
      [.compile exampleCompile, .configure { useCache := true, mEnableDebug := true },
       .execute exampleFrame] debugPassAfterFrame.1 debugPassAfterFrame.2 exampleFrame
      debugPassAfterSecondFrame.1 debugPassAfterSecondFrame.2 runPass_debugPassAfterFrame rfl
      execute_debugPassAfterFrame⟩

/-- C19 as stated fails: in the second frame of the caching pass the AABB generation and
the reuse query are issued before the bottom-level and the top-level build, not after
them; no choice of the optional steps makes the order of the specification the order of
this frame. -/
theorem frame_order_counterexample :
    cachingPassAfterFrame.2.mSharedCustomParams.useCache = true ∧
    exampleFrame.beginFrame = true ∧
    ((execute examplePassEnv cachingPassAfterFrame.1 cachingPassAfterFrame.2 exampleFrame).bind
      fun r => (currentAccumulatedStats cachingPassAfterFrame.2).map
        fun stats => framePhases stats (frameCommands cachingPassAfterFrame.1 r.1))
      = some [.aabbGeneration, .reuseQuery, .blasBuild, .tlasBuild, .accumulationClear,
          .lightTracing] ∧
    specFramePhases true false
      = [.blasBuild, .tlasBuild, .aabbGeneration, .reuseQuery, .accumulationClear,
          .lightTracing] ∧
    (∀ a d : Bool,
      specFramePhases a d ≠ [.aabbGeneration, .reuseQuery, .blasBuild, .tlasBuild,
        .accumulationClear, .lightTracing]) := by
  decide

/-- C19 (amended). In every state that the render pass reaches from its constructor,
every frame with caching enabled that `beginFrame` lets through and that completes issues
the steps in this order: the AABB generation (only with `mSeparateAABBStorage`), the
reuse query (only when the temporal reuse is neither reset nor disabled), the
bottom-level build or refit, the top-level rebuild, the clear of the accumulated
statistics of the current slot, light tracing, and the debug readback (only with
`mEnableDebug`); each step occurs once. -/
theorem frame_order (env : PassEnv) (g0 : Gpu) (settings : Settings)
    (options : Options) (calls : List PassCall) (g : Gpu) (p : ScreenSpaceCaustics)
    (renderData : RenderData) (g2 : Gpu) (p2 : ScreenSpaceCaustics)
    (hreach : runPass env calls (ScreenSpaceCaustics.create env g0 settings options)
      = some (g, p))
    (hbegin : renderData.beginFrame = true)
    (hcache : p.mSharedCustomParams.useCache = true)
    (hexec : execute env g p renderData = some (g2, p2)) :
    ∃ (stats : Buffer) (cmds : List Command),
      currentAccumulatedStats p = some stats ∧
      g2.commands = g.commands ++ cmds ∧
      framePhases stats cmds =
        executeFramePhases p.mSeparateAABBStorage
          (!(p.mResetTemporalReuse || renderData.optionsChanged) && !p.mDisableTemporalReuse)
          p.mEnableDebug := by
  have hinv := reachable_invariant env g0 settings options calls g p hreach
  obtain ⟨stats, pre, mid, post, hcur, hcmd, hon, -, hmid, hpost⟩ :=
    execute_frame_shape env g g2 p p2 renderData hinv hbegin hexec
  refine ⟨stats, pre ++ [.clearUAV stats .float4Zero] ++ mid ++ [.raytrace .lightTracing] ++ post,
    hcur, by rw [hcmd]; simp only [List.append_assoc], ?_⟩
  have hm : framePhases stats mid = [] := by
    rcases hmid with ⟨-, rfl⟩ | ⟨-, dst, src, -, -, rfl⟩ <;> rfl
  have hclear : framePhases stats [Command.clearUAV stats .float4Zero]
      = [Phase.accumulationClear] := by
    simp [framePhases, Command.phase]
  have hlight : framePhases stats [Command.raytrace .lightTracing] = [Phase.lightTracing] := rfl
  rw [framePhases_append, framePhases_append, framePhases_append, framePhases_append, hon hcache,
    hm, hclear, hlight, hpost]
  unfold executeFramePhases
  simp only [List.append_assoc, List.nil_append, List.cons_append, List.singleton_append]

/-- Witness of C19 (amended): the second frame of the caching pass in debug mode. -/
theorem frame_order_witness :
    runPass examplePassEnv
      [.compile exampleCompile, .configure { useCache := true, mEnableDebug := true },
       .execute exampleFrame]
      (ScreenSpaceCaustics.create examplePassEnv {} { useCache := true } {})
      = some (debugPassAfterFrame.1, debugPassAfterFrame.2) ∧
    exampleFrame.beginFrame = true ∧
    debugPassAfterFrame.2.mSharedCustomParams.useCache = true ∧
    execute examplePassEnv debugPassAfterFrame.1 debugPassAfterFrame.2 exampleFrame
      = some (debugPassAfterSecondFrame.1, debugPassAfterSecondFrame.2) ∧
    executeFramePhases debugPassAfterFrame.2.mSeparateAABBStorage
      (!(debugPassAfterFrame.2.mResetTemporalReuse || exampleFrame.optionsChanged) &&
        !debugPassAfterFrame.2.mDisableTemporalReuse) debugPassAfterFrame.2.mEnableDebug
      = [.aabbGeneration, .reuseQuery, .blasBuild, .tlasBuild, .accumulationClear,
          .lightTracing, .debugReadback] ∧
    ∃ (stats : Buffer) (cmds : List Command),
      currentAccumulatedStats debugPassAfterFrame.2 = some stats ∧
      debugPassAfterSecondFrame.1.commands = debugPassAfterFrame.1.commands ++ cmds ∧
      framePhases stats cmds =
        executeFramePhases debugPassAfterFrame.2.mSeparateAABBStorage
          (!(debugPassAfterFrame.2.mResetTemporalReuse || exampleFrame.optionsChanged) &&
            !debugPassAfterFrame.2.mDisableTemporalReuse)
          debugPassAfterFrame.2.mEnableDebug :=
  ⟨runPass_debugPassAfterFrame, rfl, by decide, execute_debugPassAfterFrame, by decide,
    frame_order examplePassEnv {} { useCache := true } {}
      [.compile exampleCompile, .configure { useCache := true, mEnableDebug := true },
       .execute exampleFrame] debugPassAfterFrame.1 debugPassAfterFrame.2 exampleFrame
      debugPassAfterSecondFrame.1 debugPassAfterSecondFrame.2 runPass_debugPassAfterFrame rfl
      (by decide) execute_debugPassAfterFrame⟩

/-! ## Totality of the linear branch; bounds and exactness of the tiled allocation -/

/-- C27. Whenever the group size `N` is at least 1 and the total AABB count `w * h` is at
least 1, with `w * h + N - 1 < 2^32`, the linear branch of `setupBlas` is total on a
cache whose AABB buffer exists: it divides by `N`, not by 0, and the descriptor list holds
`ceil(w*h / N)` elements, at least one, when `back()` is overwritten with the remainder
count; so `setupBlas` as a whole completes when this branch is selected and the driver
reports a non-zero result size. -/
theorem setupBlas_linear_total (dev : Device) (s : CachingViaBVH) (buf : Buffer) (w h N : Nat)
    (hbuf : s.mpAABBBuffer = some buf) (hcount : s.mAabbCount = (w, h))
    (hgroup : s.mAabbPerGeometry = N) (hN : 1 ≤ N) (hc : 1 ≤ w * h)
    (hb : w * h + N - 1 < 2 ^ 32) :
    ∃ descs : List GeometryDesc,
      setupBlasLinear s (some buf.gpuAddress) = some descs ∧
      descs ≠ [] ∧ descs.length = (w * h + N - 1) / N ∧
      descs.getLast?.map GeometryDesc.AABBCount =
        some (if (w * h) % N ≠ 0 then (w * h) % N else N) ∧
      ((s.mOptions.useTiling && s.mCanUseTiling) = false → dev.reportsPositiveSizes →
        ∃ s2, setupBlas dev s = some s2 ∧ s2.mBlasData.geomDescs = descs) := by
  have hb2 : w * h + N - 1 < 4294967296 := by norm_num at hb; exact hb
  have hcu : u32 (s.mAabbCount.1 * s.mAabbCount.2) = w * h := by
    rw [hcount]; show u32 (w * h) = w * h; exact u32_of_lt (by omega)
  have hlin := setupBlasLinear_of_bounds s buf.gpuAddress (w * h) N hcu hgroup hc hN hb2
  have hpos : 1 ≤ (w * h + N - 1) / N := by
    rw [Nat.le_div_iff_mul_le (by omega)]; omega
  refine ⟨_, hlin, by simp, ?_, ?_, ?_⟩
  · simp; omega
  · simp
  · intro hsel hdev
    have hg : setupBlasGeometry s = setupBlasLinear s (some buf.gpuAddress) := by
      unfold setupBlasGeometry
      simp only [hsel, hbuf, Option.map_some', Bool.false_eq_true, if_false]
    rw [hlin] at hg
    obtain ⟨s2, hs2, hd, -⟩ := setupBlas_of_geometry dev s _ hdev hg
    exact ⟨s2, hs2, hd⟩

/-- Witness of C27: the domain 2500 x 1 in groups of 1024. -/
theorem setupBlas_linear_total_witness :
    exampleLinearState.mpAABBBuffer
      = some { id := 1, size := 60000, elementCount := 2500, gpuAddress := 131072 } ∧
    exampleLinearState.mAabbCount = (2500, 1) ∧ exampleLinearState.mAabbPerGeometry = 1024 ∧
    1 ≤ 1024 ∧ 1 ≤ 2500 * 1 ∧ 2500 * 1 + 1024 - 1 < 2 ^ 32 ∧
    ∃ descs : List GeometryDesc,
      setupBlasLinear exampleLinearState (some 131072) = some descs ∧
      descs ≠ [] ∧ descs.length = (2500 * 1 + 1024 - 1) / 1024 ∧
      descs.getLast?.map GeometryDesc.AABBCount =
        some (if (2500 * 1) % 1024 ≠ 0 then (2500 * 1) % 1024 else 1024) ∧
      ((exampleLinearState.mOptions.useTiling && exampleLinearState.mCanUseTiling) = false →
        exampleDevice.reportsPositiveSizes →
        ∃ s2, setupBlas exampleDevice exampleLinearState = some s2 ∧
          s2.mBlasData.geomDescs = descs) :=
  ⟨rfl, rfl, rfl, by decide, by decide, by decide,
    setupBlas_linear_total exampleDevice exampleLinearState
      { id := 1, size := 60000, elementCount := 2500, gpuAddress := 131072 } 2500 1 1024
      rfl rfl rfl (by decide) (by decide) (by decide)⟩

/-- On a cache without AABB buffer, `allocate` creates one of exactly the total count. -/
theorem allocate_fresh_buffer (dev : Device) (g g1 : Gpu) (s s1 : CachingViaBVH) (c : Nat × Nat)
    (hnone : s.mpAABBBuffer = none) (h : allocate dev g s c = some (g1, s1)) :
    s1.mpAABBBuffer =
      some (Buffer.createStructured dev g sizeofAABB (u32 (u32 c.1 * u32 c.2))).2 := by
  unfold allocate at h
  simp only [hnone, if_true, Option.map_eq_some'] at h
  obtain ⟨s', hs', hp⟩ := h
  simp only [Prod.mk.injEq] at hp
  obtain ⟨-, rfl⟩ := hp
  obtain ⟨-, hb, -⟩ := setupBlas_some dev _ _ hs'
  rw [hb]

/-- The slots addressed by the tiled policy fit the domain when the height leaves a
remainder of at least 24 rows. -/
theorem tiledSlotCount_le (w h : Nat) (hrem : 24 ≤ h % 32) : tiledSlotCount w h ≤ w * h := by
  unfold tiledSlotCount
  have h1 : w / 64 * 64 ≤ w := Nat.div_mul_le_self w 64
  have h2 : h / 32 * 32 + 24 ≤ h := by omega
  have h3 : w / 64 * (h / 32 * 2048 + 1536) = (w / 64 * 64) * (h / 32 * 32 + 24) := by ring
  rw [h3]
  exact Nat.mul_le_mul h1 h2

/-- Descriptors that cover the slots `[0, T)` of a buffer of `n` elements exactly once lie
inside the buffer exactly when `T ≤ n`. -/
theorem addressedInside_iff (buf : Buffer) (descs : List GeometryDesc) (T n : Nat)
    (hsize : buf.size = n * 24) (hcov : CoversExactlyOnce buf.gpuAddress descs T) :
    AddressedInside buf descs ↔ T ≤ n := by
  constructor
  · intro hin
    by_contra hlt
    obtain ⟨i, j, d, hd, hj, he⟩ := hcov.1 n (by omega)
    have := (hin i j d hd hj).2
    rw [he, hsize] at this
    simp only [slotAddress, sizeofAABB] at this
    omega
  · intro hle i j d hd hj
    obtain ⟨k, hk, he⟩ := hcov.2.2 i j d hd hj
    rw [he, hsize]
    simp only [slotAddress, sizeofAABB]
    omega

/-- On the fresh default cache `allocate` for the domain 64 x 2 creates an AABB buffer
of 128 elements (3072 bytes) and the tiled branch emits one fill tile of 1536 AABBs
starting at the first byte of the buffer: `1536 > 128`, and the AABB with index 128 of
the descriptor lies past the end of the buffer. -/
theorem allocate_tiled_bounds_counterexample :
    1 < 2 ∧ freshCache.2.mOptions.useTiling = true ∧
    allocate exampleDevice freshCache.1 freshCache.2 (64, 2) = some smallTiledCache ∧
    smallTiledCache.2.mpAABBBuffer
      = some { id := 1, size := 3072, elementCount := 128, gpuAddress := 131072 } ∧
    smallTiledCache.2.mBlasData.geomDescs = [fillTileDesc 131072 0 0] ∧
    ¬ tiledSlotCount 64 2 ≤ 64 * 2 ∧
    ¬ AddressedInside { id := 1, size := 3072, elementCount := 128, gpuAddress := 131072 }
        smallTiledCache.2.mBlasData.geomDescs := by
  refine ⟨by decide, rfl, by decide, by decide, by decide, by decide, ?_⟩
  intro hin
  have hd : smallTiledCache.2.mBlasData.geomDescs[0]? = some (fillTileDesc 131072 0 0) := by
    decide
  have := (hin 0 128 (fillTileDesc 131072 0 0) hd (by decide)).2
  revert this
  decide

/-- The domains on which the tiled branch stays inside the buffer. For a freshly created
cache with tiling requested and every domain `(w, h)` with `h > 1`, `w * h < 2^32` and an
addressed byte range that does not wrap (`T * 24 < 2^32` for
`T = floor(w/64) * (floor(h/32) * 2048 + 1536)`), `allocate` creates an AABB buffer of
`w * h` elements, and every AABB addressed by an emitted descriptor lies inside that
buffer if and only if `T ≤ w * h`; this is the case whenever `h mod 32 ≥ 24`. -/
theorem allocate_tiled_bounds (dev : Device) (g0 : Gpu) (options : Options) (w h : Nat)
    (hdev : dev.reportsPositiveSizes) (htiling : options.useTiling = true)
    (hw : w < 2 ^ 32) (hh : h < 2 ^ 32) (h1 : 1 < h) (hwh : w * h < 2 ^ 32)
    (hbytes : tiledSlotCount w h * 24 < 2 ^ 32) :
    ∃ (g2 : Gpu) (s2 : CachingViaBVH) (buf : Buffer),
      allocate dev (CachingViaBVH.create dev g0 options).1
        (CachingViaBVH.create dev g0 options).2 (w, h) = some (g2, s2) ∧
      s2.mpAABBBuffer = some buf ∧ buf.elementCount = w * h ∧ buf.size = w * h * 24 ∧
      (AddressedInside buf s2.mBlasData.geomDescs ↔ tiledSlotCount w h ≤ w * h) ∧
      (24 ≤ h % 32 → AddressedInside buf s2.mBlasData.geomDescs) := by
  have hw2 : w < 4294967296 := by norm_num at hw; exact hw
  have hh2 : h < 4294967296 := by norm_num at hh; exact hh
  have hwh2 : w * h < 4294967296 := by norm_num at hwh; exact hwh
  have hb2 : tiledSlotCount w h * 24 < 4294967296 := by norm_num at hbytes; exact hbytes
  have hlay := fun addr => tiled_descs_layout addr w h hb2
  have hu := (hlay 0).1
  have hT : u32 (w / 64 * (h / 32)) + w / 64 < 4294967296 := by
    rw [hu]
    have : tiledSlotCount w h = 2048 * (w / 64 * (h / 32)) + 1536 * (w / 64) := by
      unfold tiledSlotCount; ring
    omega
  obtain ⟨g2, s2, buf, hal, hbuf, hdescs⟩ :=
    allocate_tiled_descs dev (CachingViaBVH.create dev g0 options).1
      (CachingViaBVH.create dev g0 options).2 w h hdev hw2 hh2 h1 htiling hT
  rw [hu] at hdescs
  obtain ⟨-, ⟨-, -, hcont⟩, htot⟩ := hlay buf.gpuAddress
  have hcov := contiguous_covers _ _ hcont
  rw [htot, ← hdescs] at hcov
  have hfresh := allocate_fresh_buffer dev _ g2 _ s2 (w, h) rfl hal
  rw [hbuf] at hfresh
  simp only [Option.some.injEq] at hfresh
  have hcnt : buf.elementCount = w * h := by
    rw [hfresh]
    show u32 (u32 w * u32 h) = w * h
    rw [u32_of_lt hw2, u32_of_lt hh2, u32_of_lt hwh2]
  have hsize : buf.size = w * h * 24 := by
    rw [hfresh]
    show sizeofAABB * u32 (u32 w * u32 h) = w * h * 24
    rw [u32_of_lt hw2, u32_of_lt hh2, u32_of_lt hwh2]
    simp only [sizeofAABB]; ring
  have hiff := addressedInside_iff buf s2.mBlasData.geomDescs (tiledSlotCount w h) (w * h)
    hsize hcov
  exact ⟨g2, s2, buf, hal, hbuf, hcnt, hsize, hiff,
    fun hrem => hiff.2 (tiledSlotCount_le w h hrem)⟩

/-- The tiled branch stays inside the buffer for the domain 1920 x 1080. -/
theorem allocate_tiled_bounds_witness :
    exampleDevice.reportsPositiveSizes ∧ ({} : Options).useTiling = true ∧
    1920 < 2 ^ 32 ∧ 1080 < 2 ^ 32 ∧ 1 < 1080 ∧ 1920 * 1080 < 2 ^ 32 ∧
    tiledSlotCount 1920 1080 * 24 < 2 ^ 32 ∧
    ∃ (g2 : Gpu) (s2 : CachingViaBVH) (buf : Buffer),
      allocate exampleDevice (CachingViaBVH.create exampleDevice {} {}).1
        (CachingViaBVH.create exampleDevice {} {}).2 (1920, 1080) = some (g2, s2) ∧
      s2.mpAABBBuffer = some buf ∧ buf.elementCount = 1920 * 1080 ∧
      buf.size = 1920 * 1080 * 24 ∧
      (AddressedInside buf s2.mBlasData.geomDescs ↔ tiledSlotCount 1920 1080 ≤ 1920 * 1080) ∧
      (24 ≤ 1080 % 32 → AddressedInside buf s2.mBlasData.geomDescs) :=
  ⟨exampleDevice_reportsPositiveSizes, rfl, by decide, by decide, by decide, by decide,
    by decide,
    allocate_tiled_bounds exampleDevice {} {} 1920 1080 exampleDevice_reportsPositiveSizes rfl
      (by decide) (by decide) (by decide) (by decide) (by decide)⟩

/-- C3 does not hold of the code. On the fresh default cache (tiling enabled) `allocate`
for the domain 1280 x 720 creates an AABB buffer of 921600 elements, and the descriptors
of the tiled branch cover the slots `[0, 931840)` exactly once: they address the slot
921600 and the 10239 slots after it, none of which is a slot of the domain, so they do
not cover `[0, 1280 * 720)` exactly once. For the domain 800 x 600 they cover the slots
`[0, 460800)` exactly once: the slot 460800 and the 19199 slots after it are slots of
the domain that no descriptor addresses. -/
theorem tiled_descriptors_miss_domain :
    (∃ (g2 : Gpu) (s2 : CachingViaBVH) (buf : Buffer),
      allocate exampleDevice freshCache.1 freshCache.2 (1280, 720) = some (g2, s2) ∧
      s2.mpAABBBuffer = some buf ∧ buf.elementCount = 1280 * 720 ∧
      tiledSlotCount 1280 720 = 931840 ∧
      CoversExactlyOnce buf.gpuAddress s2.mBlasData.geomDescs 931840 ∧
      ¬ CoversExactlyOnce buf.gpuAddress s2.mBlasData.geomDescs (1280 * 720) ∧
      ∃ (i j : Nat) (d : GeometryDesc), s2.mBlasData.geomDescs[i]? = some d ∧
        j < d.AABBCount ∧ d.aabbAddress j = slotAddress buf.gpuAddress (1280 * 720)) ∧
    (∃ (g2 : Gpu) (s2 : CachingViaBVH) (buf : Buffer),
      allocate exampleDevice freshCache.1 freshCache.2 (800, 600) = some (g2, s2) ∧
      s2.mpAABBBuffer = some buf ∧ buf.elementCount = 800 * 600 ∧
      tiledSlotCount 800 600 = 460800 ∧
      CoversExactlyOnce buf.gpuAddress s2.mBlasData.geomDescs 460800 ∧
      ¬ CoversExactlyOnce buf.gpuAddress s2.mBlasData.geomDescs (800 * 600) ∧
      ¬ ∃ (i j : Nat) (d : GeometryDesc), s2.mBlasData.geomDescs[i]? = some d ∧
        j < d.AABBCount ∧ d.aabbAddress j = slotAddress buf.gpuAddress 460800) := by
  constructor
  · obtain ⟨g2, s2, buf, hal, hbuf, hcov, hiff⟩ :=
      allocate_tiled_cover exampleDevice freshCache.1 freshCache.2 1280 720
        exampleDevice_reportsPositiveSizes (by decide) (by decide) (by decide) rfl (by decide)
    have hT : tiledSlotCount 1280 720 = 931840 := by decide
    rw [hT] at hcov hiff
    have hfresh := allocate_fresh_buffer exampleDevice _ g2 _ s2 (1280, 720) rfl hal
    rw [hbuf] at hfresh
    simp only [Option.some.injEq] at hfresh
    refine ⟨g2, s2, buf, hal, hbuf, ?_, hT, hcov, ?_, ?_⟩
    · rw [hfresh]; decide
    · intro hc
      exact absurd (hiff.1 hc) (by decide)
    · exact hcov.1 (1280 * 720) (by decide)
  · obtain ⟨g2, s2, buf, hal, hbuf, hcov, hiff⟩ :=
      allocate_tiled_cover exampleDevice freshCache.1 freshCache.2 800 600
        exampleDevice_reportsPositiveSizes (by decide) (by decide) (by decide) rfl (by decide)
    have hT : tiledSlotCount 800 600 = 460800 := by decide
    rw [hT] at hcov hiff
    have hfresh := allocate_fresh_buffer exampleDevice _ g2 _ s2 (800, 600) rfl hal
    rw [hbuf] at hfresh
    simp only [Option.some.injEq] at hfresh
    refine ⟨g2, s2, buf, hal, hbuf, ?_, hT, hcov, ?_, ?_⟩
    · rw [hfresh]; decide
    · intro hc
      exact absurd (hiff.1 hc) (by decide)
    · rintro ⟨i, j, d, hd, hj, he⟩
      obtain ⟨k, hk, hek⟩ := hcov.2.2 i j d hd hj
      rw [he] at hek
      simp only [slotAddress, sizeofAABB] at hek
      omega

/-- C25 does not hold of the code. On the fresh default cache (tiling enabled)
`allocate` for the domain 1280 x 720 creates an AABB buffer of 921600 elements
(22118400 bytes), and the tiled branch emits 460 descriptors that address
`floor(1280/64) * (floor(720/32) * 2048 + 1536) = 931840` AABBs, more than `1280 * 720`:
not every addressed AABB lies inside the buffer, and the last AABB of the last fill tile
ends 245760 bytes past the end of the buffer. -/
theorem tiled_build_reads_past_buffer :
    ∃ (g2 : Gpu) (s2 : CachingViaBVH) (buf : Buffer),
      allocate exampleDevice freshCache.1 freshCache.2 (1280, 720) = some (g2, s2) ∧
      s2.mpAABBBuffer = some buf ∧ buf.elementCount = 921600 ∧ buf.size = 22118400 ∧
      tiledSlotCount 1280 720 = 931840 ∧ ¬ tiledSlotCount 1280 720 ≤ 1280 * 720 ∧
      ¬ AddressedInside buf s2.mBlasData.geomDescs ∧
      s2.mBlasData.geomDescs.length = 460 ∧
      ∃ d : GeometryDesc, s2.mBlasData.geomDescs[459]? = some d ∧ d.AABBCount = 1536 ∧
        d.aabbAddress 1535 + sizeofAABB = buf.gpuAddress + buf.size + 245760 := by
  obtain ⟨g2, s2, buf, hal, hbuf, hcnt, hsize, hiff, -⟩ :=
    allocate_tiled_bounds exampleDevice {} {} 1280 720 exampleDevice_reportsPositiveSizes rfl
      (by decide) (by decide) (by decide) (by decide) (by decide)
  obtain ⟨g3, s3, buf3, hal3, hbuf3, hdescs⟩ := allocate_tiled_descs exampleDevice
    freshCache.1 freshCache.2 1280 720 exampleDevice_reportsPositiveSizes (by decide)
    (by decide) (by decide) rfl (by decide)
  have hal2 : allocate exampleDevice freshCache.1 freshCache.2 (1280, 720) = some (g2, s2) := hal
  rw [hal2] at hal3
  simp only [Option.some.injEq, Prod.mk.injEq] at hal3
  obtain ⟨-, rfl⟩ := hal3
  rw [hbuf] at hbuf3
  simp only [Option.some.injEq] at hbuf3
  subst hbuf3
  have e0 : u32 (1280 / 64 * (720 / 32)) = 440 := by decide
  have e1 : 1280 / 64 = 20 := by decide
  rw [e0, e1] at hdescs
  have hT : tiledSlotCount 1280 720 = 931840 := by decide
  refine ⟨g2, s2, buf, hal2, hbuf, by rw [hcnt], by rw [hsize], hT, by decide, ?_, ?_, ?_⟩
  · intro hin
    exact absurd (hiff.1 hin) (by decide)
  · rw [hdescs, List.length_append, List.length_map, List.length_map, List.length_range,
      List.length_range]
  · refine ⟨fillTileDesc buf.gpuAddress 440 19, ?_, rfl, ?_⟩
    · rw [hdescs, List.getElem?_append_right
        (by rw [List.length_map, List.length_range]; exact Nat.le_of_lt_succ (by decide))]
      rw [List.length_map, List.length_range, List.getElem?_map,
        List.getElem?_range (by decide)]
      rfl
    · have a : u32 (440 * 49152) = 21626880 := by decide
      have b : u32 (19 * 36864) = 700416 := by decide
      have key : buf.gpuAddress + u32 (440 * 49152) + u32 (19 * 36864) + 1535 * 24 + 24
          = buf.gpuAddress + 1280 * 720 * 24 + 245760 := by omega
      rw [hsize]
      exact key

/-- C26 as stated fails: for the domain 64 x 2796248 (`64` a multiple of 64,
`2796248 mod 32 = 24`) the byte offset of the fill tile, `87382 * 49152`, wraps in 32 bits
to 32768, so the ranges of the descriptors are not contiguous from slot 0. -/
theorem allocate_tiled_exact_counterexample :
    0 < 64 ∧ 64 % 64 = 0 ∧ 2796248 % 32 = 24 ∧ freshCache.2.mOptions.useTiling = true ∧
    tiledSlotCount 64 2796248 = 64 * 2796248 ∧
    ¬ ∃ (g2 : Gpu) (s2 : CachingViaBVH) (buf : Buffer),
        allocate exampleDevice freshCache.1 freshCache.2 (64, 2796248) = some (g2, s2) ∧
        s2.mpAABBBuffer = some buf ∧
        CoversExactlyOnce buf.gpuAddress s2.mBlasData.geomDescs (64 * 2796248) ∧
        Contiguous buf.gpuAddress s2.mBlasData.geomDescs := by
  refine ⟨by decide, by decide, by decide, rfl, by decide, ?_⟩
  rintro ⟨g2, s2, buf, hal, hbuf, -, hcont⟩
  obtain ⟨g3, s3, buf3, hal3, hbuf3, hdescs⟩ := allocate_tiled_descs exampleDevice
    freshCache.1 freshCache.2 64 2796248 exampleDevice_reportsPositiveSizes (by decide)
    (by decide) (by decide) rfl (by decide)
  rw [hal] at hal3
  simp only [Option.some.injEq, Prod.mk.injEq] at hal3
  obtain ⟨-, rfl⟩ := hal3
  rw [hbuf] at hbuf3
  simp only [Option.some.injEq] at hbuf3
  subst hbuf3
  have e0 : u32 (64 / 64 * (2796248 / 32)) = 87382 := by decide
  have e1 : 64 / 64 = 1 := by decide
  rw [e0, e1] at hdescs
  rw [hdescs, contiguous_append,
    totalAabbCount_map_const (bigTileDesc buf.gpuAddress) 2048 (fun _ => rfl)] at hcont
  have hstart := hcont.2
  have r1 : List.range 1 = [0] := rfl
  simp only [r1, List.map_cons, List.map_nil, Contiguous] at hstart
  have := hstart.1
  simp [fillTileDesc, sizeofAABB, u32] at this

/-- C26 (amended). For every domain `(w, h)` with `w` a positive multiple of 64,
`h mod 32 = 24` and `w * h * 24 < 2^32`, and tiling requested, the descriptors of the
tiled policy cover the slots `[0, w*h)` exactly once: the covered slot count
`floor(w/64) * (floor(h/32) * 2048 + 1536)` equals `w * h`, the descriptors address
`w * h` AABBs in total, and their ranges are contiguous from slot 0. -/
theorem allocate_tiled_exact (dev : Device) (g : Gpu) (s : CachingViaBVH) (w h : Nat)
    (hdev : dev.reportsPositiveSizes) (htiling : s.mOptions.useTiling = true)
    (hpos : 0 < w) (hw64 : w % 64 = 0) (hh24 : h % 32 = 24) (hbytes : w * h * 24 < 2 ^ 32) :
    ∃ (g2 : Gpu) (s2 : CachingViaBVH) (buf : Buffer),
      allocate dev g s (w, h) = some (g2, s2) ∧ s2.mpAABBBuffer = some buf ∧
      tiledSlotCount w h = w * h ∧
      totalAabbCount s2.mBlasData.geomDescs = w * h ∧
      Contiguous buf.gpuAddress s2.mBlasData.geomDescs ∧
      CoversExactlyOnce buf.gpuAddress s2.mBlasData.geomDescs (w * h) := by
  have hT : tiledSlotCount w h = w * h := by
    unfold tiledSlotCount
    have e1 : w / 64 * 64 = w := Nat.div_mul_cancel (Nat.dvd_of_mod_eq_zero hw64)
    have e2 : h / 32 * 32 + 24 = h := by omega
    have e3 : w / 64 * (h / 32 * 2048 + 1536) = (w / 64 * 64) * (h / 32 * 32 + 24) := by ring
    rw [e3, e1, e2]
  have hb2 : tiledSlotCount w h * 24 < 4294967296 := by
    rw [hT]; norm_num at hbytes; exact hbytes
  have hwh : w * h < 4294967296 := by rw [hT] at hb2; omega
  have h24 : 24 ≤ h := by omega
  have hw2 : w < 4294967296 := by
    have : w * 1 ≤ w * h := Nat.mul_le_mul_left w (by omega)
    omega
  have hh2 : h < 4294967296 := by
    have : 1 * h ≤ w * h := Nat.mul_le_mul_right h hpos
    omega
  have hlay := fun addr => tiled_descs_layout addr w h hb2
  have hu := (hlay 0).1
  have hTc : u32 (w / 64 * (h / 32)) + w / 64 < 4294967296 := by
    rw [hu]
    have : tiledSlotCount w h = 2048 * (w / 64 * (h / 32)) + 1536 * (w / 64) := by
      unfold tiledSlotCount; ring
    omega
  obtain ⟨g2, s2, buf, hal, hbuf, hdescs⟩ :=
    allocate_tiled_descs dev g s w h hdev hw2 hh2 (by omega) htiling hTc
  rw [hu] at hdescs
  obtain ⟨-, ⟨-, -, hcont⟩, htot⟩ := hlay buf.gpuAddress
  have hcov := contiguous_covers _ _ hcont
  rw [← hdescs] at hcont htot hcov
  rw [htot, hT] at hcov
  rw [hT] at htot
  exact ⟨g2, s2, buf, hal, hbuf, hT, htot, hcont, hcov⟩

/-- Witness of C26 (amended): the domain 1920 x 1080. -/
theorem allocate_tiled_exact_witness :
    exampleDevice.reportsPositiveSizes ∧ freshCache.2.mOptions.useTiling = true ∧
    0 < 1920 ∧ 1920 % 64 = 0 ∧ 1080 % 32 = 24 ∧ 1920 * 1080 * 24 < 2 ^ 32 ∧
    ∃ (g2 : Gpu) (s2 : CachingViaBVH) (buf : Buffer),
      allocate exampleDevice freshCache.1 freshCache.2 (1920, 1080) = some (g2, s2) ∧
      s2.mpAABBBuffer = some buf ∧
      tiledSlotCount 1920 1080 = 1920 * 1080 ∧
      totalAabbCount s2.mBlasData.geomDescs = 1920 * 1080 ∧
      Contiguous buf.gpuAddress s2.mBlasData.geomDescs ∧
      CoversExactlyOnce buf.gpuAddress s2.mBlasData.geomDescs (1920 * 1080) :=
  ⟨exampleDevice_reportsPositiveSizes, rfl, by decide, by decide, by decide, by decide,
    allocate_tiled_exact exampleDevice freshCache.1 freshCache.2 1920 1080
      exampleDevice_reportsPositiveSizes rfl (by decide) (by decide) (by decide) (by decide)⟩

/-! ## The render pass ScreenSpaceCaustics: selection of the emissive material -/

/-- Whenever `computerEmissionMaterialIndex` resolves an index, the recomputation is
flagged afterwards exactly when the index is the one selected before or the flag was
already set. -/
theorem computerEmissionMaterialIndex_flag (p : EmissionSelection) (materials : List Material)
    (hscene : p.mpScene = some materials) (hname : p.mEmissiveMaterialName.isEmpty = false)
    (hfound : (findEmissiveMaterial p.mEmissiveMaterialName materials).1 ≠ invalidIndex) :
    (computerEmissionMaterialIndex p).mSelectedEmissiveMaterialIndex
      = (findEmissiveMaterial p.mEmissiveMaterialName materials).1 ∧
    (computerEmissionMaterialIndex p).mRecomputeEmissiveTriangleList
      = ((p.mSelectedEmissiveMaterialIndex
            == (findEmissiveMaterial p.mEmissiveMaterialName materials).1) ||
          p.mRecomputeEmissiveTriangleList) := by
  unfold computerEmissionMaterialIndex
  simp only [hscene, hname, Bool.false_eq_true, if_false, hfound]
  simp

/-- C30 does not hold of the code: with the materials "Floor" (not emissive) and "Lamp"
(emissive), the name "Lamp" requested and material 0 selected before,
`computerEmissionMaterialIndex` resolves the index 1, different from the one selected
before, stores it and leaves `mRecomputeEmissiveTriangleList` false; had material 1 been
selected before, the same call would have set the flag. -/
theorem computerEmissionMaterialIndex_changed_index_not_flagged :
    (findEmissiveMaterial lampSelection.mEmissiveMaterialName
      [{ name := "Floor", isEmissive := false }, { name := "Lamp", isEmissive := true }]).1 = 1 ∧
    lampSelection.mSelectedEmissiveMaterialIndex = 0 ∧
    lampSelection.mRecomputeEmissiveTriangleList = false ∧
    (computerEmissionMaterialIndex lampSelection).mSelectedEmissiveMaterialIndex = 1 ∧
    (computerEmissionMaterialIndex lampSelection).mRecomputeEmissiveTriangleList = false ∧
    (computerEmissionMaterialIndex
      { lampSelection with mSelectedEmissiveMaterialIndex := 1 }).mRecomputeEmissiveTriangleList
      = true := by
  decide

/-! ## The GUI of the cache, rebuild requests and the program defines -/

/-- What the widgets of `renderUI` leave alone, and the value of `dirty`. -/
theorem renderWidgets_spec (s : CachingViaBVH) (widget : Widgets) :
    (renderWidgets s widget).1.mpAABBBuffer = s.mpAABBBuffer ∧
    (renderWidgets s widget).1.mAabbCount = s.mAabbCount ∧
    (renderWidgets s widget).1.mCanUseTiling = s.mCanUseTiling ∧
    (renderWidgets s widget).1.mUpdateCounter = s.mUpdateCounter ∧
    (renderWidgets s widget).1.mRequireRebuild = s.mRequireRebuild ∧
    (renderWidgets s widget).1.mTlasData = s.mTlasData ∧
    (renderWidgets s widget).1.mpTlasScratch = s.mpTlasScratch ∧
    (renderWidgets s widget).1.mBlasData = s.mBlasData ∧
    (renderWidgets s widget).1.mpBlasScratch = s.mpBlasScratch ∧
    (renderWidgets s widget).1.mOptions.allowRefit
      = (widget.checkbox "Allow refit" s.mOptions.allowRefit).1 ∧
    (renderWidgets s widget).1.mOptions.useTiling
      = (widget.checkbox "Use tiling" s.mOptions.useTiling).1 ∧
    (renderWidgets s widget).1.mAabbPerGeometry
      = (widget.var "AABBs per geometry" s.mAabbPerGeometry none).1 ∧
    (renderWidgets s widget).2
      = ((widget.checkbox "Allow refit" s.mOptions.allowRefit).2 ||
          ((widget.checkbox "Use tiling" s.mOptions.useTiling).2 && s.mCanUseTiling) ||
          (widget.var "AABBs per geometry" s.mAabbPerGeometry none).2) := by
  refine ⟨rfl, rfl, rfl, rfl, rfl, rfl, rfl, rfl, rfl, rfl, rfl, rfl, ?_⟩
  simp only [renderWidgets, Bool.or_false]
  cases (widget.checkbox "Allow refit" s.mOptions.allowRefit).2 <;>
    cases ((widget.checkbox "Use tiling" s.mOptions.useTiling).2 && s.mCanUseTiling) <;>
    cases (widget.var "AABBs per geometry" s.mAabbPerGeometry none).2 <;> rfl

/-- When the widgets report their changes and `dirty` stays false, nothing that
`setupBlas` reads has changed. -/
theorem renderWidgets_clean (s : CachingViaBVH) (widget : Widgets)
    (hw : widget.ReportsChanges) (hclean : (renderWidgets s widget).2 = false) :
    (renderWidgets s widget).1.mOptions.allowRefit = s.mOptions.allowRefit ∧
    (renderWidgets s widget).1.mAabbPerGeometry = s.mAabbPerGeometry ∧
    ((renderWidgets s widget).1.mOptions.useTiling && (renderWidgets s widget).1.mCanUseTiling)
      = (s.mOptions.useTiling && s.mCanUseTiling) := by
  obtain ⟨-, -, hcan, -, -, -, -, -, -, ha, ht, hn, hd⟩ := renderWidgets_spec s widget
  rw [hd] at hclean
  simp only [Bool.or_eq_false_iff, Bool.and_eq_false_iff] at hclean
  obtain ⟨⟨h1, h2⟩, h3⟩ := hclean
  refine ⟨?_, ?_, ?_⟩
  · rw [ha]
    by_contra hne
    have := hw.1 _ _ hne
    rw [h1] at this
    exact Bool.noConfusion this
  · rw [hn]
    by_contra hne
    have := hw.2 _ _ _ hne
    rw [h3] at this
    exact Bool.noConfusion this
  · rw [hcan, ht]
    rcases h2 with h2 | h2
    · have : (widget.checkbox "Use tiling" s.mOptions.useTiling).1 = s.mOptions.useTiling := by
        by_contra hne
        have := hw.1 _ _ hne
        rw [h2] at this
        exact Bool.noConfusion this
      rw [this]
    · rw [h2]; simp

/-- The geometry descriptors written by `setupBlas` depend on the options only through
the branch that they select. -/
theorem setupBlasGeometry_congr_branch (s t : CachingViaBVH) (buf : Buffer)
    (hs : s.mpAABBBuffer = some buf) (ht : t.mpAABBBuffer = some buf)
    (h1 : t.mAabbCount = s.mAabbCount) (h2 : t.mAabbPerGeometry = s.mAabbPerGeometry)
    (h3 : (t.mOptions.useTiling && t.mCanUseTiling) = (s.mOptions.useTiling && s.mCanUseTiling))
    (hx : s.mAabbCount.1 < 4294967296) (d : List GeometryDesc)
    (h : setupBlasGeometry s = some d) : setupBlasGeometry t = some d := by
  cases hc : (s.mOptions.useTiling && s.mCanUseTiling) with
  | true =>
    rw [setupBlasGeometry_tiled s buf hs hc] at h
    rw [setupBlasGeometry_tiled t buf ht (by rw [h3]; exact hc)]
    have hT := setupBlasTiled_some_bound s buf.gpuAddress d hx h
    rw [setupBlasTiled_of_bound s buf.gpuAddress hT] at h
    rw [setupBlasTiled_of_bound t buf.gpuAddress (by rw [h1]; exact hT), h1]
    exact h
  | false =>
    rw [setupBlasGeometry_linear s buf hs hc] at h
    rw [setupBlasGeometry_linear t buf ht (by rw [h3]; exact hc)]
    by_cases hN : s.mAabbPerGeometry = 0
    · unfold setupBlasLinear at h
      simp [hN] at h
    · rw [setupBlasLinear_eq s buf.gpuAddress hN] at h
      rw [setupBlasLinear_eq t buf.gpuAddress (by rw [h2]; exact hN), h1, h2]
      exact h

/-- After a successful `setupBlas` on a cache with an AABB buffer, the stored descriptors
are the ones that `setupBlas` derives from the state. -/
theorem setupBlas_current (dev : Device) (s s1 : CachingViaBVH) (buf : Buffer)
    (hbuf : s.mpAABBBuffer = some buf) (hx : s.mAabbCount.1 < 4294967296)
    (h : setupBlas dev s = some s1) :
    setupBlasGeometry s1 = some s1.mBlasData.geomDescs :=
  (setupBlas_some dev s1 s1 (setupBlas_idempotent dev s s1 buf hbuf hx h)).1

/-- Inversion of `renderUI`. -/
theorem renderUI_some (dev : Device) (s s1 : CachingViaBVH) (widget : Widgets) (dirty : Bool)
    (h : renderUI dev s widget = some (s1, dirty)) :
    dirty = (renderWidgets s widget).2 ∧
    (dirty = false → s1 = (renderWidgets s widget).1) ∧
    (dirty = true → ∃ s2, setupBlas dev (renderWidgets s widget).1 = some s2 ∧
      s1 = { s2 with mRequireRebuild := true }) := by
  unfold renderUI at h
  cases hd : (renderWidgets s widget).2 with
  | false =>
    simp only [hd, Bool.false_eq_true, if_false, Option.some.injEq, Prod.mk.injEq] at h
    obtain ⟨rfl, rfl⟩ := h
    exact ⟨rfl, fun _ => rfl, fun hc => Bool.noConfusion hc⟩
  | true =>
    simp only [hd, if_true, Option.map_eq_some', Prod.mk.injEq] at h
    obtain ⟨s2, hs2, rfl, rfl⟩ := h
    exact ⟨rfl, fun hc => Bool.noConfusion hc, fun _ => ⟨s2, hs2, rfl⟩⟩

/-- The build description of `buildBlas` on inputs written by `setupBlas`: the
destination is the result buffer, and `ALLOW_UPDATE` is set exactly when `allowRefit` is. -/
theorem blasBuildDesc_allowsUpdate (s : CachingViaBVH) (scratch blas : Buffer)
    (reallocated : Bool)
    (hflags : s.mBlasData.buildInputs.Flags =
      (if s.mOptions.allowRefit then
        D3D12_RAYTRACING_ACCELERATION_STRUCTURE_BUILD_FLAG_PREFER_FAST_TRACE |||
          D3D12_RAYTRACING_ACCELERATION_STRUCTURE_BUILD_FLAG_ALLOW_UPDATE
       else D3D12_RAYTRACING_ACCELERATION_STRUCTURE_BUILD_FLAG_PREFER_FAST_TRACE)) :
    (blasBuildDesc s scratch blas reallocated).DestAccelerationStructureData = blas.gpuAddress ∧
    (blasBuildDesc s scratch blas reallocated).allowsUpdate = s.mOptions.allowRefit := by
  unfold blasBuildDesc BuildDesc.allowsUpdate
  generalize (if reallocated = true then false else
    (s.mOptions.allowRefit && !s.mRequireRebuild &&
      (s.mBlasData.buildInputs.Flags &&&
        D3D12_RAYTRACING_ACCELERATION_STRUCTURE_BUILD_FLAG_ALLOW_UPDATE != 0))) = c
  cases c <;> cases ha : s.mOptions.allowRefit <;>
    simp only [hflags, ha, if_true, if_false, Bool.false_eq_true] <;>
    exact ⟨trivial, by decide⟩

theorem cacheInvariant_create (dev : Device) (g : Gpu) (options : Options) :
    CacheInvariant (CachingViaBVH.create dev g options).1 (CachingViaBVH.create dev g options).2 :=
  ⟨tlasInputs_create dev g options, fun _ hb => Option.noConfusion hb,
    fun _ _ hb => Option.noConfusion hb⟩

theorem cacheInvariant_allocate (dev : Device) (g g1 : Gpu) (s s1 : CachingViaBVH)
    (c : Nat × Nat) (hinv : CacheInvariant g s) (h : allocate dev g s c = some (g1, s1)) :
    CacheInvariant g1 s1 := by
  obtain ⟨hti, -, hghost⟩ := hinv
  obtain ⟨buf, hb, -, -, -, hcnt, -, hsetup⟩ := allocate_buffer dev g g1 s s1 c h
  obtain ⟨hty, hfl, -, -⟩ := setupBlas_some_inputs dev _ s1 hsetup
  have hx : u32 c.1 < 4294967296 := Nat.mod_lt _ (by decide)
  have hcur := setupBlas_current dev _ s1 buf rfl hx hsetup
  obtain ⟨-, -, -, -, -, hopt, -, hreq, hpb, -, -, -⟩ := setupBlas_some dev _ s1 hsetup
  refine ⟨(allocate_cacheInputs dev g g1 s s1 c hti h).1, ?_, ?_⟩
  · intro b _
    exact ⟨hty, hfl, by rw [hcnt]; exact hx, hcur⟩
  · intro hr b hbl
    have hr0 : s.mRequireRebuild = false := by rw [← hr]; exact hreq.symm
    have hb0 : s.mBlasData.pBlas = some b := by rw [← hbl]; exact hpb.symm
    obtain ⟨d, hd1, hd2, hd3⟩ := hghost hr0 b hb0
    refine ⟨d, ?_, hd2, ?_⟩
    · rw [(allocate_gpu dev g g1 s s1 c h).1]; exact hd1
    · rw [hd3]; exact congrArg Options.allowRefit hopt.symm

theorem cacheInvariant_renderUI (dev : Device) (g : Gpu) (s s1 : CachingViaBVH)
    (widget : Widgets) (dirty : Bool) (hw : widget.ReportsChanges)
    (hinv : CacheInvariant g s) (h : renderUI dev s widget = some (s1, dirty)) :
    CacheInvariant g s1 := by
  obtain ⟨hti, hbufs, hghost⟩ := hinv
  obtain ⟨hbuf, hcnt, hcan, -, hreq, htl, -, hbd, -, ha, ht, hn, -⟩ := renderWidgets_spec s widget
  obtain ⟨hd, hclean, hdirty⟩ := renderUI_some dev s s1 widget dirty h
  cases dirty with
  | false =>
    have hs1 := hclean rfl
    subst hs1
    obtain ⟨ca, cn, ct⟩ := renderWidgets_clean s widget hw hd.symm
    refine ⟨?_, ?_, ?_⟩
    · unfold TlasInputsAsConstructed
      rw [htl]; exact hti
    · intro b hb
      rw [hbuf] at hb
      obtain ⟨h1, h2, h3, h4⟩ := hbufs b hb
      refine ⟨by rw [hbd]; exact h1, by rw [hbd, ca]; exact h2, by rw [hcnt]; exact h3, ?_⟩
      rw [hbd]
      exact setupBlasGeometry_congr_branch s _ b hb (by rw [hbuf]; exact hb) hcnt cn ct h3 _ h4
    · intro hr b hb
      rw [hreq] at hr
      rw [hbd] at hb
      obtain ⟨d, hd1, hd2, hd3⟩ := hghost hr b hb
      exact ⟨d, hd1, hd2, by rw [hd3, ca]⟩
  | true =>
    obtain ⟨s2, hs2, rfl⟩ := hdirty rfl
    obtain ⟨hty, hfl, -, -⟩ := setupBlas_some_inputs dev _ s2 hs2
    obtain ⟨-, hb2, -, hc2, -, -, -, -, -, -, ht2, -⟩ := setupBlas_some dev _ s2 hs2
    refine ⟨?_, ?_, ?_⟩
    · show TlasInputsAsConstructed s2
      unfold TlasInputsAsConstructed
      rw [ht2, htl]; exact hti
    · intro b hb
      have hb' : s.mpAABBBuffer = some b := by
        rw [← hbuf, ← hb2]; exact hb
      obtain ⟨-, -, h3, -⟩ := hbufs b hb'
      have hx : (renderWidgets s widget).1.mAabbCount.1 < 4294967296 := by rw [hcnt]; exact h3
      refine ⟨hty, hfl, ?_, ?_⟩
      · show s2.mAabbCount.1 < 4294967296
        rw [hc2]; exact hx
      · exact setupBlas_current dev _ s2 b (by rw [hbuf]; exact hb') hx hs2
    · intro hr
      exact Bool.noConfusion hr

theorem cacheInvariant_update (dev : Device) (g g2 : Gpu) (s s2 : CachingViaBVH) (hit : Nat)
    (force : Bool) (hinv : CacheInvariant g s)
    (h : update dev g s hit force = some (g2, s2)) :
    CacheInvariant g2 s2 := by
  obtain ⟨hti, hbufs, -⟩ := hinv
  obtain ⟨sched, scratch, blas, tscratch, tlas, inst, cmds, -, ⟨aabb, haabb⟩, -, -, hcmd, hasb, hpb,
    -, -, -, hsame, -, -, htb, -, -, -, hreq, -, -⟩ := update_trace dev g g2 s s2 hit force h
  obtain ⟨so, sc, sn, sct, sb, sg, si, -, -⟩ := hsame
  obtain ⟨h1, h2, h3, h4⟩ := hbufs aabb haabb
  refine ⟨?_, ?_, ?_⟩
  · unfold TlasInputsAsConstructed
    rw [htb]; exact hti
  · intro b hb
    rw [sb] at hb
    rw [haabb] at hb
    simp only [Option.some.injEq] at hb
    subst hb
    refine ⟨by rw [si]; exact h1, by rw [si, so]; exact h2, by rw [sc]; exact h3, ?_⟩
    rw [sg]
    exact setupBlasGeometry_congr s s2 aabb haabb (by rw [sb]; exact haabb) sc sn so sct h3 _ h4
  · intro _ b hb
    rw [hpb] at hb
    simp only [Option.some.injEq] at hb
    subst hb
    have hty : (blasBuildDesc (updatePrepared s hit (willRebuild s force sched)) scratch blas
        (!blasReusable s)).Inputs.Type_
        = D3D12_RAYTRACING_ACCELERATION_STRUCTURE_TYPE_BOTTOM_LEVEL := by
      rw [blasBuildDesc_type]; exact h1
    have htt : (tlasBuildDesc s tscratch tlas inst).Inputs.Type_
        ≠ D3D12_RAYTRACING_ACCELERATION_STRUCTURE_TYPE_BOTTOM_LEVEL := by
      show s.mTlasData.buildInputs.Type_ ≠ _
      rw [hti.1]; decide
    have hbb : blasBuilds cmds
        = [blasBuildDesc (updatePrepared s hit (willRebuild s force sched)) scratch blas
            (!blasReusable s)] := by
      rw [blasBuilds_of_asBuilds, hasb]
      simp only [List.filterMap_cons, List.filterMap_nil, hty, htt, if_true, if_false]
    obtain ⟨hdest, hallow⟩ := blasBuildDesc_allowsUpdate
      (updatePrepared s hit (willRebuild s force sched)) scratch blas (!blasReusable s) h2
    refine ⟨_, ?_, hdest, ?_⟩
    · unfold existingBlasBuild
      rw [hcmd, blasBuilds_append, hbb]
      simp
    · rw [hallow]
      exact congrArg Options.allowRefit so.symm

/-- The invariant holds along every run of calls whose widgets report their changes. -/
theorem runCacheCalls_invariant (dev : Device) :
    ∀ (cs : List CacheCall) (gs r : Gpu × CachingViaBVH),
      (∀ c ∈ cs, c.ReportsChanges) → CacheInvariant gs.1 gs.2 →
      runCacheCalls dev cs gs = some r → CacheInvariant r.1 r.2 := by
  intro cs
  induction cs with
  | nil =>
    intro gs r _ hinv h
    simp only [runCacheCalls, Option.some.injEq] at h
    subst h
    exact hinv
  | cons c cs ih =>
    intro gs r hw hinv h
    simp only [runCacheCalls, Option.bind_eq_some] at h
    obtain ⟨r1, hc, hrest⟩ := h
    have hw1 := hw c (List.mem_cons_self _ _)
    refine ih r1 r (fun x hx => hw x (List.mem_cons_of_mem _ hx)) ?_ hrest
    cases c with
    | allocate aabbCount =>
      exact cacheInvariant_allocate dev gs.1 r1.1 gs.2 r1.2 aabbCount hinv
        (show allocate dev gs.1 gs.2 aabbCount = some (r1.1, r1.2) from hc)
    | renderUI widget =>
      simp only [CacheCall.run, Option.map_eq_some'] at hc
      obtain ⟨x, hx, rfl⟩ := hc
      exact cacheInvariant_renderUI dev gs.1 gs.2 x.1 widget x.2 hw1 hinv hx
    | update totalHitVarsCount forceRebuild =>
      exact cacheInvariant_update dev gs.1 r1.1 gs.2 r1.2 totalHitVarsCount forceRebuild hinv
        (show update dev gs.1 gs.2 totalHitVarsCount forceRebuild = some (r1.1, r1.2) from hc)

/-- The invariant holds in every state reached from the constructor. -/
theorem reachable_cacheInvariant (dev : Device) (g0 g : Gpu) (options : Options)
    (cs : List CacheCall) (s : CachingViaBVH) (hw : ∀ c ∈ cs, c.ReportsChanges)
    (hreach : runCacheCalls dev cs (CachingViaBVH.create dev g0 options) = some (g, s)) :
    CacheInvariant g s :=
  runCacheCalls_invariant dev cs _ (g, s) hw (cacheInvariant_create dev g0 options) hreach

theorem idleWidgets_reportsChanges : idleWidgets.ReportsChanges :=
  ⟨fun _ _ h => absurd rfl h, fun _ _ _ h => absurd rfl h⟩

theorem clickWidgets_reportsChanges (clicked : String) : (clickWidgets clicked).ReportsChanges := by
  refine ⟨fun label value h => ?_, fun _ _ _ h => absurd rfl h⟩
  unfold clickWidgets at h ⊢
  by_cases hl : label = clicked
  · simp [hl]
  · simp [hl] at h

theorem enterWidgets_reportsChanges (field : String) (entered : Nat) :
    (enterWidgets field entered).ReportsChanges := by
  refine ⟨fun _ _ h => absurd rfl h, fun label value bounds h => ?_⟩
  unfold enterWidgets at h ⊢
  by_cases hl : label = field
  · simp [hl]
  · simp [hl] at h

/-- The kind of the bottom-level build of `update` on an allocated cache, with the
destination and the `ALLOW_UPDATE` flag of the build. -/
theorem update_build (dev : Device) (g : Gpu) (s : CachingViaBVH) (hit : Nat)
    (force sched : Bool) (hal : Allocated s) (hsched : scheduleRebuild s = some sched) :
    ∃ (g2 : Gpu) (s2 : CachingViaBVH) (d : BuildDesc) (blas : Buffer),
      update dev g s hit force = some (g2, s2) ∧
      blasBuilds g2.commands = blasBuilds g.commands ++ [d] ∧
      d.performsUpdate
        = (s.mOptions.allowRefit && !willRebuild s force sched && blasReusable s) ∧
      d.isFullBuild
        = !(s.mOptions.allowRefit && !willRebuild s force sched && blasReusable s) ∧
      (d.performsUpdate = true →
        d.SourceAccelerationStructureData = d.DestAccelerationStructureData) ∧
      s2.mUpdateCounter = (if willRebuild s force sched then 0 else u32 (s.mUpdateCounter + 1)) ∧
      s2.mRequireRebuild = false ∧
      SameConfiguration s s2 ∧ blasReusable s2 = true ∧ Allocated s2 ∧
      s2.mBlasData.pBlas = some blas ∧
      d.DestAccelerationStructureData = blas.gpuAddress ∧
      d.allowsUpdate = s.mOptions.allowRefit := by
  obtain ⟨g2, s2, d, hu, hb, hupd, hfull, hsrc, hcnt, hreq, hsame, hreuse, hal2⟩ :=
    update_spec dev g s hit force sched hal hsched
  obtain ⟨sched2, scratch, blas, tscratch, tlas, inst, cmds, -, -, -, -, hcmd, hasb, hpb, -⟩ :=
    update_trace dev g g2 s s2 hit force hu
  have hty : (blasBuildDesc (updatePrepared s hit (willRebuild s force sched2)) scratch blas
      (!blasReusable s)).Inputs.Type_
      = D3D12_RAYTRACING_ACCELERATION_STRUCTURE_TYPE_BOTTOM_LEVEL := by
    rw [blasBuildDesc_type]; exact hal.2.2.2.1
  have htt : (tlasBuildDesc s tscratch tlas inst).Inputs.Type_
      ≠ D3D12_RAYTRACING_ACCELERATION_STRUCTURE_TYPE_BOTTOM_LEVEL := by
    show s.mTlasData.buildInputs.Type_ ≠ _
    rw [hal.2.2.2.2.2.1]; decide
  have hd : d = blasBuildDesc (updatePrepared s hit (willRebuild s force sched2)) scratch
      blas (!blasReusable s) := by
    have h1 : blasBuilds g2.commands = blasBuilds g.commands ++ blasBuilds cmds := by
      rw [hcmd, blasBuilds_append]
    rw [hb] at h1
    have h2 := List.append_cancel_left h1
    rw [blasBuilds_of_asBuilds, hasb] at h2
    simp only [List.filterMap_cons, List.filterMap_nil, hty, htt, if_true, if_false] at h2
    simpa using h2
  obtain ⟨hdest, hallow⟩ := blasBuildDesc_allowsUpdate
    (updatePrepared s hit (willRebuild s force sched2)) scratch blas (!blasReusable s)
    hal.2.2.2.2.1
  refine ⟨g2, s2, d, blas, hu, hb, hupd, hfull, hsrc, hcnt, hreq, hsame, hreuse, hal2, hpb, ?_, ?_⟩
  · rw [hd]; exact hdest
  · rw [hd]; exact hallow

/-- C23. In every state reached from the constructor by `allocate`, `renderUI` and
`update` (the widgets reporting the changes they make) in which the cache is allocated,
`update` completes and issues one bottom-level build. On a frame that is neither forced
(argument, pending request) nor scheduled and whose result buffer needs no reallocation,
the hierarchy in the result buffer exists, and the build is an incremental update
(`PERFORM_UPDATE` set, source = destination) if and only if `allowRefit` is set and that
hierarchy was built with `ALLOW_UPDATE`; otherwise it is a full build. On every other
frame it is a full build. -/
theorem update_refit_iff (dev : Device) (g0 g : Gpu) (options : Options) (cs : List CacheCall)
    (s : CachingViaBVH) (hit : Nat) (forceRebuild sched : Bool)
    (hw : ∀ c ∈ cs, c.ReportsChanges)
    (hreach : runCacheCalls dev cs (CachingViaBVH.create dev g0 options) = some (g, s))
    (hal : Allocated s) (hsched : scheduleRebuild s = some sched) :
    ∃ (g2 : Gpu) (s2 : CachingViaBVH) (d : BuildDesc),
      update dev g s hit forceRebuild = some (g2, s2) ∧
      blasBuilds g2.commands = blasBuilds g.commands ++ [d] ∧
      d.isFullBuild = !d.performsUpdate ∧
      (forceRebuild = false → s.mRequireRebuild = false → sched = false →
        needsReallocation s.mBlasData.pBlas s.mBlasData.resultByteSize = false →
        ∃ (blas : Buffer) (built : BuildDesc),
          s.mBlasData.pBlas = some blas ∧ existingBlasBuild g.commands = some built ∧
          built.DestAccelerationStructureData = blas.gpuAddress ∧
          ((d.performsUpdate = true ∧
              d.SourceAccelerationStructureData = d.DestAccelerationStructureData ∧
              d.DestAccelerationStructureData = blas.gpuAddress) ↔
            (s.mOptions.allowRefit = true ∧ built.allowsUpdate = true))) ∧
      ((forceRebuild = true ∨ s.mRequireRebuild = true ∨ sched = true ∨
          needsReallocation s.mBlasData.pBlas s.mBlasData.resultByteSize = true) →
        d.isFullBuild = true ∧ d.performsUpdate = false ∧
        d.SourceAccelerationStructureData = 0) := by
  obtain ⟨-, -, hghost⟩ := reachable_cacheInvariant dev g0 g options cs s hw hreach
  obtain ⟨g2, s2, d, blas2, hu, hb, hupd, hfull, hsrc, -, -, -, -, -, hpb2, hdest, -⟩ :=
    update_build dev g s hit forceRebuild sched hal hsched
  obtain ⟨-, -, -, -, -, -, -, -, -, hrb, -⟩ := update_trace dev g g2 s s2 hit forceRebuild hu
  refine ⟨g2, s2, d, hu, hb, by rw [hfull, hupd], ?_, ?_⟩
  · intro hf hr hs hn
    subst hf
    subst hs
    cases hp : s.mBlasData.pBlas with
    | none => rw [hp] at hn; exact Bool.noConfusion hn
    | some blas =>
      have hn2 : needsReallocation (some blas) s.mBlasData.resultByteSize = false := by
        rw [← hp]; exact hn
      obtain ⟨built, hb1, hb2, hb3⟩ := hghost hr blas hp
      have hreuse : blasReusable s = true := by rw [blasReusable_eq, hn]; rfl
      have hwill : willRebuild s false false = false := by simp [willRebuild, hr]
      rw [hwill, hreuse] at hupd
      simp only [Bool.not_false, Bool.and_true] at hupd
      refine ⟨blas, built, rfl, hb1, hb2, ?_⟩
      constructor
      · rintro ⟨h1, -, -⟩
        rw [hupd] at h1
        exact ⟨h1, by rw [hb3]; exact h1⟩
      · rintro ⟨h1, -⟩
        have hp1 : d.performsUpdate = true := by rw [hupd]; exact h1
        refine ⟨hp1, hsrc hp1, ?_⟩
        rw [hdest]
        obtain ⟨sched2, scratch, blas3, -, -, -, -, -, -, -, -, -, -, hpb3, -, -, hrb3, -⟩ :=
          update_trace dev g g2 s s2 hit false hu
        rw [hpb2] at hpb3
        simp only [Option.some.injEq] at hpb3
        subst hpb3
        have := hrb3.1 hn
        rw [hp] at this
        simp only [Option.some.injEq] at this
        rw [this]
  · intro hcase
    have hz : (s.mOptions.allowRefit && !willRebuild s forceRebuild sched && blasReusable s)
        = false := by
      rcases hcase with h | h | h | h
      · simp [willRebuild, h]
      · simp [willRebuild, h]
      · simp [willRebuild, h]
      · rw [blasReusable_eq, h]; simp
    have hf : d.isFullBuild = true := by rw [hfull, hz]; rfl
    refine ⟨hf, by rw [hupd, hz], ?_⟩
    unfold BuildDesc.isFullBuild at hf
    simp only [Bool.and_eq_true, beq_iff_eq] at hf
    exact hf.1

/-- Witness of C23: the default cache after `allocate` on 4 x 1, a `renderUI` call in
which nothing is touched, and a first `update`; the frame is neither forced nor scheduled
and needs no reallocation. -/
theorem update_refit_iff_witness :
    (∀ c ∈ [CacheCall.allocate (4, 1), .renderUI idleWidgets, .update 0 false],
      c.ReportsChanges) ∧
    runCacheCalls exampleDevice [.allocate (4, 1), .renderUI idleWidgets, .update 0 false]
      (CachingViaBVH.create exampleDevice {} {}) = some (builtCache.1, builtCache.2) ∧
    Allocated builtCache.2 ∧ scheduleRebuild builtCache.2 = some false ∧
    builtCache.2.mRequireRebuild = false ∧
    needsReallocation builtCache.2.mBlasData.pBlas builtCache.2.mBlasData.resultByteSize
      = false ∧
    ∃ (g2 : Gpu) (s2 : CachingViaBVH) (d : BuildDesc),
      update exampleDevice builtCache.1 builtCache.2 0 false = some (g2, s2) ∧
      blasBuilds g2.commands = blasBuilds builtCache.1.commands ++ [d] ∧
      d.isFullBuild = !d.performsUpdate ∧
      (false = false → builtCache.2.mRequireRebuild = false → false = false →
        needsReallocation builtCache.2.mBlasData.pBlas builtCache.2.mBlasData.resultByteSize
          = false →
        ∃ (blas : Buffer) (built : BuildDesc),
          builtCache.2.mBlasData.pBlas = some blas ∧
          existingBlasBuild builtCache.1.commands = some built ∧
          built.DestAccelerationStructureData = blas.gpuAddress ∧
          ((d.performsUpdate = true ∧
              d.SourceAccelerationStructureData = d.DestAccelerationStructureData ∧
              d.DestAccelerationStructureData = blas.gpuAddress) ↔
            (builtCache.2.mOptions.allowRefit = true ∧ built.allowsUpdate = true))) ∧
      ((false = true ∨ builtCache.2.mRequireRebuild = true ∨ false = true ∨
          needsReallocation builtCache.2.mBlasData.pBlas builtCache.2.mBlasData.resultByteSize
            = true) →
        d.isFullBuild = true ∧ d.performsUpdate = false ∧
        d.SourceAccelerationStructureData = 0) :=
  ⟨fun c hc => by
      simp only [List.mem_cons, List.mem_singleton, List.not_mem_nil, or_false] at hc
      rcases hc with rfl | rfl | rfl
      · exact trivial
      · exact idleWidgets_reportsChanges
      · exact trivial,
    by decide, allocated_builtCache, by decide, by decide, by decide,
    update_refit_iff exampleDevice {} builtCache.1 {}
      [.allocate (4, 1), .renderUI idleWidgets, .update 0 false] builtCache.2 0 false false
      (fun c hc => by
        simp only [List.mem_cons, List.mem_singleton, List.not_mem_nil, or_false] at hc
        rcases hc with rfl | rfl | rfl
        · exact trivial
        · exact idleWidgets_reportsChanges
        · exact trivial)
      (by decide) allocated_builtCache (by decide)⟩

/-- After a `renderUI` call that re-derives the partition, an allocated cache is still
allocated, with a rebuild pending and the descriptors derived from the new settings. -/
theorem renderUI_dirty (dev : Device) (s s1 : CachingViaBVH) (widget : Widgets)
    (hdev : dev.reportsPositiveSizes) (hal : Allocated s)
    (h : renderUI dev s widget = some (s1, true)) :
    Allocated s1 ∧ s1.mRequireRebuild = true ∧
    setupBlasGeometry (renderWidgets s widget).1 = some s1.mBlasData.geomDescs ∧
    s1.mOptions = (renderWidgets s widget).1.mOptions ∧
    s1.mAabbPerGeometry = (renderWidgets s widget).1.mAabbPerGeometry ∧
    s1.mUpdateCounter = s.mUpdateCounter := by
  obtain ⟨hbuf, -, -, hctr, -, htl, hts, -, -, -, -, -, -⟩ := renderWidgets_spec s widget
  obtain ⟨-, -, hdirty⟩ := renderUI_some dev s s1 widget true h
  obtain ⟨s2, hs2, rfl⟩ := hdirty rfl
  obtain ⟨hty, hfl, hres, hscr⟩ := setupBlas_some_inputs dev _ s2 hs2
  obtain ⟨hg, hb2, -, -, hper, hopt, hc2, -, -, -, ht2, hts2⟩ := setupBlas_some dev _ s2 hs2
  obtain ⟨⟨b, hb⟩, -, -, -, -, a6, ⟨ts, hts0⟩, a8⟩ := hal
  refine ⟨⟨⟨b, ?_⟩, hres, hscr hdev, hty, hfl, ?_, ⟨ts, ?_⟩, ?_⟩, rfl, hg, hopt, hper, ?_⟩
  · show s2.mpAABBBuffer = some b
    rw [hb2, hbuf]; exact hb
  · show s2.mTlasData.buildInputs.Type_ = _
    rw [ht2, htl]; exact a6
  · show s2.mpTlasScratch = some ts
    rw [hts2, hts]; exact hts0
  · show s2.mTlasData.pTlas.isSome = s2.mTlasData.pInstanceDescs.isSome
    rw [ht2, htl]; exact a8
  · show s2.mUpdateCounter = s.mUpdateCounter
    rw [hc2, hctr]

/-- C24. When `renderUI` on an allocated cache returns true, one of its widgets for
`allowRefit`, for the tiling choice (with a domain that can be tiled) or for the AABBs
per geometry has reported a change; the stored descriptors are then the ones `setupBlas`
derives from the new settings and a rebuild is pending. The next `update`, whatever its
argument, completes, issues a full build, leaves the refit counter at 0 and the
pending-rebuild flag false. The request is consumed: the `update` after that one, if not
forced itself, completes and is an incremental update exactly when `allowRefit` is set
and the frame is not a scheduled rebuild. The pending-rebuild flag is false after every
`update`. -/
theorem renderUI_change_forces_one_rebuild (dev : Device) (g : Gpu) (s s1 : CachingViaBVH)
    (widget : Widgets) (hit hit2 : Nat) (forceRebuild : Bool)
    (hdev : dev.reportsPositiveSizes) (hal : Allocated s)
    (hui : renderUI dev s widget = some (s1, true))
    (hcount : s1.mOptions.consecutiveRefitCount + 1 < 4294967296) :
    ((widget.checkbox "Allow refit" s.mOptions.allowRefit).2 = true ∨
      ((widget.checkbox "Use tiling" s.mOptions.useTiling).2 = true ∧ s.mCanUseTiling = true) ∨
      (widget.var "AABBs per geometry" s.mAabbPerGeometry none).2 = true) ∧
    setupBlasGeometry (renderWidgets s widget).1 = some s1.mBlasData.geomDescs ∧
    s1.mRequireRebuild = true ∧
    (∃ (g2 : Gpu) (s2 : CachingViaBVH) (d : BuildDesc),
      update dev g s1 hit forceRebuild = some (g2, s2) ∧
      blasBuilds g2.commands = blasBuilds g.commands ++ [d] ∧
      d.isFullBuild = true ∧ d.performsUpdate = false ∧
      s2.mUpdateCounter = 0 ∧ s2.mRequireRebuild = false ∧
      ∃ (g3 : Gpu) (s3 : CachingViaBVH) (d2 : BuildDesc) (sched2 : Bool),
        scheduleRebuild s2 = some sched2 ∧
        update dev g2 s2 hit2 false = some (g3, s3) ∧
        blasBuilds g3.commands = blasBuilds g2.commands ++ [d2] ∧
        d2.performsUpdate = (s1.mOptions.allowRefit && !sched2) ∧
        d2.isFullBuild = !(s1.mOptions.allowRefit && !sched2) ∧
        s3.mRequireRebuild = false) ∧
    (∀ (ga gb : Gpu) (sa sb : CachingViaBVH) (h : Nat) (f : Bool),
      update dev ga sa h f = some (gb, sb) → sb.mRequireRebuild = false) := by
  obtain ⟨hal1, hreq1, hgeo, -, -, -⟩ := renderUI_dirty dev s s1 widget hdev hal hui
  obtain ⟨hd, -, -⟩ := renderUI_some dev s s1 widget true hui
  obtain ⟨-, -, -, -, -, -, -, -, -, -, -, -, hdirty⟩ := renderWidgets_spec s widget
  refine ⟨?_, hgeo, hreq1, ?_, ?_⟩
  · rw [hdirty] at hd
    have hd2 := hd.symm
    simp only [Bool.or_eq_true, Bool.and_eq_true] at hd2
    rcases hd2 with (h1 | h2) | h3
    · exact Or.inl h1
    · exact Or.inr (Or.inl h2)
    · exact Or.inr (Or.inr h3)
  · obtain ⟨sched, hsched⟩ := scheduleRebuild_defined s1 hcount
    obtain ⟨g2, s2, d, hu, hb, hupd, hfull, -, hcnt, hreq2, hsame, hreuse, hal2⟩ :=
      update_spec dev g s1 hit forceRebuild sched hal1 hsched
    have hwill : willRebuild s1 forceRebuild sched = true := by simp [willRebuild, hreq1]
    rw [hwill] at hupd hfull hcnt
    have hopt : s2.mOptions = s1.mOptions := hsame.1
    obtain ⟨sched2, hsched2⟩ := scheduleRebuild_defined s2 (by rw [hopt]; exact hcount)
    obtain ⟨g3, s3, d2, hu2, hb2, hupd2, hfull2, -, -, hreq3, -, -, -⟩ :=
      update_spec dev g2 s2 hit2 false sched2 hal2 hsched2
    have hwill2 : willRebuild s2 false sched2 = sched2 := by simp [willRebuild, hreq2]
    rw [hwill2, hreuse, hopt] at hupd2 hfull2
    simp only [Bool.and_true] at hupd2 hfull2
    refine ⟨g2, s2, d, hu, hb, ?_, ?_, ?_, hreq2, g3, s3, d2, sched2, hsched2, hu2, hb2,
      hupd2, hfull2, hreq3⟩
    · rw [hfull]; simp
    · rw [hupd]; simp
    · simpa using hcnt
  · intro ga gb sa sb h f hu
    obtain ⟨-, -, -, -, -, -, -, -, -, -, -, -, -, -, -, -, -, -, -, -, -, -, -, -, hr, -⟩ :=
      update_trace dev ga gb sa sb h f hu
    exact hr

theorem renderUI_regroupedCache :
    renderUI exampleDevice builtCache.2 (enterWidgets "AABBs per geometry" 2)
      = some (regroupedCache, true) := by
  decide

/-- Witness of C24: on the built default cache (domain 4 x 1) the user enters 2 into
"AABBs per geometry". -/
theorem renderUI_change_forces_one_rebuild_witness :
    exampleDevice.reportsPositiveSizes ∧ Allocated builtCache.2 ∧
    renderUI exampleDevice builtCache.2 (enterWidgets "AABBs per geometry" 2)
      = some (regroupedCache, true) ∧
    regroupedCache.mOptions.consecutiveRefitCount + 1 < 4294967296 ∧
    regroupedCache.mBlasData.geomDescs.length = 2 ∧
    (((enterWidgets "AABBs per geometry" 2).checkbox "Allow refit"
        builtCache.2.mOptions.allowRefit).2 = true ∨
      (((enterWidgets "AABBs per geometry" 2).checkbox "Use tiling"
        builtCache.2.mOptions.useTiling).2 = true ∧ builtCache.2.mCanUseTiling = true) ∨
      ((enterWidgets "AABBs per geometry" 2).var "AABBs per geometry"
        builtCache.2.mAabbPerGeometry none).2 = true) ∧
    setupBlasGeometry (renderWidgets builtCache.2 (enterWidgets "AABBs per geometry" 2)).1
      = some regroupedCache.mBlasData.geomDescs ∧
    regroupedCache.mRequireRebuild = true ∧
    (∃ (g2 : Gpu) (s2 : CachingViaBVH) (d : BuildDesc),
      update exampleDevice builtCache.1 regroupedCache 0 false = some (g2, s2) ∧
      blasBuilds g2.commands = blasBuilds builtCache.1.commands ++ [d] ∧
      d.isFullBuild = true ∧ d.performsUpdate = false ∧
      s2.mUpdateCounter = 0 ∧ s2.mRequireRebuild = false ∧
      ∃ (g3 : Gpu) (s3 : CachingViaBVH) (d2 : BuildDesc) (sched2 : Bool),
        scheduleRebuild s2 = some sched2 ∧
        update exampleDevice g2 s2 0 false = some (g3, s3) ∧
        blasBuilds g3.commands = blasBuilds g2.commands ++ [d2] ∧
        d2.performsUpdate = (regroupedCache.mOptions.allowRefit && !sched2) ∧
        d2.isFullBuild = !(regroupedCache.mOptions.allowRefit && !sched2) ∧
        s3.mRequireRebuild = false) ∧
    (∀ (ga gb : Gpu) (sa sb : CachingViaBVH) (h : Nat) (f : Bool),
      update exampleDevice ga sa h f = some (gb, sb) → sb.mRequireRebuild = false) :=
  ⟨exampleDevice_reportsPositiveSizes, allocated_builtCache, renderUI_regroupedCache,
    by decide, by decide,
    renderUI_change_forces_one_rebuild exampleDevice builtCache.1 builtCache.2 regroupedCache
      (enterWidgets "AABBs per geometry" 2) 0 0 false exampleDevice_reportsPositiveSizes
      allocated_builtCache renderUI_regroupedCache (by decide)⟩

/-- A call leaves an existing AABB buffer in place, and `allocate` creates one. -/
theorem cacheCall_buffer (dev : Device) (c : CacheCall) (gs r : Gpu × CachingViaBVH)
    (h : c.run dev gs = some r)
    (hpre : (∃ b, gs.2.mpAABBBuffer = some b) ∨ ∃ aabbCount, c = .allocate aabbCount) :
    ∃ b, r.2.mpAABBBuffer = some b := by
  cases c with
  | allocate aabbCount =>
    obtain ⟨buf, hb, -⟩ := allocate_buffer dev gs.1 r.1 gs.2 r.2 aabbCount
      (show allocate dev gs.1 gs.2 aabbCount = some (r.1, r.2) from h)
    exact ⟨buf, hb⟩
  | renderUI widget =>
    rcases hpre with ⟨b, hb⟩ | ⟨a, ha⟩
    · simp only [CacheCall.run, Option.map_eq_some'] at h
      obtain ⟨x, hx, rfl⟩ := h
      obtain ⟨hbuf, -⟩ := renderWidgets_spec gs.2 widget
      obtain ⟨-, hclean, hdirty⟩ := renderUI_some dev gs.2 x.1 widget x.2 hx
      cases hx2 : x.2 with
      | false =>
        refine ⟨b, ?_⟩
        show x.1.mpAABBBuffer = some b
        rw [hclean hx2, hbuf]; exact hb
      | true =>
        obtain ⟨s2, hs2, he⟩ := hdirty hx2
        obtain ⟨-, hb2, -⟩ := setupBlas_some dev _ s2 hs2
        refine ⟨b, ?_⟩
        show x.1.mpAABBBuffer = some b
        rw [he]
        show s2.mpAABBBuffer = some b
        rw [hb2, hbuf]; exact hb
    · exact CacheCall.noConfusion ha
  | update totalHitVarsCount forceRebuild =>
    rcases hpre with ⟨b, hb⟩ | ⟨a, ha⟩
    · obtain ⟨_, _, _, _, _, _, _, -, -, -, -, -, -, -, -, -, -, hsame, -⟩ :=
        update_trace dev gs.1 r.1 gs.2 r.2 totalHitVarsCount forceRebuild
          (show update dev gs.1 gs.2 totalHitVarsCount forceRebuild = some (r.1, r.2) from h)
      exact ⟨b, by rw [hsame.2.2.2.2.1]; exact hb⟩
    · exact CacheCall.noConfusion ha

/-- After a run with at least one `allocate`, the AABB buffer exists. -/
theorem runCacheCalls_buffer (dev : Device) :
    ∀ (cs : List CacheCall) (gs r : Gpu × CachingViaBVH),
      runCacheCalls dev cs gs = some r →
      ((∃ b, gs.2.mpAABBBuffer = some b) ∨ ∃ aabbCount, CacheCall.allocate aabbCount ∈ cs) →
      ∃ b, r.2.mpAABBBuffer = some b := by
  intro cs
  induction cs with
  | nil =>
    intro gs r h hpre
    simp only [runCacheCalls, Option.some.injEq] at h
    subst h
    rcases hpre with hb | ⟨a, ha⟩
    · exact hb
    · simp at ha
  | cons c cs ih =>
    intro gs r h hpre
    simp only [runCacheCalls, Option.bind_eq_some] at h
    obtain ⟨r1, hc, hrest⟩ := h
    rcases hpre with hb | ⟨a, ha⟩
    · exact ih r1 r hrest (Or.inl (cacheCall_buffer dev c gs r1 hc (Or.inl hb)))
    · rcases List.mem_cons.1 ha with he | hm
      · exact ih r1 r hrest (Or.inl (cacheCall_buffer dev c gs r1 hc (Or.inr ⟨a, he.symm⟩)))
      · exact ih r1 r hrest (Or.inr ⟨a, hm⟩)

/-- The defines of `prepareProgram` for the tiling choice and the group size. -/
theorem prepareProgram_lookup (s : CachingViaBVH) :
    (prepareProgram s).lookup "CACHING_USE_TILING"
      = some (if s.mOptions.useTiling && s.mCanUseTiling then "1" else "0") ∧
    (prepareProgram s).lookup "CACHING_AABB_PER_GEOMETRY" = some (toString s.mAabbPerGeometry) := by
  constructor
  · rfl
  · rfl

/-- C28. In every state reached from the constructor by `allocate`, `renderUI` and
`update` (the widgets reporting the changes they make) after at least one `allocate`,
the partition announced to the shaders is the one built on the host: `prepareProgram`
sets `CACHING_USE_TILING` to "1" exactly when the current geometry descriptors are the
output of the tiled branch of `setupBlas`, and to "0" otherwise, in which case they are
the output of the linear branch for the group size `N` that `CACHING_AABB_PER_GEOMETRY`
is set to. -/
theorem prepareProgram_agrees (dev : Device) (g0 g : Gpu) (options : Options)
    (cs : List CacheCall) (s : CachingViaBVH)
    (hw : ∀ c ∈ cs, c.ReportsChanges)
    (hreach : runCacheCalls dev cs (CachingViaBVH.create dev g0 options) = some (g, s))
    (hallocated : ∃ aabbCount, CacheCall.allocate aabbCount ∈ cs) :
    ((prepareProgram s).lookup "CACHING_USE_TILING" = some "1" ↔ ProducedByTiledBranch s) ∧
    ((prepareProgram s).lookup "CACHING_USE_TILING" ≠ some "1" →
      (prepareProgram s).lookup "CACHING_USE_TILING" = some "0" ∧
      ∃ N, (prepareProgram s).lookup "CACHING_AABB_PER_GEOMETRY" = some (toString N) ∧
        ProducedByLinearBranch s N) := by
  obtain ⟨-, hbufs, -⟩ := reachable_cacheInvariant dev g0 g options cs s hw hreach
  obtain ⟨buf, hbuf⟩ := runCacheCalls_buffer dev cs _ (g, s) hreach (Or.inr hallocated)
  obtain ⟨-, -, -, hgeo⟩ := hbufs buf hbuf
  obtain ⟨hl1, hl2⟩ := prepareProgram_lookup s
  cases hc : (s.mOptions.useTiling && s.mCanUseTiling) with
  | true =>
    have hone : (prepareProgram s).lookup "CACHING_USE_TILING" = some "1" := by
      rw [hl1, hc]; rfl
    refine ⟨⟨fun _ => ⟨buf, hbuf, hc, ?_⟩, fun _ => hone⟩, fun hne => absurd hone hne⟩
    rw [← setupBlasGeometry_tiled s buf hbuf hc]; exact hgeo
  | false =>
    have hzero : (prepareProgram s).lookup "CACHING_USE_TILING" = some "0" := by
      rw [hl1, hc]; rfl
    refine ⟨⟨fun h1 => ?_, ?_⟩, fun _ => ⟨hzero, s.mAabbPerGeometry, hl2, buf, hbuf, hc, rfl, ?_⟩⟩
    · rw [hzero] at h1
      exact absurd h1 (by decide)
    · rintro ⟨b, -, hb, -⟩
      rw [hc] at hb
      exact Bool.noConfusion hb
    · rw [← setupBlasGeometry_linear s buf hbuf hc]; exact hgeo

theorem runCacheCalls_untiledCache :
    runCacheCalls exampleDevice [.allocate (64, 32), .renderUI (clickWidgets "Use tiling")]
      (CachingViaBVH.create exampleDevice {} {}) = some (untiledCache.1, untiledCache.2) := by
  decide

/-- Witness of C28: the fresh default cache after `allocate` on the domain 64 x 32 and a
`renderUI` call in which the user switches the tiling off. -/
theorem prepareProgram_agrees_witness :
    (∀ c ∈ [CacheCall.allocate (64, 32), .renderUI (clickWidgets "Use tiling")],
      c.ReportsChanges) ∧
    runCacheCalls exampleDevice [.allocate (64, 32), .renderUI (clickWidgets "Use tiling")]
      (CachingViaBVH.create exampleDevice {} {}) = some (untiledCache.1, untiledCache.2) ∧
    (∃ aabbCount, CacheCall.allocate aabbCount
      ∈ [CacheCall.allocate (64, 32), .renderUI (clickWidgets "Use tiling")]) ∧
    prepareProgram untiledCache.2
      = [("CACHING_USE_TILING", "0"), ("CACHING_BIG_TILE_X", "64"), ("CACHING_BIG_TILE_Y", "32"),
         ("CACHING_FILL_TILE_X", "64"), ("CACHING_FILL_TILE_Y", "24"),
         ("CACHING_AABB_PER_GEOMETRY", "1024")] ∧
    ((prepareProgram untiledCache.2).lookup "CACHING_USE_TILING" = some "1" ↔
      ProducedByTiledBranch untiledCache.2) ∧
    ((prepareProgram untiledCache.2).lookup "CACHING_USE_TILING" ≠ some "1" →
      (prepareProgram untiledCache.2).lookup "CACHING_USE_TILING" = some "0" ∧
      ∃ N, (prepareProgram untiledCache.2).lookup "CACHING_AABB_PER_GEOMETRY"
          = some (toString N) ∧
        ProducedByLinearBranch untiledCache.2 N) :=
  ⟨fun c hc => by
      simp only [List.mem_cons, List.mem_singleton, List.not_mem_nil, or_false] at hc
      rcases hc with rfl | rfl
      · exact trivial
      · exact clickWidgets_reportsChanges _,
    runCacheCalls_untiledCache, ⟨(64, 32), List.mem_cons_self _ _⟩, by decide,
    prepareProgram_agrees exampleDevice {} untiledCache.1 {}
      [.allocate (64, 32), .renderUI (clickWidgets "Use tiling")] untiledCache.2
      (fun c hc => by
        simp only [List.mem_cons, List.mem_singleton, List.not_mem_nil, or_false] at hc
        rcases hc with rfl | rfl
        · exact trivial
        · exact clickWidgets_reportsChanges _)
      runCacheCalls_untiledCache ⟨(64, 32), List.mem_cons_self _ _⟩⟩

/-! ## PathDebug: the read fence -/

theorem awaitData_spec (d w : PathDebug) (ev : List DebugEvent)
    (h : awaitData d = .ok (w, ev)) :
    w = { d with mWaitingForData := false } ∧
    (d.mWaitingForData = false → ev = []) ∧
    (d.mWaitingForData = true → ev = [.syncCpu] ∧ d.mpReadFence = true) := by
  unfold awaitData at h
  cases hw : d.mWaitingForData with
  | false =>
    simp only [hw, Bool.false_eq_true, if_false, Except.ok.injEq, Prod.mk.injEq] at h
    obtain ⟨rfl, rfl⟩ := h
    refine ⟨?_, fun _ => rfl, fun hc => Bool.noConfusion hc⟩
    cases d
    simp only at hw
    subst hw
    rfl
  | true =>
    cases hf : d.mpReadFence with
    | false => simp [hw, hf] at h
    | true =>
      simp only [hw, hf, if_true, Except.ok.injEq, Prod.mk.injEq] at h
      obtain ⟨rfl, rfl⟩ := h
      exact ⟨rfl, fun hc => Bool.noConfusion hc, fun _ => ⟨rfl, rfl⟩⟩

theorem processSegment_access (d : PathDebug) (staging coords matrices : Buffer)
    (content : Nat → Nat) (pathIndex segmentIndex instanceIndex : Nat)
    (r : List DebugEvent × Bool)
    (h : processSegment d staging coords matrices content pathIndex segmentIndex instanceIndex
      = .ok r) : ∀ e ∈ r.1, e.isAccess = true := by
  unfold processSegment at h
  simp only at h
  split at h
  · split at h
    · simp only [Except.ok.injEq] at h
      subst h
      intro e he
      simp only [List.mem_singleton] at he
      subst he; rfl
    · split at h
      · split at h
        · simp only [Except.ok.injEq] at h
          subst h
          intro e he
          simp only [List.mem_cons, List.mem_singleton, List.not_mem_nil, or_false] at he
          rcases he with rfl | rfl | rfl <;> rfl
        · exact Except.noConfusion h
      · exact Except.noConfusion h
  · exact Except.noConfusion h

theorem fillSegments_access (d : PathDebug) (staging coords matrices : Buffer)
    (content : Nat → Nat) (pathIndex segmentCount : Nat) :
    ∀ (segments : List Nat) (acc r : List DebugEvent × Nat),
      fillSegments d staging coords matrices content pathIndex segmentCount segments acc = .ok r →
      ∃ new, r.1 = acc.1 ++ new ∧ ∀ e ∈ new, e.isAccess = true := by
  intro segments
  induction segments with
  | nil =>
    intro acc r h
    simp only [fillSegments, Except.ok.injEq] at h
    subst h
    exact ⟨[], by simp, by simp⟩
  | cons segmentIndex rest ih =>
    intro acc r h
    simp only [fillSegments] at h
    cases hp : processSegment d staging coords matrices content pathIndex segmentIndex acc.2 with
    | error e => rw [hp] at h; exact Except.noConfusion h
    | ok p =>
      rw [hp] at h
      simp only at h
      split at h
      · obtain ⟨new, hn, ha⟩ := ih _ r h
        refine ⟨p.1 ++ new, by rw [hn]; simp, ?_⟩
        intro e he
        rcases List.mem_append.1 he with he | he
        · exact processSegment_access d staging coords matrices content _ _ _ p hp e he
        · exact ha e he
      · exact Except.noConfusion h

theorem fillPaths_access (d : PathDebug) (staging coords matrices : Buffer)
    (content : Nat → Nat) :
    ∀ (paths : List Nat) (acc r : List DebugEvent × Nat),
      fillPaths d staging coords matrices content paths acc = .ok r →
      ∃ new, r.1 = acc.1 ++ new ∧ ∀ e ∈ new, e.isAccess = true := by
  intro paths
  induction paths with
  | nil =>
    intro acc r h
    simp only [fillPaths, Except.ok.injEq] at h
    subst h
    exact ⟨[], by simp, by simp⟩
  | cons pathIndex rest ih =>
    intro acc r h
    simp only [fillPaths] at h
    split at h
    · split at h
      · cases hs : fillSegments d staging coords matrices content pathIndex
            (min (content pathIndex) d.mSegmentIDLimits.segmentIndex)
            (List.range (min (content pathIndex) d.mSegmentIDLimits.segmentIndex))
            (acc.1 ++ [.readDescription pathIndex], acc.2) with
        | error e => rw [hs] at h; exact Except.noConfusion h
        | ok a =>
          rw [hs] at h
          simp only at h
          obtain ⟨new1, hn1, ha1⟩ := fillSegments_access d staging coords matrices content _ _ _ _ _ hs
          obtain ⟨new2, hn2, ha2⟩ := ih _ r h
          refine ⟨[.readDescription pathIndex] ++ new1 ++ new2, ?_, ?_⟩
          · rw [hn2, hn1]; simp
          · intro e he
            simp only [List.mem_append, List.mem_singleton] at he
            rcases he with (rfl | he) | he
            · rfl
            · exact ha1 e he
            · exact ha2 e he
      · obtain ⟨new2, hn2, ha2⟩ := ih _ r h
        refine ⟨[.readDescription pathIndex] ++ new2, ?_, ?_⟩
        · rw [hn2]; simp
        · intro e he
          simp only [List.mem_append, List.mem_singleton] at he
          rcases he with rfl | he
          · rfl
          · exact ha2 e he
    · exact Except.noConfusion h

/-- Inversion of `fillInstanceData`: the state changes only in the flag, which is false
afterwards; the events are the wait, if the flag was set, followed by accesses. -/
theorem fillInstanceData_ok (d d1 : PathDebug) (content : Nat → Nat) (n : Nat)
    (ev : List DebugEvent) (h : d.fillInstanceData content = .ok (d1, n, ev)) :
    d1 = { d with mWaitingForData := false } ∧
    ∃ new, (∀ e ∈ new, e.isAccess = true) ∧
      (d.mWaitingForData = false → ev = new) ∧
      (d.mWaitingForData = true → ev = .syncCpu :: new) := by
  unfold PathDebug.fillInstanceData at h
  split at h
  · exact Except.noConfusion h
  · cases hw : awaitData d with
    | error e => rw [hw] at h; exact Except.noConfusion h
    | ok w =>
      rw [hw] at h
      simp only at h
      obtain ⟨hw1, hw2, hw3⟩ := awaitData_spec d w.1 w.2 hw
      split at h
      · rename_i staging coords matrices hs hc hm
        cases hf : fillPaths w.1 staging coords matrices content
            (List.range w.1.mSegmentIDLimits.pathIndex) (w.2, 0) with
        | error e => rw [hf] at h; exact Except.noConfusion h
        | ok acc =>
          rw [hf] at h
          simp only [Except.ok.injEq, Prod.mk.injEq] at h
          obtain ⟨rfl, rfl, rfl⟩ := h
          obtain ⟨new, hn, ha⟩ := fillPaths_access w.1 staging coords matrices content _ _ _ hf
          refine ⟨hw1, new, ha, ?_, ?_⟩
          · intro hfalse
            rw [hn, hw2 hfalse]; rfl
          · intro htrue
            rw [hn, (hw3 htrue).1]; rfl
      · exact Except.noConfusion h

/-- Inversion of `copyDataToCPU` for the fence: no signal is issued, and the wait is
performed exactly when the call gets past the test of the selection with the flag set;
the flag is false afterwards unless the selection is out of range. -/
theorem copyDataToCPU_ok (d d1 : PathDebug) (content : Nat → Nat) (ev : List DebugEvent)
    (h : d.copyDataToCPU content = .ok (d1, ev)) :
    DebugEvent.gpuSignal ∉ ev ∧
    (d.mWaitingForData = false → DebugEvent.syncCpu ∉ ev ∧ d1.mWaitingForData = false) ∧
    (d1.mWaitingForData = true → d.mWaitingForData = true ∧ ev = []) := by
  unfold PathDebug.copyDataToCPU at h
  split at h
  · exact Except.noConfusion h
  · split at h
    · simp only [Except.ok.injEq, Prod.mk.injEq] at h
      obtain ⟨rfl, rfl⟩ := h
      exact ⟨by simp, fun hf => ⟨by simp, hf⟩, fun ht => ⟨ht, rfl⟩⟩
    · cases hw : awaitData d with
      | error e => rw [hw] at h; exact Except.noConfusion h
      | ok w =>
        rw [hw] at h
        simp only at h
        obtain ⟨hw1, hw2, hw3⟩ := awaitData_spec d w.1 w.2 hw
        have hwf : w.1.mWaitingForData = false := by rw [hw1]
        have hsig : DebugEvent.gpuSignal ∉ w.2 := by
          cases hd : d.mWaitingForData with
          | false => rw [hw2 hd]; simp
          | true => rw [(hw3 hd).1]; simp
        split at h
        · split at h
          · exact Except.noConfusion h
          · split at h
            · split at h
              · simp only [Except.ok.injEq, Prod.mk.injEq] at h
                obtain ⟨rfl, rfl⟩ := h
                refine ⟨?_, fun hf => ⟨?_, hwf⟩, fun ht => ?_⟩
                · simp [hsig]
                · rw [hw2 hf]; simp
                · have : w.1.mWaitingForData = true := ht
                  rw [hwf] at this
                  exact Bool.noConfusion this
              · exact Except.noConfusion h
            · exact Except.noConfusion h
        · simp only [Except.ok.injEq] at h
          subst h
          refine ⟨hsig, fun hf => ⟨?_, hwf⟩, fun ht => ?_⟩
          · have h2 : ev = [] := hw2 hf
            rw [h2]; simp
          · have h3 : d1.mWaitingForData = false := hwf
            rw [h3] at ht
            exact Bool.noConfusion ht

theorem isAccess_ne (e : DebugEvent) (h : e.isAccess = true) :
    e ≠ .syncCpu ∧ e ≠ .gpuSignal := by
  cases e <;> simp [DebugEvent.isAccess] at h ⊢

theorem copyBuffer_event (dst src : Option Buffer) (e : DebugEvent)
    (h : copyBuffer dst src = .ok e) : e ≠ .syncCpu ∧ e ≠ .gpuSignal := by
  unfold copyBuffer at h
  split at h
  · split at h
    · simp only [Except.ok.injEq] at h
      subst h
      exact ⟨by simp, by simp⟩
    · exact Except.noConfusion h
  · exact Except.noConfusion h

/-- The instance data of `endFrame`, filled when `mUpdateInstanceData` is set (line 265). -/
theorem fillInstanceData_quiet (d : PathDebug) (content : Nat → Nat)
    (x : PathDebug × Nat × List DebugEvent) (h : d.fillInstanceData content = .ok x)
    (hf : d.mWaitingForData = false) :
    DebugEvent.syncCpu ∉ x.2.2 ∧ DebugEvent.gpuSignal ∉ x.2.2 ∧ x.1.mWaitingForData = false := by
  obtain ⟨h1, new, ha, hn, -⟩ := fillInstanceData_ok d x.1 content x.2.1 x.2.2 h
  rw [hn hf]
  refine ⟨fun hm => (isAccess_ne _ (ha _ hm)).1 rfl, fun hm => (isAccess_ne _ (ha _ hm)).2 rfl, ?_⟩
  rw [h1]

theorem refreshInstanceData_quiet (d : PathDebug) (content : Nat → Nat)
    (x : PathDebug × List DebugEvent) (h : refreshInstanceData d content = .ok x)
    (hf : d.mWaitingForData = false) :
    DebugEvent.syncCpu ∉ x.2 ∧ x.1.mWaitingForData = false := by
  have hev : DebugEvent.syncCpu ∉
      (if !d.mAutomaticUpdates then [DebugEvent.flush false] else []) := by
    split <;> simp
  unfold refreshInstanceData at h
  simp only at h
  split at h
  · cases hfi : d.fillInstanceData content with
    | error e => rw [hfi] at h; exact Except.noConfusion h
    | ok y =>
      rw [hfi] at h
      simp only [Except.ok.injEq] at h
      subst h
      obtain ⟨h1, -, h3⟩ := fillInstanceData_quiet d content y hfi hf
      refine ⟨?_, h3⟩
      simp only [List.mem_append, not_or]
      exact ⟨hev, h1⟩
  · simp only [Except.ok.injEq] at h
    subst h
    exact ⟨hev, hf⟩

theorem renderPaths_quiet (d : PathDebug) (content : Nat → Nat)
    (r : PathDebug × List DebugEvent) (h : renderPaths d content = .ok r)
    (hf : d.mWaitingForData = false) :
    DebugEvent.syncCpu ∉ r.2 ∧ r.1.mWaitingForData = false := by
  unfold renderPaths at h
  cases hi : refreshInstanceData d content with
  | error e => rw [hi] at h; exact Except.noConfusion h
  | ok x =>
    rw [hi] at h
    simp only at h
    obtain ⟨hx1, hx2⟩ := refreshInstanceData_quiet d content x hi hf
    cases hc1 : copyBuffer x.1.mRasteriser.pRayCoordsBuffer x.1.mRasteriser.pRayCoordsStagingBuffer with
    | error e => rw [hc1] at h; exact Except.noConfusion h
    | ok c1 =>
      rw [hc1] at h
      simp only at h
      cases hc2 : copyBuffer x.1.mRasteriser.pMatrixBuffer x.1.mRasteriser.pMatrixStagingBuffer with
      | error e => rw [hc2] at h; exact Except.noConfusion h
      | ok c2 =>
        rw [hc2] at h
        simp only at h
        have e1 := (copyBuffer_event _ _ c1 hc1).1
        have e2 := (copyBuffer_event _ _ c2 hc2).1
        split at h
        · split at h
          · simp only [Except.ok.injEq] at h
            subst h
            refine ⟨?_, hx2⟩
            simp only [List.mem_append, List.mem_cons, List.mem_singleton, List.not_mem_nil,
              or_false, not_or]
            exact ⟨⟨hx1, e1.symm, e2.symm, by simp⟩, by simp⟩
          · exact Except.noConfusion h
        · simp only [Except.ok.injEq] at h
          subst h
          refine ⟨?_, hx2⟩
          simp only [List.mem_append, List.mem_cons, List.mem_singleton, List.not_mem_nil,
            or_false, not_or]
          exact ⟨hx1, e1.symm, e2.symm, by simp⟩

theorem signalReadback_spec (d : PathDebug) (s : PathDebug × List DebugEvent)
    (h : signalReadback d = .ok s) :
    (d.mAutomaticUpdates = true → DebugEvent.gpuSignal ∈ s.2) ∧
    (d.mAutomaticUpdates = false → s = (d, [])) := by
  unfold signalReadback at h
  split at h
  · rename_i hauto
    cases hc : copyBuffer d.mpPathDescriptionStaging d.mpPathDescription with
    | error e => rw [hc] at h; exact Except.noConfusion h
    | ok c =>
      rw [hc] at h
      simp only at h
      split at h
      · simp only [Except.ok.injEq] at h
        subst h
        exact ⟨fun _ => by simp, fun hn => by rw [hauto] at hn; exact Bool.noConfusion hn⟩
      · exact Except.noConfusion h
  · rename_i hauto
    simp only [Except.ok.injEq] at h
    subst h
    exact ⟨fun ht => absurd ht hauto, fun _ => rfl⟩

theorem endFrame_quiet (d : PathDebug) (selectedSegmentID : PathDebugSegmentID)
    (content : Nat → Nat) (r : PathDebug × List DebugEvent)
    (h : d.endFrame selectedSegmentID content = .ok r) (hf : d.mWaitingForData = false)
    (hq : DebugEvent.gpuSignal ∉ r.2) :
    DebugEvent.syncCpu ∉ r.2 ∧ r.1.mWaitingForData = false := by
  unfold PathDebug.endFrame at h
  split at h
  · simp only [Except.ok.injEq] at h
    subst h
    exact ⟨by simp, hf⟩
  · simp only at h
    split at h
    · simp only [Except.ok.injEq] at h
      subst h
      exact ⟨by simp, hf⟩
    · generalize hd2 : ({ d with mRunning := false, mSelectedSegmentID := selectedSegmentID } :
        PathDebug) = d2 at h
      have hf2 : d2.mWaitingForData = false := by rw [← hd2]; exact hf
      cases hs : signalReadback d2 with
      | error e => rw [hs] at h; exact Except.noConfusion h
      | ok s =>
        rw [hs] at h
        simp only at h
        obtain ⟨hs1, hs2⟩ := signalReadback_spec d2 s hs
        split at h
        · simp only [Except.ok.injEq] at h
          subst h
          cases ha : d2.mAutomaticUpdates with
          | true => exact absurd (hs1 ha) hq
          | false =>
            rw [hs2 ha]
            exact ⟨by simp, hf2⟩
        · cases hr : renderPaths s.1 content with
          | error e => rw [hr] at h; exact Except.noConfusion h
          | ok p =>
            rw [hr] at h
            simp only [Except.ok.injEq] at h
            subst h
            cases ha : d2.mAutomaticUpdates with
            | true =>
              exact absurd (List.mem_append_left _ (hs1 ha)) hq
            | false =>
              have hse := hs2 ha
              subst hse
              obtain ⟨hp1, hp2⟩ := renderPaths_quiet d2 content p hr hf2
              exact ⟨by simpa using hp1, hp2⟩

theorem applyWidgets_flag (d : PathDebug) (widget : Widgets) :
    (d.applyWidgets widget).mWaitingForData = d.mWaitingForData ∧
    (d.applyWidgets widget).mRunning = d.mRunning := by
  unfold PathDebug.applyWidgets
  simp only
  split
  · split <;> exact ⟨rfl, rfl⟩
  · exact ⟨rfl, rfl⟩

theorem renderUI_quiet (d : PathDebug) (widget : Widgets) (content : Nat → Nat)
    (r : PathDebug × List DebugEvent) (h : d.renderUI widget content = .ok r)
    (hf : d.mWaitingForData = false) :
    DebugEvent.syncCpu ∉ r.2 ∧ r.1.mWaitingForData = false := by
  have hf2 : (d.applyWidgets widget).mWaitingForData = false := by
    rw [(applyWidgets_flag d widget).1]; exact hf
  unfold PathDebug.renderUI at h
  split at h
  · simp only [Except.ok.injEq] at h
    subst h
    exact ⟨by simp, hf⟩
  · simp only at h
    split at h
    · obtain ⟨-, h2, -⟩ := copyDataToCPU_ok (d.applyWidgets widget) r.1 content r.2 h
      exact h2 hf2
    · simp only [Except.ok.injEq] at h
      subst h
      exact ⟨by simp, hf2⟩

theorem beginFrame_quiet (env : DebugEnv) (g : Gpu) (d : PathDebug)
    (segmentIDLimits : PathDebugSegmentID) (geometryAttachment colorAttachment : Bool)
    (hf : d.mWaitingForData = false) :
    DebugEvent.syncCpu ∉ (d.beginFrame env g segmentIDLimits geometryAttachment colorAttachment).2.2 ∧
    (d.beginFrame env g segmentIDLimits geometryAttachment colorAttachment).2.1.mWaitingForData
      = false := by
  unfold PathDebug.beginFrame
  split
  · exact ⟨by simp, hf⟩
  · simp only
    split
    · exact ⟨by simp, rfl⟩
    · exact ⟨by simp, rfl⟩

/-- A call that starts with the flag `mWaitingForData` false and whose events include no
signal of the read fence performs no wait and leaves the flag false. -/
theorem debugCall_quiet (env : DebugEnv) (c : DebugCall) (gd : Gpu × PathDebug)
    (r : Gpu × PathDebug × List DebugEvent) (h : c.run env gd = .ok r)
    (hf : gd.2.mWaitingForData = false) (hq : DebugEvent.gpuSignal ∉ r.2.2) :
    DebugEvent.syncCpu ∉ r.2.2 ∧ r.2.1.mWaitingForData = false := by
  cases c with
  | setScene scene =>
    simp only [DebugCall.run, Except.ok.injEq] at h
    subst h
    exact ⟨by simp, hf⟩
  | beginFrame segmentIDLimits geometryAttachment colorAttachment =>
    simp only [DebugCall.run, Except.ok.injEq] at h
    subst h
    exact beginFrame_quiet env gd.1 gd.2 segmentIDLimits geometryAttachment colorAttachment hf
  | endFrame selectedSegmentID content =>
    simp only [DebugCall.run] at h
    cases he : gd.2.endFrame selectedSegmentID content with
    | error e => rw [he] at h; exact Except.noConfusion h
    | ok x =>
      rw [he] at h
      simp only [Except.ok.injEq] at h
      subst h
      exact endFrame_quiet gd.2 selectedSegmentID content x he hf hq
  | renderUI widget content =>
    simp only [DebugCall.run] at h
    cases he : gd.2.renderUI widget content with
    | error e => rw [he] at h; exact Except.noConfusion h
    | ok x =>
      rw [he] at h
      simp only [Except.ok.injEq] at h
      subst h
      exact renderUI_quiet gd.2 widget content x he hf

/-- A run that starts with the flag `mWaitingForData` false and whose events include no
signal of the read fence performs no wait and leaves the flag false. -/
theorem runDebug_quiet (env : DebugEnv) :
    ∀ (calls : List DebugCall) (gd : Gpu × PathDebug) (r : Gpu × PathDebug × List DebugEvent),
      runDebug env calls gd = .ok r → gd.2.mWaitingForData = false →
      DebugEvent.gpuSignal ∉ r.2.2 →
      DebugEvent.syncCpu ∉ r.2.2 ∧ r.2.1.mWaitingForData = false := by
  intro calls
  induction calls with
  | nil =>
    intro gd r h hf _
    simp only [runDebug, Except.ok.injEq] at h
    subst h
    exact ⟨by simp, hf⟩
  | cons c cs ih =>
    intro gd r h hf hq
    simp only [runDebug] at h
    cases hc : c.run env gd with
    | error e => rw [hc] at h; exact Except.noConfusion h
    | ok x =>
      rw [hc] at h
      simp only at h
      cases hr : runDebug env cs (x.1, x.2.1) with
      | error e => rw [hr] at h; exact Except.noConfusion h
      | ok y =>
        rw [hr] at h
        simp only [Except.ok.injEq] at h
        subst h
        simp only [List.mem_append, not_or] at hq
        obtain ⟨hx1, hx2⟩ := debugCall_quiet env c gd x hc hf hq.1
        obtain ⟨hy1, hy2⟩ := ih (x.1, x.2.1) y hr hx2 hq.2
        refine ⟨?_, hy2⟩
        simp only [List.mem_append, not_or]
        exact ⟨hx1, hy1⟩

/-- C21 fails on the code. In the run `staleReadCalls` from a `PathDebug` constructed
with path debugging enabled, the first `endFrame` copies the descriptions to the staging
buffer and signals the read fence, leaving `mWaitingForData` true; the second
`beginFrame` sets the flag to false without a wait; the last `renderUI` then reads the
elements 0, 0 and 1 of the mapped staging buffer in `copyDataToCPU`, and the whole run
contains no wait on the fence. -/
theorem read_after_unwaited_signal :
    eventsOf (runDebug exampleDebugEnv staleReadCalls ({}, PathDebug.create { mEnabled := true }))
      = some [.dispatchClearing,
          .copyBufferRegion { id := 1, size := 32, elementCount := 2, gpuAddress := 131072 }
            { id := 0, size := 32, elementCount := 2, gpuAddress := 65536 } 32,
          .flush false, .gpuSignal, .dispatchClearing,
          .readDescription 0, .readDescription 0, .readDescription 1] ∧
    (debugStateAfter exampleDebugEnv (staleReadCalls.take 3)
      ({}, PathDebug.create { mEnabled := true })).2.mWaitingForData = true ∧
    (debugStateAfter exampleDebugEnv (staleReadCalls.take 4)
      ({}, PathDebug.create { mEnabled := true })).2.mWaitingForData = false ∧
    (eventsOf (runDebug exampleDebugEnv staleReadCalls
      ({}, PathDebug.create { mEnabled := true }))).map (unsynchronisedReads false)
      = some [0, 0, 1] := by
  decide

/-- C22. Let a `copyDataToCPU` or a `fillInstanceData` complete with a wait on the read
fence. The flag `mWaitingForData` is false afterwards, and after every run of calls of
the public interface from there in which `endFrame` never signals the fence, no call has
waited on the fence, the flag is still false, the wait of `copyDataToCPU` and
`fillInstanceData` does nothing, and neither function, called then, waits. The flag is
only set by a signal: a call that starts with the flag false and ends with it true has
signalled the fence. -/
theorem no_wait_without_signal (env : DebugEnv) (g : Gpu) (d d1 : PathDebug)
    (content : Nat → Nat) (ev : List DebugEvent) (calls : List DebugCall)
    (r : Gpu × PathDebug × List DebugEvent)
    (hread : d.copyDataToCPU content = .ok (d1, ev) ∨
      ∃ n, d.fillInstanceData content = .ok (d1, n, ev))
    (hwait : DebugEvent.syncCpu ∈ ev)
    (hrun : runDebug env calls (g, d1) = .ok r)
    (hquiet : DebugEvent.gpuSignal ∉ r.2.2) :
    d1.mWaitingForData = false ∧ DebugEvent.syncCpu ∉ r.2.2 ∧ r.2.1.mWaitingForData = false ∧
    awaitData r.2.1 = .ok (r.2.1, []) ∧
    (∀ content2 x, r.2.1.copyDataToCPU content2 = .ok x → DebugEvent.syncCpu ∉ x.2) ∧
    (∀ content2 x, r.2.1.fillInstanceData content2 = .ok x → DebugEvent.syncCpu ∉ x.2.2) ∧
    (∀ (c : DebugCall) (gd : Gpu × PathDebug) (x : Gpu × PathDebug × List DebugEvent),
      c.run env gd = .ok x → gd.2.mWaitingForData = false → x.2.1.mWaitingForData = true →
      DebugEvent.gpuSignal ∈ x.2.2) := by
  have h1 : d1.mWaitingForData = false := by
    rcases hread with hc | ⟨n, hfi⟩
    · obtain ⟨-, -, h3⟩ := copyDataToCPU_ok d d1 content ev hc
      cases hd : d1.mWaitingForData with
      | false => rfl
      | true =>
        rw [(h3 hd).2] at hwait
        simp at hwait
    · obtain ⟨he, -⟩ := fillInstanceData_ok d d1 content n ev hfi
      rw [he]
  obtain ⟨h2, h3⟩ := runDebug_quiet env calls (g, d1) r hrun h1 hquiet
  refine ⟨h1, h2, h3, ?_, ?_, ?_, ?_⟩
  · unfold awaitData
    rw [h3]
    rfl
  · intro content2 x hx
    exact ((copyDataToCPU_ok r.2.1 x.1 content2 x.2 hx).2.1 h3).1
  · intro content2 x hx
    exact (fillInstanceData_quiet r.2.1 content2 x hx h3).1
  · intro c gd x hx hf ht
    by_contra hq
    have := (debugCall_quiet env c gd x hx hf hq).2
    rw [this] at ht
    exact Bool.noConfusion ht

/-- Witness of C22: after the frame of `signalledDebug`, a `copyDataToCPU` waits and
reads; two `renderUI` calls follow, each of which reads without a wait. -/
theorem no_wait_without_signal_witness :
    (signalledDebug.copyDataToCPU onePathContent
        = .ok (waitedDebug,
          [.syncCpu, .readDescription 0, .readDescription 0, .readDescription 1]) ∨
      ∃ n, signalledDebug.fillInstanceData onePathContent
        = .ok (waitedDebug, n,
          [.syncCpu, .readDescription 0, .readDescription 0, .readDescription 1])) ∧
    DebugEvent.syncCpu
      ∈ [DebugEvent.syncCpu, .readDescription 0, .readDescription 0, .readDescription 1] ∧
    runDebug exampleDebugEnv
        [.renderUI idleWidgets onePathContent, .renderUI idleWidgets onePathContent]
        ({}, waitedDebug)
      = .ok ({}, waitedDebug,
          [.readDescription 0, .readDescription 0, .readDescription 1,
           .readDescription 0, .readDescription 0, .readDescription 1]) ∧
    waitedDebug.mWaitingForData = false ∧
    DebugEvent.syncCpu ∉
      [DebugEvent.readDescription 0, .readDescription 0, .readDescription 1,
       .readDescription 0, .readDescription 0, .readDescription 1] ∧
    awaitData waitedDebug = .ok (waitedDebug, []) :=
  have h := no_wait_without_signal exampleDebugEnv {} signalledDebug waitedDebug onePathContent
    [.syncCpu, .readDescription 0, .readDescription 0, .readDescription 1]
    [.renderUI idleWidgets onePathContent, .renderUI idleWidgets onePathContent]
    ({}, waitedDebug,
      [.readDescription 0, .readDescription 0, .readDescription 1,
       .readDescription 0, .readDescription 0, .readDescription 1])
    (Or.inl (by decide)) (by decide) (by decide) (by decide)
  ⟨Or.inl (by decide), by decide, by decide, h.1, h.2.1, h.2.2.2.1⟩

/-! ## PathDebug: index bounds of the read-back -/

theorem index_bounds (P S pathIndex segmentIndex : Nat) (hp : pathIndex < P)
    (hs : segmentIndex < S) :
    pathIndex + segmentIndex * P + P < P * S + P ∧ pathIndex * S + segmentIndex < P * S := by
  have h1 : (segmentIndex + 1) * P ≤ S * P := Nat.mul_le_mul_right P hs
  have h2 : (pathIndex + 1) * S ≤ P * S := Nat.mul_le_mul_right S hp
  rw [Nat.add_mul, Nat.one_mul] at h1 h2
  rw [Nat.mul_comm S P] at h1
  constructor <;> omega

theorem processSegment_bounds (d : PathDebug) (staging coords matrices : Buffer)
    (content : Nat → Nat) (pathIndex segmentIndex instanceIndex P S : Nat)
    (hl : d.mSegmentIDLimits = { pathIndex := P, segmentIndex := S })
    (hp : pathIndex < P) (hs : segmentIndex < S) (hi : instanceIndex < P * S) :
    (∀ r, processSegment d staging coords matrices content pathIndex segmentIndex instanceIndex
        = .ok r →
      (∀ e ∈ r.1, e.inBounds (P * S + P) (P * S) = true) ∧
        (d.mHideLastSegment = false → r.2 = true)) ∧
    (∀ f, processSegment d staging coords matrices content pathIndex segmentIndex instanceIndex
        = .error f → ¬ BuffersHold staging coords matrices P S) := by
  obtain ⟨hb, -⟩ := index_bounds P S pathIndex segmentIndex hp hs
  constructor
  · intro r h
    unfold processSegment at h
    simp only [hl] at h
    split at h
    · split at h
      · rename_i h2
        simp only [Except.ok.injEq] at h
        subst h
        refine ⟨?_, ?_⟩
        · intro e he
          simp only [List.mem_singleton] at he
          subst he
          simp only [DebugEvent.inBounds, decide_eq_true_eq]
          exact hb
        · intro hh
          rw [hh] at h2
          simp at h2
      · split at h
        · split at h
          · simp only [Except.ok.injEq] at h
            subst h
            refine ⟨?_, fun _ => rfl⟩
            intro e he
            simp only [List.mem_cons, List.mem_singleton, List.not_mem_nil, or_false] at he
            rcases he with rfl | rfl | rfl
            · simp only [DebugEvent.inBounds, decide_eq_true_eq]
              exact hb
            · simp only [DebugEvent.inBounds, decide_eq_true_eq]
              omega
            · simp only [DebugEvent.inBounds, decide_eq_true_eq]
              exact hi
          · exact Except.noConfusion h
        · exact Except.noConfusion h
    · exact Except.noConfusion h
  · intro f h hbig
    obtain ⟨hb1, hb2, hb3⟩ := hbig
    unfold processSegment at h
    simp only [hl] at h
    split at h
    · split at h
      · exact Except.noConfusion h
      · split at h
        · split at h
          · exact Except.noConfusion h
          · rename_i h4
            exact h4 ⟨by omega, by omega⟩
        · rename_i h3
          omega
    · rename_i h1
      omega

theorem fillSegments_bounds (d : PathDebug) (staging coords matrices : Buffer)
    (content : Nat → Nat) (pathIndex segmentCount P S : Nat)
    (hl : d.mSegmentIDLimits = { pathIndex := P, segmentIndex := S }) (hp : pathIndex < P) :
    ∀ (n k : Nat) (acc : List DebugEvent × Nat), k + n ≤ S → acc.2 ≤ pathIndex * S + k →
      (∀ e ∈ acc.1, e.inBounds (P * S + P) (P * S) = true) →
      SafeOutcome (BuffersHold staging coords matrices P S) d.mHideLastSegment
        (fun r => r.2 ≤ pathIndex * S + (k + n) ∧
          ∀ e ∈ r.1, e.inBounds (P * S + P) (P * S) = true)
        (fillSegments d staging coords matrices content pathIndex segmentCount
          (List.range' k n) acc) := by
  intro n
  induction n with
  | zero =>
    intro k acc _ ha he
    simp only [List.range'_zero, fillSegments, SafeOutcome]
    exact ⟨by omega, he⟩
  | succ n ih =>
    intro k acc hk ha he
    have hks : k < S := by omega
    obtain ⟨-, hb2⟩ := index_bounds P S pathIndex k hp hks
    have hi : acc.2 < P * S := by omega
    have hps := processSegment_bounds d staging coords matrices content pathIndex k acc.2 P S
      hl hp hks hi
    rw [List.range'_succ]
    simp only [fillSegments]
    cases hproc : processSegment d staging coords matrices content pathIndex k acc.2 with
    | error f =>
      simp only [SafeOutcome]
      intro hbig
      exact absurd hbig (hps.2 f hproc)
    | ok r =>
      have hps := hps.1 r hproc
      simp only
      split
      · have hnext := ih (k + 1) (acc.1 ++ r.1, if r.2 = true then u32 (acc.2 + 1) else acc.2)
          (by omega)
          (by
            show (if r.2 = true then u32 (acc.2 + 1) else acc.2) ≤ pathIndex * S + (k + 1)
            split
            · have : u32 (acc.2 + 1) ≤ acc.2 + 1 := Nat.mod_le _ _
              omega
            · omega)
          (by
            intro e hm
            rcases List.mem_append.1 hm with hm | hm
            · exact he e hm
            · exact hps.1 e hm)
        have heq : k + 1 + n = k + (n + 1) := by omega
        rw [heq] at hnext
        exact hnext
      · rename_i hcont
        simp only [SafeOutcome]
        intro _
        refine ⟨trivial, ?_⟩
        cases hh : d.mHideLastSegment with
        | true => rfl
        | false =>
          have := hps.2 hh
          rw [this] at hcont
          simp at hcont

theorem fillPaths_bounds (d : PathDebug) (staging coords matrices : Buffer)
    (content : Nat → Nat) (P S : Nat)
    (hl : d.mSegmentIDLimits = { pathIndex := P, segmentIndex := S }) :
    ∀ (m j : Nat) (acc : List DebugEvent × Nat), j + m ≤ P → acc.2 ≤ j * S →
      (∀ e ∈ acc.1, e.inBounds (P * S + P) (P * S) = true) →
      SafeOutcome (BuffersHold staging coords matrices P S) d.mHideLastSegment
        (fun r => r.2 ≤ P * S ∧ ∀ e ∈ r.1, e.inBounds (P * S + P) (P * S) = true)
        (fillPaths d staging coords matrices content (List.range' j m) acc) := by
  intro m
  induction m with
  | zero =>
    intro j acc hj ha he
    simp only [List.range'_zero, fillPaths, SafeOutcome]
    have : j * S ≤ P * S := Nat.mul_le_mul_right S hj
    exact ⟨by omega, he⟩
  | succ m ih =>
    intro j acc hj ha he
    have hjP : j < P := by omega
    have hnext : (j + 1) * S = j * S + S := by rw [Nat.add_mul, Nat.one_mul]
    have he2 : ∀ e ∈ acc.1 ++ [DebugEvent.readDescription j],
        e.inBounds (P * S + P) (P * S) = true := by
      intro e hm
      rcases List.mem_append.1 hm with hm | hm
      · exact he e hm
      · simp only [List.mem_singleton] at hm
        subst hm
        simp only [DebugEvent.inBounds, decide_eq_true_eq]
        omega
    rw [List.range'_succ]
    simp only [fillPaths, hl]
    split
    · split
      · have hseg := fillSegments_bounds d staging coords matrices content j
          (min (content j) S) P S hl hjP (min (content j) S) 0
          (acc.1 ++ [DebugEvent.readDescription j], acc.2)
          (by have := Nat.min_le_right (content j) S; omega) (by omega) he2
        rw [← List.range_eq_range'] at hseg
        cases hfs : fillSegments d staging coords matrices content j (min (content j) S)
            (List.range (min (content j) S))
            (acc.1 ++ [DebugEvent.readDescription j], acc.2) with
        | error f =>
          rw [hfs] at hseg
          simp only [SafeOutcome] at hseg ⊢
          exact hseg
        | ok a =>
          rw [hfs] at hseg
          simp only [SafeOutcome] at hseg
          simp only
          exact ih (j + 1) a (by omega)
            (by have := Nat.min_le_right (content j) S; omega) hseg.2
      · exact ih (j + 1) (acc.1 ++ [DebugEvent.readDescription j], acc.2) (by omega)
          (by show acc.2 ≤ (j + 1) * S; omega) he2
    · rename_i hlt
      simp only [SafeOutcome]
      intro hbig
      have := hbig.1
      omega

/-- The index bounds of `fillInstanceData` and, with the buffers of `beginFrame`, its
completion. -/
theorem fillInstanceData_bounds (d : PathDebug) (content : Nat → Nat) (P S : Nat)
    (hl : d.mSegmentIDLimits = { pathIndex := P, segmentIndex := S }) :
    (∀ x, d.fillInstanceData content = .ok x →
      x.2.1 ≤ P * S ∧ ∀ e ∈ x.2.2, e.inBounds (P * S + P) (P * S) = true) ∧
    (∀ staging coords matrices, d.mpPathDescriptionStaging = some staging →
      d.mRasteriser.pRayCoordsStagingBuffer = some coords →
      d.mRasteriser.pMatrixStagingBuffer = some matrices →
      BuffersHold staging coords matrices P S → d.mRunning = false →
      (d.mWaitingForData = true → d.mpReadFence = true) →
      ((∃ x, d.fillInstanceData content = .ok x) ∨
        (d.fillInstanceData content = .error .assertion ∧ d.mHideLastSegment = true))) := by
  have hawait : ∀ w, awaitData d = .ok w →
      w.1.mSegmentIDLimits = { pathIndex := P, segmentIndex := S } ∧
      w.1.mpPathDescriptionStaging = d.mpPathDescriptionStaging ∧
      w.1.mRasteriser = d.mRasteriser ∧ w.1.mHideLastSegment = d.mHideLastSegment ∧
      ∀ e ∈ w.2, e.inBounds (P * S + P) (P * S) = true := by
    intro w hw
    obtain ⟨h1, h2, h3⟩ := awaitData_spec d w.1 w.2 hw
    refine ⟨by rw [h1]; exact hl, by rw [h1], by rw [h1], by rw [h1], ?_⟩
    cases hd : d.mWaitingForData with
    | false => rw [h2 hd]; simp
    | true =>
      rw [(h3 hd).1]
      intro e he
      simp only [List.mem_singleton] at he
      subst he
      rfl
  constructor
  · intro x hx
    unfold PathDebug.fillInstanceData at hx
    split at hx
    · exact Except.noConfusion hx
    · cases hw : awaitData d with
      | error e => rw [hw] at hx; exact Except.noConfusion hx
      | ok w =>
        rw [hw] at hx
        simp only at hx
        obtain ⟨hwl, -, -, -, hwe⟩ := hawait w hw
        split at hx
        · rename_i staging coords matrices hs hc hm
          have hfp := fillPaths_bounds w.1 staging coords matrices content P S hwl P 0 (w.2, 0)
            (by omega) (by simp) hwe
          rw [← List.range_eq_range'] at hfp
          have hP : w.1.mSegmentIDLimits.pathIndex = P := by rw [hwl]
          rw [hP] at hx
          cases hf : fillPaths w.1 staging coords matrices content (List.range P) (w.2, 0) with
          | error e => rw [hf] at hx; exact Except.noConfusion hx
          | ok acc =>
            rw [hf] at hx hfp
            simp only [Except.ok.injEq] at hx
            subst hx
            exact hfp
        · exact Except.noConfusion hx
  · intro staging coords matrices hs hc hm hbig hrun hfence
    unfold PathDebug.fillInstanceData
    rw [hrun]
    simp only [Bool.false_eq_true, if_false]
    have hw : ∃ w, awaitData d = .ok w := by
      unfold awaitData
      cases hd : d.mWaitingForData with
      | false => exact ⟨_, rfl⟩
      | true =>
        rw [hfence hd]
        exact ⟨_, rfl⟩
    obtain ⟨w, hw⟩ := hw
    obtain ⟨hwl, hws, hwr, hwh, hwe⟩ := hawait w hw
    rw [hw]
    simp only
    rw [hws, hwr, hs, hc, hm]
    simp only
    have hfp := fillPaths_bounds w.1 staging coords matrices content P S hwl P 0 (w.2, 0)
      (by omega) (by simp) hwe
    rw [← List.range_eq_range'] at hfp
    have hP : w.1.mSegmentIDLimits.pathIndex = P := by rw [hwl]
    rw [hP]
    cases hf : fillPaths w.1 staging coords matrices content (List.range P) (w.2, 0) with
    | error e =>
      rw [hf] at hfp
      simp only [SafeOutcome] at hfp
      obtain ⟨rfl, hh⟩ := hfp hbig
      exact Or.inr ⟨rfl, by rw [← hwh]; exact hh⟩
    | ok acc => exact Or.inl ⟨_, rfl⟩

theorem ensureElements_count (dev : Device) (g : Gpu) (current : Option Buffer)
    (structSize count : Nat) :
    count ≤ (ensureElements dev g current structSize count).2.elementCount := by
  unfold ensureElements
  split
  · exact Nat.le_refl _
  · split
    · exact Nat.le_refl _
    · rename_i h
      exact Nat.le_of_not_lt h

/-- For limits that are both positive and whose vertex count fits 32 bits, `beginFrame`
on a `PathDebug` that is not running leaves the three staging buffers with at least the
element counts of the limits, and the read fence created. -/
theorem beginFrame_ensures (env : DebugEnv) (g : Gpu) (d0 : PathDebug) (P S : Nat)
    (geometryAttachment colorAttachment : Bool)
    (hPS : P * (S + 1) < 2 ^ 32) (hP : 1 ≤ P) (hS : 1 ≤ S) (hrun : d0.mRunning = false) :
    ∃ staging coords matrices,
      (d0.beginFrame env g { pathIndex := P, segmentIndex := S } geometryAttachment
        colorAttachment).2.1.mSegmentIDLimits = { pathIndex := P, segmentIndex := S } ∧
      (d0.beginFrame env g { pathIndex := P, segmentIndex := S } geometryAttachment
        colorAttachment).2.1.mpPathDescriptionStaging = some staging ∧
      (d0.beginFrame env g { pathIndex := P, segmentIndex := S } geometryAttachment
        colorAttachment).2.1.mRasteriser.pRayCoordsStagingBuffer = some coords ∧
      (d0.beginFrame env g { pathIndex := P, segmentIndex := S } geometryAttachment
        colorAttachment).2.1.mRasteriser.pMatrixStagingBuffer = some matrices ∧
      BuffersHold staging coords matrices P S ∧
      (d0.beginFrame env g { pathIndex := P, segmentIndex := S } geometryAttachment
        colorAttachment).2.1.mpReadFence = true := by
  have hmul : P * (S + 1) = P * S + P := by rw [Nat.mul_add, Nat.mul_one]
  have h1 : u32 (P * S) = P * S := u32_of_lt (by omega)
  have h2 : u32 (P * S + P) = P * S + P := u32_of_lt (by omega)
  have hne : ¬ (P = 0 ∨ S = 0) := by omega
  unfold PathDebug.beginFrame
  simp only [hrun, Bool.false_eq_true, if_false, hne, h1, h2]
  refine ⟨_, _, _, trivial, rfl, rfl, rfl, ⟨?_, ?_, ?_⟩, trivial⟩
  · exact ensureElements_count _ _ _ _ _
  · exact ensureElements_count _ _ _ _ _
  · exact ensureElements_count _ _ _ _ _

/-- The index bounds of `copyDataToCPU` and, with a staging buffer of the element count
of `beginFrame`, its completion. -/
theorem copyDataToCPU_bounds (d : PathDebug) (content : Nat → Nat) (P S : Nat)
    (hl : d.mSegmentIDLimits = { pathIndex := P, segmentIndex := S }) :
    (∀ x, d.copyDataToCPU content = .ok x →
      ∀ e ∈ x.2, e.inBounds (P * S + P) (P * S) = true) ∧
    (∀ staging, d.mpPathDescriptionStaging = some staging →
      P * S + P ≤ staging.elementCount → d.mRunning = false →
      (d.mWaitingForData = true → d.mpReadFence = true) →
      ∃ x, d.copyDataToCPU content = .ok x) := by
  have hawait : ∀ w, awaitData d = .ok w →
      w.1.mSegmentIDLimits = { pathIndex := P, segmentIndex := S } ∧
      w.1.mpPathDescriptionStaging = d.mpPathDescriptionStaging ∧
      w.1.mSelectedSegmentID = d.mSelectedSegmentID ∧
      ∀ e ∈ w.2, e.inBounds (P * S + P) (P * S) = true := by
    intro w hw
    obtain ⟨h1, h2, h3⟩ := awaitData_spec d w.1 w.2 hw
    refine ⟨by rw [h1]; exact hl, by rw [h1], by rw [h1], ?_⟩
    cases hd : d.mWaitingForData with
    | false => rw [h2 hd]; simp
    | true =>
      rw [(h3 hd).1]
      intro e he
      simp only [List.mem_singleton] at he
      subst he
      rfl
  have hidx : ¬ (d.mSelectedSegmentID.pathIndex ≥ P ∨ d.mSelectedSegmentID.segmentIndex ≥ S) →
      ∀ n, d.mSelectedSegmentID.pathIndex < P * S + P ∧
        d.mSelectedSegmentID.pathIndex + min d.mSelectedSegmentID.segmentIndex n * P + P
          < P * S + P := by
    intro hsel n
    have hp : d.mSelectedSegmentID.pathIndex < P := by omega
    have hs : min d.mSelectedSegmentID.segmentIndex n < S := by
      have := Nat.min_le_left d.mSelectedSegmentID.segmentIndex n
      omega
    obtain ⟨hb, -⟩ := index_bounds P S _ _ hp hs
    exact ⟨by omega, hb⟩
  constructor
  · intro x hx
    unfold PathDebug.copyDataToCPU at hx
    simp only [hl] at hx
    split at hx
    · exact Except.noConfusion hx
    · split at hx
      · simp only [Except.ok.injEq] at hx
        subst hx
        simp
      · rename_i hsel
        cases hw : awaitData d with
        | error e => rw [hw] at hx; exact Except.noConfusion hx
        | ok w =>
          rw [hw] at hx
          obtain ⟨hwl, hws, hwsel, hwe⟩ := hawait w hw
          simp only [hwl, hwsel] at hx
          split at hx
          · split at hx
            · exact Except.noConfusion hx
            · split at hx
              · split at hx
                · simp only [Except.ok.injEq] at hx
                  subst hx
                  intro e he
                  rcases List.mem_append.1 he with he | he
                  · exact hwe e he
                  · obtain ⟨i1, i2⟩ := hidx hsel
                      (u32 (min (content d.mSelectedSegmentID.pathIndex) S + 4294967296 - 1))
                    simp only [List.mem_cons, List.mem_singleton, List.not_mem_nil, or_false] at he
                    rcases he with rfl | rfl | rfl
                    · simp only [DebugEvent.inBounds, decide_eq_true_eq]
                      exact i1
                    · simp only [DebugEvent.inBounds, decide_eq_true_eq]
                      omega
                    · simp only [DebugEvent.inBounds, decide_eq_true_eq]
                      exact i2
                · exact Except.noConfusion hx
              · exact Except.noConfusion hx
          · simp only [Except.ok.injEq] at hx
            subst hx
            exact hwe
  · intro staging hs hbig hrun hfence
    unfold PathDebug.copyDataToCPU
    simp only [hl, hrun, Bool.false_eq_true, if_false]
    split
    · exact ⟨_, rfl⟩
    · rename_i hsel
      have hw : ∃ w, awaitData d = .ok w := by
        unfold awaitData
        cases hd : d.mWaitingForData with
        | false => exact ⟨_, rfl⟩
        | true =>
          rw [hfence hd]
          exact ⟨_, rfl⟩
      obtain ⟨w, hw⟩ := hw
      obtain ⟨hwl, hws, hwsel, -⟩ := hawait w hw
      rw [hw]
      simp only [hwl, hwsel, hws, hs]
      obtain ⟨i1, i2⟩ := hidx hsel
        (u32 (min (content d.mSelectedSegmentID.pathIndex) S + 4294967296 - 1))
      split
      · rw [if_pos (by omega), if_pos (by omega)]
        exact ⟨_, rfl⟩
      · exact ⟨_, rfl⟩

/-- C29 does not hold as stated for a limit pair with a zero: after a frame with the
limits (1, 1), whose staging buffer of the descriptions has 2 elements, `beginFrame`
with the limits (5, 0), for which 5 * (0 + 1) is below 2 ^ 32, returns at line 158
before it looks at the buffers; the staging buffer keeps its 2 elements, fewer than
5 * 0 + 5, and `fillInstanceData`, called by `endFrame`, reads past its end. -/
theorem readback_indices_in_bounds_counterexample :
    5 * (0 + 1) < 2 ^ 32 ∧
    zeroSegmentDebug.mSegmentIDLimits = { pathIndex := 5, segmentIndex := 0 } ∧
    zeroSegmentDebug.mpPathDescriptionStaging
      = some { id := 1, size := 32, elementCount := 2, gpuAddress := 131072 } ∧
    ¬ (5 * 0 + 5 ≤ 2) ∧
    zeroSegmentDebug.endFrame {} onePathContent = .error .outOfBounds ∧
    ({ zeroSegmentDebug with mRunning := false } : PathDebug).fillInstanceData onePathContent
      = .error .outOfBounds := by
  decide

/-- C29, amended. Let P * (S + 1) be below 2 ^ 32. In a state with the limits (P, S) and
for every content of the staging buffer, every index at which a completed
`fillInstanceData` or `copyDataToCPU` reads the staging buffer of the descriptions is
below P * S + P, every instance index that `fillInstanceData` writes is below P * S, and
the returned instance count is at most P * S. When P and S are both at least 1,
`beginFrame` with these limits on a `PathDebug` that is not running leaves a staging
buffer of the descriptions of at least P * S + P elements and staging buffers of the ray
coordinates and of the matrices of at least P * S elements. With such buffers, outside
a frame, `copyDataToCPU` completes, and `fillInstanceData` completes or, with
`mHideLastSegment` set, stops at the assertion of line 447; neither reads or writes past
the end of a buffer. -/
theorem readback_indices_in_bounds (env : DebugEnv) (g : Gpu) (d0 d : PathDebug) (P S : Nat)
    (geometryAttachment colorAttachment : Bool) (content : Nat → Nat)
    (hPS : P * (S + 1) < 2 ^ 32)
    (hl : d.mSegmentIDLimits = { pathIndex := P, segmentIndex := S }) :
    (∀ x, d.fillInstanceData content = .ok x →
      x.2.1 ≤ P * S ∧ ∀ e ∈ x.2.2, e.inBounds (P * S + P) (P * S) = true) ∧
    (∀ x, d.copyDataToCPU content = .ok x →
      ∀ e ∈ x.2, e.inBounds (P * S + P) (P * S) = true) ∧
    (1 ≤ P → 1 ≤ S → d0.mRunning = false →
      ∃ staging coords matrices,
        (d0.beginFrame env g { pathIndex := P, segmentIndex := S } geometryAttachment
          colorAttachment).2.1.mSegmentIDLimits = { pathIndex := P, segmentIndex := S } ∧
        (d0.beginFrame env g { pathIndex := P, segmentIndex := S } geometryAttachment
          colorAttachment).2.1.mpPathDescriptionStaging = some staging ∧
        (d0.beginFrame env g { pathIndex := P, segmentIndex := S } geometryAttachment
          colorAttachment).2.1.mRasteriser.pRayCoordsStagingBuffer = some coords ∧
        (d0.beginFrame env g { pathIndex := P, segmentIndex := S } geometryAttachment
          colorAttachment).2.1.mRasteriser.pMatrixStagingBuffer = some matrices ∧
        BuffersHold staging coords matrices P S ∧
        (d0.beginFrame env g { pathIndex := P, segmentIndex := S } geometryAttachment
          colorAttachment).2.1.mpReadFence = true) ∧
    (∀ staging coords matrices, d.mpPathDescriptionStaging = some staging →
      d.mRasteriser.pRayCoordsStagingBuffer = some coords →
      d.mRasteriser.pMatrixStagingBuffer = some matrices →
      BuffersHold staging coords matrices P S → d.mRunning = false →
      (d.mWaitingForData = true → d.mpReadFence = true) →
      (∃ x, d.copyDataToCPU content = .ok x) ∧
      ((∃ x, d.fillInstanceData content = .ok x) ∨
        (d.fillInstanceData content = .error .assertion ∧ d.mHideLastSegment = true))) := by
  obtain ⟨hf1, hf2⟩ := fillInstanceData_bounds d content P S hl
  obtain ⟨hc1, hc2⟩ := copyDataToCPU_bounds d content P S hl
  refine ⟨hf1, hc1, ?_, ?_⟩
  · intro hP hS hrun
    exact beginFrame_ensures env g d0 P S geometryAttachment colorAttachment hPS hP hS hrun
  · intro staging coords matrices hs hc hm hbig hrun hfence
    exact ⟨hc2 staging hs hbig.1 hrun hfence,
      hf2 staging coords matrices hs hc hm hbig hrun hfence⟩

theorem frameDebug_buffers :
    frameDebug.mpPathDescriptionStaging
      = some { id := 1, size := 96, elementCount := 6, gpuAddress := 131072 } ∧
    frameDebug.mRasteriser.pRayCoordsStagingBuffer
      = some { id := 5, size := 32, elementCount := 4, gpuAddress := 393216 } ∧
    frameDebug.mRasteriser.pMatrixStagingBuffer
      = some { id := 3, size := 192, elementCount := 4, gpuAddress := 262144 } ∧
    frameDebug.mRunning = false ∧ frameDebug.mWaitingForData = false ∧
    frameDebug.mHideLastSegment = false := by
  decide

/-- Witness of C29: the limits (2, 2); the state after a frame with these limits, in
which every path has one segment. -/
theorem readback_indices_in_bounds_witness :
    2 * (2 + 1) < 2 ^ 32 ∧
    frameDebug.mSegmentIDLimits = { pathIndex := 2, segmentIndex := 2 } ∧
    (∃ x, frameDebug.fillInstanceData onePathContent = .ok x ∧ x.2.1 ≤ 2 * 2 ∧
      ∀ e ∈ x.2.2, e.inBounds (2 * 2 + 2) (2 * 2) = true) ∧
    (∃ x, frameDebug.copyDataToCPU onePathContent = .ok x ∧
      ∀ e ∈ x.2, e.inBounds (2 * 2 + 2) (2 * 2) = true) ∧
    (∃ staging coords matrices,
      ((PathDebug.create { mEnabled := true }).beginFrame exampleDebugEnv {}
        { pathIndex := 2, segmentIndex := 2 } false true).2.1.mpPathDescriptionStaging
        = some staging ∧
      ((PathDebug.create { mEnabled := true }).beginFrame exampleDebugEnv {}
        { pathIndex := 2, segmentIndex := 2 } false true).2.1.mRasteriser.pRayCoordsStagingBuffer
        = some coords ∧
      ((PathDebug.create { mEnabled := true }).beginFrame exampleDebugEnv {}
        { pathIndex := 2, segmentIndex := 2 } false true).2.1.mRasteriser.pMatrixStagingBuffer
        = some matrices ∧
      BuffersHold staging coords matrices 2 2) := by
  have key := readback_indices_in_bounds exampleDebugEnv {} (PathDebug.create { mEnabled := true })
    frameDebug 2 2 false true onePathContent (by decide) (by decide)
  obtain ⟨k1, k2, k3, k4⟩ := key
  obtain ⟨b1, b2, b3, b4, b5, b6⟩ := frameDebug_buffers
  obtain ⟨hcopy, hfill⟩ := k4 _ _ _ b1 b2 b3 ⟨by decide, by decide, by decide⟩ b4
    (fun h => by rw [b5] at h; exact Bool.noConfusion h)
  refine ⟨by decide, by decide, ?_, ?_, ?_⟩
  · rcases hfill with ⟨x, hx⟩ | ⟨-, hh⟩
    · exact ⟨x, hx, k1 x hx⟩
    · rw [b6] at hh
      exact Bool.noConfusion hh
  · obtain ⟨x, hx⟩ := hcopy
    exact ⟨x, hx, k2 x hx⟩
  · obtain ⟨staging, coords, matrices, -, s1, s2, s3, s4, -⟩ := k3 (by decide) (by decide) rfl
    exact ⟨staging, coords, matrices, s1, s2, s3, s4⟩
end Falcor
